import Mathlib

/-! # PBRTParser: a shallow embedding of `src/PBRTParser.cpp`

The parser is a recursive-descent interpreter over a stack of lexers.  It is
embedded as a state-and-error monad `M` over the record `PState` of the
parser's member variables.  C++ objects that are shared through pointers
(materials, declared materials, textures, shape groups) live in arenas and are
addressed by their index; everything else is stored by value.

The floating point type and the functions of the Yocto/GL library, of the
lexer and of the mesh and spectrum loaders are not part of the embedded
source.  They are collected in the record `Ext`, over an arbitrary carrier
`F` for `float`.
-/

set_option linter.unusedTactic false
set_option linter.unreachableTactic false
set_option linter.unusedVariables false

namespace PBRT

/-! ## Lexemes and lexers -/

/-- Kinds of lexemes.  `SINGLETON` is the kind of the brackets that delimit a
list of values. -/
inductive LexemeType where
  | IDENTIFIER
  | NUMBER
  | STRING
  | SINGLETON
  | ERROR
  deriving DecidableEq, Repr

/-- A lexeme: a kind and the text it carries. -/
structure Lexeme where
  type : LexemeType
  value : String
  deriving DecidableEq, Repr

/-- Modelled from the spec: the lexical source (`PBRTLexer`), one per open
file.  `cur` is the lexeme read last, `rest` the lexemes still to be read,
`path` the directory of the file. -/
structure Lexer where
  cur : Lexeme
  rest : List Lexeme
  path : String
  deriving DecidableEq, Repr

/-- The lexeme a lexer holds before the first `next_lexeme`. -/
def Lexeme.none : Lexeme := ⟨LexemeType.ERROR, ""⟩

/-! ## Errors and the parser monad -/

/-- The ways in which a call can fail to return. -/
inductive Err where
  -- The exception of `throw_syntax_exception`.
  | syntaxError (msg : String)
  -- The exception `InputEndedException`.
  | inputEnded
  -- The exception `std::out_of_range` of `vector::at`.
  | outOfRange
  -- Undefined behaviour: an unchecked access that misses.
  | undefinedBehaviour (what : String)
  -- The lexer could not open a file.
  | lexerError (file : String)
  -- The model ran out of fuel.
  | timeout
  deriving DecidableEq, Repr

/-- The outcome of a call: a value or an error, with the state left behind. -/
inductive Res (σ α : Type) where
  | ok (a : α) (s : σ)
  | error (e : Err) (s : σ)
  deriving DecidableEq

/-- The state left behind by a call. -/
def Res.state {σ α : Type} : Res σ α → σ
  | .ok _ s => s
  | .error _ s => s

/-- Whether a call returned. -/
def Res.isOk {σ α : Type} : Res σ α → Bool
  | .ok _ _ => true
  | .error _ _ => false

/-- The error of a call that failed. -/
def Res.err? {σ α : Type} : Res σ α → Option Err
  | .ok _ _ => none
  | .error e _ => some e

/-- State-and-error monad: the state survives an error. -/
def SM (σ α : Type) : Type := σ → Res σ α

/-- Return a value. -/
def SM.pure {σ α : Type} (a : α) : SM σ α := fun s => .ok a s

/-- Sequence two calls; an error of the first aborts. -/
def SM.bind {σ α β : Type} (m : SM σ α) (f : α → SM σ β) : SM σ β := fun s =>
  match m s with
  | .ok a s1 => f a s1
  | .error e s1 => .error e s1

instance (σ : Type) : Monad (SM σ) where
  pure := SM.pure
  bind := SM.bind

/-- Raise an error. -/
def raise {σ α : Type} (e : Err) : SM σ α := fun s => .error e s

/-- Read the state. -/
def getS {σ : Type} : SM σ σ := fun s => .ok s s

/-- Change the state. -/
def modifyS {σ : Type} (f : σ → σ) : SM σ Unit := fun s => .ok () (f s)

/-! ## Type checking of parameters -/

/-- Source: `check_synonyms`. -/
def check_synonyms (s : String) : String :=
  if s = "point" then "point3"
  else if s = "normal" then "normal3"
  else if s = "vector" then "vector3"
  else if s = "color" then "rgb"
  else s

/-- Lookup in a `std::map` from strings, kept as an association list. -/
def mapFind {V : Type} (m : List (String × V)) (k : String) : Option V :=
  match m with
  | [] => none
  | (k1, v) :: rest => if k1 = k then some v else mapFind rest k

/-- Source: `std::map::insert`, which leaves an existing entry alone. -/
def mapInsert {V : Type} (m : List (String × V)) (k : String) (v : V) :
    List (String × V) :=
  match mapFind m k with
  | some _ => m
  | none => m ++ [(k, v)]

/-- Source: `std::map::erase` of a key. -/
def mapErase {V : Type} (m : List (String × V)) (k : String) : List (String × V) :=
  m.filter (fun kv => decide (kv.1 ≠ k))

/-- Source: assignment through an iterator, `it->second = v`. -/
def mapAssign {V : Type} (m : List (String × V)) (k : String) (v : V) :
    List (String × V) :=
  m.map (fun kv => if kv.1 = k then (k, v) else kv)

/-- Source: `fill_parameter_to_type_mapping`, the insertions in source order. -/
def fill_parameter_to_type_mapping : List (String × List String) :=
  let ins := fun (m : List (String × List String)) (kv : String × List String) =>
    mapInsert m kv.1 kv.2
  List.foldl ins []
    [ ("frameaspectratio", ["float"]),
      ("lensradius", ["float"]),
      ("focaldistance", ["float"]),
      ("fov", ["float"]),
      ("xresolution", ["integer"]),
      ("yresolution", ["integer"]),
      ("lensradius", ["float"]),
      ("p", ["point3"]),
      ("type", ["string"]),
      ("N", ["normal3"]),
      ("splitdepth", ["integer"]),
      ("width", ["float"]),
      ("indices", ["integer"]),
      ("P", ["point3"]),
      ("uv", ["float"]),
      ("scale", ["spectrum", "rgb", "float"]),
      ("L", ["spectrum", "rgb", "blackbody"]),
      ("mapname", ["string"]),
      ("I", ["spectrum"]),
      ("from", ["point3"]),
      ("twosided", ["bool"]),
      ("Kd", ["spectrum", "rgb", "texture"]),
      ("Ks", ["spectrum", "rgb", "texture"]),
      ("Kr", ["spectrum", "rgb", "texture"]),
      ("reflect", ["spectrum", "rgb", "texture"]),
      ("Kt", ["spectrum", "rgb", "texture"]),
      ("transmit", ["spectrum", "rgb", "texture"]),
      ("roughness", ["float", "texture"]),
      ("eta", ["spectrum", "rgb", "texture"]),
      ("index", ["float"]),
      ("amount", ["float", "rgb"]),
      ("namedmaterial1", ["string"]),
      ("namedmaterial2", ["string"]),
      ("bumpmap", ["texture"]),
      ("filename", ["string"]),
      ("value", ["float", "spectrum", "rgb"]),
      ("uscale", ["float"]),
      ("vscale", ["float"]),
      ("tex1", ["texture", "float", "spectrum", "rgb"]),
      ("tex2", ["texture", "float", "spectrum", "rgb"]) ]

/-- The member `parameterToType`, as the constructor leaves it. -/
def parameterToType : List (String × List String) := fill_parameter_to_type_mapping

/-- Source: the text of the admissible types, joined by `/`, as
`check_param_type` builds it for its message. -/
def expected_types (v : List String) : String :=
  let expstr := String.join (v.map (fun x => x ++ "/"))
  String.mk (expstr.data.take (expstr.data.length - 1))

/-- Source: `check_param_type`, as a function of the table.  `Except.error`
is the syntax error it throws. -/
def check_param_type_in (table : List (String × List String)) (par parsedType : String) :
    Except Err Bool :=
  match mapFind table par with
  | none => .ok false
  | some v =>
    if parsedType ∈ v then .ok true
    else .error (.syntaxError
      ("Parameter '" ++ par ++ "' expects a " ++ expected_types v ++ " type. "))

/-- Source: `check_param_type` on the parser's table. -/
def check_param_type (par parsedType : String) : Except Err Bool :=
  check_param_type_in parameterToType par parsedType

/-! ## Values of the scene library -/

/-- A pair of floats (`ygl::vec2f`). -/
structure Vec2 (F : Type) where
  x : F
  y : F
  deriving DecidableEq

/-- A triple of floats (`ygl::vec3f`). -/
structure Vec3 (F : Type) where
  x : F
  y : F
  z : F
  deriving DecidableEq

/-- Four floats (`ygl::vec4f`). -/
structure Vec4 (F : Type) where
  x : F
  y : F
  z : F
  w : F
  deriving DecidableEq

/-- A 4x4 matrix (`ygl::mat4f`), stored by columns: `m[i][j]` is component `j`
of column `i`. -/
structure Mat4 (F : Type) where
  x : Vec4 F
  y : Vec4 F
  z : Vec4 F
  w : Vec4 F
  deriving DecidableEq

/-- A rigid frame (`ygl::frame3f`): three axes and an origin. -/
structure Frame3 (F : Type) where
  x : Vec3 F
  y : Vec3 F
  z : Vec3 F
  o : Vec3 F
  deriving DecidableEq

/-- A triangle (`ygl::vec3i`). -/
structure Vec3i where
  x : Int
  y : Int
  z : Int
  deriving DecidableEq, Repr

/-- A quad (`ygl::vec4i`). -/
structure Vec4i where
  x : Int
  y : Int
  z : Int
  w : Int
  deriving DecidableEq, Repr

/-- The pixels of a texture, recorded as the call that produced them. -/
inductive Image (F : Type) where
  -- An image without pixels.
  | empty
  -- The result of `ygl::load_image4f`.
  | load4f (path : String)
  -- The result of `ygl::load_image4b`.
  | load4b (path : String)
  -- The result of `flip_image`.
  | flip (i : Image F)
  -- The result of `make_constant_image(float)`.
  | constantF (v : F)
  -- The result of `make_constant_image(ygl::vec3f)`.
  | constantV (v : Vec3 F)
  -- The result of `ygl::make_checker_image` on the bytes of two colours.
  | checker (w h tile : Nat) (c1 c2 : Vec4 F)
  -- The image `scale_single_texture` computes in `blend_textures`.
  | scaleSingle (ldr hdr : Image F) (amount : F)
  -- The image `blend_textures` computes from two textures.
  | blend (ldr1 hdr1 ldr2 hdr2 : Image F) (amount : F)
  -- The image `parse_scale_texture` computes from two textures.
  | product (ldr1 hdr1 ldr2 hdr2 : Image F)
  deriving DecidableEq

/-- A texture (`ygl::texture`). -/
structure Texture (F : Type) where
  name : String
  path : String
  ldr : Image F
  hdr : Image F
  deriving DecidableEq

/-- A material (`ygl::material`); textures are indices in the texture arena. -/
structure Material (F : Type) where
  name : String
  double_sided : Bool
  ke : Vec3 F
  kd : Vec3 F
  ks : Vec3 F
  kr : Vec3 F
  kt : Vec3 F
  rs : F
  op : F
  kd_txt : Option Nat
  ks_txt : Option Nat
  kr_txt : Option Nat
  kt_txt : Option Nat
  rs_txt : Option Nat
  bump_txt : Option Nat
  disp_txt : Option Nat
  norm_txt : Option Nat
  deriving DecidableEq

/-- A mesh (`ygl::shape`); the material is an index in the material arena. -/
structure Shape (F : Type) where
  name : String
  mat : Option Nat
  pos : List (Vec3 F)
  norm : List (Vec3 F)
  texcoord : List (Vec2 F)
  triangles : List Vec3i
  quads : List Vec4i
  points : List Int
  radius : List F
  deriving DecidableEq

/-- A group of meshes (`ygl::shape_group`). -/
structure ShapeGroup (F : Type) where
  name : String
  shapes : List (Shape F)
  deriving DecidableEq

/-- An instance (`ygl::instance`); `shp` is an index in the arena of shape
groups. -/
structure Instance (F : Type) where
  name : String
  frame : Frame3 F
  shp : Option Nat
  deriving DecidableEq

/-- A camera (`ygl::camera`), the fields the parser sets. -/
structure Camera (F : Type) where
  name : String
  frame : Frame3 F
  yfov : F
  aspect : F
  focus : F
  aperture : F
  deriving DecidableEq

/-- An environment (`ygl::environment`). -/
structure Environment (F : Type) where
  name : String
  frame : Frame3 F
  ke : Vec3 F
  ke_txt : Option Nat
  ke_txt_info : Bool
  deriving DecidableEq

/-- The scene being built (`ygl::scene`).  Shape groups, materials and
textures are listed by their index in the arenas. -/
structure Scene (F : Type) where
  cameras : List (Camera F)
  shapes : List Nat
  instances : List (Instance F)
  materials : List Nat
  textures : List Nat
  environments : List (Environment F)
  deriving DecidableEq

/-- The mesh data a mesh factory of the library returns. -/
structure MeshData (F : Type) where
  quads : List Vec4i
  pos : List (Vec3 F)
  norm : List (Vec3 F)
  texcoord : List (Vec2 F)
  deriving DecidableEq

/-- What the parser uses and `src/` does not define: the arithmetic of
`float`, the functions of the scene library, the lexer and the loaders. -/
structure Ext (F : Type) where
  /-- The float nearest to a decimal literal of the source. -/
  lit : Rat → F
  /-- The C library's `atof`, rounded to `float`. -/
  atof : String → F
  /-- Conversion `(float)n` of an `int`. -/
  ofInt : Int → F
  add : F → F → F
  sub : F → F → F
  mul : F → F → F
  div : F → F → F
  neg : F → F
  /-- The comparison `a < b`. -/
  lt : F → F → Bool
  /-- The constant `ygl::pif`. -/
  pif : F
  cross : Vec3 F → Vec3 F → Vec3 F
  normalize : Vec3 F → Vec3 F
  length : Vec3 F → F
  identity_mat4f : Mat4 F
  /-- The product of two matrices. -/
  mat_mul : Mat4 F → Mat4 F → Mat4 F
  inverse : Mat4 F → Mat4 F
  frame_to_mat : Frame3 F → Mat4 F
  mat_to_frame : Mat4 F → Frame3 F
  translation_frame : Vec3 F → Frame3 F
  scaling_frame : Vec3 F → Frame3 F
  rotation_frame : Vec3 F → F → Frame3 F
  lookat_frame : Vec3 F → Vec3 F → Vec3 F → Frame3 F
  fresnel_metal : F → Vec3 F → Vec3 F → Vec3 F
  make_uvcube : Nat → MeshData F
  make_uvspherizedcube : Nat → F → MeshData F
  /-- A default-constructed `ygl::material`. -/
  new_material : Material F
  path_extension : String → String
  path_basename : String → String
  concatenate_paths : String → String → String
  /-- The lexemes of a file and the directory it lies in, if it can be
  opened (`PBRTLexer`). -/
  open_lexer : String → Option (List Lexeme × String)
  load_spectrum_from_file : String → Option (List (Vec2 F))
  spectrum_to_rgb : List (Vec2 F) → Vec3 F
  blackbody_to_rgb : F → F → Vec3 F
  /-- The mesh loader `parse_ply`: the shape filled from a file, if the file
  can be read. -/
  parse_ply : String → Shape F → Option (Shape F)
  /-- The default value of the argument `flip` of `load_texture`, which the
  absent header declares. -/
  load_texture_flip : Bool

/-! ## The state of the parser -/

/-- The area light of the graphics state. -/
structure AreaLightMode (F : Type) where
  active : Bool
  L : Vec3 F
  twosided : Bool
  deriving DecidableEq

/-- Modelled from the spec: `DeclaredTexture`, a texture (by its index in the
arena) with its tiling scale. -/
structure DeclaredTexture (F : Type) where
  txt : Nat
  uscale : F
  vscale : F
  deriving DecidableEq

/-- Modelled from the spec: `DeclaredMaterial`, a material (by its index in
the arena) and the flag that it was added to the scene. -/
structure DeclaredMaterial where
  mat : Nat
  addedInScene : Bool
  deriving DecidableEq, Repr

/-- Modelled from the spec: `DeclaredObject`, the shape groups captured by an
object block (by index), the transform at `ObjectEnd` and the flag that the
groups were added to the scene. -/
structure DeclaredObject (F : Type) where
  sg : List Nat
  CTM : Mat4 F
  addedInScene : Bool
  deriving DecidableEq

/-- Modelled from the spec: the graphics state.  `mat` is a shared pointer to
a declared material: an index in the arena of declared materials, as are the
values of `nameToMaterial`. -/
structure GraphicsState (F : Type) where
  CTM : Mat4 F
  mat : Option Nat
  nameToTexture : List (String × DeclaredTexture F)
  nameToMaterial : List (String × Nat)
  areaLight : AreaLightMode F
  uscale : F
  vscale : F
  deriving DecidableEq

/-- The member variables of `PBRTParser`, and the arenas of the objects it
allocates. -/
structure PState (F : Type) where
  lexers : List Lexer
  scn : Scene F
  gState : GraphicsState F
  stateStack : List (GraphicsState F)
  CTMStack : List (Mat4 F)
  inObjectDefinition : Bool
  shapesInObject : List Nat
  nameToObject : List (String × DeclaredObject F)
  shapeCounter : Nat
  shapeGroupCounter : Nat
  instanceCounter : Nat
  materialCounter : Nat
  envCounter : Nat
  textureCounter : Nat
  defaultAspect : F
  defaultFocus : F
  textureSavePath : String
  /-- Every `ygl::material` allocated so far. -/
  materialArena : List (Material F)
  /-- Every `DeclaredMaterial` allocated so far. -/
  declaredArena : List DeclaredMaterial
  /-- Every `ygl::texture` allocated so far. -/
  textureArena : List (Texture F)
  /-- Every `ygl::shape_group` allocated so far. -/
  groupArena : List (ShapeGroup F)
  deriving DecidableEq

/-- The parser monad. -/
abbrev M (F : Type) (α : Type) : Type := SM (PState F) α

/-- Modelled from the spec: `throw_syntax_exception`, the fatal error of a
syntax violation. -/
def throw_syntax_exception {F α : Type} (msg : String) : M F α :=
  raise (.syntaxError msg)

/-- Lift a check that may throw into the monad. -/
def liftExcept {F α : Type} : Except Err α → M F α
  | .ok a => pure a
  | .error e => raise e

/-- Modelled from the spec: `current_token`, the lexeme the topmost lexer
read last. -/
def current_token {F : Type} : M F Lexeme := fun s =>
  match s.lexers with
  | [] => .error .outOfRange s
  | l :: _ => .ok l.cur s

/-- Modelled from the spec: `current_path`, the directory of the topmost
lexer. -/
def current_path {F : Type} : M F String := fun s =>
  match s.lexers with
  | [] => .error .outOfRange s
  | l :: _ => .ok l.path s

/-- Source: `advance`, on the stack of lexers: the error raised, if any, and
the stack afterwards.  An exhausted lexer is erased and the fetch is retried
on the lexer below. -/
def advance_lexers : List Lexer → Option Err × List Lexer
  | [] => (some .outOfRange, [])
  | l :: ls =>
    match l.rest with
    | t :: ts => (none, { l with cur := t, rest := ts } :: ls)
    | [] =>
      match ls with
      | [] => (some .inputEnded, [])
      | _ :: _ => advance_lexers ls

/-- Source: `advance`. -/
def advance {F : Type} : M F Unit := fun s =>
  match advance_lexers s.lexers with
  | (none, ls) => .ok () { s with lexers := ls }
  | (some e, ls) => .error e { s with lexers := ls }

/-- The number of lexemes the lexers have not read yet: a bound on the number
of `advance` calls that can still succeed. -/
def remaining (ls : List Lexer) : Nat :=
  (ls.map (fun l => l.rest.length)).sum

/-- The loop `while (current_token().type != IDENTIFIER) advance();`. -/
def skip_to_identifier {F : Type} : Nat → M F Unit
  | 0 => raise .timeout
  | n + 1 => do
    let t ← current_token
    if t.type ≠ LexemeType.IDENTIFIER then do
      advance
      skip_to_identifier n
    else pure ()

/-- Run a loop that reads at least one lexeme per round, with as many rounds
as there are lexemes left to read, and one more. -/
def with_lexeme_bound {F α : Type} (loop : Nat → M F α) : M F α := fun s =>
  loop (remaining s.lexers + 1) s

/-- Source: `ignore_current_directive`. -/
def ignore_current_directive {F : Type} : M F Unit := do
  advance
  with_lexeme_bound skip_to_identifier

/-- The counters of `get_unique_id`; `inst` is the counter of the instances. -/
inductive CounterID where
  | shape
  | shape_group
  | inst
  | material
  | environment
  | texture
  deriving DecidableEq, Repr

/-- Source: `get_unique_id`.  The counters are `unsigned int`: they wrap at
`2^32`. -/
def get_unique_id {F : Type} (id : CounterID) : M F String := fun s =>
  match id with
  | .shape =>
    .ok ("s_" ++ toString s.shapeCounter)
      { s with shapeCounter := (s.shapeCounter + 1) % 2 ^ 32 }
  | .shape_group =>
    .ok ("sg_" ++ toString s.shapeGroupCounter)
      { s with shapeGroupCounter := (s.shapeGroupCounter + 1) % 2 ^ 32 }
  | .inst =>
    .ok ("i_" ++ toString s.instanceCounter)
      { s with instanceCounter := (s.instanceCounter + 1) % 2 ^ 32 }
  | .material =>
    .ok ("m_" ++ toString s.materialCounter)
      { s with materialCounter := (s.materialCounter + 1) % 2 ^ 32 }
  | .environment =>
    .ok ("e_" ++ toString s.envCounter)
      { s with envCounter := (s.envCounter + 1) % 2 ^ 32 }
  | .texture =>
    .ok ("t_" ++ toString s.textureCounter)
      { s with textureCounter := (s.textureCounter + 1) % 2 ^ 32 }

/-! ## Parsing of parameters -/

/-- The value of a parameter: the vector behind `void * value`, tagged with
the type of its elements. -/
inductive ParamValue (F : Type) where
  | strings (v : List String)
  | floats (v : List F)
  | ints (v : List Int)
  | vec3s (v : List (Vec3 F))
  deriving DecidableEq

/-- Modelled from the spec: `PBRTParameter`, a parsed parameter. -/
structure PBRTParameter (F : Type) where
  type : String
  name : String
  value : ParamValue F
  deriving DecidableEq

/-- Modelled from the spec: `get_first_value<std::string>`.  Reading another
kind of vector, or an empty one, is undefined. -/
def get_first_string {F : Type} (p : PBRTParameter F) : M F String :=
  match p.value with
  | .strings (v :: _) => pure v
  | _ => raise (.undefinedBehaviour "get_first_value")

/-- Modelled from the spec: `get_first_value<float>`. -/
def get_first_float {F : Type} (p : PBRTParameter F) : M F F :=
  match p.value with
  | .floats (v :: _) => pure v
  | _ => raise (.undefinedBehaviour "get_first_value")

/-- Modelled from the spec: `get_first_value<int>`. -/
def get_first_int {F : Type} (p : PBRTParameter F) : M F Int :=
  match p.value with
  | .ints (v :: _) => pure v
  | _ => raise (.undefinedBehaviour "get_first_value")

/-- Modelled from the spec: `get_first_value<ygl::vec3f>`. -/
def get_first_vec3 {F : Type} (p : PBRTParameter F) : M F (Vec3 F) :=
  match p.value with
  | .vec3s (v :: _) => pure v
  | _ => raise (.undefinedBehaviour "get_first_value")

/-- Source: `find_param`; `none` stands for the index `-1`. -/
def find_param {F : Type} (name : String) (vec : List (PBRTParameter F)) : Option Nat :=
  match vec with
  | [] => none
  | P :: rest =>
    if P.name = name then some 0
    else (find_param name rest).map (fun i => i + 1)

/-- The access `params[i]`. -/
def param_at {F : Type} (params : List (PBRTParameter F)) (i : Nat) : M F (PBRTParameter F) :=
  match params[i]? with
  | some p => pure p
  | none => raise (.undefinedBehaviour "params[i]")

/-- The digits of `atoi`. -/
def atoi_digits : List Char → Int → Int
  | [], acc => acc
  | c :: cs, acc =>
    if c.isDigit then atoi_digits cs (acc * 10 + ((c.toNat - 48 : Nat) : Int)) else acc

/-- The number `strtol` reads: blanks, a sign, decimal digits. -/
def strtol_number (s : String) : Int :=
  let cs := s.data.dropWhile
    (fun c => c = ' ' ∨ c = '\t' ∨ c = '\n' ∨ c = '\r' ∨ c.toNat = 11 ∨ c.toNat = 12)
  match cs with
  | '-' :: r => - atoi_digits r 0
  | '+' :: r => atoi_digits r 0
  | _ => atoi_digits cs 0

/-- The result of `strtol` with a 64-bit `long`: the number read, or the bound
of `long` that the number exceeds. -/
def strtol (s : String) : Int :=
  let n := strtol_number s
  if n < -(2 ^ 63) then -(2 ^ 63) else if 2 ^ 63 - 1 < n then 2 ^ 63 - 1 else n

/-- The conversion of a `long` to the 32-bit `int`: the value modulo `2 ^ 32`,
from `-2 ^ 31` to `2 ^ 31 - 1`. -/
def long_to_int (n : Int) : Int :=
  (n + 2 ^ 31) % 2 ^ 32 - 2 ^ 31

/-- The C library's `atoi`, whose result is the `int` that `valueToInt`
returns.  The C standard leaves the result open when the number does not fit;
this is the `atoi` of glibc, `(int) strtol(s, NULL, 10)`, which wraps:
`"4294967296"` is read as 0 and `"2147483648"` as `-2147483648`. -/
def atoi (s : String) : Int :=
  long_to_int (strtol s)

/-- The words of a header, read from the left; `w` is the word being read,
in reverse. -/
def split_aux : List Char → List Char → List (List Char)
  | [], w => if w = [] then [] else [w.reverse]
  | c :: cs, w =>
    if c = ' ' then
      (if w = [] then split_aux cs [] else w.reverse :: split_aux cs [])
    else split_aux cs (c :: w)

/-- Modelled from the spec: `split`, the words of a parameter header
`"<type> <name>"`. -/
def split (s : String) : List String :=
  (split_aux s.data []).map String.mk

/-- The loop of `parse_value`: the run of lexemes of the wanted kind. -/
def collect_values {F T : Type} (kind : LexemeType) (conv : String → T) :
    Nat → List T → M F (List T)
  | 0, _ => raise .timeout
  | n + 1, acc => do
    let t ← current_token
    if t.type = kind then do
      advance
      collect_values kind conv n (acc ++ [conv t.value])
    else pure acc

/-- Modelled from the spec: `parse_value`, declared in the absent header.  It
reads a single scalar or a bracketed list of lexemes of the wanted kind, and
converts them; a list that is not closed by `]` is a syntax error. -/
def parse_value {F T : Type} (kind : LexemeType) (conv : String → T) : M F (List T) := do
  let t ← current_token
  if t.type = LexemeType.SINGLETON ∧ t.value = "[" then do
    advance
    let vals ← with_lexeme_bound (fun n => collect_values kind conv n [])
    let t2 ← current_token
    if t2.type = LexemeType.SINGLETON ∧ t2.value = "]" then do
      advance
      pure vals
    else throw_syntax_exception "Expected closing bracket."
  else if t.type = kind then do
    advance
    pure [conv t.value]
  else pure []

/-- The vectors packed from a flat list of floats, three by three. -/
def group3 {F : Type} : List F → List (Vec3 F)
  | a :: b :: c :: rest => ⟨a, b, c⟩ :: group3 rest
  | _ => []

/-- The samples packed from a flat list of floats, two by two. -/
def group2 {F : Type} : List F → List (Vec2 F)
  | a :: b :: rest => ⟨a, b⟩ :: group2 rest
  | _ => []

/-- Source: `parse_parameter`, after the header has been checked and read:
the value, parsed according to the type. -/
def parse_parameter_value {F : Type} (Y : Ext F) (type name : String) :
    M F (PBRTParameter F) :=
  if type = "string" ∨ type = "texture" then do
    let vals ← parse_value LexemeType.STRING (fun x => x)
    pure ⟨type, name, .strings vals⟩
  else if type = "float" then do
    let vals ← parse_value LexemeType.NUMBER Y.atof
    pure ⟨type, name, .floats vals⟩
  else if type = "integer" then do
    let vals ← parse_value LexemeType.NUMBER atoi
    pure ⟨type, name, .ints vals⟩
  else if type = "bool" then do
    let vals ← parse_value LexemeType.STRING (fun x => x)
    if vals.all (fun v => decide (v = "false" ∨ v = "true")) then
      pure ⟨type, name, .strings vals⟩
    else
      throw_syntax_exception
        "A value diffeent from true and false has been given to a bool type parameter."
  else if type = "point3" ∨ type = "normal3" ∨ type = "rgb" then do
    let vals ← parse_value LexemeType.NUMBER Y.atof
    if vals.length % 3 ≠ 0 then throw_syntax_exception "Wrong number of values given."
    else pure ⟨type, name, .vec3s (group3 vals)⟩
  else if type = "spectrum" then do
    let t ← current_token
    if t.type = LexemeType.STRING then do
      let path ← current_path
      let fname := path ++ "/" ++ t.value
      advance
      match Y.load_spectrum_from_file fname with
      | none => throw_syntax_exception "Error loading spectrum data from file."
      | some samples => pure ⟨"rgb", name, .vec3s [Y.spectrum_to_rgb samples]⟩
    else do
      let vals ← parse_value LexemeType.NUMBER Y.atof
      if vals.length % 2 ≠ 0 then throw_syntax_exception "Wrong number of values given."
      else pure ⟨"rgb", name, .vec3s [Y.spectrum_to_rgb (group2 vals)]⟩
  else if type = "blackbody" then do
    let vals ← parse_value LexemeType.NUMBER Y.atof
    match vals with
    | [t, sc] => pure ⟨"rgb", name, .vec3s [Y.blackbody_to_rgb t sc]⟩
    | _ => throw_syntax_exception "Wrong number of values given."
  else throw_syntax_exception
    ("Cannot able to parse the value: type '" ++ type ++ "' not supported.")

/-- Source: `parse_parameter`. -/
def parse_parameter {F : Type} (Y : Ext F) : M F (PBRTParameter F) := do
  let t ← current_token
  if t.type ≠ LexemeType.STRING then
    throw_syntax_exception "Expected a string with type and name of a parameter."
  else
    match split t.value with
    | tok0 :: tok1 :: _ => do
      let type := check_synonyms tok0
      let name := tok1
      let _ ← liftExcept (check_param_type name type)
      advance
      parse_parameter_value Y type name
    | _ => raise (.undefinedBehaviour "tokens[1]")

/-- The loop of `parse_parameters`. -/
def parse_parameters_loop {F : Type} (Y : Ext F) :
    Nat → List (PBRTParameter F) → M F (List (PBRTParameter F))
  | 0, _ => raise .timeout
  | n + 1, pars => do
    let t ← current_token
    if t.type ≠ LexemeType.IDENTIFIER then do
      let p ← parse_parameter Y
      parse_parameters_loop Y n (pars ++ [p])
    else pure pars

/-- Source: `parse_parameters`; the parameters are appended to `pars`. -/
def parse_parameters {F : Type} (Y : Ext F) (pars : List (PBRTParameter F)) :
    M F (List (PBRTParameter F)) :=
  with_lexeme_bound (fun n => parse_parameters_loop Y n pars)

/-! ## Access to the state

The directives below reach the state only through the operations of this
section: each one stands for a read or an update of one member of the parser,
of the scene, or of an allocated object. -/

/-- Raise a syntax error if the condition holds: `if (c) throw_syntax_exception(msg);`. -/
def throw_if {F : Type} (c : Prop) [Decidable c] (msg : String) : M F Unit :=
  if c then throw_syntax_exception msg else pure ()

/-- Source: `lexers.insert(lexers.begin(), lexer)`. -/
def push_lexer {F : Type} (lx : Lexer) : M F Unit :=
  modifyS (fun s => { s with lexers := lx :: s.lexers })

/-- Read the graphics state `gState`. -/
def getG {F : Type} : M F (GraphicsState F) := fun s => .ok s.gState s

/-- Change the graphics state. -/
def modifyG {F : Type} (f : GraphicsState F → GraphicsState F) : M F Unit :=
  modifyS (fun s => { s with gState := f s.gState })

/-- Assign the current transform: `gState.CTM = f(gState.CTM)`. -/
def modifyCTM {F : Type} (f : Mat4 F → Mat4 F) : M F Unit :=
  modifyG (fun g => { g with CTM := f g.CTM })

/-- Assign `gState.uscale` and `gState.vscale`. -/
def set_uvscale {F : Type} (u v : F) : M F Unit :=
  modifyG (fun g => { g with uscale := u, vscale := v })

/-- Assign the three fields of `gState.areaLight`. -/
def set_areaLight {F : Type} (al : AreaLightMode F) : M F Unit :=
  modifyG (fun g => { g with areaLight := al })

/-- Source: `gState.nameToMaterial.insert(std::make_pair(name, dmat))`. -/
def insert_named_material {F : Type} (name : String) (dmat : Nat) : M F Unit :=
  modifyG (fun g => { g with nameToMaterial := mapInsert g.nameToMaterial name dmat })

/-- Source: `gState.mat = dmat`. -/
def bind_material {F : Type} (dmat : Nat) : M F Unit :=
  modifyG (fun g => { g with mat := some dmat })

/-- Source: the erasure of a name from `gState.nameToTexture`. -/
def erase_named_texture {F : Type} (name : String) : M F Unit :=
  modifyG (fun g => { g with nameToTexture := mapErase g.nameToTexture name })

/-- Source: `gState.nameToTexture.insert(std::make_pair(name, dt))`. -/
def insert_named_texture {F : Type} (name : String) (dt : DeclaredTexture F) : M F Unit :=
  modifyG (fun g => { g with nameToTexture := mapInsert g.nameToTexture name dt })

/-- Read `defaultAspect` and `defaultFocus`. -/
def get_defaults {F : Type} : M F (F × F) := fun s => .ok (s.defaultAspect, s.defaultFocus) s

/-- Read `textureSavePath`. -/
def get_textureSavePath {F : Type} : M F String := fun s => .ok s.textureSavePath s

/-- Assign `defaultFocus`. -/
def set_defaultFocus {F : Type} (v : F) : M F Unit :=
  modifyS (fun s => { s with defaultFocus := v })

/-- Source: the end of `execute_Film`: `defaultAspect = asp` and the loop that
assigns the aspect of every camera of the scene. -/
def set_aspect {F : Type} (asp : F) : M F Unit :=
  modifyS (fun s =>
    { s with
      defaultAspect := asp
      scn := { s.scn with cameras := s.scn.cameras.map (fun cam => { cam with aspect := asp }) } })

/-- Read the scene. -/
def get_scene {F : Type} : M F (Scene F) := fun s => .ok s.scn s

/-- Change the scene. -/
def modifyScene {F : Type} (f : Scene F → Scene F) : M F Unit :=
  modifyS (fun s => { s with scn := f s.scn })

/-- Source: `scn->cameras.push_back(cam)`. -/
def add_camera {F : Type} (cam : Camera F) : M F Unit :=
  modifyScene (fun scn => { scn with cameras := scn.cameras ++ [cam] })

/-- Source: `scn->shapes.push_back(sg)`. -/
def add_group {F : Type} (sg : Nat) : M F Unit :=
  modifyScene (fun scn => { scn with shapes := scn.shapes ++ [sg] })

/-- Source: `scn->instances.push_back(inst)`. -/
def add_instance {F : Type} (inst : Instance F) : M F Unit :=
  modifyScene (fun scn => { scn with instances := scn.instances ++ [inst] })

/-- Source: `scn->textures.push_back(txt)`. -/
def add_texture {F : Type} (txt : Nat) : M F Unit :=
  modifyScene (fun scn => { scn with textures := scn.textures ++ [txt] })

/-- Source: `scn->environments.push_back(env)`. -/
def add_environment {F : Type} (env : Environment F) : M F Unit :=
  modifyScene (fun scn => { scn with environments := scn.environments ++ [env] })

/-- Read through a pointer to a material. -/
def get_material {F : Type} (r : Nat) : M F (Material F) := fun s =>
  match s.materialArena[r]? with
  | some m => .ok m s
  | none => .error (.undefinedBehaviour "material pointer") s

/-- Write through a pointer to a material. -/
def modify_material {F : Type} (r : Nat) (f : Material F → Material F) : M F Unit := fun s =>
  match s.materialArena[r]? with
  | some m => .ok () { s with materialArena := s.materialArena.set r (f m) }
  | none => .error (.undefinedBehaviour "material pointer") s

/-- Source: `dmat(new DeclaredMaterial); dmat->mat = new ygl::material;` with
the fields of the material: the pointer to the material and the pointer to
the declared material, whose flag `addedInScene` is false. -/
def new_declared_material {F : Type} (m : Material F) : M F (Nat × Nat) := fun s =>
  .ok (s.materialArena.length, s.declaredArena.length)
    { s with
      materialArena := s.materialArena ++ [m]
      declaredArena := s.declaredArena ++ [⟨s.materialArena.length, false⟩] }

/-- Read through a pointer to a declared material. -/
def get_declared {F : Type} (r : Nat) : M F DeclaredMaterial := fun s =>
  match s.declaredArena[r]? with
  | some d => .ok d s
  | none => .error (.undefinedBehaviour "declared material pointer") s

/-- Source: the block of `execute_Shape` on a bound material:
`if (!gState.mat->addedInScene) { gState.mat->addedInScene = true;
scn->materials.push_back(gState.mat->mat); }`, and the pointer to the
material. -/
def add_declared_to_scene {F : Type} (d : Nat) : M F Nat := fun s =>
  match s.declaredArena[d]? with
  | none => .error (.undefinedBehaviour "declared material pointer") s
  | some dm =>
    if dm.addedInScene = false then
      .ok dm.mat
        { s with
          declaredArena := s.declaredArena.set d { dm with addedInScene := true }
          scn := { s.scn with materials := s.scn.materials ++ [dm.mat] } }
    else .ok dm.mat s

/-- Source: `new ygl::material` followed by `scn->materials.push_back`: a
material that is added to the scene when it is created. -/
def new_scene_material {F : Type} (m : Material F) : M F Nat := fun s =>
  .ok s.materialArena.length
    { s with
      materialArena := s.materialArena ++ [m]
      scn := { s.scn with materials := s.scn.materials ++ [s.materialArena.length] } }

/-- Allocate a texture: `new ygl::texture`. -/
def alloc_texture {F : Type} (t : Texture F) : M F Nat := fun s =>
  .ok s.textureArena.length { s with textureArena := s.textureArena ++ [t] }

/-- Read through a pointer to a texture. -/
def get_texture {F : Type} (r : Nat) : M F (Texture F) := fun s =>
  match s.textureArena[r]? with
  | some t => .ok t s
  | none => .error (.undefinedBehaviour "texture pointer") s

/-- Write through a pointer to a texture. -/
def modify_texture {F : Type} (r : Nat) (f : Texture F → Texture F) : M F Unit := fun s =>
  match s.textureArena[r]? with
  | some t => .ok () { s with textureArena := s.textureArena.set r (f t) }
  | none => .error (.undefinedBehaviour "texture pointer") s

/-- Allocate a shape group: `new ygl::shape_group`. -/
def alloc_group {F : Type} (g : ShapeGroup F) : M F Nat := fun s =>
  .ok s.groupArena.length { s with groupArena := s.groupArena ++ [g] }

/-- Source: `stateStack.push_back(this->gState)`. -/
def push_attributes {F : Type} : M F Unit :=
  modifyS (fun s => { s with stateStack := s.stateStack ++ [s.gState] })

/-- Source: the lines of `execute_AttributeEnd` after `advance`. -/
def pop_attributes {F : Type} : M F Unit := fun s =>
  match s.stateStack.getLast? with
  | none =>
    .error (.syntaxError "AttributeEnd instruction unmatched with AttributeBegin.") s
  | some g => .ok () { s with gState := g, stateStack := s.stateStack.dropLast }

/-- Source: `CTMStack.push_back(this->gState.CTM)`. -/
def push_transform {F : Type} : M F Unit :=
  modifyS (fun s => { s with CTMStack := s.CTMStack ++ [s.gState.CTM] })

/-- Source: the lines of `execute_TransformEnd` after `advance`. -/
def pop_transform {F : Type} : M F Unit := fun s =>
  match s.CTMStack.getLast? with
  | none =>
    .error (.syntaxError "TranformEnd instruction unmatched with TransformBegin.") s
  | some m =>
    .ok () { s with gState := { s.gState with CTM := m }, CTMStack := s.CTMStack.dropLast }

/-- Read `inObjectDefinition`. -/
def get_inObjectDefinition {F : Type} : M F Bool := fun s => .ok s.inObjectDefinition s

/-- Source: `inObjectDefinition = true; shapesInObject.clear();`. -/
def begin_object {F : Type} : M F Unit :=
  modifyS (fun s => { s with inObjectDefinition := true, shapesInObject := [] })

/-- Source: `shapesInObject.push_back(sg)`. -/
def capture_group {F : Type} (sg : Nat) : M F Unit :=
  modifyS (fun s => { s with shapesInObject := s.shapesInObject ++ [sg] })

/-- Source: the insertion of the object in `nameToObject` at the end of
`execute_ObjectBlock`: a new entry, or the replacement of the entry of the
name.  A new declared object has the flag `addedInScene` false. -/
def store_object {F : Type} (objName : String) : M F Unit :=
  modifyS (fun s =>
    let obj : DeclaredObject F := ⟨s.shapesInObject, s.gState.CTM, false⟩
    match mapFind s.nameToObject objName with
    | none => { s with nameToObject := mapInsert s.nameToObject objName obj }
    | some _ => { s with nameToObject := mapAssign s.nameToObject objName obj })

/-- Source: `inObjectDefinition = false`. -/
def end_object {F : Type} : M F Unit :=
  modifyS (fun s => { s with inObjectDefinition := false })

/-- Source: `nameToObject.find(objName)`. -/
def lookup_object {F : Type} (objName : String) : M F (Option (DeclaredObject F)) := fun s =>
  .ok (mapFind s.nameToObject objName) s

/-- Source: `obj->second->addedInScene = true`. -/
def mark_object_added {F : Type} (objName : String) (obj : DeclaredObject F) : M F Unit :=
  modifyS (fun s =>
    { s with
      nameToObject := mapAssign s.nameToObject objName { obj with addedInScene := true } })

/-! ## Vectors -/

/-- The difference of two vectors. -/
def vsub {F : Type} (Y : Ext F) (a b : Vec3 F) : Vec3 F :=
  ⟨Y.sub a.x b.x, Y.sub a.y b.y, Y.sub a.z b.z⟩

/-- The sum of two vectors. -/
def vadd {F : Type} (Y : Ext F) (a b : Vec3 F) : Vec3 F :=
  ⟨Y.add a.x b.x, Y.add a.y b.y, Y.add a.z b.z⟩

/-- The componentwise product of two vectors. -/
def vmul {F : Type} (Y : Ext F) (a b : Vec3 F) : Vec3 F :=
  ⟨Y.mul a.x b.x, Y.mul a.y b.y, Y.mul a.z b.z⟩

/-- A vector scaled by a float. -/
def smul {F : Type} (Y : Ext F) (k : F) (a : Vec3 F) : Vec3 F :=
  ⟨Y.mul k a.x, Y.mul k a.y, Y.mul k a.z⟩

/-- The opposite of a vector. -/
def vneg {F : Type} (Y : Ext F) (a : Vec3 F) : Vec3 F :=
  ⟨Y.neg a.x, Y.neg a.y, Y.neg a.z⟩

/-- The vector with three equal components. -/
def vconst {F : Type} (Y : Ext F) (r : Rat) : Vec3 F :=
  ⟨Y.lit r, Y.lit r, Y.lit r⟩

/-- The matrix `nCTM[i][j] = vals.at(i * 4 + j)` of sixteen values. -/
def mat_of_vals {F : Type} : List F → Option (Mat4 F)
  | [a0, a1, a2, a3, b0, b1, b2, b3, c0, c1, c2, c3, d0, d1, d2, d3] =>
    some ⟨⟨a0, a1, a2, a3⟩, ⟨b0, b1, b2, b3⟩, ⟨c0, c1, c2, c3⟩, ⟨d0, d1, d2, d3⟩⟩
  | _ => none

/-! ## Inclusion of files -/

/-- Source: `execute_Include`. -/
def execute_Include {F : Type} (Y : Ext F) : M F Unit := do
  advance
  let t ← current_token
  throw_if (t.type ≠ LexemeType.STRING) "Expected the name of the file to be included."
  let path ← current_path
  let fileToBeIncl := Y.concatenate_paths path t.value
  match Y.open_lexer fileToBeIncl with
  | none => raise (.lexerError fileToBeIncl)
  | some (lexemes, dir) => do
    push_lexer ⟨Lexeme.none, lexemes, dir⟩
    advance

/-! ## Transformations -/

/-- One round of the loops that read a float: the check of the lexeme, the
conversion and the `advance`. -/
def read_float {F : Type} (Y : Ext F) (msg : String) : M F F := do
  let t ← current_token
  throw_if (t.type ≠ LexemeType.NUMBER) msg
  advance
  pure (Y.atof t.value)

/-- The loop `for (int i = 0; i < 3; i++)` that reads a vector. -/
def read_vec3 {F : Type} (Y : Ext F) : M F (Vec3 F) := do
  let x ← read_float Y "Expected a float value."
  let y ← read_float Y "Expected a float value."
  let z ← read_float Y "Expected a float value."
  pure ⟨x, y, z⟩

/-- Source: `execute_Translate`. -/
def execute_Translate {F : Type} (Y : Ext F) : M F Unit := do
  advance
  let transl_vec ← read_vec3 Y
  let transl_mat := Y.frame_to_mat (Y.translation_frame transl_vec)
  modifyCTM (fun CTM => Y.mat_mul CTM transl_mat)

/-- Source: `execute_Scale`. -/
def execute_Scale {F : Type} (Y : Ext F) : M F Unit := do
  advance
  let scale_vec ← read_vec3 Y
  let scale_mat := Y.frame_to_mat (Y.scaling_frame scale_vec)
  modifyCTM (fun CTM => Y.mat_mul CTM scale_mat)

/-- Source: `execute_Rotate`. -/
def execute_Rotate {F : Type} (Y : Ext F) : M F Unit := do
  advance
  let t ← current_token
  throw_if (t.type ≠ LexemeType.NUMBER)
    "Expected a float value for 'angle' parameter of Rotate directive."
  let angle := Y.mul (Y.atof t.value) (Y.div Y.pif (Y.lit 180))
  advance
  let rot_vec ← read_vec3 Y
  let rot_mat := Y.frame_to_mat (Y.rotation_frame rot_vec angle)
  modifyCTM (fun CTM => Y.mat_mul CTM rot_mat)

/-- Source: `execute_LookAt`. -/
def execute_LookAt {F : Type} (Y : Ext F) : M F Unit := do
  advance
  let eye ← read_vec3 Y
  let look ← read_vec3 Y
  let up ← read_vec3 Y
  let fm := Y.lookat_frame eye look up
  let fm := { fm with x := vneg Y fm.x, z := vneg Y fm.z }
  let mm := Y.frame_to_mat fm
  set_defaultFocus (Y.length (vsub Y eye look))
  modifyCTM (fun CTM => Y.mat_mul CTM (Y.inverse mm))

/-- Source: `execute_Transform`. -/
def execute_Transform {F : Type} (Y : Ext F) : M F Unit := do
  advance
  let vals ← parse_value LexemeType.NUMBER Y.atof
  match mat_of_vals vals with
  | none => throw_syntax_exception "Wrong number of values given. Expected a 4x4 matrix."
  | some nCTM => modifyCTM (fun _ => nCTM)

/-- Source: `execute_ConcatTransform`. -/
def execute_ConcatTransform {F : Type} (Y : Ext F) : M F Unit := do
  advance
  let vals ← parse_value LexemeType.NUMBER Y.atof
  match mat_of_vals vals with
  | none => throw_syntax_exception "Wrong number of values given. Expected a 4x4 matrix."
  | some nCTM => modifyCTM (fun CTM => Y.mat_mul CTM nCTM)

/-! ## Scene-wide rendering options -/

/-- Source: `execute_Camera`. -/
def execute_Camera {F : Type} (Y : Ext F) : M F Unit := do
  advance
  let (defaultAspect, defaultFocus) ← get_defaults
  let scn ← get_scene
  let g ← getG
  let frame := Y.mat_to_frame (Y.inverse g.CTM)
  let cam : Camera F :=
    { name := "c" ++ toString scn.cameras.length
      frame := { frame with z := vneg Y frame.z }
      yfov := Y.div (Y.mul (Y.lit 90) Y.pif) (Y.lit 180)
      aspect := defaultAspect
      focus := defaultFocus
      aperture := Y.lit 0 }
  let t ← current_token
  throw_if (t.type ≠ LexemeType.STRING) "Expected type string."
  let camType := t.value
  throw_if (camType ≠ "perspective") "Only perspective camera type is supported."
  advance
  let params ← parse_parameters Y []
  let cam ← (match find_param "frameaspectratio" params with
    | some i => do
      let p ← param_at params i
      let v ← get_first_float p
      pure { cam with aspect := v }
    | none => pure cam)
  let cam ← (match find_param "fov" params with
    | some i => do
      let p ← param_at params i
      let v ← get_first_float p
      pure { cam with yfov := Y.div (Y.mul v Y.pif) (Y.lit 180) }
    | none => pure cam)
  add_camera cam

/-- Source: `execute_Film`. -/
def execute_Film {F : Type} (Y : Ext F) : M F Unit := do
  advance
  let t ← current_token
  throw_if (t.type ≠ LexemeType.STRING) "Expected type string."
  let filmType := t.value
  throw_if (filmType ≠ "image") "Only image \"film\" is supported."
  advance
  let params ← parse_parameters Y []
  let xres ← (match find_param "xresolution" params with
    | some i => do
      let p ← param_at params i
      get_first_int p
    | none => pure 0)
  let yres ← (match find_param "yresolution" params with
    | some i => do
      let p ← param_at params i
      get_first_int p
    | none => pure 0)
  if xres ≠ 0 ∧ yres ≠ 0 then
    let asp := Y.div (Y.ofInt xres) (Y.ofInt yres)
    let asp := if Y.lt asp (Y.lit 1) then Y.lit 1 else asp
    set_aspect asp
  else pure ()

/-! ## Describing the scene: scopes -/

/-- Source: `execute_AttributeBegin`. -/
def execute_AttributeBegin {F : Type} : M F Unit := do
  advance
  push_attributes

/-- Source: `execute_AttributeEnd`. -/
def execute_AttributeEnd {F : Type} : M F Unit := do
  advance
  pop_attributes

/-- Source: `execute_TransformBegin`. -/
def execute_TransformBegin {F : Type} : M F Unit := do
  advance
  push_transform

/-- Source: `execute_TransformEnd`. -/
def execute_TransformEnd {F : Type} : M F Unit := do
  advance
  pop_transform

/-! ## Shapes -/

/-- A shape as `new ygl::shape()` leaves it. -/
def Shape.new (F : Type) : Shape F :=
  { name := "", mat := none, pos := [], norm := [], texcoord := [],
    triangles := [], quads := [], points := [], radius := [] }

/-- Source: `parse_cube`. -/
def parse_cube {F : Type} (Y : Ext F) (shp : Shape F) : M F (Shape F) := do
  with_lexeme_bound skip_to_identifier
  let md := Y.make_uvcube 1
  pure { shp with quads := md.quads, pos := md.pos, norm := md.norm, texcoord := md.texcoord }

/-- The unchecked access `v[i]` of a vector by an `int`. -/
def at_index {α : Type} (v : List α) (i : Int) : Option α :=
  if 0 ≤ i then v[i.toNat]? else none

/-- The update `v[i] = f(v[i])` of a vector at an `int`. -/
def update_index {α : Type} (v : List α) (i : Int) (f : α → α) : Option (List α) :=
  match at_index v i with
  | some a => some (v.set i.toNat (f a))
  | none => none

/-- The body of the loop over the triangles in `my_compute_normals`; `none`
is an access out of the bounds of `pos` or `norm`. -/
def accumulate_normal {F : Type} (Y : Ext F) (pos : List (Vec3 F)) (weighted : Bool)
    (norm : List (Vec3 F)) (t : Vec3i) : Option (List (Vec3 F)) :=
  match at_index pos t.y, at_index pos t.z, at_index pos t.x with
  | some py, some pz, some px =>
    let n := Y.cross (vsub Y py pz) (vsub Y px pz)
    let n := if weighted then n else Y.normalize n
    match update_index norm t.x (fun v => vadd Y v n) with
    | none => none
    | some norm1 =>
      match update_index norm1 t.y (fun v => vadd Y v n) with
      | none => none
      | some norm2 => update_index norm2 t.z (fun v => vadd Y v n)
  | _, _, _ => none

/-- The loop over the triangles in `my_compute_normals`. -/
def accumulate_normals {F : Type} (Y : Ext F) (pos : List (Vec3 F)) (weighted : Bool) :
    List Vec3i → List (Vec3 F) → Option (List (Vec3 F))
  | [], norm => some norm
  | t :: ts, norm =>
    match accumulate_normal Y pos weighted norm t with
    | none => none
    | some norm1 => accumulate_normals Y pos weighted ts norm1

/-- Source: `my_compute_normals`; `none` is an access out of bounds. -/
def my_compute_normals {F : Type} (Y : Ext F) (triangles : List Vec3i)
    (pos : List (Vec3 F)) (weighted : Bool) : Option (List (Vec3 F)) :=
  let norm := List.replicate pos.length (vconst Y 0)
  match accumulate_normals Y pos weighted triangles norm with
  | none => none
  | some norm1 => some (norm1.map Y.normalize)

/-- The triangles packed from a flat list of indices, three by three. -/
def triples : List Int → List Vec3i
  | a :: b :: c :: rest => ⟨a, b, c⟩ :: triples rest
  | _ => []

/-- The loop that packs texture coordinates with `data->at(j++)`, two by two;
`none` is the `std::out_of_range` of an odd count. -/
def pair_up {F : Type} : List F → Option (List (Vec2 F))
  | [] => some []
  | [_] => none
  | a :: b :: rest => (pair_up rest).map (fun l => ⟨a, b⟩ :: l)

/-- Source: `parse_trianglemesh`, after the parameters have been parsed. -/
def trianglemesh_of_params {F : Type} (Y : Ext F) (params : List (PBRTParameter F))
    (shp : Shape F) : M F (Shape F) := do
  -- vertices
  let (shp, PCheck) ← (match find_param "P" params with
    | some i => do
      let p ← param_at params i
      match p.value with
      | .vec3s data => pure ({ shp with pos := shp.pos ++ data }, true)
      | _ => raise (.undefinedBehaviour "cast of the value of P")
    | none => pure (shp, false))
  -- normals
  let shp ← (match find_param "N" params with
    | some i => do
      let p ← param_at params i
      match p.value with
      | .vec3s data => pure { shp with norm := shp.norm ++ data }
      | _ => raise (.undefinedBehaviour "cast of the value of N")
    | none => pure shp)
  -- indices
  let (shp, indicesCheck) ← (match find_param "indices" params with
    | some i => do
      let p ← param_at params i
      match p.value with
      | .ints data =>
        if data.length % 3 ≠ 0 then
          throw_syntax_exception "The number of triangle vertices must be multiple of 3."
        else pure ({ shp with triangles := shp.triangles ++ triples data }, true)
      | _ => raise (.undefinedBehaviour "cast of the value of indices")
    | none => pure (shp, false))
  let i_uv := match find_param "uv" params with
    | some i => some i
    | none => find_param "st" params
  let shp ← (match i_uv with
    | some i => do
      let p ← param_at params i
      match p.value with
      | .floats data =>
        match pair_up data with
        | some uvs => pure { shp with texcoord := shp.texcoord ++ uvs }
        | none => raise .outOfRange
      | _ => raise (.undefinedBehaviour "cast of the value of uv")
    | none => pure shp)
  -- the guard `if (shp->norm.size() == 0);` is empty: the normals are always computed
  let shp ← (match my_compute_normals Y shp.triangles shp.pos true with
    | some norm => pure { shp with norm := norm }
    | none => raise (.undefinedBehaviour "my_compute_normals: index out of bounds"))
  if ¬ (indicesCheck = true ∧ PCheck = true) then
    throw_syntax_exception "Missing indices or positions in triangle mesh specification."
  else pure shp

/-- Source: `parse_trianglemesh`. -/
def parse_trianglemesh {F : Type} (Y : Ext F) (shp : Shape F) : M F (Shape F) := do
  let params ← parse_parameters Y []
  trianglemesh_of_params Y params shp

/-- The material of a new shape in `execute_Shape`: the bound material, added
to the scene if it was not yet, or a new empty material. -/
def shape_material {F : Type} (Y : Ext F) : M F Nat := do
  let g ← getG
  match g.mat with
  | none => do
    let name ← get_unique_id CounterID.material
    new_scene_material { Y.new_material with name := name }
  | some d => add_declared_to_scene d

/-- The end of `execute_Shape`: the scaling of the texture coordinates, the
shape group and, outside an object, the instance. -/
def add_shape {F : Type} (Y : Ext F) (shp : Shape F) : M F Unit := do
  let g ← getG
  let shp := { shp with
    texcoord := shp.texcoord.map (fun uv => ⟨Y.mul uv.x g.uscale, Y.mul uv.y g.vscale⟩) }
  let sgName ← get_unique_id CounterID.shape_group
  let sg ← alloc_group { name := sgName, shapes := [shp] }
  let inObjectDefinition ← get_inObjectDefinition
  if inObjectDefinition then capture_group sg
  else do
    add_group sg
    let frame := Y.mat_to_frame g.CTM
    let iName ← get_unique_id CounterID.inst
    add_instance { name := iName, frame := frame, shp := some sg }

/-- Source: the chain of branches of `execute_Shape` that builds the shape.
When an area light is active the first branch is taken and the class of the
shape is not looked at. -/
def shape_of_class {F : Type} (Y : Ext F) (shapeName : String) (shp : Shape F) (mat : Nat) :
    M F Unit := do
  let g ← getG
  if g.areaLight.active then do
    modify_material mat (fun m =>
      { m with ke := g.areaLight.L, double_sided := g.areaLight.twosided })
    add_shape Y shp
  else if shapeName = "trianglemesh" then do
    let shp ← parse_trianglemesh Y shp
    add_shape Y shp
  else if shapeName = "cube" then do
    let shp ← parse_cube Y shp
    add_shape Y shp
  else if shapeName = "sphere" then do
    let params ← parse_parameters Y []
    let radius ← (match find_param "radius" params with
      | some i => do
        let p ← param_at params i
        get_first_float p
      | none => pure (Y.lit 1))
    let md := Y.make_uvspherizedcube 4 radius
    add_shape Y
      { shp with quads := md.quads, pos := md.pos, norm := md.norm, texcoord := md.texcoord }
  else if shapeName = "disk" then do
    ignore_current_directive
    add_shape Y
      { shp with
        pos := shp.pos ++
          [⟨Y.lit 5, Y.lit 0, Y.lit 5⟩, ⟨Y.lit (-5), Y.lit 0, Y.lit 5⟩,
           ⟨Y.lit (-5), Y.lit 0, Y.lit (-5)⟩, ⟨Y.lit 5, Y.lit 0, Y.lit (-5)⟩]
        quads := shp.quads ++ [⟨0, 1, 2, 3⟩] }
  else if shapeName = "plymesh" then do
    let par ← parse_parameter Y
    throw_if (par.name ≠ "filename") "Expected ply file path."
    let path ← current_path
    let file ← get_first_string par
    let fname := path ++ "/" ++ file
    match Y.parse_ply fname shp with
    | none => throw_syntax_exception ("Error parsing ply file: " ++ fname)
    | some shp => do
      with_lexeme_bound skip_to_identifier
      add_shape Y shp
  else
    ignore_current_directive

/-- Source: `execute_Shape`. -/
def execute_Shape {F : Type} (Y : Ext F) : M F Unit := do
  advance
  let t ← current_token
  throw_if (t.type ≠ LexemeType.STRING) "Expected shape name."
  let shapeName := t.value
  advance
  let name ← get_unique_id CounterID.shape
  let mat ← shape_material Y
  shape_of_class Y shapeName { Shape.new F with name := name, mat := some mat } mat

/-! ## Objects -/

/-- A loop `while (!(current token is the identifier stop)) directive();`. -/
def directive_loop {F : Type} (stop : String) (directive : M F Unit) : Nat → M F Unit
  | 0 => raise .timeout
  | n + 1 => do
    let t ← current_token
    if t.type = LexemeType.IDENTIFIER ∧ t.value = stop then pure ()
    else do
      directive
      directive_loop stop directive n

/-- Source: `execute_ObjectBlock`; `directive` is `execute_world_directive`
and `fuel` bounds the rounds of the loop. -/
def execute_ObjectBlock {F : Type} (directive : M F Unit) (fuel : Nat) : M F Unit := do
  let inObjectDefinition ← get_inObjectDefinition
  throw_if (inObjectDefinition = true) "Cannot define an object inside another object."
  execute_AttributeBegin
  begin_object
  let t ← current_token
  throw_if (t.type ≠ LexemeType.STRING) "Expected object name as a string."
  let objName := t.value
  advance
  directive_loop "ObjectEnd" directive fuel
  store_object objName
  end_object
  execute_AttributeEnd

/-- The loop of `execute_ObjectInstance` over the captured shape groups. -/
def instance_shapes {F : Type} (frame : Frame3 F) (added : Bool) : List Nat → M F Unit
  | [] => pure ()
  | shape :: rest => do
    if added = false then add_group shape
    else pure ()
    let name ← get_unique_id CounterID.inst
    add_instance { name := name, frame := frame, shp := some shape }
    instance_shapes frame added rest

/-- Source: `execute_ObjectInstance`. -/
def execute_ObjectInstance {F : Type} (Y : Ext F) : M F Unit := do
  advance
  let t ← current_token
  throw_if (t.type ≠ LexemeType.STRING) "Expected object name as a string."
  let objName := t.value
  advance
  let found ← lookup_object objName
  match found with
  | none => throw_syntax_exception "Object name not found."
  | some obj =>
    if obj.sg.length > 0 then do
      let g ← getG
      let finalCTM := Y.mat_mul g.CTM obj.CTM
      instance_shapes (Y.mat_to_frame finalCTM) obj.addedInScene obj.sg
      if obj.addedInScene = false then mark_object_added objName obj
      else pure ()
    else pure ()

/-! ## Textures: lookup and loading -/

/-- Modelled from the spec: `texture_lookup`, the lookup of a declared texture
in the graphics state; a miss is a fatal error.  The spec gives the second
argument no effect. -/
def texture_lookup {F : Type} (name : String) (_flag : Bool) : M F (DeclaredTexture F) := do
  let g ← getG
  match mapFind g.nameToTexture name with
  | some dt => pure dt
  | none => throw_syntax_exception "No texture with the specified name."

/-- Modelled from the spec: `material_lookup`, the lookup of a declared
material in the graphics state; a miss is a fatal error. -/
def material_lookup {F : Type} (name : String) (_flag : Bool) : M F Nat := do
  let g ← getG
  match mapFind g.nameToMaterial name with
  | some d => pure d
  | none => throw_syntax_exception "No material with the specified name."

/-- Source: `load_texture`. -/
def load_texture {F : Type} (Y : Ext F) (txt : Nat) (filename : String) (flip : Bool) :
    M F Unit := do
  let path ← current_path
  let completePath := path ++ "/" ++ filename
  let ext := Y.path_extension filename
  let name := Y.path_basename filename
  let ext := if ext = ".exr" then ".hdr" else ext
  let textureSavePath ← get_textureSavePath
  modify_texture txt (fun t => { t with path := textureSavePath ++ "/" ++ name ++ ext })
  if ext = ".hdr" then
    let im : Image F := Image.load4f completePath
    modify_texture txt (fun t => { t with hdr := if flip then Image.flip im else im })
  else
    let im : Image F := Image.load4b completePath
    modify_texture txt (fun t => { t with ldr := if flip then Image.flip im else im })

/-! ## Lights -/

/-- The value of an optional parameter read with `get_first_value<ygl::vec3f>`. -/
def vec3_param {F : Type} (name : String) (params : List (PBRTParameter F))
    (dflt : Vec3 F) : M F (Vec3 F) :=
  match find_param name params with
  | some i => do
    let p ← param_at params i
    get_first_vec3 p
  | none => pure dflt

/-- Source: `parse_InfiniteLight`. -/
def parse_InfiniteLight {F : Type} (Y : Ext F) : M F Unit := do
  let params ← parse_parameters Y []
  let scale ← vec3_param "scale" params (vconst Y 1)
  let L ← vec3_param "L" params (vconst Y 1)
  let mapname ← (match find_param "mapname" params with
    | some i => do
      let p ← param_at params i
      get_first_string p
    | none => pure "")
  let envName ← get_unique_id CounterID.environment
  let x_axis : Vec3 F := ⟨Y.lit 1, Y.lit 0, Y.lit 0⟩
  let y_axis : Vec3 F := ⟨Y.lit 0, Y.lit 1, Y.lit 0⟩
  let rm := Y.frame_to_mat (Y.rotation_frame x_axis (Y.div (Y.mul (Y.ofInt 90) Y.pif) (Y.lit 180)))
  let rm := Y.mat_mul rm
    (Y.frame_to_mat (Y.rotation_frame y_axis (Y.div (Y.mul (Y.ofInt 180) Y.pif) (Y.lit 180))))
  let g ← getG
  let fm := Y.mat_to_frame (Y.mat_mul g.CTM rm)
  let fm := { fm with z := vneg Y fm.z }
  let env : Environment F :=
    { name := envName, frame := fm, ke := vmul Y scale L, ke_txt := none, ke_txt_info := false }
  let env ← (if mapname.length > 0 then do
      let tName ← get_unique_id CounterID.texture
      let txt ← alloc_texture { name := tName, path := "", ldr := .empty, hdr := .empty }
      load_texture Y txt mapname false
      add_texture txt
      pure { env with ke_txt_info := true, ke_txt := some txt }
    else pure env)
  add_environment env

/-- Source: `parse_PointLight`. -/
def parse_PointLight {F : Type} (Y : Ext F) : M F Unit := do
  let params ← parse_parameters Y []
  let scale ← vec3_param "scale" params (vconst Y 1)
  let I ← vec3_param "I" params (vconst Y 1)
  let point ← vec3_param "from" params (vconst Y 0)
  let sgName ← get_unique_id CounterID.shape_group
  let shapeName ← get_unique_id CounterID.shape
  let mName ← get_unique_id CounterID.material
  let lgtMat ← new_scene_material { Y.new_material with ke := vmul Y I scale, name := mName }
  let lgtShape : Shape F :=
    { Shape.new F with
      name := shapeName, pos := [point], points := [0], radius := [Y.lit 1], mat := some lgtMat }
  let sg ← alloc_group { name := sgName, shapes := [lgtShape] }
  add_group sg
  let g ← getG
  let iName ← get_unique_id CounterID.inst
  add_instance { name := iName, frame := Y.mat_to_frame g.CTM, shp := some sg }

/-- Source: `execute_LightSource`. -/
def execute_LightSource {F : Type} (Y : Ext F) : M F Unit := do
  advance
  let t ← current_token
  throw_if (t.type ≠ LexemeType.STRING) "Expected lightsource type as a string."
  let lightType := t.value
  advance
  if lightType = "point" then parse_PointLight Y
  else if lightType = "infinite" then parse_InfiniteLight Y
  else if lightType = "distant" then parse_InfiniteLight Y
  else throw_syntax_exception ("Light type " ++ lightType ++ " not supported.")

/-- Source: `execute_AreaLightSource`. -/
def execute_AreaLightSource {F : Type} (Y : Ext F) : M F Unit := do
  advance
  let t ← current_token
  throw_if (t.type ≠ LexemeType.STRING) "Expected lightsource type as a string."
  advance
  let params ← parse_parameters Y []
  let _scale ← vec3_param "scale" params (vconst Y 1)
  let L ← vec3_param "L" params (vconst Y 1)
  let twosided ← (match find_param "twosided" params with
    | some i => do
      let p ← param_at params i
      let v ← get_first_string p
      pure (decide (v = "true"))
    | none => pure false)
  set_areaLight ⟨true, L, twosided⟩

/-! ## Materials -/

/-- Source: `set_k_property`; the references `k` and `*txt` are returned. -/
def set_k_property {F : Type} (Y : Ext F) (par : PBRTParameter F) (_k : Vec3 F)
    (txt : Option Nat) : M F (Vec3 F × Option Nat) :=
  if par.type = "texture" then do
    let name ← get_first_string par
    let declTexture ← texture_lookup name true
    set_uvscale declTexture.uscale declTexture.vscale
    pure (vconst Y 1, some declTexture.txt)
  else do
    let v ← get_first_vec3 par
    pure (v, txt)

/-- The block `if (i >= 0) set_k_property(params[i], mat->kd, &mat->kd_txt);`. -/
def set_kd {F : Type} (Y : Ext F) (params : List (PBRTParameter F)) (mat : Nat) : M F Unit :=
  match find_param "Kd" params with
  | some i => do
    let p ← param_at params i
    let m ← get_material mat
    let (k, txt) ← set_k_property Y p m.kd m.kd_txt
    modify_material mat (fun m => { m with kd := k, kd_txt := txt })
  | none => pure ()

/-- The block `if (i >= 0) set_k_property(params[i], mat->ks, &mat->ks_txt);`. -/
def set_ks {F : Type} (Y : Ext F) (params : List (PBRTParameter F)) (mat : Nat) : M F Unit :=
  match find_param "Ks" params with
  | some i => do
    let p ← param_at params i
    let m ← get_material mat
    let (k, txt) ← set_k_property Y p m.ks m.ks_txt
    modify_material mat (fun m => { m with ks := k, ks_txt := txt })
  | none => pure ()

/-- The block `if (i >= 0) set_k_property(params[i], mat->kr, &mat->kr_txt);`. -/
def set_kr {F : Type} (Y : Ext F) (params : List (PBRTParameter F)) (mat : Nat) : M F Unit :=
  match find_param "Kr" params with
  | some i => do
    let p ← param_at params i
    let m ← get_material mat
    let (k, txt) ← set_k_property Y p m.kr m.kr_txt
    modify_material mat (fun m => { m with kr := k, kr_txt := txt })
  | none => pure ()

/-- The block `if (i >= 0) set_k_property(params[i], mat->kt, &mat->kt_txt);`. -/
def set_kt {F : Type} (Y : Ext F) (params : List (PBRTParameter F)) (mat : Nat) : M F Unit :=
  match find_param "Kt" params with
  | some i => do
    let p ← param_at params i
    let m ← get_material mat
    let (k, txt) ← set_k_property Y p m.kt m.kt_txt
    modify_material mat (fun m => { m with kt := k, kt_txt := txt })
  | none => pure ()

/-- The block on the parameter `roughness` of the uber, translucent and metal
materials. -/
def set_roughness {F : Type} (Y : Ext F) (params : List (PBRTParameter F)) (mat : Nat) :
    M F Unit :=
  match find_param "roughness" params with
  | some i => do
    let p ← param_at params i
    if p.type = "texture" then do
      let txtName ← get_first_string p
      let dt ← texture_lookup txtName true
      modify_material mat (fun m => { m with rs_txt := some dt.txt })
      modify_material mat (fun m => { m with rs := Y.lit 1 })
    else do
      let v ← get_first_float p
      modify_material mat (fun m => { m with rs := v })
  | none => pure ()

/-- Source: `parse_material_matte`. -/
def parse_material_matte {F : Type} (Y : Ext F) (mat : Nat)
    (params : List (PBRTParameter F)) : M F Unit := do
  modify_material mat (fun m => { m with kd := vconst Y (1/2), rs := Y.lit 1 })
  set_kd Y params mat

/-- Source: `parse_material_uber`. -/
def parse_material_uber {F : Type} (Y : Ext F) (mat : Nat)
    (params : List (PBRTParameter F)) : M F Unit := do
  modify_material mat (fun m =>
    { m with kd := vconst Y (1/4), ks := vconst Y (1/4), kr := vconst Y 0, rs := Y.lit (1/100) })
  set_kd Y params mat
  set_ks Y params mat
  set_kr Y params mat
  set_roughness Y params mat

/-- Source: `parse_material_translucent`. -/
def parse_material_translucent {F : Type} (Y : Ext F) (mat : Nat)
    (params : List (PBRTParameter F)) : M F Unit := do
  modify_material mat (fun m =>
    { m with
      kd := vconst Y (1/4), ks := vconst Y (1/4), kr := vconst Y (1/2), kt := vconst Y (1/2),
      rs := Y.lit (1/10) })
  set_kr Y params mat
  set_kd Y params mat
  set_ks Y params mat
  set_kt Y params mat
  set_roughness Y params mat

/-- Source: `parse_material_metal`. -/
def parse_material_metal {F : Type} (Y : Ext F) (mat : Nat)
    (params : List (PBRTParameter F)) : M F Unit := do
  let eta : Vec3 F := vconst Y (1/2)
  let k : Vec3 F := vconst Y (1/2)
  modify_material mat (fun m => { m with rs := Y.lit (1/100) })
  let (eta, _etaTexture) ← (match find_param "eta" params with
    | some i => do
      let p ← param_at params i
      set_k_property Y p eta none
    | none => pure (eta, none))
  let (k, _kTexture) ← (match find_param "k" params with
    | some i => do
      let p ← param_at params i
      set_k_property Y p k none
    | none => pure (k, none))
  set_roughness Y params mat
  modify_material mat (fun m => { m with ks := Y.fresnel_metal (Y.lit 1) eta k })

/-- Source: `parse_material_mirror`. -/
def parse_material_mirror {F : Type} (Y : Ext F) (mat : Nat)
    (params : List (PBRTParameter F)) : M F Unit := do
  modify_material mat (fun m => { m with kr := vconst Y (9/10), rs := Y.lit 0 })
  set_kr Y params mat

/-- Source: `parse_material_plastic`. -/
def parse_material_plastic {F : Type} (Y : Ext F) (mat : Nat)
    (params : List (PBRTParameter F)) : M F Unit := do
  modify_material mat (fun m =>
    { m with kd := vconst Y (1/4), ks := vconst Y (1/4), rs := Y.lit (1/10) })
  set_kd Y params mat
  set_ks Y params mat

/-- Source: `parse_material_substrate`. -/
def parse_material_substrate {F : Type} (Y : Ext F) (mat : Nat)
    (params : List (PBRTParameter F)) : M F Unit := do
  modify_material mat (fun m =>
    { m with kd := vconst Y (1/2), ks := vconst Y (1/2), rs := Y.lit 0 })
  set_kd Y params mat
  set_ks Y params mat

/-- Source: `parse_material_glass`. -/
def parse_material_glass {F : Type} (Y : Ext F) (mat : Nat)
    (params : List (PBRTParameter F)) : M F Unit := do
  modify_material mat (fun m =>
    { m with ks := vconst Y (1/25), kt := vconst Y 1, rs := Y.lit (1/10) })
  set_ks Y params mat
  set_kt Y params mat

/-- The pixels of a texture given by pointer, as `TextureSupport` reads them;
a null pointer has none. -/
def texture_images {F : Type} (txt : Option Nat) : M F (Image F × Image F) :=
  match txt with
  | none => pure (.empty, .empty)
  | some r => do
    let t ← get_texture r
    pure (t.ldr, t.hdr)

/-- Source: `blend_textures`. -/
def blend_textures {F : Type} (txt1 txt2 : Option Nat) (amount : F) : M F (Option Nat) := do
  let ts1 ← texture_images txt1
  let ts2 ← texture_images txt2
  let img : Option (Image F) :=
    match txt1, txt2 with
    | none, none => none
    | none, some _ => some (.scaleSingle ts2.1 ts2.2 amount)
    | some _, none => some (.scaleSingle ts1.1 ts1.2 amount)
    | some _, some _ => some (.blend ts1.1 ts1.2 ts2.1 ts2.2 amount)
  match img with
  | none => pure none
  | some ldr => do
    let name ← get_unique_id CounterID.texture
    let textureSavePath ← get_textureSavePath
    let txt ← alloc_texture
      { name := name, path := textureSavePath ++ "/" ++ name ++ ".png", ldr := ldr, hdr := .empty }
    add_texture txt
    pure (some txt)

/-- The expression `(1 - amount) * b + amount * a` on vectors. -/
def mix_vec {F : Type} (Y : Ext F) (amount : F) (a b : Vec3 F) : Vec3 F :=
  vadd Y (smul Y (Y.sub (Y.lit 1) amount) b) (smul Y amount a)

/-- Source: `parse_material_mix`. -/
def parse_material_mix {F : Type} (Y : Ext F) (mat : Nat)
    (params : List (PBRTParameter F)) : M F Unit := do
  let amount ← (match find_param "amount" params with
    | some i => do
      let p ← param_at params i
      get_first_float p
    | none => pure (Y.lit (1/2)))
  let m1 ← (match find_param "namedmaterial1" params with
    | some i => do
      let p ← param_at params i
      get_first_string p
    | none => throw_syntax_exception "Missing namedmaterial1.")
  let m2 ← (match find_param "namedmaterial2" params with
    | some i => do
      let p ← param_at params i
      get_first_string p
    | none => throw_syntax_exception "Missing namedmaterial2.")
  let d1 ← material_lookup m1 false
  let dm1 ← get_declared d1
  let d2 ← material_lookup m2 false
  let dm2 ← get_declared d2
  let mat1 ← get_material dm1.mat
  let mat2 ← get_material dm2.mat
  -- blend vectors
  modify_material mat (fun m =>
    { m with
      kd := mix_vec Y amount mat1.kd mat2.kd
      kr := mix_vec Y amount mat1.kr mat2.kr
      ks := mix_vec Y amount mat1.ks mat2.ks
      kt := mix_vec Y amount mat1.kt mat2.kt
      rs := Y.add (Y.mul (Y.sub (Y.lit 1) amount) mat2.rs) (Y.mul amount mat1.rs) })
  -- blend textures
  let kd_txt ← blend_textures mat1.kd_txt mat2.kd_txt amount
  modify_material mat (fun m => { m with kd_txt := kd_txt })
  let kr_txt ← blend_textures mat1.kr_txt mat2.kr_txt amount
  modify_material mat (fun m => { m with kr_txt := kr_txt })
  let ks_txt ← blend_textures mat1.ks_txt mat2.ks_txt amount
  modify_material mat (fun m => { m with ks_txt := ks_txt })
  let kt_txt ← blend_textures mat1.kt_txt mat2.kt_txt amount
  modify_material mat (fun m => { m with kt_txt := kt_txt })
  let rs_txt ← blend_textures mat1.rs_txt mat2.rs_txt amount
  modify_material mat (fun m => { m with rs_txt := rs_txt })
  let bump_txt ← blend_textures mat1.bump_txt mat2.bump_txt amount
  modify_material mat (fun m => { m with bump_txt := bump_txt })
  let disp_txt ← blend_textures mat1.disp_txt mat2.disp_txt amount
  modify_material mat (fun m => { m with disp_txt := disp_txt })
  let norm_txt ← blend_textures mat1.norm_txt mat2.norm_txt amount
  modify_material mat (fun m => { m with norm_txt := norm_txt })
  modify_material mat (fun m =>
    { m with op := Y.add (Y.mul mat1.op amount) (Y.mul mat2.op (Y.sub (Y.lit 1) amount)) })

/-- The dispatch of `execute_Material` on the class of the material. -/
def parse_material_class {F : Type} (Y : Ext F) (materialType : String) (mat : Nat)
    (params : List (PBRTParameter F)) : M F Unit :=
  if materialType = "matte" then parse_material_matte Y mat params
  else if materialType = "metal" then parse_material_metal Y mat params
  else if materialType = "mix" then parse_material_mix Y mat params
  else if materialType = "plastic" then parse_material_plastic Y mat params
  else if materialType = "mirror" then parse_material_mirror Y mat params
  else if materialType = "uber" then parse_material_uber Y mat params
  else if materialType = "translucent" then parse_material_translucent Y mat params
  else if materialType = "glass" then parse_material_glass Y mat params
  else if materialType = "substrate" then parse_material_substrate Y mat params
  else parse_material_matte Y mat params

/-- Source: `execute_Material`, after the declared material `dmat` and its
material `mat` have been allocated. -/
def define_material {F : Type} (Y : Ext F) (namedMaterial : Bool) (mat dmat : Nat) :
    M F Unit := do
  let t ← current_token
  let (materialName, materialType) ← (if namedMaterial then do
      throw_if (t.type ≠ LexemeType.STRING) "Expected material name as string."
      let g ← getG
      throw_if ((mapFind g.nameToMaterial t.value).isSome)
        "A material with the specified name already exists."
      advance
      pure (t.value, "")
    else do
      throw_if (t.type ≠ LexemeType.STRING) "Expected material type as a string."
      advance
      pure ("", t.value))
  let params ← parse_parameters Y []
  let materialType ← (if namedMaterial then
      match find_param "type" params with
      | none => throw_syntax_exception "Expected type of named material."
      | some i => do
        let p ← param_at params i
        get_first_string p
    else pure materialType)
  -- bump is common to every material
  match find_param "bump" params with
  | some i => do
    let p ← param_at params i
    let txtName ← get_first_string p
    let dbump ← texture_lookup txtName true
    modify_material mat (fun m => { m with bump_txt := some dbump.txt })
    set_uvscale dbump.uscale dbump.vscale
  | none => pure ()
  parse_material_class Y materialType mat params
  if namedMaterial then insert_named_material materialName dmat
  else bind_material dmat

/-- Source: `execute_Material`. -/
def execute_Material {F : Type} (Y : Ext F) (namedMaterial : Bool) : M F Unit := do
  advance
  let mName ← get_unique_id CounterID.material
  let (mat, dmat) ← new_declared_material { Y.new_material with name := mName }
  define_material Y namedMaterial mat dmat

/-- Source: `execute_NamedMaterial`. -/
def execute_NamedMaterial {F : Type} : M F Unit := do
  advance
  let t ← current_token
  throw_if (t.type ≠ LexemeType.STRING) "Expected material name string."
  let materialName := t.value
  advance
  let g ← getG
  match mapFind g.nameToMaterial materialName with
  | none => throw_syntax_exception "No material with the specified name."
  | some d => bind_material d

/-! ## Textures -/

/-- The value of an optional parameter read with `get_first_value<float>`. -/
def float_param {F : Type} (name : String) (params : List (PBRTParameter F)) (dflt : F) :
    M F F :=
  match find_param name params with
  | some i => do
    let p ← param_at params i
    get_first_float p
  | none => pure dflt

/-- Source: `parse_imagemap_texture`. -/
def parse_imagemap_texture {F : Type} (Y : Ext F) (dt : DeclaredTexture F) :
    M F (DeclaredTexture F) := do
  let params ← parse_parameters Y []
  let uscale ← float_param "uscale" params dt.uscale
  let vscale ← float_param "vscale" params dt.vscale
  let filename ← (match find_param "filename" params with
    | some i => do
      let p ← param_at params i
      get_first_string p
    | none => throw_syntax_exception "No texture filename provided.")
  let uscale := if Y.lt uscale (Y.lit 1) then Y.lit 1 else uscale
  let vscale := if Y.lt vscale (Y.lit 1) then Y.lit 1 else vscale
  load_texture Y dt.txt filename Y.load_texture_flip
  pure { dt with uscale := uscale, vscale := vscale }

/-- Source: `parse_constant_texture`. -/
def parse_constant_texture {F : Type} (Y : Ext F) (dt : DeclaredTexture F) :
    M F (DeclaredTexture F) := do
  let params ← parse_parameters Y []
  let value ← (match find_param "value" params with
    | some i => do
      let p ← param_at params i
      if p.type = "float" then do
        let v ← get_first_float p
        pure (⟨v, v, v⟩ : Vec3 F)
      else get_first_vec3 p
    | none => pure (vconst Y 1))
  modify_texture dt.txt (fun t => { t with ldr := .constantV value })
  pure dt

/-- The colour of a checker: the block on `tex1` or `tex2` in
`parse_checkerboard_texture`. -/
def checker_colour {F : Type} (name : String) (params : List (PBRTParameter F))
    (dflt : Vec4 F) : M F (Vec4 F) :=
  match find_param name params with
  | some i => do
    let p ← param_at params i
    if p.type = "float" then do
      let v ← get_first_float p
      pure { dflt with x := v, y := v, z := v }
    else do
      let v ← get_first_vec3 p
      pure { dflt with x := v.x, y := v.y, z := v.z }
  | none => pure dflt

/-- Source: `parse_checkerboard_texture`. -/
def parse_checkerboard_texture {F : Type} (Y : Ext F) (dt : DeclaredTexture F) :
    M F (DeclaredTexture F) := do
  let params ← parse_parameters Y []
  let uscale ← float_param "uscale" params dt.uscale
  let vscale ← float_param "vscale" params dt.vscale
  let tex1 ← checker_colour "tex1" params ⟨Y.lit 0, Y.lit 0, Y.lit 0, Y.lit 255⟩
  let tex2 ← checker_colour "tex2" params ⟨Y.lit 1, Y.lit 1, Y.lit 1, Y.lit 255⟩
  -- hack
  let uscale := if Y.lt uscale (Y.lit 0) then Y.lit 1 else uscale
  let vscale := if Y.lt vscale (Y.lit 0) then Y.lit 1 else vscale
  modify_texture dt.txt (fun t => { t with ldr := .checker 128 128 64 tex1 tex2 })
  pure { dt with uscale := uscale, vscale := vscale }

/-- The texture an argument `tex1` or `tex2` of a scale texture stands for: a
declared texture, or a constant image.  `none` is the case that the source
rejects as a type not recognised. -/
def scale_operand {F : Type} (p : PBRTParameter F) : M F (Option (Image F × Image F)) :=
  if p.type = "texture" then do
    let name ← get_first_string p
    let dt ← texture_lookup name false
    let t ← get_texture dt.txt
    pure (some (t.ldr, t.hdr))
  else if p.type = "float" then do
    let v ← get_first_float p
    pure (some (.constantF v, .empty))
  else if p.type = "rgb" then do
    let v ← get_first_vec3 p
    pure (some (.constantV v, .empty))
  else pure none

/-- Source: `parse_scale_texture`. -/
def parse_scale_texture {F : Type} (Y : Ext F) (dt : DeclaredTexture F) :
    M F (DeclaredTexture F) := do
  let params ← parse_parameters Y []
  match find_param "tex1" params with
  | none => throw_syntax_exception "Impossible to create scale texture, missing tex1."
  | some i_tex1 => do
    let p1 ← param_at params i_tex1
    let o1 ← scale_operand p1
    match o1 with
    | none =>
      throw_syntax_exception "Texture argument 'tex1' type not recognised in scale texture."
    | some ts1 =>
      match find_param "tex2" params with
      | none => throw_syntax_exception "Impossible to create scale texture, missing tex2."
      | some i_tex2 => do
        let p2 ← param_at params i_tex2
        let o2 ← scale_operand p2
        match o2 with
        | none =>
          throw_syntax_exception "Texture argument 'tex2' type not recognised in scale texture."
        | some ts2 => do
          modify_texture dt.txt (fun t => { t with ldr := .product ts1.1 ts1.2 ts2.1 ts2.2 })
          let uscale ← float_param "uscale" params dt.uscale
          let vscale ← float_param "vscale" params dt.vscale
          pure { dt with uscale := uscale, vscale := vscale }

/-- Source: `execute_Texture`.  A new declared texture has the scales `1`. -/
def execute_Texture {F : Type} (Y : Ext F) : M F Unit := do
  advance
  let name ← get_unique_id CounterID.texture
  let textureSavePath ← get_textureSavePath
  let txt ← alloc_texture
    { name := name, path := textureSavePath ++ "/" ++ name ++ ".png", ldr := .empty, hdr := .empty }
  let dt : DeclaredTexture F := { txt := txt, uscale := Y.lit 1, vscale := Y.lit 1 }
  let t ← current_token
  throw_if (t.type ≠ LexemeType.STRING) "Expected texture name string."
  let textureName := t.value
  erase_named_texture textureName
  advance
  let t ← current_token
  throw_if (t.type ≠ LexemeType.STRING) "Expected texture type string."
  let textureType := check_synonyms t.value
  throw_if (textureType ≠ "spectrum" ∧ textureType ≠ "rgb" ∧ textureType ≠ "float")
    ("Unsupported texture base type: " ++ textureType)
  advance
  let t ← current_token
  throw_if (t.type ≠ LexemeType.STRING) "Expected texture class string."
  let textureClass := t.value
  advance
  let dt ← (if textureClass = "imagemap" then parse_imagemap_texture Y dt
    else if textureClass = "checkerboard" then parse_checkerboard_texture Y dt
    else if textureClass = "constant" then parse_constant_texture Y dt
    else if textureClass = "scale" then parse_scale_texture Y dt
    else throw_syntax_exception ("Texture class not supported: " ++ textureClass))
  insert_named_texture textureName dt

/-! ## The dispatchers -/

/-- Source: `execute_world_directive`.  The fuel bounds the depth of the
recursion through object blocks and the rounds of their loops. -/
def execute_world_directive {F : Type} (Y : Ext F) : Nat → M F Unit
  | 0 => raise .timeout
  | fuel + 1 => do
    let t ← current_token
    throw_if (t.type ≠ LexemeType.IDENTIFIER)
      ("Identifier expected, got " ++ t.value ++ " instead.")
    if t.value = "Include" then execute_Include Y
    else if t.value = "Translate" then execute_Translate Y
    else if t.value = "Transform" then execute_Transform Y
    else if t.value = "ConcatTransform" then execute_ConcatTransform Y
    else if t.value = "Scale" then execute_Scale Y
    else if t.value = "Rotate" then execute_Rotate Y
    else if t.value = "LookAt" then execute_LookAt Y
    else if t.value = "AttributeBegin" then execute_AttributeBegin
    else if t.value = "TransformBegin" then execute_TransformBegin
    else if t.value = "AttributeEnd" then execute_AttributeEnd
    else if t.value = "TransformEnd" then execute_TransformEnd
    else if t.value = "Shape" then execute_Shape Y
    else if t.value = "ObjectBegin" then
      execute_ObjectBlock (execute_world_directive Y fuel) fuel
    else if t.value = "ObjectInstance" then execute_ObjectInstance Y
    else if t.value = "LightSource" then execute_LightSource Y
    else if t.value = "AreaLightSource" then execute_AreaLightSource Y
    else if t.value = "Material" then execute_Material Y false
    else if t.value = "MakeNamedMaterial" then execute_Material Y true
    else if t.value = "NamedMaterial" then execute_NamedMaterial
    else if t.value = "Texture" then execute_Texture Y
    else ignore_current_directive

/-- Source: `execute_world_directives`. -/
def execute_world_directives {F : Type} (Y : Ext F) (fuel : Nat) : M F Unit := do
  modifyCTM (fun _ => Y.identity_mat4f)
  advance
  directive_loop "WorldEnd" (execute_world_directive Y fuel) fuel

/-- The body of the loop of `execute_preworld_directives`. -/
def execute_preworld_directive {F : Type} (Y : Ext F) : M F Unit := do
  let t ← current_token
  throw_if (t.type ≠ LexemeType.IDENTIFIER)
    ("Identifier expected, got " ++ t.value ++ " instead.")
  if t.value = "Camera" then execute_Camera Y
  else if t.value = "Film" then execute_Film Y
  else if t.value = "Include" then execute_Include Y
  else if t.value = "Translate" then execute_Translate Y
  else if t.value = "Transform" then execute_Transform Y
  else if t.value = "ConcatTransform" then execute_ConcatTransform Y
  else if t.value = "Scale" then execute_Scale Y
  else if t.value = "Rotate" then execute_Rotate Y
  else if t.value = "LookAt" then execute_LookAt Y
  else ignore_current_directive

/-- Source: `execute_preworld_directives`. -/
def execute_preworld_directives {F : Type} (Y : Ext F) (fuel : Nat) : M F Unit :=
  directive_loop "WorldBegin" (execute_preworld_directive Y) fuel

/-- Source: `PBRTParser::parse`; the scene is read off the final state. -/
def parse {F : Type} (Y : Ext F) (fuel : Nat) : M F Unit := do
  advance
  execute_preworld_directives Y fuel
  execute_world_directives Y fuel

/-- Modelled from the spec: the state the constructor `PBRTParser(filename)`
leaves: one lexer on the file, an empty scene, no bound material, no area
light, empty stacks and registries, counters at zero.  The defaults of the
absent header (aspect, focus, save path) are arguments. -/
def initial_state {F : Type} (Y : Ext F) (lexemes : List Lexeme) (dir : String)
    (defaultAspect defaultFocus : F) (textureSavePath : String) : PState F :=
  { lexers := [⟨Lexeme.none, lexemes, dir⟩]
    scn := ⟨[], [], [], [], [], []⟩
    gState :=
      { CTM := Y.identity_mat4f, mat := none, nameToTexture := [], nameToMaterial := []
        areaLight := ⟨false, vconst Y 0, false⟩, uscale := Y.lit 1, vscale := Y.lit 1 }
    stateStack := []
    CTMStack := []
    inObjectDefinition := false
    shapesInObject := []
    nameToObject := []
    shapeCounter := 0
    shapeGroupCounter := 0
    instanceCounter := 0
    materialCounter := 0
    envCounter := 0
    textureCounter := 0
    defaultAspect := defaultAspect
    defaultFocus := defaultFocus
    textureSavePath := textureSavePath
    materialArena := []
    declaredArena := []
    textureArena := []
    groupArena := [] }

/-! ## Running the parser on a concrete input -/

/-- A lexeme of kind identifier. -/
def ident (v : String) : Lexeme := ⟨LexemeType.IDENTIFIER, v⟩

/-- A lexeme of kind string. -/
def str (v : String) : Lexeme := ⟨LexemeType.STRING, v⟩

/-- A lexeme of kind number. -/
def num (v : String) : Lexeme := ⟨LexemeType.NUMBER, v⟩

/-- The opening bracket. -/
def lbr : Lexeme := ⟨LexemeType.SINGLETON, "["⟩

/-- The closing bracket. -/
def rbr : Lexeme := ⟨LexemeType.SINGLETON, "]"⟩

/-- The lexeme stream of the minimal scene of the spec, with the parameter
headers in the form `"<type> <name>"`. -/
def minimal_scene : List Lexeme :=
  [ ident "Camera", str "perspective", str "float fov", lbr, num "60", rbr,
    ident "WorldBegin",
    ident "Material", str "matte", str "rgb Kd", lbr, num "0.5", num "0.5", num "0.5", rbr,
    ident "Shape", str "trianglemesh",
    str "point3 P", lbr, num "0", num "0", num "0", num "1", num "0", num "0",
    num "0", num "1", num "0", rbr,
    str "integer indices", lbr, num "0", num "1", num "2", rbr,
    ident "WorldEnd" ]

/-- The digits of a decimal numeral, read from the left: the value read so
far and the rest of the text. -/
def read_digits : List Char → Nat → Nat × List Char
  | [], n => (n, [])
  | c :: cs, n =>
    if c.isDigit then read_digits cs (n * 10 + (c.toNat - 48)) else (n, c :: cs)

/-- The digits after the decimal point: numerator and denominator. -/
def read_fraction : List Char → Nat → Nat → Nat × Nat
  | [], n, d => (n, d)
  | c :: cs, n, d =>
    if c.isDigit then read_fraction cs (n * 10 + (c.toNat - 48)) (d * 10) else (n, d)

/-- The value of a decimal numeral without exponent, as a rational. -/
def atof_rat (s : String) : Rat :=
  let cs := s.data
  let signed : Bool × List Char :=
    match cs with
    | '-' :: r => (true, r)
    | '+' :: r => (false, r)
    | _ => (false, cs)
  let ip := read_digits signed.2 0
  let nd : Nat × Nat :=
    match ip.2 with
    | '.' :: r => read_fraction r ip.1 1
    | _ => (ip.1, 1)
  let v : Rat := mkRat (nd.1 : Int) nd.2
  if signed.1 then -v else v

/-- The product of a matrix and a vector. -/
def mulVec (m : Mat4 Rat) (v : Vec4 Rat) : Vec4 Rat :=
  ⟨m.x.x * v.x + m.y.x * v.y + m.z.x * v.z + m.w.x * v.w,
   m.x.y * v.x + m.y.y * v.y + m.z.y * v.z + m.w.y * v.w,
   m.x.z * v.x + m.y.z * v.y + m.z.z * v.z + m.w.z * v.w,
   m.x.w * v.x + m.y.w * v.y + m.z.w * v.z + m.w.w * v.w⟩

/-- The frame of the identity. -/
def identity_frame : Frame3 Rat := ⟨⟨1, 0, 0⟩, ⟨0, 1, 0⟩, ⟨0, 0, 1⟩, ⟨0, 0, 0⟩⟩

/-- A unit quad, in the place of the meshes of the library. -/
def unit_quad : MeshData Rat :=
  ⟨[⟨0, 1, 2, 3⟩], [⟨0, 0, 0⟩, ⟨1, 0, 0⟩, ⟨1, 1, 0⟩, ⟨0, 1, 0⟩], [], []⟩

/-- An instance of the external functions over the rationals, on which the
parser can be run on concrete inputs.  The arithmetic is exact and there are
no files; the functions that need square roots, trigonometry, a matrix
inverse or a file are replaced by simple total functions.  The theorems
below that are stated for an arbitrary `Ext` do not depend on it. -/
def testExt : Ext Rat :=
  { lit := fun r => r
    atof := atof_rat
    ofInt := fun n => (n : Rat)
    add := fun a b => a + b
    sub := fun a b => a - b
    mul := fun a b => a * b
    div := fun a b => a / b
    neg := fun a => -a
    lt := fun a b => decide (a < b)
    pif := 355 / 113
    cross := fun a b =>
      ⟨a.y * b.z - a.z * b.y, a.z * b.x - a.x * b.z, a.x * b.y - a.y * b.x⟩
    normalize := fun a => a
    length := fun a => a.x * a.x + a.y * a.y + a.z * a.z
    identity_mat4f := ⟨⟨1, 0, 0, 0⟩, ⟨0, 1, 0, 0⟩, ⟨0, 0, 1, 0⟩, ⟨0, 0, 0, 1⟩⟩
    mat_mul := fun a b => ⟨mulVec a b.x, mulVec a b.y, mulVec a b.z, mulVec a b.w⟩
    inverse := fun a => a
    frame_to_mat := fun f =>
      ⟨⟨f.x.x, f.x.y, f.x.z, 0⟩, ⟨f.y.x, f.y.y, f.y.z, 0⟩, ⟨f.z.x, f.z.y, f.z.z, 0⟩,
       ⟨f.o.x, f.o.y, f.o.z, 1⟩⟩
    mat_to_frame := fun m =>
      ⟨⟨m.x.x, m.x.y, m.x.z⟩, ⟨m.y.x, m.y.y, m.y.z⟩, ⟨m.z.x, m.z.y, m.z.z⟩,
       ⟨m.w.x, m.w.y, m.w.z⟩⟩
    translation_frame := fun v => { identity_frame with o := v }
    scaling_frame := fun v => ⟨⟨v.x, 0, 0⟩, ⟨0, v.y, 0⟩, ⟨0, 0, v.z⟩, ⟨0, 0, 0⟩⟩
    rotation_frame := fun _ _ => identity_frame
    lookat_frame := fun eye _ _ => { identity_frame with o := eye }
    fresnel_metal := fun _ eta _ => eta
    make_uvcube := fun _ => unit_quad
    make_uvspherizedcube := fun _ _ => unit_quad
    new_material :=
      { name := "", double_sided := false, ke := ⟨0, 0, 0⟩, kd := ⟨0, 0, 0⟩, ks := ⟨0, 0, 0⟩,
        kr := ⟨0, 0, 0⟩, kt := ⟨0, 0, 0⟩, rs := 1 / 10000, op := 1, kd_txt := none,
        ks_txt := none, kr_txt := none, kt_txt := none, rs_txt := none, bump_txt := none,
        disp_txt := none, norm_txt := none }
    path_extension := fun _ => ".png"
    path_basename := fun f => f
    concatenate_paths := fun a b => a ++ "/" ++ b
    open_lexer := fun _ => none
    load_spectrum_from_file := fun _ => none
    spectrum_to_rgb := fun _ => ⟨1, 1, 1⟩
    blackbody_to_rgb := fun _ _ => ⟨1, 1, 1⟩
    parse_ply := fun _ _ => none
    load_texture_flip := true }

/-- The state of a parser of `testExt` on a list of lexemes. -/
def test_state (lexemes : List Lexeme) : PState Rat :=
  initial_state testExt lexemes "." 1 1 "textures"

/-- Everything a run of the parser depends on besides the lexemes: the
carrier of `float`, the external functions, the defaults of the constructor
and a surplus of fuel. -/
structure World where
  F : Type
  Y : Ext F
  defaultAspect : F
  defaultFocus : F
  dir : String
  textureSavePath : String
  surplus : Nat

instance : Nonempty World := ⟨⟨Rat, testExt, 1, 1, ".", "textures", 0⟩⟩

/-- The state of the parser of a world on a list of lexemes. -/
def World.start (w : World) (lexemes : List Lexeme) : PState w.F :=
  initial_state w.Y lexemes w.dir w.defaultAspect w.defaultFocus w.textureSavePath

/-! ## Properties that every directive inherits from the operations on the state -/

/-- The updates of the state, by the part of the state they write. -/
inductive Effect where
  | lexer_push
  | counters
  | ctm
  | uvscale
  | area_light
  | named_materials
  | bound_material
  | named_textures
  | focus
  | aspect
  | cameras
  | scene_shapes
  | instances
  | scene_textures
  | environments
  | material_write
  | material_new
  | texture_new
  | texture_write
  | group_new
  | object_begin
  | object_end
  | capture
  | object_store
  | object_mark
  | publish_declared
  | publish_new
  | attr_push
  | attr_pop
  | ctm_push
  | ctm_pop
  deriving DecidableEq, Repr

/-- A property of computations that holds of the reads of the state, of
`advance`, and of those updates of the state whose effect is in `A`, and that
is passed on by sequencing. -/
structure Respects {F : Type} (A : Effect → Prop) (P : ∀ {α : Type}, M F α → Prop) : Prop where
  pure : ∀ {α : Type} (a : α), P (pure a : M F α)
  bind : ∀ {α β : Type} (m : M F α) (f : α → M F β), P m → (∀ a, P (f a)) → P (m >>= f)
  raise : ∀ {α : Type} (e : Err), P (raise e : M F α)
  bound : ∀ {α : Type} (loop : Nat → M F α), (∀ n, P (loop n)) → P (with_lexeme_bound loop)
  advance : P (advance : M F Unit)
  current_token : P (current_token : M F Lexeme)
  current_path : P (current_path : M F String)
  getG : P (getG : M F (GraphicsState F))
  get_defaults : P (get_defaults : M F (F × F))
  get_textureSavePath : P (get_textureSavePath : M F String)
  get_scene : P (get_scene : M F (Scene F))
  get_material : ∀ r, P (get_material r : M F (Material F))
  get_declared : ∀ r, P (get_declared r : M F DeclaredMaterial)
  get_texture : ∀ r, P (get_texture r : M F (Texture F))
  get_inObjectDefinition : P (get_inObjectDefinition : M F Bool)
  lookup_object : ∀ n, P (lookup_object n : M F (Option (DeclaredObject F)))
  push_lexer : A Effect.lexer_push → ∀ lx, P (push_lexer lx : M F Unit)
  get_unique_id : A Effect.counters → ∀ id, P (get_unique_id id : M F String)
  modifyCTM : A Effect.ctm → ∀ f, P (modifyCTM f : M F Unit)
  set_uvscale : A Effect.uvscale → ∀ u v, P (set_uvscale u v : M F Unit)
  set_areaLight : A Effect.area_light → ∀ al, P (set_areaLight al : M F Unit)
  insert_named_material : A Effect.named_materials → ∀ n d, P (insert_named_material n d : M F Unit)
  bind_material : A Effect.bound_material → ∀ d, P (bind_material d : M F Unit)
  erase_named_texture : A Effect.named_textures → ∀ n, P (erase_named_texture n : M F Unit)
  insert_named_texture : A Effect.named_textures → ∀ n dt, P (insert_named_texture n dt : M F Unit)
  set_defaultFocus : A Effect.focus → ∀ v, P (set_defaultFocus v : M F Unit)
  set_aspect : A Effect.aspect → ∀ v, P (set_aspect v : M F Unit)
  add_camera : A Effect.cameras → ∀ c, P (add_camera c : M F Unit)
  add_group : A Effect.scene_shapes → ∀ g, P (add_group g : M F Unit)
  add_instance : A Effect.instances → ∀ i, P (add_instance i : M F Unit)
  add_texture : A Effect.scene_textures → ∀ t, P (add_texture t : M F Unit)
  add_environment : A Effect.environments → ∀ e, P (add_environment e : M F Unit)
  modify_material : A Effect.material_write → ∀ r f, P (modify_material r f : M F Unit)
  new_declared_material : A Effect.material_new → ∀ m, P (new_declared_material m : M F (Nat × Nat))
  alloc_texture : A Effect.texture_new → ∀ t, P (alloc_texture t : M F Nat)
  modify_texture : A Effect.texture_write → ∀ r f, P (modify_texture r f : M F Unit)
  alloc_group : A Effect.group_new → ∀ g, P (alloc_group g : M F Nat)
  begin_object : A Effect.object_begin → P (begin_object : M F Unit)
  end_object : A Effect.object_end → P (end_object : M F Unit)
  capture_group : A Effect.capture → ∀ g, P (capture_group g : M F Unit)
  store_object : A Effect.object_store → ∀ n, P (store_object n : M F Unit)
  mark_object_added : A Effect.object_mark → ∀ n o, P (mark_object_added n o : M F Unit)
  add_declared_to_scene : A Effect.publish_declared → ∀ d, P (add_declared_to_scene d : M F Nat)
  new_scene_material : A Effect.publish_new → ∀ m, P (new_scene_material m : M F Nat)
  push_attributes : A Effect.attr_push → P (push_attributes : M F Unit)
  pop_attributes : A Effect.attr_pop → P (pop_attributes : M F Unit)
  push_transform : A Effect.ctm_push → P (push_transform : M F Unit)
  pop_transform : A Effect.ctm_pop → P (pop_transform : M F Unit)

/-! ## Statements about runs of the parser -/

/-- The state of the test parser when it has read the first lexeme of the
input: the state in which the directive that lexeme names is executed. -/
def at_directive (lexemes : List Lexeme) : PState Rat :=
  (advance (test_state lexemes)).state

/-- Every successful run of the computation takes a state to a state related
to it. -/
def Rel {F α : Type} (R : PState F → PState F → Prop) (m : M F α) : Prop :=
  ∀ s a s', m s = .ok a s' → R s s'

/-- The scene, the graphics state and the number of texture records are the
same in both states. -/
def SameScene {F : Type} (s s' : PState F) : Prop :=
  s'.scn = s.scn ∧ s'.gState = s.gState ∧ s'.textureArena.length = s.textureArena.length

/-- The minimal scene is parsed: the run succeeds, and the scene has one
camera, one material, one shape group of one mesh with three positions and the
triangle `(0, 1, 2)`, and one instance of that group whose frame is the frame
of the identity matrix. -/
def minimal_scene_parsed (w : World) : Prop :=
  (parse w.Y (w.surplus + 3) (w.start minimal_scene)).isOk = true ∧
    (parse w.Y (w.surplus + 3) (w.start minimal_scene)).state.scn.cameras.length = 1 ∧
    (parse w.Y (w.surplus + 3) (w.start minimal_scene)).state.scn.materials = [0] ∧
    (parse w.Y (w.surplus + 3) (w.start minimal_scene)).state.scn.shapes = [0] ∧
    (parse w.Y (w.surplus + 3) (w.start minimal_scene)).state.groupArena.map
        (fun g => g.shapes.map (fun sh => (sh.mat, sh.pos.length, sh.triangles))) =
      [[(some 0, 3, [⟨0, 1, 2⟩])]] ∧
    (parse w.Y (w.surplus + 3) (w.start minimal_scene)).state.scn.instances.map
        (fun i => (i.shp, i.frame)) =
      [(some 0, w.Y.mat_to_frame w.Y.identity_mat4f)]

/-- The state with more saved graphics states below those of its attribute
stack. -/
def under {F : Type} (B : List (GraphicsState F)) (s : PState F) : PState F :=
  { s with stateStack := B ++ s.stateStack }

/-- A computation that succeeds from a state does the same from the state with
more saved graphics states below its attribute stack, and leaves them there. -/
def Framed {F : Type} (B : List (GraphicsState F)) {α : Type} (m : M F α) : Prop :=
  ∀ s a s', m s = .ok a s' → m (under B s) = .ok a (under B s')

/-- Source: the rounds of the loop of `execute_world_directives`: `n` world
directives, one after the other. -/
def world_directive_seq {F : Type} (Y : Ext F) (fuel : Nat) : Nat → M F Unit
  | 0 => pure ()
  | n + 1 => do
    execute_world_directive Y fuel
    world_directive_seq Y fuel n

/-- The lexemes of a scope that moves the origin and binds a material in a
scope of its own. -/
def scope_lexemes : List Lexeme :=
  [ ident "AttributeBegin",
    ident "Translate", num "1", num "2", num "3",
    ident "AttributeBegin", ident "Material", str "matte", ident "AttributeEnd",
    ident "AttributeEnd", ident "WorldEnd" ]

/-- Source: `k` rounds of the loop of `execute_world_directives` in which the
directive is `ObjectInstance`: `k` calls of `execute_ObjectInstance`, one after
the other. -/
def object_instance_seq {F : Type} (Y : Ext F) : Nat → M F Unit
  | 0 => pure ()
  | k + 1 => do
    execute_ObjectInstance Y
    object_instance_seq Y k

/-- The lexemes that `k` directives `ObjectInstance` on the object `name` read:
for each directive the name, as a string, and the lexeme after it. -/
def instance_lexemes (name : String) (following : List Lexeme) : List Lexeme :=
  following.flatMap (fun t => [⟨LexemeType.STRING, name⟩, t])

/-- The shape group and the frame of the instances of the scene, in order. -/
def instance_refs {F : Type} (s : PState F) : List (Option Nat × Frame3 F) :=
  s.scn.instances.map (fun i => (i.shp, i.frame))

/-- The lexemes of an object of two cubes and two instances of it. -/
def object_scene : List Lexeme :=
  [ ident "ObjectBegin", str "o", ident "Shape", str "cube", ident "Shape", str "cube",
    ident "ObjectEnd",
    ident "ObjectInstance", str "o", ident "ObjectInstance", str "o", ident "WorldEnd" ]

/-- The state of the test parser after the object block of the scene of the
object: the state in which the first `ObjectInstance` runs. -/
def after_object_block : PState Rat :=
  (execute_world_directive testExt 5 (at_directive object_scene)).state

/-- The object the block of the scene of the object declares: its two shape
groups, the transform of the block, and the flag `addedInScene`, false. -/
def cube_object : DeclaredObject Rat :=
  ⟨[0, 1], after_object_block.gState.CTM, false⟩

/-- The lexemes that follow the name in the two directives `ObjectInstance` of
the scene of the object. -/
def instance_following : List Lexeme :=
  [ident "ObjectInstance", ident "WorldEnd"]

/-- The invariant of the lazy insertion of materials: the list of materials of
the scene has no material twice; its materials are allocated; the material of
every declared material is allocated and, as long as the flag `addedInScene`
is false, not in the list; and two declared materials have different
materials. -/
def MaterialInv {F : Type} (s : PState F) : Prop :=
  s.scn.materials.Nodup ∧
    (∀ m ∈ s.scn.materials, m < s.materialArena.length) ∧
    (∀ (d : Nat) (dm : DeclaredMaterial), s.declaredArena[d]? = some dm →
      dm.mat < s.materialArena.length ∧
        (dm.addedInScene = false → dm.mat ∉ s.scn.materials)) ∧
    (∀ (d d' : Nat) (dm dm' : DeclaredMaterial), s.declaredArena[d]? = some dm → s.declaredArena[d']? = some dm' →
      dm.mat = dm'.mat → d = d')

/-- The second state keeps the invariant of the materials if the first has it. -/
def KeepsMaterialInv {F : Type} (s s' : PState F) : Prop :=
  MaterialInv s → MaterialInv s'

/-- Nothing about the materials is published between the two states: the list
of materials of the scene, the declared materials and the number of materials
are the same. -/
def Quiet {F : Type} (s s' : PState F) : Prop :=
  s'.scn.materials = s.scn.materials ∧ s'.declaredArena = s.declaredArena ∧
    s'.materialArena.length = s.materialArena.length

/-- The effects of the directives that do not publish or allocate materials. -/
def quietEffects : List Effect :=
  [Effect.counters, Effect.uvscale, Effect.named_materials, Effect.bound_material,
    Effect.scene_textures, Effect.material_write, Effect.texture_new, Effect.scene_shapes,
    Effect.instances, Effect.group_new, Effect.capture]

/-- The materials only grow between the two states: the list of materials of
the scene is extended at its end, and every declared material is still there,
with the same material, and with the flag `addedInScene` set if it was set. -/
def MaterialsGrow {F : Type} (s s' : PState F) : Prop :=
  (∃ l, s'.scn.materials = s.scn.materials ++ l) ∧
    ∀ (d : Nat) (dm : DeclaredMaterial), s.declaredArena[d]? = some dm →
      ∃ dm', s'.declaredArena[d]? = some dm' ∧ dm'.mat = dm.mat ∧
        (dm.addedInScene = true → dm'.addedInScene = true)

/-- The lexemes of a scene in which four shapes use two materials: one bound
by `Material` and used in two scopes, one declared by `MakeNamedMaterial` and
bound by `NamedMaterial`. -/
def shared_material_scene : List Lexeme :=
  [ ident "WorldBegin",
    ident "Material", str "matte",
    ident "Shape", str "cube",
    ident "AttributeBegin", ident "Shape", str "cube", ident "AttributeEnd",
    ident "MakeNamedMaterial", str "m", str "string type", str "matte",
    ident "NamedMaterial", str "m",
    ident "Shape", str "cube",
    ident "Shape", str "cube",
    ident "WorldEnd" ]

/-- The lexemes of the scene `WorldBegin Material "matte"
Shape "cone" "float radius" [1] WorldEnd`, whose only shape has a class the
parser does not know. -/
def unknown_shape_scene : List Lexeme :=
  [ ident "WorldBegin",
    ident "Material", str "matte",
    ident "Shape", str "cone", str "float radius", lbr, num "1", rbr,
    ident "WorldEnd" ]

/-- The scene of the unknown shape is parsed, the material of the `Material`
directive is in the list of materials of the scene, and no shape group was ever
created: none in the scene, none captured for an object. -/
def unused_material_published (w : World) : Prop :=
  (parse w.Y (w.surplus + 3) (w.start unknown_shape_scene)).isOk = true ∧
    (parse w.Y (w.surplus + 3) (w.start unknown_shape_scene)).state.scn.materials = [0] ∧
    (parse w.Y (w.surplus + 3) (w.start unknown_shape_scene)).state.materialArena.length = 1 ∧
    (parse w.Y (w.surplus + 3) (w.start unknown_shape_scene)).state.groupArena.length = 0 ∧
    (parse w.Y (w.surplus + 3) (w.start unknown_shape_scene)).state.scn.shapes = [] ∧
    (parse w.Y (w.surplus + 3) (w.start unknown_shape_scene)).state.shapesInObject = [] ∧
    (parse w.Y (w.surplus + 3) (w.start unknown_shape_scene)).state.nameToObject.length = 0

/-- The state of the test parser after the lexemes `Shape "trianglemesh"` at
the head of the input: the state in which `parse_trianglemesh` runs. -/
def at_mesh_parameters (lexemes : List Lexeme) : PState Rat :=
  (advance (advance (at_directive (ident "Shape" :: str "trianglemesh" :: lexemes))).state).state

/-- The value of a parameter of a triangle mesh has the type the table of
parameters admits for its name: vectors for `P` and `N`, integers for
`indices`, floats for `uv`. -/
def MeshTyped {F : Type} (p : PBRTParameter F) : Prop :=
  (p.name = "P" → ∃ v, p.value = .vec3s v) ∧
    (p.name = "N" → ∃ v, p.value = .vec3s v) ∧
    (p.name = "indices" → ∃ v, p.value = .ints v) ∧
    (p.name = "uv" → ∃ v, p.value = .floats v)

/-- The index is within the bounds of a vector of `n` elements. -/
def index_ok (n : Nat) (i : Int) : Prop :=
  0 ≤ i ∧ i < (n : Int)

instance (n : Nat) (i : Int) : Decidable (index_ok n i) := by
  unfold index_ok
  infer_instance

/-- The parameters of the triangle of the minimal scene, as lexemes. -/
def triangle_lexemes : List Lexeme :=
  [ str "point3 P", lbr, num "0", num "0", num "0", num "1", num "0", num "0",
    num "0", num "1", num "0", rbr,
    str "integer indices", lbr, num "0", num "1", num "2", rbr,
    ident "WorldEnd" ]

/-- The parameters of the triangle of the minimal scene, parsed. -/
def triangle_params : List (PBRTParameter Rat) :=
  [ ⟨"point3", "P", .vec3s [⟨0, 0, 0⟩, ⟨1, 0, 0⟩, ⟨0, 1, 0⟩]⟩,
    ⟨"integer", "indices", .ints [0, 1, 2]⟩ ]

/-! ## The mix of two materials in exact arithmetic -/

/-- The external arithmetic on `float` is exact: the sum, the difference and
the product are those of a commutative ring, and the literal `1` is its
unit. -/
structure ExactArith {F : Type} [CommRing F] (Y : Ext F) : Prop where
  add : ∀ a b, Y.add a b = a + b
  sub : ∀ a b, Y.sub a b = a - b
  mul : ∀ a b, Y.mul a b = a * b
  one : Y.lit 1 = 1

/-- The blend of two numbers as the specification words it:
`amount * a + (1 - amount) * b`. -/
def spec_mix {F : Type} [CommRing F] (amount a b : F) : F :=
  amount * a + (1 - amount) * b

/-- The blend of two vectors as the specification words it, component by
component. -/
def spec_mix_vec {F : Type} [CommRing F] (amount : F) (a b : Vec3 F) : Vec3 F :=
  ⟨spec_mix amount a.x b.x, spec_mix amount a.y b.y, spec_mix amount a.z b.z⟩

/-- The pointers to textures a material holds. -/
def material_textures {F : Type} (m : Material F) : List (Option Nat) :=
  [m.kd_txt, m.kr_txt, m.ks_txt, m.kt_txt, m.rs_txt, m.bump_txt, m.disp_txt, m.norm_txt]

/-- The run of `m` from `s` returns, with a value and a state in `Q`. -/
def Total {F α : Type} (m : M F α) (s : PState F) (Q : α → PState F → Prop) : Prop :=
  ∃ a s', m s = .ok a s' ∧ Q a s'

/-- The state holds at least `n` textures and, at `mat`, a material in `P`. -/
def MixInv {F : Type} (n mat : Nat) (P : Material F → Prop) (s : PState F) : Prop :=
  n ≤ s.textureArena.length ∧ ∃ R, s.materialArena[mat]? = some R ∧ P R

/-- The lexemes of two named materials, `a` red and `b` blue. -/
def two_named_materials : List Lexeme :=
  [ident "MakeNamedMaterial", str "a", str "string type", str "matte",
    str "rgb Kd", lbr, num "1", num "0", num "0", rbr,
   ident "MakeNamedMaterial", str "b", str "string type", str "matte",
    str "rgb Kd", lbr, num "0", num "0", num "1", rbr,
   ident "WorldEnd"]

/-- The state after the two named materials, and the allocation of a third
material to fill. -/
def mix_state : PState Rat :=
  ((world_directive_seq testExt 5 2 >>= fun _ =>
    new_declared_material testExt.new_material) (at_directive two_named_materials)).state

/-- The parameters `"float amount" [0.25] "string namedmaterial1" "a"
"string namedmaterial2" "b"`. -/
def mix_params : List (PBRTParameter Rat) :=
  [⟨"float", "amount", .floats [1 / 4]⟩, ⟨"string", "namedmaterial1", .strings ["a"]⟩,
    ⟨"string", "namedmaterial2", .strings ["b"]⟩]

/-- The material of the name `a`. -/
def named_material_a : Material Rat :=
  { testExt.new_material with name := "m_0", kd := ⟨1, 0, 0⟩, rs := 1 }

/-- The material of the name `b`. -/
def named_material_b : Material Rat :=
  { testExt.new_material with name := "m_1", kd := ⟨0, 0, 1⟩, rs := 1 }

/-! ## Translations in exact arithmetic -/

/-- The product of a 4x4 matrix, stored by columns, and a vector, in exact
arithmetic. -/
def mat4_mul_vec {F : Type} [CommRing F] (m : Mat4 F) (v : Vec4 F) : Vec4 F :=
  ⟨m.x.x * v.x + m.y.x * v.y + m.z.x * v.z + m.w.x * v.w,
   m.x.y * v.x + m.y.y * v.y + m.z.y * v.z + m.w.y * v.w,
   m.x.z * v.x + m.y.z * v.y + m.z.z * v.z + m.w.z * v.w,
   m.x.w * v.x + m.y.w * v.y + m.z.w * v.z + m.w.w * v.w⟩

/-- The product of two 4x4 matrices in exact arithmetic: what `operator*` of
`ygl::mat4f` computes when no float is rounded. -/
def mat4_mul {F : Type} [CommRing F] (a b : Mat4 F) : Mat4 F :=
  ⟨mat4_mul_vec a b.x, mat4_mul_vec a b.y, mat4_mul_vec a b.z, mat4_mul_vec a b.w⟩

/-- The identity matrix. -/
def mat4_identity {F : Type} [CommRing F] : Mat4 F :=
  ⟨⟨1, 0, 0, 0⟩, ⟨0, 1, 0, 0⟩, ⟨0, 0, 1, 0⟩, ⟨0, 0, 0, 1⟩⟩

/-- The matrix `T(v)` of the translation by `v`: what
`ygl::frame_to_mat(ygl::translation_frame(v))` is. -/
def translation_mat {F : Type} [CommRing F] (v : Vec3 F) : Mat4 F :=
  ⟨⟨1, 0, 0, 0⟩, ⟨0, 1, 0, 0⟩, ⟨0, 0, 1, 0⟩, ⟨v.x, v.y, v.z, 1⟩⟩

/-- The external functions compute the transforms in exact arithmetic: the
product of matrices, the identity and the matrix of a translation are the
exact ones. -/
structure ExactTransforms {F : Type} [CommRing F] (Y : Ext F) : Prop where
  mat_mul : ∀ a b, Y.mat_mul a b = mat4_mul a b
  identity : Y.identity_mat4f = mat4_identity
  translation : ∀ v, Y.frame_to_mat (Y.translation_frame v) = translation_mat v

/-- The lexemes of `Translate 1 0 0 Translate -1 0 0` and of the identifier
after them. -/
def round_trip_lexemes : List Lexeme :=
  [ident "Translate", num "1", num "0", num "0",
    ident "Translate", num "-1", num "0", num "0", ident "WorldEnd"]

/-- The lexemes of the parameter `"point3 P" [0 0 0 1 0 0]` and of the
identifier after it. -/
def point_lexemes : List Lexeme :=
  [str "point3 P", lbr, num "0", num "0", num "0", num "1", num "0", num "0", rbr,
    ident "Shape"]

/-- The lexemes of the parameter `"spectrum Kd" [400 1 500 1]` and of the
identifier after it. -/
def spectrum_lexemes : List Lexeme :=
  [str "spectrum Kd", lbr, num "400", num "1", num "500", num "1", rbr, ident "Shape"]

/-- The lexemes of the parameter `"blackbody L" [6500 1]` and of the
identifier after it. -/
def blackbody_lexemes : List Lexeme :=
  [str "blackbody L", lbr, num "6500", num "1", rbr, ident "Shape"]

/-- The types of which `parse_parameter` can parse a value. -/
def supported_types : List String :=
  ["string", "texture", "float", "integer", "bool", "point3", "normal3", "rgb", "spectrum",
    "blackbody"]

/-- The lexemes a stack of lexers has not delivered yet, in the order of
delivery: those of the topmost lexer, then those of the lexers below. -/
def pending (ls : List Lexer) : List Lexeme :=
  ls.flatMap (fun l => l.rest)

/-- The lexemes that `n` successive calls of `advance` deliver: the current
lexeme after each call. -/
def deliver {F : Type} : Nat → M F (List Lexeme)
  | 0 => pure []
  | n + 1 => do
    advance
    let t ← current_token
    let rest ← deliver n
    pure (t :: rest)

/-- The state `execute_Include` reaches when it has put the lexer of the
included file on top of the stack, before its last `advance`: the lexer of the
includer, below, still has the name of the file as its current lexeme. -/
def included {F : Type} (s : PState F) (l : Lexer) (ls : List Lexer) (fname : String)
    (after inc : List Lexeme) (dir : String) : PState F :=
  { s with
    lexers := ⟨Lexeme.none, inc, dir⟩ ::
      { l with cur := ⟨LexemeType.STRING, fname⟩, rest := after } :: ls }

/-- The external functions of the tests, with two files that can be
included: one that holds a directive, one that is empty. -/
def includeExt : Ext Rat :=
  { testExt with
    open_lexer := fun f =>
      if f = "./inc.pbrt" then some ([ident "Translate", num "1", num "0", num "0"], ".")
      else if f = "./empty.pbrt" then some ([], ".")
      else none }

/-! ## The stack of lexers during a parse -/

/-- A run of the computation that starts on a stack of lexers that is not
empty ends on a stack that is not empty, unless it raises the end of the
input. -/
def KeepsLexers {F α : Type} (m : M F α) : Prop :=
  ∀ s, s.lexers ≠ [] → (m s).state.lexers ≠ [] ∨ (m s).err? = some Err.inputEnded

/-- The directives `execute_preworld_directive` recognizes. -/
def preworld_directives : List String :=
  ["Camera", "Film", "Include", "Translate", "Transform", "ConcatTransform", "Scale",
    "Rotate", "LookAt"]

/-- The directives `execute_world_directive` recognizes. -/
def world_directives : List String :=
  ["Include", "Translate", "Transform", "ConcatTransform", "Scale", "Rotate", "LookAt",
    "AttributeBegin", "TransformBegin", "AttributeEnd", "TransformEnd", "Shape",
    "ObjectBegin", "ObjectInstance", "LightSource", "AreaLightSource", "Material",
    "MakeNamedMaterial", "NamedMaterial", "Texture"]

/-! ## Transform scopes -/

/-- The state with more saved transforms below those of its transform stack. -/
def underC {F : Type} (B : List (Mat4 F)) (s : PState F) : PState F :=
  { s with CTMStack := B ++ s.CTMStack }

/-- A computation that succeeds from a state does the same from the state with
more saved transforms below its transform stack, and leaves them there. -/
def FramedC {F : Type} (B : List (Mat4 F)) {α : Type} (m : M F α) : Prop :=
  ∀ s a s', m s = .ok a s' → m (underC B s) = .ok a (underC B s')

/-- The lexemes of a transform scope that moves the origin and binds a
material. -/
def transform_scope_lexemes : List Lexeme :=
  [ ident "TransformBegin",
    ident "Translate", num "1", num "2", num "3",
    ident "Material", str "matte",
    ident "TransformEnd", ident "WorldEnd" ]

/-- The lexemes of the scope `AttributeBegin Translate 1 0 0 TransformBegin
AttributeEnd TransformEnd`, in which the transform scope is opened inside the
attribute scope and closed after it. -/
def leak_lexemes : List Lexeme :=
  [ ident "AttributeBegin",
    ident "Translate", num "1", num "0", num "0",
    ident "TransformBegin",
    ident "AttributeEnd",
    ident "TransformEnd", ident "WorldEnd" ]

/-- The lexemes of an attribute scope whose transform scope is closed inside
it. -/
def nested_scope_lexemes : List Lexeme :=
  [ ident "AttributeBegin",
    ident "Translate", num "1", num "0", num "0",
    ident "TransformBegin",
    ident "Translate", num "0", num "1", num "0",
    ident "TransformEnd",
    ident "AttributeEnd", ident "WorldEnd" ]

/-! ## Named materials and scopes -/

/-- The lexemes of a scene that declares the material `a`, opens a scope,
declares the material `b` in it, closes the scope and binds a named
material. -/
def named_scope_lexemes : List Lexeme :=
  [ ident "MakeNamedMaterial", str "a", str "string type", str "matte",
    ident "AttributeBegin",
    ident "MakeNamedMaterial", str "b", str "string type", str "matte",
    ident "AttributeEnd",
    ident "NamedMaterial", str "b", ident "WorldEnd" ]

/-- The state of the test parser at the `AttributeBegin` of the scene of the
named scope. -/
def before_named_scope : PState Rat :=
  (execute_world_directive testExt 2 (at_directive named_scope_lexemes)).state

/-- The lexemes of a directive `NamedMaterial "m"` at the end of the input. -/
def last_named_material : List Lexeme :=
  [ident "NamedMaterial", str "m"]

/-- The lexemes of a declaration of the material `m` and of its binding,
before another directive. -/
def bind_named_lexemes : List Lexeme :=
  [ ident "MakeNamedMaterial", str "m", str "string type", str "matte",
    ident "NamedMaterial", str "m", ident "WorldEnd" ]

/-! ## Object blocks -/

/-- An object block that is open in the first state is open in the second. -/
def StaysInObject {F : Type} (s s' : PState F) : Prop :=
  s.inObjectDefinition = true → s'.inObjectDefinition = true

/-- The lexemes of an object block with, inside an attribute scope of its
body, the start of another object block. -/
def reentrant_lexemes : List Lexeme :=
  [ ident "ObjectBegin", str "o",
    ident "AttributeBegin", ident "TransformBegin",
    ident "ObjectBegin", str "p", ident "ObjectEnd",
    ident "TransformEnd", ident "AttributeEnd",
    ident "ObjectEnd", ident "WorldEnd" ]

/-- The lexemes of two object blocks, one after the other. -/
def two_blocks_lexemes : List Lexeme :=
  [ ident "ObjectBegin", str "o", ident "Shape", str "cube", ident "ObjectEnd",
    ident "ObjectBegin", str "p", ident "Shape", str "cube", ident "ObjectEnd",
    ident "WorldEnd" ]

/-- The state of the test parser inside an open object block, after the
`AttributeBegin` and the `TransformBegin` of its body, at the `ObjectBegin`
that follows. -/
def inside_block : PState Rat :=
  (world_directive_seq testExt 2 2
    { at_directive [ident "AttributeBegin", ident "TransformBegin",
        ident "ObjectBegin", str "p", ident "ObjectEnd", ident "WorldEnd"] with
      inObjectDefinition := true }).state

/-! ## Objects defined more than once -/

/-- The state in which the directives of the body of an object block run
first: the state after `ObjectBegin` and the name, with the graphics state
saved, the block open and the list of captured shape groups empty. -/
def opened_block {F : Type} (s : PState F) (l : Lexer) (ls : List Lexer) (t : Lexeme)
    (ts : List Lexeme) : PState F :=
  { s with
    lexers := { l with cur := t, rest := ts } :: ls
    stateStack := s.stateStack ++ [s.gState]
    inObjectDefinition := true
    shapesInObject := [] }

/-- The lexemes of a scene that defines the object `o` twice, with one cube and
then, after a translation, with two, and makes an instance of it. -/
def redefined_object_lexemes : List Lexeme :=
  [ ident "ObjectBegin", str "o", ident "Shape", str "cube", ident "ObjectEnd",
    ident "Translate", num "1", num "0", num "0",
    ident "ObjectBegin", str "o",
    ident "Translate", num "0", num "2", num "0",
    ident "Shape", str "cube", ident "Shape", str "cube", ident "ObjectEnd",
    ident "ObjectInstance", str "o", ident "WorldEnd" ]

/-- The state of the test parser at the second `ObjectBegin` of the scene of
the object defined twice. -/
def before_redefinition : PState Rat :=
  (world_directive_seq testExt 3 2 (at_directive redefined_object_lexemes)).state

/-- The lexer of the scene of the object defined twice, at the second
`ObjectBegin`. -/
def redefinition_lexer : Lexer :=
  ⟨ident "ObjectBegin",
    [ str "o", ident "Translate", num "0", num "2", num "0",
      ident "Shape", str "cube", ident "Shape", str "cube", ident "ObjectEnd",
      ident "ObjectInstance", str "o", ident "WorldEnd" ], "."⟩

/-- The state of the test parser at the `ObjectEnd` of the second block of the
scene of the object defined twice. -/
def at_second_ObjectEnd : PState Rat :=
  (directive_loop "ObjectEnd" (execute_world_directive testExt 5) 5
    (opened_block before_redefinition redefinition_lexer [] (ident "Translate")
      [ num "0", num "2", num "0",
        ident "Shape", str "cube", ident "Shape", str "cube", ident "ObjectEnd",
        ident "ObjectInstance", str "o", ident "WorldEnd" ])).state

/-- The lexemes of a directive `ObjectInstance "o"` at the end of the input. -/
def last_object_instance : List Lexeme :=
  [ident "ObjectInstance", str "o"]

/-- The lexer of the scene of the object defined twice, at the second
`ObjectEnd`. -/
def second_ObjectEnd_lexer : Lexer :=
  ⟨ident "ObjectEnd", [ident "ObjectInstance", str "o", ident "WorldEnd"], "."⟩

/-! ## Material classes and colour parameters -/

/-- Source: the classes of materials that the chain of branches of
`execute_Material` names. -/
def material_classes : List String :=
  ["matte", "metal", "mix", "plastic", "mirror", "uber", "translucent", "glass", "substrate"]

/-- The state of the other, with the string `cls` as the lexeme that the
topmost lexer reads next. -/
def with_class {F : Type} (s : PState F) (l : Lexer) (ls : List Lexer) (cls : String)
    (ts : List Lexeme) : PState F :=
  { s with lexers := { l with rest := str cls :: ts } :: ls }

/-- The lexemes of a material of a class that is not known, with a colour. -/
def unknown_material_lexemes : List Lexeme :=
  [ ident "Material", str "hair", str "rgb Kd", lbr, num "1", num "0", num "0", rbr,
    ident "WorldEnd" ]

/-- The parameter `"texture Kd" "t"`. -/
def texture_Kd : PBRTParameter Rat := ⟨"texture", "Kd", .strings ["t"]⟩

/-- The parameter `"rgb Kd" [1 0 0]`. -/
def rgb_Kd : PBRTParameter Rat := ⟨"rgb", "Kd", .vec3s [⟨1, 0, 0⟩]⟩

/-- The state of the test parser with the texture `t`, of pointer 7 and of
scale 2 by 3, declared, and with one material. -/
def textured_state : PState Rat :=
  { test_state [] with
    gState := { (test_state []).gState with nameToTexture := [("t", ⟨7, 2, 3⟩)] }
    materialArena := [testExt.new_material] }

/-- The records of the materials are the same in both states. -/
def SameMaterials {F : Type} (s s' : PState F) : Prop :=
  s'.materialArena = s.materialArena

/-! ## Shapes in the scene and in objects -/

/-- Source: the classes of shapes that the chain of branches of
`execute_Shape` names. -/
def shape_classes : List String :=
  ["trianglemesh", "cube", "sphere", "disk", "plymesh"]

/-- Nothing about the shapes changes between the two states: the lists of
shape groups and of instances of the scene, the list of captured shape groups,
the flag of the object block, the graphics state and the records of the shape
groups are the same. -/
def ShapesKept {F : Type} (s s' : PState F) : Prop :=
  s'.scn.shapes = s.scn.shapes ∧ s'.scn.instances = s.scn.instances ∧
    s'.shapesInObject = s.shapesInObject ∧ s'.inObjectDefinition = s.inObjectDefinition ∧
    s'.gState = s.gState ∧ s'.groupArena = s.groupArena

/-- The second state is the first with one shape group of one shape more,
which is in the scene with one instance of the frame of the current
transform, outside an object block, or captured, inside one. -/
def ShapeAdded {F : Type} (Y : Ext F) (s s' : PState F) : Prop :=
  ∃ (gname : String) (shp : Shape F),
    s'.groupArena = s.groupArena ++ [⟨gname, [shp]⟩] ∧
    (s.inObjectDefinition = false →
      s'.scn.shapes = s.scn.shapes ++ [s.groupArena.length] ∧
      (∃ iname, s'.scn.instances = s.scn.instances ++
        [⟨iname, Y.mat_to_frame s.gState.CTM, some s.groupArena.length⟩]) ∧
      s'.shapesInObject = s.shapesInObject) ∧
    (s.inObjectDefinition = true →
      s'.shapesInObject = s.shapesInObject ++ [s.groupArena.length] ∧
      s'.scn.shapes = s.scn.shapes ∧ s'.scn.instances = s.scn.instances)

/-- The state of the test parser at a directive `Shape "cube"`, outside an
object block. -/
def at_cube : PState Rat :=
  at_directive [ident "Shape", str "cube", ident "WorldEnd"]

/-- The state of the test parser at a directive `Shape "cube"`, inside an
object block. -/
def at_cube_in_object : PState Rat :=
  { at_directive [ident "Shape", str "cube", ident "ObjectEnd"] with
    inObjectDefinition := true }

/-- The lexemes of a scene that moves the origin before `WorldBegin` and has
one cube. -/
def moved_scene : List Lexeme :=
  [ ident "Translate", num "1", num "2", num "3",
    ident "WorldBegin", ident "Shape", str "cube", ident "WorldEnd" ]

/-- The state of the test parser at the `WorldBegin` of the moved scene. -/
def at_WorldBegin : PState Rat :=
  (execute_preworld_directives testExt 5 (at_directive moved_scene)).state

/-! ## Unique names -/

/-- The number a list of decimal digits writes, the most significant first. -/
def digits_value (l : List Char) : Nat :=
  l.foldl (fun a c => 10 * a + (c.toNat - 48)) 0

/-- Source: the strings `st` of `get_unique_id`, one for each counter. -/
def counter_tag : CounterID → String
  | .shape => "s_"
  | .shape_group => "sg_"
  | .inst => "i_"
  | .material => "m_"
  | .environment => "e_"
  | .texture => "t_"

/-- The counter of the state that `get_unique_id` reads for the kind `id`. -/
def counter_of {F : Type} (id : CounterID) (s : PState F) : Nat :=
  match id with
  | .shape => s.shapeCounter
  | .shape_group => s.shapeGroupCounter
  | .inst => s.instanceCounter
  | .material => s.materialCounter
  | .environment => s.envCounter
  | .texture => s.textureCounter

/-- The name of the kind `id` at the value `c` of its counter: what
`sprintf(buff, "%s%u", st, val)` writes. -/
def minted_name (id : CounterID) (c : Nat) : String :=
  counter_tag id ++ toString c

/-- The six counters are the same in both states. -/
def CountersKept {F : Type} (s s' : PState F) : Prop :=
  ∀ id, counter_of id s' = counter_of id s

/-- The names that calls of `get_unique_id` return, one call for each kind of
the list, in order. -/
def mint_all {F : Type} : List CounterID → M F (List String)
  | [] => pure []
  | id :: rest => do
    let name ← get_unique_id id
    let names ← mint_all rest
    pure (name :: names)

/-! ## The scene only grows -/

/-- The fields of a camera that the parser assigns once, when it creates the
camera: all but the aspect, which the directive `Film` assigns to the cameras
that are in the scene. -/
def camera_fields {F : Type} (cam : Camera F) : String × Frame3 F × F × F × F :=
  (cam.name, cam.frame, cam.yfov, cam.focus, cam.aperture)

/-- The second list is the first with entries added at its end. -/
def Extends {α : Type} (l l' : List α) : Prop :=
  ∃ t, l' = l ++ t

/-- Every list of the scene of the second state is the list of the first
state with entries added at its end.  The cameras are compared by the fields
other than the aspect: the scene lists the cameras by pointer, and `Film`
writes the aspect through these pointers. -/
def SceneGrows {F : Type} (s s' : PState F) : Prop :=
  Extends (s.scn.cameras.map camera_fields) (s'.scn.cameras.map camera_fields) ∧
    Extends s.scn.shapes s'.scn.shapes ∧ Extends s.scn.instances s'.scn.instances ∧
    Extends s.scn.materials s'.scn.materials ∧ Extends s.scn.textures s'.scn.textures ∧
    Extends s.scn.environments s'.scn.environments

/-- Every run of the computation, whether it returns or raises, ends in a
state related to the state it starts from. -/
def Always {F α : Type} (R : PState F → PState F → Prop) (m : M F α) : Prop :=
  ∀ s, R s (m s).state

/-! ## Shapes under an area light -/

/-- The lexemes of a triangle mesh that follows an area light. -/
def lit_triangle_lexemes : List Lexeme :=
  [ ident "AreaLightSource", str "diffuse",
    ident "Shape", str "trianglemesh",
    str "point3 P", lbr, num "0", num "0", num "0", num "1", num "0", num "0",
    num "0", num "1", num "0", rbr,
    str "integer indices", lbr, num "0", num "1", num "2", rbr,
    ident "WorldEnd" ]

/-- The state of the test parser at the directive `Shape` that follows the
area light. -/
def at_lit_triangle : PState Rat :=
  (execute_world_directive testExt 2 (at_directive lit_triangle_lexemes)).state

/-- The lexer of the test parser at the directive `Shape` that follows the
area light. -/
def lit_triangle_lexer : Lexer :=
  ⟨ident "Shape", lit_triangle_lexemes.drop 3, "."⟩

/-! ## Shapes of an unknown class -/

/-- The state of the test parser at a directive `Shape "cone"` with a
parameter, with an area light active. -/
def at_lit_cone : PState Rat :=
  (execute_world_directive testExt 2
    (at_directive [ident "AreaLightSource", str "diffuse",
      ident "Shape", str "cone", str "float radius", lbr, num "1", rbr,
      ident "WorldEnd"])).state

/-- The state of the test parser at a directive `Shape "cone"` with a
parameter. -/
def at_cone : PState Rat :=
  at_directive [ident "Shape", str "cone", str "float radius", lbr, num "1", rbr,
    ident "WorldEnd"]

/-- The state of the test parser at a directive `Shape "cone"` without
parameters, before a cube. -/
def at_bare_cone : PState Rat :=
  at_directive [ident "Shape", str "cone", ident "Shape", str "cube", ident "WorldEnd"]

/-! ## Normals of a triangle mesh -/

/-- The value of the parameter that `find_param` finds for a name, if any. -/
def param_value {F : Type} (name : String) (params : List (PBRTParameter F)) :
    Option (ParamValue F) :=
  match find_param name params with
  | some i => params[i]?.map (fun p => p.value)
  | none => none

/-- The parameters of the triangle of the minimal scene with normals supplied,
as lexemes. -/
def triangle_with_normals_lexemes : List Lexeme :=
  [ str "point3 P", lbr, num "0", num "0", num "0", num "1", num "0", num "0",
    num "0", num "1", num "0", rbr,
    str "normal N", lbr, num "1", num "0", num "0", num "1", num "0", num "0",
    num "1", num "0", num "0", rbr,
    str "integer indices", lbr, num "0", num "1", num "2", rbr,
    ident "WorldEnd" ]

/-- The parameters of the triangle with normals supplied, parsed. -/
def triangle_with_normals_params : List (PBRTParameter Rat) :=
  [ ⟨"point3", "P", .vec3s [⟨0, 0, 0⟩, ⟨1, 0, 0⟩, ⟨0, 1, 0⟩]⟩,
    ⟨"normal3", "N", .vec3s [⟨1, 0, 0⟩, ⟨1, 0, 0⟩, ⟨1, 0, 0⟩]⟩,
    ⟨"integer", "indices", .ints [0, 1, 2]⟩ ]

/-! ## Parameter lists -/

/-- The lexemes a stack of lexers is yet to show as current lexeme: the
current one, and those that are pending. -/
def upcoming (ls : List Lexer) : List Lexeme :=
  match ls with
  | [] => []
  | l :: _ => l.cur :: pending ls

/-- The lexemes yet to be shown in the second state are the last of those yet
to be shown in the first. -/
def Consumes {F : Type} (s s' : PState F) : Prop :=
  ∃ k, upcoming s'.lexers = (upcoming s.lexers).drop k

/-- The computation never runs out of fuel, and when it returns it has put
back no lexeme: the lexemes the lexers are yet to show are the last of those
they were yet to show before. -/
structure Safe {F α : Type} (m : M F α) : Prop where
  no_timeout : ∀ s e s', m s = .error e s' → e ≠ Err.timeout
  consumes : ∀ s a s', m s = .ok a s' → Consumes s s'

/-- Source: `k` rounds of the loop of `parse_parameters`: `k` calls of
`parse_parameter`, and the parameters they return, in order. -/
def parameter_seq {F : Type} (Y : Ext F) : Nat → M F (List (PBRTParameter F))
  | 0 => pure []
  | k + 1 => do
    let p ← parse_parameter Y
    let ps ← parameter_seq Y k
    pure (p :: ps)

/-- A state whose lexer shows the first of the lexemes and is yet to read the
others. -/
def at_parameters (lexemes : List Lexeme) : PState Rat :=
  at_directive lexemes

/-! ## Triangles with the given indices -/

/-- The parameters of a triangle on three positions with the given indices,
as lexemes. -/
def indexed_triangle_lexemes (a b c : String) : List Lexeme :=
  [ str "point3 P", lbr, num "0", num "0", num "0", num "1", num "0", num "0",
    num "0", num "1", num "0", rbr,
    str "integer indices", lbr, num a, num b, num c, rbr,
    ident "WorldEnd" ]

/-- The parameters of a triangle on three positions with the given indices,
parsed. -/
def indexed_triangle_params (a b c : Int) : List (PBRTParameter Rat) :=
  [ ⟨"point3", "P", .vec3s [⟨0, 0, 0⟩, ⟨1, 0, 0⟩, ⟨0, 1, 0⟩]⟩,
    ⟨"integer", "indices", .ints [a, b, c]⟩ ]

/-! ## Named materials declared twice -/

/-- The map of the named materials of the graphics state is the same in both
states. -/
def SameNames {F : Type} (s s' : PState F) : Prop :=
  s'.gState.nameToMaterial = s.gState.nameToMaterial

/-- The lexemes of a scene that declares the material `a` in a scope, closes
the scope and declares `a` again. -/
def redeclared_after_scope : List Lexeme :=
  [ ident "AttributeBegin",
    ident "MakeNamedMaterial", str "a", str "string type", str "matte",
    ident "AttributeEnd",
    ident "MakeNamedMaterial", str "a", str "string type", str "mirror",
    ident "WorldEnd" ]

/-- The lexemes of a scene that declares the material `a` twice in the same
scope. -/
def redeclared_in_scope : List Lexeme :=
  [ ident "MakeNamedMaterial", str "a", str "string type", str "matte",
    ident "MakeNamedMaterial", str "a", str "string type", str "mirror",
    ident "WorldEnd" ]

/-- The state of the test parser at the second declaration of `a` in the same
scope. -/
def at_second_declaration : PState Rat :=
  (execute_world_directive testExt 2 (at_directive redeclared_in_scope)).state

/-- The state of the test parser at the declaration of `a` that follows the
closed scope. -/
def after_closed_scope : PState Rat :=
  (execute_AttributeEnd (world_directive_seq testExt 2 1
    (execute_AttributeBegin (at_directive redeclared_after_scope)).state).state).state

/-! ## Writes to the material records -/

/-- Every material record of the first state is in the second state, at the
same index, and the two records are related by `Q`. -/
def Kept {F : Type} (Q : Nat → Material F → Material F → Prop) (s s' : PState F) : Prop :=
  ∀ i rec, s.materialArena[i]? = some rec →
    ∃ rec', s'.materialArena[i]? = some rec' ∧ Q i rec rec'

/-- Every material record of the first state is in the second state,
unchanged. -/
def OldKept {F : Type} (s s' : PState F) : Prop :=
  Kept (fun _ rec rec' => rec' = rec) s s'

/-- Every material record of the first state but the one at the index `n` is
in the second state, unchanged. -/
def OthersKept {F : Type} (n : Nat) (s s' : PState F) : Prop :=
  Kept (fun i rec rec' => i ≠ n → rec' = rec) s s'

/-- The fields of a material record other than the emission and the flag of
the two sides: the name, the colours, the roughness, the opacity and the
textures. -/
def material_look {F : Type} (m : Material F) :
    String × Vec3 F × Vec3 F × Vec3 F × Vec3 F × F × F × Option Nat × Option Nat × Option Nat ×
      Option Nat × Option Nat × Option Nat × Option Nat × Option Nat :=
  (m.name, m.kd, m.ks, m.kr, m.kt, m.rs, m.op, m.kd_txt, m.ks_txt, m.kr_txt, m.kt_txt,
    m.rs_txt, m.bump_txt, m.disp_txt, m.norm_txt)

/-- Every material record of the first state is in the second state, with
the same fields but for the emission and the flag of the two sides. -/
def RecordsKept {F : Type} (s s' : PState F) : Prop :=
  Kept (fun _ rec rec' => material_look rec' = material_look rec) s s'

/-! ## The material of a shape -/

/-- Every declared material whose flag `addedInScene` is set has its material
in the list of materials of the scene. -/
def Published {F : Type} (s : PState F) : Prop :=
  ∀ (d : Nat) (dm : DeclaredMaterial), s.declaredArena[d]? = some dm →
    dm.addedInScene = true → dm.mat ∈ s.scn.materials

/-- The second state has the materials of the set flags in the scene if the
first has. -/
def KeepsPublished {F : Type} (s s' : PState F) : Prop :=
  Published s → Published s'

/-- The state of the test parser at a directive `Shape "cube"` with the
material of a directive `Material` bound. -/
def at_cube_with_material : PState Rat :=
  (execute_world_directive testExt 2
    (at_directive [ident "Material", str "matte", ident "Shape", str "cube",
      ident "WorldEnd"])).state

/-! ## A record shared by two shapes -/

/-- The lexemes of a scene in which two shapes use one material: the first
is declared before the area light and outside its scope, the second inside
it. -/
def shared_material_lexemes : List Lexeme :=
  [ ident "Material", str "matte",
    ident "Shape", str "cube",
    ident "AttributeBegin",
    ident "AreaLightSource", str "diffuse", str "rgb L", lbr, num "2", num "2", num "2", rbr,
    ident "Shape", str "cube",
    ident "AttributeEnd",
    ident "WorldEnd" ]

/-- The state of the test parser at the second directive `Shape` of the scene
of the two shapes, the one in the scope of the area light. -/
def at_second_shape : PState Rat :=
  (world_directive_seq testExt 2 4 (at_directive shared_material_lexemes)).state

/-- The state of the test parser at the end of the scene of the two shapes. -/
def after_second_shape : PState Rat :=
  (parse testExt 8 (test_state (ident "WorldBegin" :: shared_material_lexemes))).state

/-- The state of the test parser at the end of the scene of the two shapes
without its directive `AreaLightSource`. -/
def after_unlit_shapes : PState Rat :=
  (parse testExt 8 (test_state (ident "WorldBegin" ::
    (shared_material_lexemes.take 5 ++ shared_material_lexemes.drop 13)))).state

/-! # Theorems -/

/-- A property that holds at a point chosen against it holds everywhere. -/
theorem forall_of_generic_point {α : Sort u} [Nonempty α] (p : α → Prop)
    (h : p (Classical.epsilon (fun x => ¬ p x))) : ∀ x, p x := by
  intro x
  by_contra hx
  exact (Classical.epsilon_spec (p := fun x => ¬ p x) ⟨x, hx⟩) h

/-! ## Every directive inherits the properties of the operations on the state -/

variable {F : Type} {A : Effect → Prop} {P : ∀ {α : Type}, M F α → Prop}

theorem resp_ite {α : Type} (c : Prop) [Decidable c] (a b : M F α) (ha : P a) (hb : P b) :
    P (if c then a else b) := by
  split
  · exact ha
  · exact hb

theorem Respects.throw {α : Type} (h : Respects A P) (msg : String) :
    P (throw_syntax_exception msg : M F α) := h.raise _

theorem Respects.throw_if (h : Respects A P) (c : Prop) [Decidable c] (msg : String) :
    P (throw_if c msg : M F Unit) := by
  unfold PBRT.throw_if; split
  · exact h.raise _
  · exact h.pure _

theorem Respects.liftExcept {α : Type} (h : Respects A P) (e : Except Err α) :
    P (liftExcept e : M F α) := by
  cases e
  · exact h.raise _
  · exact h.pure _

theorem Respects.param_at (h : Respects A P) (params : List (PBRTParameter F)) (i : Nat) :
    P (param_at params i) := by
  unfold PBRT.param_at; split
  · exact h.pure _
  · exact h.raise _

theorem Respects.get_first_string (h : Respects A P) (p : PBRTParameter F) :
    P (get_first_string p) := by
  unfold PBRT.get_first_string; split
  · exact h.pure _
  · exact h.raise _

theorem Respects.get_first_float (h : Respects A P) (p : PBRTParameter F) :
    P (get_first_float p) := by
  unfold PBRT.get_first_float; split
  · exact h.pure _
  · exact h.raise _

theorem Respects.get_first_int (h : Respects A P) (p : PBRTParameter F) :
    P (get_first_int p) := by
  unfold PBRT.get_first_int; split
  · exact h.pure _
  · exact h.raise _

theorem Respects.get_first_vec3 (h : Respects A P) (p : PBRTParameter F) :
    P (get_first_vec3 p) := by
  unfold PBRT.get_first_vec3; split
  · exact h.pure _
  · exact h.raise _

theorem skip_to_identifier_resp (h : Respects A P) (n : Nat) :
    P (skip_to_identifier n : M F Unit) := by
  induction n with
  | zero => exact h.raise _
  | succ n ih =>
    unfold skip_to_identifier
    repeat' first
      | with_reducible first
        | apply ih | apply h.advance | apply h.current_token | apply h.bind | apply h.pure
        | apply h.raise | apply resp_ite
      | intro _ | split | dsimp only

theorem ignore_current_directive_resp (h : Respects A P) :
    P (ignore_current_directive : M F Unit) := by
  unfold ignore_current_directive
  repeat' first
    | with_reducible first
      | apply skip_to_identifier_resp h | apply h.advance | apply h.bound | apply h.bind
      | apply h.pure | apply h.raise | apply resp_ite
    | exact fun e he => hA e (by revert e he; decide)
    | intro _ | split | dsimp only

theorem collect_values_resp {T : Type} (h : Respects A P) (kind : LexemeType)
    (conv : String → T) (n : Nat) : ∀ acc, P (collect_values kind conv n acc : M F (List T)) := by
  induction n with
  | zero => intro acc; exact h.raise _
  | succ n ih =>
    intro acc
    unfold collect_values
    repeat' first
      | with_reducible first
        | apply ih | apply h.advance | apply h.current_token | apply h.bind | apply h.pure
        | apply h.raise | apply resp_ite
      | intro _ | split | dsimp only

theorem parse_value_resp (h : Respects A P) {T : Type} (kind : LexemeType) (conv : String → T) :
    P (parse_value kind conv : M F (List T)) := by
  unfold parse_value
  repeat' first
    | with_reducible first
      | apply collect_values_resp h | apply Respects.throw h | apply h.advance
      | apply h.current_token | apply h.bound | apply h.bind | apply h.pure | apply h.raise
      | apply resp_ite
    | exact fun e he => hA e (by revert e he; decide)
    | intro _ | split | dsimp only

theorem parse_parameter_value_resp (h : Respects A P) (Y : Ext F) (type name : String) :
    P (parse_parameter_value Y type name : M F (PBRTParameter F)) := by
  unfold parse_parameter_value
  repeat' first
    | with_reducible first
      | apply parse_value_resp h | apply Respects.throw h | apply h.advance
      | apply h.current_path | apply h.current_token | apply h.bind | apply h.pure
      | apply h.raise | apply resp_ite
    | exact fun e he => hA e (by revert e he; decide)
    | intro _ | split | dsimp only

theorem parse_parameter_resp (h : Respects A P) (Y : Ext F) :
    P (parse_parameter Y : M F (PBRTParameter F)) := by
  unfold parse_parameter
  repeat' first
    | with_reducible first
      | apply parse_parameter_value_resp h | apply Respects.liftExcept h | apply Respects.throw h
      | apply h.advance | apply h.current_token | apply h.bind | apply h.pure | apply h.raise
      | apply resp_ite
    | exact fun e he => hA e (by revert e he; decide)
    | intro _ | split | dsimp only

theorem parse_parameters_loop_resp (h : Respects A P) (Y : Ext F) (n : Nat) :
    ∀ pars, P (parse_parameters_loop Y n pars) := by
  induction n with
  | zero => intro acc; exact h.raise _
  | succ n ih =>
    intro acc
    unfold parse_parameters_loop
    repeat' first
      | with_reducible first
        | apply ih | apply parse_parameter_resp h | apply h.current_token | apply h.bind
        | apply h.pure | apply h.raise | apply resp_ite
      | intro _ | split | dsimp only

theorem parse_parameters_resp (h : Respects A P) (Y : Ext F) (pars : List (PBRTParameter F)) :
    P (parse_parameters Y pars : M F (List (PBRTParameter F))) := by
  unfold parse_parameters
  repeat' first
    | with_reducible first
      | apply parse_parameters_loop_resp h | apply h.bound | apply h.bind | apply h.pure
      | apply h.raise | apply resp_ite
    | exact fun e he => hA e (by revert e he; decide)
    | intro _ | split | dsimp only

theorem read_float_resp (h : Respects A P) (Y : Ext F) (msg : String) :
    P (read_float Y msg : M F F) := by
  unfold read_float
  repeat' first
    | with_reducible first
      | apply Respects.throw_if h | apply h.advance | apply h.current_token | apply h.bind
      | apply h.pure | apply h.raise | apply resp_ite
    | exact fun e he => hA e (by revert e he; decide)
    | intro _ | split | dsimp only

theorem read_vec3_resp (h : Respects A P) (Y : Ext F) :
    P (read_vec3 Y : M F (Vec3 F)) := by
  unfold read_vec3
  repeat' first
    | with_reducible first
      | apply read_float_resp h | apply h.bind | apply h.pure | apply h.raise | apply resp_ite
    | exact fun e he => hA e (by revert e he; decide)
    | intro _ | split | dsimp only

theorem execute_Include_resp (h : Respects A P)
    (hA : ∀ e ∈ [Effect.lexer_push], A e)
    (Y : Ext F) :
    P (execute_Include Y : M F Unit) := by
  unfold execute_Include
  repeat' first
    | with_reducible first
      | apply Respects.throw_if h | apply h.push_lexer (hA _ (by decide)) | apply h.advance
      | apply h.current_path | apply h.current_token | apply h.bind | apply h.pure
      | apply h.raise | apply resp_ite
    | exact fun e he => hA e (by revert e he; decide)
    | intro _ | split | dsimp only

theorem execute_Translate_resp (h : Respects A P)
    (hA : ∀ e ∈ [Effect.ctm], A e) (Y : Ext F) :
    P (execute_Translate Y : M F Unit) := by
  unfold execute_Translate
  repeat' first
    | with_reducible first
      | apply read_vec3_resp h | apply h.modifyCTM (hA _ (by decide)) | apply h.advance
      | apply h.bind | apply h.pure | apply h.raise | apply resp_ite
    | exact fun e he => hA e (by revert e he; decide)
    | intro _ | split | dsimp only

theorem execute_Scale_resp (h : Respects A P)
    (hA : ∀ e ∈ [Effect.ctm], A e) (Y : Ext F) :
    P (execute_Scale Y : M F Unit) := by
  unfold execute_Scale
  repeat' first
    | with_reducible first
      | apply read_vec3_resp h | apply h.modifyCTM (hA _ (by decide)) | apply h.advance
      | apply h.bind | apply h.pure | apply h.raise | apply resp_ite
    | exact fun e he => hA e (by revert e he; decide)
    | intro _ | split | dsimp only

theorem execute_Rotate_resp (h : Respects A P)
    (hA : ∀ e ∈ [Effect.ctm], A e) (Y : Ext F) :
    P (execute_Rotate Y : M F Unit) := by
  unfold execute_Rotate
  repeat' first
    | with_reducible first
      | apply read_vec3_resp h | apply Respects.throw_if h | apply h.modifyCTM (hA _ (by decide))
      | apply h.advance | apply h.current_token | apply h.bind | apply h.pure | apply h.raise
      | apply resp_ite
    | exact fun e he => hA e (by revert e he; decide)
    | intro _ | split | dsimp only

theorem execute_LookAt_resp (h : Respects A P)
    (hA : ∀ e ∈ [Effect.ctm, Effect.focus], A e)
    (Y : Ext F) :
    P (execute_LookAt Y : M F Unit) := by
  unfold execute_LookAt
  repeat' first
    | with_reducible first
      | apply read_vec3_resp h | apply h.modifyCTM (hA _ (by decide))
      | apply h.set_defaultFocus (hA _ (by decide)) | apply h.advance | apply h.bind
      | apply h.pure | apply h.raise | apply resp_ite
    | exact fun e he => hA e (by revert e he; decide)
    | intro _ | split | dsimp only

theorem execute_Transform_resp (h : Respects A P)
    (hA : ∀ e ∈ [Effect.ctm], A e) (Y : Ext F) :
    P (execute_Transform Y : M F Unit) := by
  unfold execute_Transform
  repeat' first
    | with_reducible first
      | apply parse_value_resp h | apply Respects.throw h | apply h.modifyCTM (hA _ (by decide))
      | apply h.advance | apply h.bind | apply h.pure | apply h.raise | apply resp_ite
    | exact fun e he => hA e (by revert e he; decide)
    | intro _ | split | dsimp only

theorem execute_ConcatTransform_resp (h : Respects A P)
    (hA : ∀ e ∈ [Effect.ctm], A e)
    (Y : Ext F) :
    P (execute_ConcatTransform Y : M F Unit) := by
  unfold execute_ConcatTransform
  repeat' first
    | with_reducible first
      | apply parse_value_resp h | apply Respects.throw h | apply h.modifyCTM (hA _ (by decide))
      | apply h.advance | apply h.bind | apply h.pure | apply h.raise | apply resp_ite
    | exact fun e he => hA e (by revert e he; decide)
    | intro _ | split | dsimp only

theorem execute_Camera_resp (h : Respects A P)
    (hA : ∀ e ∈ [Effect.cameras], A e) (Y : Ext F) :
    P (execute_Camera Y : M F Unit) := by
  unfold execute_Camera
  repeat' first
    | with_reducible first
      | apply parse_parameters_resp h | apply Respects.get_first_float h
      | apply Respects.param_at h | apply Respects.throw_if h
      | apply h.add_camera (hA _ (by decide)) | apply h.advance | apply h.current_token
      | apply h.getG | apply h.get_defaults | apply h.get_scene | apply h.bind | apply h.pure
      | apply h.raise | apply resp_ite
    | exact fun e he => hA e (by revert e he; decide)
    | intro _ | split | dsimp only

theorem execute_Film_resp (h : Respects A P)
    (hA : ∀ e ∈ [Effect.aspect], A e) (Y : Ext F) :
    P (execute_Film Y : M F Unit) := by
  unfold execute_Film
  repeat' first
    | with_reducible first
      | apply parse_parameters_resp h | apply Respects.get_first_int h
      | apply Respects.param_at h | apply Respects.throw_if h
      | apply h.set_aspect (hA _ (by decide)) | apply h.advance | apply h.current_token
      | apply h.bind | apply h.pure | apply h.raise | apply resp_ite
    | exact fun e he => hA e (by revert e he; decide)
    | intro _ | split | dsimp only

theorem execute_AttributeBegin_resp (h : Respects A P)
    (hA : ∀ e ∈ [Effect.attr_push], A e) :
    P (execute_AttributeBegin : M F Unit) := by
  unfold execute_AttributeBegin
  repeat' first
    | with_reducible first
      | apply h.push_attributes (hA _ (by decide)) | apply h.advance | apply h.bind
      | apply h.pure | apply h.raise | apply resp_ite
    | exact fun e he => hA e (by revert e he; decide)
    | intro _ | split | dsimp only

theorem execute_AttributeEnd_resp (h : Respects A P)
    (hA : ∀ e ∈ [Effect.attr_pop], A e) :
    P (execute_AttributeEnd : M F Unit) := by
  unfold execute_AttributeEnd
  repeat' first
    | with_reducible first
      | apply h.pop_attributes (hA _ (by decide)) | apply h.advance | apply h.bind | apply h.pure
      | apply h.raise | apply resp_ite
    | exact fun e he => hA e (by revert e he; decide)
    | intro _ | split | dsimp only

theorem execute_TransformBegin_resp (h : Respects A P)
    (hA : ∀ e ∈ [Effect.ctm_push], A e) :
    P (execute_TransformBegin : M F Unit) := by
  unfold execute_TransformBegin
  repeat' first
    | with_reducible first
      | apply h.push_transform (hA _ (by decide)) | apply h.advance | apply h.bind | apply h.pure
      | apply h.raise | apply resp_ite
    | exact fun e he => hA e (by revert e he; decide)
    | intro _ | split | dsimp only

theorem execute_TransformEnd_resp (h : Respects A P)
    (hA : ∀ e ∈ [Effect.ctm_pop], A e) :
    P (execute_TransformEnd : M F Unit) := by
  unfold execute_TransformEnd
  repeat' first
    | with_reducible first
      | apply h.pop_transform (hA _ (by decide)) | apply h.advance | apply h.bind | apply h.pure
      | apply h.raise | apply resp_ite
    | exact fun e he => hA e (by revert e he; decide)
    | intro _ | split | dsimp only

theorem parse_cube_resp (h : Respects A P) (Y : Ext F) (shp : Shape F) :
    P (parse_cube Y shp : M F (Shape F)) := by
  unfold parse_cube
  repeat' first
    | with_reducible first
      | apply skip_to_identifier_resp h | apply h.bound | apply h.bind | apply h.pure
      | apply h.raise | apply resp_ite
    | exact fun e he => hA e (by revert e he; decide)
    | intro _ | split | dsimp only

theorem trianglemesh_of_params_resp (h : Respects A P)
    (Y : Ext F) (params : List (PBRTParameter F)) (shp : Shape F) :
    P (trianglemesh_of_params Y params shp : M F (Shape F)) := by
  unfold trianglemesh_of_params
  repeat' first
    | with_reducible first
      | apply Respects.param_at h | apply Respects.throw h | apply h.bind | apply h.pure
      | apply h.raise | apply resp_ite
    | exact fun e he => hA e (by revert e he; decide)
    | intro _ | split | dsimp only

theorem parse_trianglemesh_resp (h : Respects A P) (Y : Ext F) (shp : Shape F) :
    P (parse_trianglemesh Y shp : M F (Shape F)) := by
  unfold parse_trianglemesh
  repeat' first
    | with_reducible first
      | apply parse_parameters_resp h | apply trianglemesh_of_params_resp h | apply h.bind
      | apply h.pure | apply h.raise | apply resp_ite
    | exact fun e he => hA e (by revert e he; decide)
    | intro _ | split | dsimp only

theorem shape_material_resp (h : Respects A P)
    (hA : ∀ e ∈ [Effect.counters, Effect.publish_declared, Effect.publish_new], A e)
    (Y : Ext F) :
    P (shape_material Y : M F Nat) := by
  unfold shape_material
  repeat' first
    | with_reducible first
      | apply h.add_declared_to_scene (hA _ (by decide))
      | apply h.get_unique_id (hA _ (by decide)) | apply h.new_scene_material (hA _ (by decide))
      | apply h.getG | apply h.bind | apply h.pure | apply h.raise | apply resp_ite
    | exact fun e he => hA e (by revert e he; decide)
    | intro _ | split | dsimp only

theorem add_shape_resp (h : Respects A P)
    (hA : ∀ e ∈ [Effect.counters, Effect.scene_shapes, Effect.instances, Effect.group_new,
      Effect.capture], A e)
    (Y : Ext F) (shp : Shape F) :
    P (add_shape Y shp : M F Unit) := by
  unfold add_shape
  repeat' first
    | with_reducible first
      | apply h.add_group (hA _ (by decide)) | apply h.add_instance (hA _ (by decide))
      | apply h.alloc_group (hA _ (by decide)) | apply h.capture_group (hA _ (by decide))
      | apply h.get_unique_id (hA _ (by decide)) | apply h.getG | apply h.get_inObjectDefinition
      | apply h.bind | apply h.pure | apply h.raise | apply resp_ite
    | exact fun e he => hA e (by revert e he; decide)
    | intro _ | split | dsimp only

theorem shape_of_class_resp (h : Respects A P)
    (hA : ∀ e ∈ [Effect.counters, Effect.scene_shapes, Effect.instances, Effect.material_write,
      Effect.group_new, Effect.capture], A e)
    (Y : Ext F) (shapeName : String) (shp : Shape F) (mat : Nat) :
    P (shape_of_class Y shapeName shp mat : M F Unit) := by
  unfold shape_of_class
  repeat' first
    | with_reducible first
      | apply add_shape_resp h | apply ignore_current_directive_resp h | apply parse_cube_resp h
      | apply parse_parameter_resp h | apply parse_parameters_resp h
      | apply parse_trianglemesh_resp h | apply skip_to_identifier_resp h
      | apply Respects.get_first_float h | apply Respects.get_first_string h
      | apply Respects.param_at h | apply Respects.throw_if h | apply Respects.throw h
      | apply h.modify_material (hA _ (by decide)) | apply h.current_path | apply h.getG
      | apply h.bound | apply h.bind | apply h.pure | apply h.raise | apply resp_ite
    | exact fun e he => hA e (by revert e he; decide)
    | intro _ | split | dsimp only

theorem execute_Shape_resp (h : Respects A P)
    (hA : ∀ e ∈ [Effect.counters, Effect.scene_shapes, Effect.instances, Effect.material_write,
      Effect.group_new, Effect.capture, Effect.publish_declared, Effect.publish_new], A e)
    (Y : Ext F) :
    P (execute_Shape Y : M F Unit) := by
  unfold execute_Shape
  repeat' first
    | with_reducible first
      | apply shape_material_resp h | apply shape_of_class_resp h | apply Respects.throw_if h
      | apply h.get_unique_id (hA _ (by decide)) | apply h.advance | apply h.current_token
      | apply h.bind | apply h.pure | apply h.raise | apply resp_ite
    | exact fun e he => hA e (by revert e he; decide)
    | intro _ | split | dsimp only

theorem directive_loop_resp (h : Respects A P) (stop : String) (d : M F Unit) (hd : P d)
    (n : Nat) : P (directive_loop stop d n) := by
  induction n with
  | zero => exact h.raise _
  | succ n ih =>
    unfold directive_loop
    repeat' first
      | with_reducible first
        | apply ih | apply hd | apply h.current_token | apply h.bind | apply h.pure
        | apply h.raise | apply resp_ite
      | intro _ | split | dsimp only

theorem execute_ObjectBlock_resp (h : Respects A P)
    (hA : ∀ e ∈ [Effect.object_begin, Effect.object_end, Effect.object_store, Effect.attr_push,
      Effect.attr_pop], A e)
    (directive : M F Unit) (hd : P directive) (fuel : Nat) :
    P (execute_ObjectBlock directive fuel) := by
  unfold execute_ObjectBlock
  repeat' first
    | with_reducible first
      | apply directive_loop_resp h | apply hd | apply execute_AttributeBegin_resp h
      | apply execute_AttributeEnd_resp h | apply Respects.throw_if h
      | apply h.begin_object (hA _ (by decide)) | apply h.end_object (hA _ (by decide))
      | apply h.store_object (hA _ (by decide)) | apply h.advance | apply h.current_token
      | apply h.get_inObjectDefinition | apply h.bind | apply h.pure | apply h.raise
      | apply resp_ite
    | exact fun e he => hA e (by revert e he; decide)
    | intro _ | split | dsimp only

theorem instance_shapes_resp (h : Respects A P)
    (hA : ∀ e ∈ [Effect.counters, Effect.scene_shapes, Effect.instances], A e)
    (frame : Frame3 F) (added : Bool) (l : List Nat) : P (instance_shapes frame added l) := by
  induction l with
  | nil => exact h.pure _
  | cons x l ih =>
    unfold instance_shapes
    repeat' first
      | with_reducible first
        | apply ih | apply h.add_group (hA _ (by decide))
        | apply h.add_instance (hA _ (by decide)) | apply h.get_unique_id (hA _ (by decide))
        | apply h.bind | apply h.pure | apply h.raise | apply resp_ite
      | exact fun e he => hA e (by revert e he; decide)
      | intro _ | split | dsimp only

theorem execute_ObjectInstance_resp (h : Respects A P)
    (hA : ∀ e ∈ [Effect.counters, Effect.scene_shapes, Effect.instances, Effect.object_mark], A e)
    (Y : Ext F) :
    P (execute_ObjectInstance Y : M F Unit) := by
  unfold execute_ObjectInstance
  repeat' first
    | with_reducible first
      | apply instance_shapes_resp h | apply Respects.throw_if h | apply Respects.throw h
      | apply h.mark_object_added (hA _ (by decide)) | apply h.advance | apply h.current_token
      | apply h.getG | apply h.lookup_object | apply h.bind | apply h.pure | apply h.raise
      | apply resp_ite
    | exact fun e he => hA e (by revert e he; decide)
    | intro _ | split | dsimp only

theorem texture_lookup_resp (h : Respects A P) (name : String) (flag : Bool) :
    P (texture_lookup name flag : M F (DeclaredTexture F)) := by
  unfold texture_lookup
  repeat' first
    | with_reducible first
      | apply Respects.throw h | apply h.getG | apply h.bind | apply h.pure | apply h.raise
      | apply resp_ite
    | exact fun e he => hA e (by revert e he; decide)
    | intro _ | split | dsimp only

theorem material_lookup_resp (h : Respects A P) (name : String) (flag : Bool) :
    P (material_lookup name flag : M F Nat) := by
  unfold material_lookup
  repeat' first
    | with_reducible first
      | apply Respects.throw h | apply h.getG | apply h.bind | apply h.pure | apply h.raise
      | apply resp_ite
    | exact fun e he => hA e (by revert e he; decide)
    | intro _ | split | dsimp only

theorem load_texture_resp (h : Respects A P)
    (hA : ∀ e ∈ [Effect.texture_write], A e)
    (Y : Ext F) (txt : Nat) (filename : String) (flip : Bool) :
    P (load_texture Y txt filename flip : M F Unit) := by
  unfold load_texture
  repeat' first
    | with_reducible first
      | apply h.modify_texture (hA _ (by decide)) | apply h.current_path
      | apply h.get_textureSavePath | apply h.bind | apply h.pure | apply h.raise
      | apply resp_ite
    | exact fun e he => hA e (by revert e he; decide)
    | intro _ | split | dsimp only

theorem vec3_param_resp (h : Respects A P)
    (name : String) (params : List (PBRTParameter F)) (dflt : Vec3 F) :
    P (vec3_param name params dflt : M F (Vec3 F)) := by
  unfold vec3_param
  repeat' first
    | with_reducible first
      | apply Respects.get_first_vec3 h | apply Respects.param_at h | apply h.bind | apply h.pure
      | apply h.raise | apply resp_ite
    | exact fun e he => hA e (by revert e he; decide)
    | intro _ | split | dsimp only

theorem parse_InfiniteLight_resp (h : Respects A P)
    (hA : ∀ e ∈ [Effect.counters, Effect.scene_textures, Effect.environments, Effect.texture_new,
      Effect.texture_write], A e)
    (Y : Ext F) :
    P (parse_InfiniteLight Y : M F Unit) := by
  unfold parse_InfiniteLight
  repeat' first
    | with_reducible first
      | apply load_texture_resp h | apply parse_parameters_resp h | apply vec3_param_resp h
      | apply Respects.get_first_string h | apply Respects.param_at h
      | apply h.add_environment (hA _ (by decide)) | apply h.add_texture (hA _ (by decide))
      | apply h.alloc_texture (hA _ (by decide)) | apply h.get_unique_id (hA _ (by decide))
      | apply h.getG | apply h.bind | apply h.pure | apply h.raise | apply resp_ite
    | exact fun e he => hA e (by revert e he; decide)
    | intro _ | split | dsimp only

theorem parse_PointLight_resp (h : Respects A P)
    (hA : ∀ e ∈ [Effect.counters, Effect.scene_shapes, Effect.instances, Effect.group_new,
      Effect.publish_new], A e)
    (Y : Ext F) :
    P (parse_PointLight Y : M F Unit) := by
  unfold parse_PointLight
  repeat' first
    | with_reducible first
      | apply parse_parameters_resp h | apply vec3_param_resp h
      | apply h.add_group (hA _ (by decide)) | apply h.add_instance (hA _ (by decide))
      | apply h.alloc_group (hA _ (by decide)) | apply h.get_unique_id (hA _ (by decide))
      | apply h.new_scene_material (hA _ (by decide)) | apply h.getG | apply h.bind
      | apply h.pure | apply h.raise | apply resp_ite
    | exact fun e he => hA e (by revert e he; decide)
    | intro _ | split | dsimp only

theorem execute_LightSource_resp (h : Respects A P)
    (hA : ∀ e ∈ [Effect.counters, Effect.scene_shapes, Effect.instances, Effect.scene_textures,
      Effect.environments, Effect.texture_new, Effect.texture_write, Effect.group_new,
      Effect.publish_new], A e)
    (Y : Ext F) :
    P (execute_LightSource Y : M F Unit) := by
  unfold execute_LightSource
  repeat' first
    | with_reducible first
      | apply parse_InfiniteLight_resp h | apply parse_PointLight_resp h
      | apply Respects.throw_if h | apply Respects.throw h | apply h.advance
      | apply h.current_token | apply h.bind | apply h.pure | apply h.raise | apply resp_ite
    | exact fun e he => hA e (by revert e he; decide)
    | intro _ | split | dsimp only

theorem execute_AreaLightSource_resp (h : Respects A P)
    (hA : ∀ e ∈ [Effect.area_light], A e)
    (Y : Ext F) :
    P (execute_AreaLightSource Y : M F Unit) := by
  unfold execute_AreaLightSource
  repeat' first
    | with_reducible first
      | apply parse_parameters_resp h | apply vec3_param_resp h
      | apply Respects.get_first_string h | apply Respects.param_at h | apply Respects.throw_if h
      | apply h.set_areaLight (hA _ (by decide)) | apply h.advance | apply h.current_token
      | apply h.bind | apply h.pure | apply h.raise | apply resp_ite
    | exact fun e he => hA e (by revert e he; decide)
    | intro _ | split | dsimp only

theorem set_k_property_resp (h : Respects A P)
    (hA : ∀ e ∈ [Effect.uvscale], A e)
    (Y : Ext F) (par : PBRTParameter F) (k : Vec3 F) (txt : Option Nat) :
    P (set_k_property Y par k txt : M F (Vec3 F × Option Nat)) := by
  unfold set_k_property
  repeat' first
    | with_reducible first
      | apply texture_lookup_resp h | apply Respects.get_first_string h
      | apply Respects.get_first_vec3 h | apply h.set_uvscale (hA _ (by decide)) | apply h.bind
      | apply h.pure | apply h.raise | apply resp_ite
    | exact fun e he => hA e (by revert e he; decide)
    | intro _ | split | dsimp only

theorem set_kd_resp (h : Respects A P)
    (hA : ∀ e ∈ [Effect.uvscale, Effect.material_write], A e)
    (Y : Ext F) (params : List (PBRTParameter F)) (mat : Nat) :
    P (set_kd Y params mat : M F Unit) := by
  unfold set_kd
  repeat' first
    | with_reducible first
      | apply set_k_property_resp h | apply Respects.param_at h
      | apply h.modify_material (hA _ (by decide)) | apply h.get_material | apply h.bind
      | apply h.pure | apply h.raise | apply resp_ite
    | exact fun e he => hA e (by revert e he; decide)
    | intro _ | split | dsimp only

theorem set_ks_resp (h : Respects A P)
    (hA : ∀ e ∈ [Effect.uvscale, Effect.material_write], A e)
    (Y : Ext F) (params : List (PBRTParameter F)) (mat : Nat) :
    P (set_ks Y params mat : M F Unit) := by
  unfold set_ks
  repeat' first
    | with_reducible first
      | apply set_k_property_resp h | apply Respects.param_at h
      | apply h.modify_material (hA _ (by decide)) | apply h.get_material | apply h.bind
      | apply h.pure | apply h.raise | apply resp_ite
    | exact fun e he => hA e (by revert e he; decide)
    | intro _ | split | dsimp only

theorem set_kr_resp (h : Respects A P)
    (hA : ∀ e ∈ [Effect.uvscale, Effect.material_write], A e)
    (Y : Ext F) (params : List (PBRTParameter F)) (mat : Nat) :
    P (set_kr Y params mat : M F Unit) := by
  unfold set_kr
  repeat' first
    | with_reducible first
      | apply set_k_property_resp h | apply Respects.param_at h
      | apply h.modify_material (hA _ (by decide)) | apply h.get_material | apply h.bind
      | apply h.pure | apply h.raise | apply resp_ite
    | exact fun e he => hA e (by revert e he; decide)
    | intro _ | split | dsimp only

theorem set_kt_resp (h : Respects A P)
    (hA : ∀ e ∈ [Effect.uvscale, Effect.material_write], A e)
    (Y : Ext F) (params : List (PBRTParameter F)) (mat : Nat) :
    P (set_kt Y params mat : M F Unit) := by
  unfold set_kt
  repeat' first
    | with_reducible first
      | apply set_k_property_resp h | apply Respects.param_at h
      | apply h.modify_material (hA _ (by decide)) | apply h.get_material | apply h.bind
      | apply h.pure | apply h.raise | apply resp_ite
    | exact fun e he => hA e (by revert e he; decide)
    | intro _ | split | dsimp only

theorem set_roughness_resp (h : Respects A P)
    (hA : ∀ e ∈ [Effect.material_write], A e)
    (Y : Ext F) (params : List (PBRTParameter F)) (mat : Nat) :
    P (set_roughness Y params mat : M F Unit) := by
  unfold set_roughness
  repeat' first
    | with_reducible first
      | apply texture_lookup_resp h | apply Respects.get_first_float h
      | apply Respects.get_first_string h | apply Respects.param_at h
      | apply h.modify_material (hA _ (by decide)) | apply h.bind | apply h.pure | apply h.raise
      | apply resp_ite
    | exact fun e he => hA e (by revert e he; decide)
    | intro _ | split | dsimp only

theorem parse_material_matte_resp (h : Respects A P)
    (hA : ∀ e ∈ [Effect.uvscale, Effect.material_write], A e)
    (Y : Ext F) (mat : Nat) (params : List (PBRTParameter F)) :
    P (parse_material_matte Y mat params : M F Unit) := by
  unfold parse_material_matte
  repeat' first
    | with_reducible first
      | apply set_kd_resp h | apply h.modify_material (hA _ (by decide)) | apply h.bind
      | apply h.pure | apply h.raise | apply resp_ite
    | exact fun e he => hA e (by revert e he; decide)
    | intro _ | split | dsimp only

theorem parse_material_uber_resp (h : Respects A P)
    (hA : ∀ e ∈ [Effect.uvscale, Effect.material_write], A e)
    (Y : Ext F) (mat : Nat) (params : List (PBRTParameter F)) :
    P (parse_material_uber Y mat params : M F Unit) := by
  unfold parse_material_uber
  repeat' first
    | with_reducible first
      | apply set_kd_resp h | apply set_kr_resp h | apply set_ks_resp h
      | apply set_roughness_resp h | apply h.modify_material (hA _ (by decide)) | apply h.bind
      | apply h.pure | apply h.raise | apply resp_ite
    | exact fun e he => hA e (by revert e he; decide)
    | intro _ | split | dsimp only

theorem parse_material_translucent_resp (h : Respects A P)
    (hA : ∀ e ∈ [Effect.uvscale, Effect.material_write], A e)
    (Y : Ext F) (mat : Nat) (params : List (PBRTParameter F)) :
    P (parse_material_translucent Y mat params : M F Unit) := by
  unfold parse_material_translucent
  repeat' first
    | with_reducible first
      | apply set_kd_resp h | apply set_kr_resp h | apply set_ks_resp h | apply set_kt_resp h
      | apply set_roughness_resp h | apply h.modify_material (hA _ (by decide)) | apply h.bind
      | apply h.pure | apply h.raise | apply resp_ite
    | exact fun e he => hA e (by revert e he; decide)
    | intro _ | split | dsimp only

theorem parse_material_metal_resp (h : Respects A P)
    (hA : ∀ e ∈ [Effect.uvscale, Effect.material_write], A e)
    (Y : Ext F) (mat : Nat) (params : List (PBRTParameter F)) :
    P (parse_material_metal Y mat params : M F Unit) := by
  unfold parse_material_metal
  repeat' first
    | with_reducible first
      | apply set_k_property_resp h | apply set_roughness_resp h | apply Respects.param_at h
      | apply h.modify_material (hA _ (by decide)) | apply h.bind | apply h.pure | apply h.raise
      | apply resp_ite
    | exact fun e he => hA e (by revert e he; decide)
    | intro _ | split | dsimp only

theorem parse_material_mirror_resp (h : Respects A P)
    (hA : ∀ e ∈ [Effect.uvscale, Effect.material_write], A e)
    (Y : Ext F) (mat : Nat) (params : List (PBRTParameter F)) :
    P (parse_material_mirror Y mat params : M F Unit) := by
  unfold parse_material_mirror
  repeat' first
    | with_reducible first
      | apply set_kr_resp h | apply h.modify_material (hA _ (by decide)) | apply h.bind
      | apply h.pure | apply h.raise | apply resp_ite
    | exact fun e he => hA e (by revert e he; decide)
    | intro _ | split | dsimp only

theorem parse_material_plastic_resp (h : Respects A P)
    (hA : ∀ e ∈ [Effect.uvscale, Effect.material_write], A e)
    (Y : Ext F) (mat : Nat) (params : List (PBRTParameter F)) :
    P (parse_material_plastic Y mat params : M F Unit) := by
  unfold parse_material_plastic
  repeat' first
    | with_reducible first
      | apply set_kd_resp h | apply set_ks_resp h | apply h.modify_material (hA _ (by decide))
      | apply h.bind | apply h.pure | apply h.raise | apply resp_ite
    | exact fun e he => hA e (by revert e he; decide)
    | intro _ | split | dsimp only

theorem parse_material_substrate_resp (h : Respects A P)
    (hA : ∀ e ∈ [Effect.uvscale, Effect.material_write], A e)
    (Y : Ext F) (mat : Nat) (params : List (PBRTParameter F)) :
    P (parse_material_substrate Y mat params : M F Unit) := by
  unfold parse_material_substrate
  repeat' first
    | with_reducible first
      | apply set_kd_resp h | apply set_ks_resp h | apply h.modify_material (hA _ (by decide))
      | apply h.bind | apply h.pure | apply h.raise | apply resp_ite
    | exact fun e he => hA e (by revert e he; decide)
    | intro _ | split | dsimp only

theorem parse_material_glass_resp (h : Respects A P)
    (hA : ∀ e ∈ [Effect.uvscale, Effect.material_write], A e)
    (Y : Ext F) (mat : Nat) (params : List (PBRTParameter F)) :
    P (parse_material_glass Y mat params : M F Unit) := by
  unfold parse_material_glass
  repeat' first
    | with_reducible first
      | apply set_ks_resp h | apply set_kt_resp h | apply h.modify_material (hA _ (by decide))
      | apply h.bind | apply h.pure | apply h.raise | apply resp_ite
    | exact fun e he => hA e (by revert e he; decide)
    | intro _ | split | dsimp only

theorem texture_images_resp (h : Respects A P) (txt : Option Nat) :
    P (texture_images txt : M F (Image F × Image F)) := by
  unfold texture_images
  repeat' first
    | with_reducible first
      | apply h.get_texture | apply h.bind | apply h.pure | apply h.raise | apply resp_ite
    | exact fun e he => hA e (by revert e he; decide)
    | intro _ | split | dsimp only

theorem blend_textures_resp (h : Respects A P)
    (hA : ∀ e ∈ [Effect.counters, Effect.scene_textures, Effect.texture_new], A e)
    (txt1 txt2 : Option Nat) (amount : F) :
    P (blend_textures txt1 txt2 amount : M F (Option Nat)) := by
  unfold blend_textures
  repeat' first
    | with_reducible first
      | apply texture_images_resp h | apply h.add_texture (hA _ (by decide))
      | apply h.alloc_texture (hA _ (by decide)) | apply h.get_unique_id (hA _ (by decide))
      | apply h.get_textureSavePath | apply h.bind | apply h.pure | apply h.raise
      | apply resp_ite
    | exact fun e he => hA e (by revert e he; decide)
    | intro _ | split | dsimp only

theorem parse_material_mix_resp (h : Respects A P)
    (hA : ∀ e ∈ [Effect.counters, Effect.scene_textures, Effect.material_write, Effect.texture_new], A e)
    (Y : Ext F) (mat : Nat) (params : List (PBRTParameter F)) :
    P (parse_material_mix Y mat params : M F Unit) := by
  unfold parse_material_mix
  repeat' first
    | with_reducible first
      | apply blend_textures_resp h | apply material_lookup_resp h
      | apply Respects.get_first_float h | apply Respects.get_first_string h
      | apply Respects.param_at h | apply Respects.throw h
      | apply h.modify_material (hA _ (by decide)) | apply h.get_declared | apply h.get_material
      | apply h.bind | apply h.pure | apply h.raise | apply resp_ite
    | exact fun e he => hA e (by revert e he; decide)
    | intro _ | split | dsimp only

theorem parse_material_class_resp (h : Respects A P)
    (hA : ∀ e ∈ [Effect.counters, Effect.uvscale, Effect.scene_textures, Effect.material_write,
      Effect.texture_new], A e)
    (Y : Ext F) (materialType : String) (mat : Nat) (params : List (PBRTParameter F)) :
    P (parse_material_class Y materialType mat params : M F Unit) := by
  unfold parse_material_class
  repeat' first
    | with_reducible first
      | apply parse_material_glass_resp h | apply parse_material_matte_resp h
      | apply parse_material_metal_resp h | apply parse_material_mirror_resp h
      | apply parse_material_mix_resp h | apply parse_material_plastic_resp h
      | apply parse_material_substrate_resp h | apply parse_material_translucent_resp h
      | apply parse_material_uber_resp h | apply h.bind | apply h.pure | apply h.raise
      | apply resp_ite
    | exact fun e he => hA e (by revert e he; decide)
    | intro _ | split | dsimp only

theorem define_material_resp (h : Respects A P)
    (hA : ∀ e ∈ [Effect.counters, Effect.uvscale, Effect.named_materials, Effect.bound_material,
      Effect.scene_textures, Effect.material_write, Effect.texture_new], A e)
    (Y : Ext F) (namedMaterial : Bool) (mat dmat : Nat) :
    P (define_material Y namedMaterial mat dmat : M F Unit) := by
  unfold define_material
  repeat' first
    | with_reducible first
      | apply parse_material_class_resp h | apply parse_parameters_resp h
      | apply texture_lookup_resp h | apply Respects.get_first_string h
      | apply Respects.param_at h | apply Respects.throw_if h | apply Respects.throw h
      | apply h.bind_material (hA _ (by decide))
      | apply h.insert_named_material (hA _ (by decide))
      | apply h.modify_material (hA _ (by decide))
      | apply h.set_uvscale (hA _ (by decide))
      | apply h.advance | apply h.current_token | apply h.getG | apply h.bind | apply h.pure
      | apply h.raise | apply resp_ite
    | exact fun e he => hA e (by revert e he; decide)
    | intro _ | split | dsimp only

theorem execute_Material_resp (h : Respects A P)
    (hA : ∀ e ∈ [Effect.counters, Effect.uvscale, Effect.named_materials, Effect.bound_material,
      Effect.scene_textures, Effect.material_write, Effect.material_new, Effect.texture_new], A e)
    (Y : Ext F) (namedMaterial : Bool) :
    P (execute_Material Y namedMaterial : M F Unit) := by
  unfold execute_Material
  repeat' first
    | with_reducible first
      | apply define_material_resp h
      | apply h.get_unique_id (hA _ (by decide))
      | apply h.new_declared_material (hA _ (by decide))
      | apply h.advance | apply h.bind | apply h.pure
      | apply h.raise | apply resp_ite
    | exact fun e he => hA e (by revert e he; decide)
    | intro _ | split | dsimp only

theorem execute_NamedMaterial_resp (h : Respects A P)
    (hA : ∀ e ∈ [Effect.bound_material], A e) :
    P (execute_NamedMaterial : M F Unit) := by
  unfold execute_NamedMaterial
  repeat' first
    | with_reducible first
      | apply Respects.throw_if h | apply Respects.throw h
      | apply h.bind_material (hA _ (by decide)) | apply h.advance | apply h.current_token
      | apply h.getG | apply h.bind | apply h.pure | apply h.raise | apply resp_ite
    | exact fun e he => hA e (by revert e he; decide)
    | intro _ | split | dsimp only

theorem float_param_resp (h : Respects A P)
    (name : String) (params : List (PBRTParameter F)) (dflt : F) :
    P (float_param name params dflt : M F F) := by
  unfold float_param
  repeat' first
    | with_reducible first
      | apply Respects.get_first_float h | apply Respects.param_at h | apply h.bind
      | apply h.pure | apply h.raise | apply resp_ite
    | exact fun e he => hA e (by revert e he; decide)
    | intro _ | split | dsimp only

theorem parse_imagemap_texture_resp (h : Respects A P)
    (hA : ∀ e ∈ [Effect.texture_write], A e)
    (Y : Ext F) (dt : DeclaredTexture F) :
    P (parse_imagemap_texture Y dt : M F (DeclaredTexture F)) := by
  unfold parse_imagemap_texture
  repeat' first
    | with_reducible first
      | apply float_param_resp h | apply load_texture_resp h | apply parse_parameters_resp h
      | apply Respects.get_first_string h | apply Respects.param_at h | apply Respects.throw h
      | apply h.bind | apply h.pure | apply h.raise | apply resp_ite
    | exact fun e he => hA e (by revert e he; decide)
    | intro _ | split | dsimp only

theorem parse_constant_texture_resp (h : Respects A P)
    (hA : ∀ e ∈ [Effect.texture_write], A e)
    (Y : Ext F) (dt : DeclaredTexture F) :
    P (parse_constant_texture Y dt : M F (DeclaredTexture F)) := by
  unfold parse_constant_texture
  repeat' first
    | with_reducible first
      | apply parse_parameters_resp h | apply Respects.get_first_float h
      | apply Respects.get_first_vec3 h | apply Respects.param_at h
      | apply h.modify_texture (hA _ (by decide)) | apply h.bind | apply h.pure | apply h.raise
      | apply resp_ite
    | exact fun e he => hA e (by revert e he; decide)
    | intro _ | split | dsimp only

theorem checker_colour_resp (h : Respects A P)
    (name : String) (params : List (PBRTParameter F)) (dflt : Vec4 F) :
    P (checker_colour name params dflt : M F (Vec4 F)) := by
  unfold checker_colour
  repeat' first
    | with_reducible first
      | apply Respects.get_first_float h | apply Respects.get_first_vec3 h
      | apply Respects.param_at h | apply h.bind | apply h.pure | apply h.raise | apply resp_ite
    | exact fun e he => hA e (by revert e he; decide)
    | intro _ | split | dsimp only

theorem parse_checkerboard_texture_resp (h : Respects A P)
    (hA : ∀ e ∈ [Effect.texture_write], A e)
    (Y : Ext F) (dt : DeclaredTexture F) :
    P (parse_checkerboard_texture Y dt : M F (DeclaredTexture F)) := by
  unfold parse_checkerboard_texture
  repeat' first
    | with_reducible first
      | apply checker_colour_resp h | apply float_param_resp h | apply parse_parameters_resp h
      | apply h.modify_texture (hA _ (by decide)) | apply h.bind | apply h.pure | apply h.raise
      | apply resp_ite
    | exact fun e he => hA e (by revert e he; decide)
    | intro _ | split | dsimp only

theorem scale_operand_resp (h : Respects A P) (p : PBRTParameter F) :
    P (scale_operand p : M F (Option (Image F × Image F))) := by
  unfold scale_operand
  repeat' first
    | with_reducible first
      | apply texture_lookup_resp h | apply Respects.get_first_float h
      | apply Respects.get_first_string h | apply Respects.get_first_vec3 h | apply h.get_texture
      | apply h.bind | apply h.pure | apply h.raise | apply resp_ite
    | exact fun e he => hA e (by revert e he; decide)
    | intro _ | split | dsimp only

theorem parse_scale_texture_resp (h : Respects A P)
    (hA : ∀ e ∈ [Effect.texture_write], A e)
    (Y : Ext F) (dt : DeclaredTexture F) :
    P (parse_scale_texture Y dt : M F (DeclaredTexture F)) := by
  unfold parse_scale_texture
  repeat' first
    | with_reducible first
      | apply float_param_resp h | apply parse_parameters_resp h | apply scale_operand_resp h
      | apply Respects.param_at h | apply Respects.throw h
      | apply h.modify_texture (hA _ (by decide)) | apply h.bind | apply h.pure | apply h.raise
      | apply resp_ite
    | exact fun e he => hA e (by revert e he; decide)
    | intro _ | split | dsimp only

theorem execute_Texture_resp (h : Respects A P)
    (hA : ∀ e ∈ [Effect.counters, Effect.named_textures, Effect.texture_new, Effect.texture_write], A e)
    (Y : Ext F) :
    P (execute_Texture Y : M F Unit) := by
  unfold execute_Texture
  repeat' first
    | with_reducible first
      | apply parse_checkerboard_texture_resp h | apply parse_constant_texture_resp h
      | apply parse_imagemap_texture_resp h | apply parse_scale_texture_resp h
      | apply Respects.throw_if h | apply Respects.throw h
      | apply h.alloc_texture (hA _ (by decide)) | apply h.erase_named_texture (hA _ (by decide))
      | apply h.get_unique_id (hA _ (by decide))
      | apply h.insert_named_texture (hA _ (by decide)) | apply h.advance | apply h.current_token
      | apply h.get_textureSavePath | apply h.bind | apply h.pure | apply h.raise
      | apply resp_ite
    | exact fun e he => hA e (by revert e he; decide)
    | intro _ | split | dsimp only

theorem execute_world_directive_resp (h : Respects A P)
    (hA : ∀ e ∈ [Effect.lexer_push, Effect.counters, Effect.ctm, Effect.uvscale,
      Effect.area_light, Effect.named_materials, Effect.bound_material, Effect.named_textures,
      Effect.focus, Effect.scene_shapes, Effect.instances, Effect.scene_textures,
      Effect.environments, Effect.material_write, Effect.material_new, Effect.texture_new,
      Effect.texture_write, Effect.group_new, Effect.object_begin, Effect.object_end,
      Effect.capture, Effect.object_store, Effect.object_mark, Effect.publish_declared,
      Effect.publish_new, Effect.attr_push, Effect.attr_pop, Effect.ctm_push,
      Effect.ctm_pop], A e)
    (Y : Ext F) (fuel : Nat) : P (execute_world_directive Y fuel) := by
  induction fuel with
  | zero => exact h.raise _
  | succ n ih =>
    unfold execute_world_directive
    repeat' first
      | with_reducible first
        | apply execute_ObjectBlock_resp h _ _ ih | apply execute_AreaLightSource_resp h
        | apply execute_AttributeBegin_resp h | apply execute_AttributeEnd_resp h
        | apply execute_ConcatTransform_resp h | apply execute_Include_resp h
        | apply execute_LightSource_resp h | apply execute_LookAt_resp h
        | apply execute_Material_resp h | apply execute_NamedMaterial_resp h
        | apply execute_ObjectInstance_resp h | apply execute_Rotate_resp h
        | apply execute_Scale_resp h | apply execute_Shape_resp h | apply execute_Texture_resp h
        | apply execute_Transform_resp h | apply execute_TransformBegin_resp h
        | apply execute_TransformEnd_resp h | apply execute_Translate_resp h
        | apply ignore_current_directive_resp h | apply Respects.throw_if h
        | apply h.current_token | apply h.bind | apply h.pure | apply h.raise | apply resp_ite
      | exact fun e he => hA e (by revert e he; decide)
      | intro _ | split | dsimp only

theorem execute_world_directives_resp (h : Respects A P)
    (hA : ∀ e ∈ [Effect.lexer_push, Effect.counters, Effect.ctm, Effect.uvscale,
      Effect.area_light, Effect.named_materials, Effect.bound_material, Effect.named_textures,
      Effect.focus, Effect.scene_shapes, Effect.instances, Effect.scene_textures,
      Effect.environments, Effect.material_write, Effect.material_new, Effect.texture_new,
      Effect.texture_write, Effect.group_new, Effect.object_begin, Effect.object_end,
      Effect.capture, Effect.object_store, Effect.object_mark, Effect.publish_declared,
      Effect.publish_new, Effect.attr_push, Effect.attr_pop, Effect.ctm_push,
      Effect.ctm_pop], A e)
    (Y : Ext F) (fuel : Nat) :
    P (execute_world_directives Y fuel : M F Unit) := by
  unfold execute_world_directives
  repeat' first
    | with_reducible first
      | apply directive_loop_resp h | apply execute_world_directive_resp h | apply h.modifyCTM (hA _ (by decide))
      | apply h.advance | apply h.bind | apply h.pure | apply h.raise | apply resp_ite
    | exact fun e he => hA e (by revert e he; decide)
    | intro _ | split | dsimp only

theorem execute_preworld_directive_resp (h : Respects A P)
    (hA : ∀ e ∈ [Effect.lexer_push, Effect.ctm, Effect.focus, Effect.aspect,
      Effect.cameras], A e)
    (Y : Ext F) :
    P (execute_preworld_directive Y : M F Unit) := by
  unfold execute_preworld_directive
  repeat' first
    | with_reducible first
      | apply execute_Camera_resp h | apply execute_ConcatTransform_resp h
      | apply execute_Film_resp h | apply execute_Include_resp h | apply execute_LookAt_resp h
      | apply execute_Rotate_resp h | apply execute_Scale_resp h | apply execute_Transform_resp h
      | apply execute_Translate_resp h | apply ignore_current_directive_resp h
      | apply Respects.throw_if h | apply h.current_token | apply h.bind | apply h.pure
      | apply h.raise | apply resp_ite
    | exact fun e he => hA e (by revert e he; decide)
    | intro _ | split | dsimp only

theorem execute_preworld_directives_resp (h : Respects A P)
    (hA : ∀ e ∈ [Effect.lexer_push, Effect.ctm, Effect.focus, Effect.aspect,
      Effect.cameras], A e)
    (Y : Ext F) (fuel : Nat) :
    P (execute_preworld_directives Y fuel : M F Unit) := by
  unfold execute_preworld_directives
  repeat' first
    | with_reducible first
      | apply directive_loop_resp h | apply execute_preworld_directive_resp h | apply h.bind | apply h.pure | apply h.raise
      | apply resp_ite
    | exact fun e he => hA e (by revert e he; decide)
    | intro _ | split | dsimp only

theorem parse_resp (h : Respects A P)
    (hA : ∀ e ∈ [Effect.lexer_push, Effect.counters, Effect.ctm, Effect.uvscale,
      Effect.area_light, Effect.named_materials, Effect.bound_material, Effect.named_textures,
      Effect.focus, Effect.aspect, Effect.cameras, Effect.scene_shapes,
      Effect.instances, Effect.scene_textures, Effect.environments, Effect.material_write,
      Effect.material_new, Effect.texture_new, Effect.texture_write, Effect.group_new,
      Effect.object_begin, Effect.object_end, Effect.capture, Effect.object_store,
      Effect.object_mark, Effect.publish_declared, Effect.publish_new, Effect.attr_push,
      Effect.attr_pop, Effect.ctm_push, Effect.ctm_pop], A e)
    (Y : Ext F) (fuel : Nat) :
    P (parse Y fuel : M F Unit) := by
  unfold parse
  repeat' first
    | with_reducible first
      | apply execute_preworld_directives_resp h | apply execute_world_directives_resp h
      | apply h.advance | apply h.bind | apply h.pure | apply h.raise | apply resp_ite
    | exact fun e he => hA e (by revert e he; decide)
    | intro _ | split | dsimp only

/-! ## Steps of a run -/

theorem bind_eq {σ α β : Type} (m : SM σ α) (f : α → SM σ β) (s : σ) :
    (m >>= f) s = match m s with
      | .ok a s1 => f a s1
      | .error e s1 => .error e s1 := rfl

theorem pure_eq {σ α : Type} (a : α) (s : σ) : (pure a : SM σ α) s = .ok a s := rfl

theorem bind_ok {σ α β : Type} (m : SM σ α) (f : α → SM σ β) (s s' : σ) (b : β) :
    (m >>= f) s = .ok b s' ↔ ∃ a s1, m s = .ok a s1 ∧ f a s1 = .ok b s' := by
  rw [bind_eq]
  cases m s with
  | ok a s1 =>
    constructor
    · intro h; exact ⟨a, s1, rfl, h⟩
    · rintro ⟨a1, s2, h1, h2⟩; cases h1; exact h2
  | error e s1 => simp

theorem pure_ok {σ α : Type} (a b : α) (s s' : σ) :
    (pure a : SM σ α) s = .ok b s' ↔ b = a ∧ s' = s := by
  rw [pure_eq]
  constructor
  · intro h; cases h; exact ⟨rfl, rfl⟩
  · rintro ⟨rfl, rfl⟩; rfl

theorem throw_if_ok (c : Prop) [Decidable c] (msg : String) (s s' : PState F) (a : Unit) :
    throw_if c msg s = .ok a s' ↔ ¬ c ∧ s' = s := by
  unfold throw_if
  by_cases hc : c
  · simp [hc, throw_syntax_exception, raise]
  · simp only [hc, if_false, pure_ok]
    simp

theorem advance_ok (s s1 : PState F) (a : Unit) (h : advance s = .ok a s1) :
    ∃ ls, s1 = { s with lexers := ls } := by
  unfold advance at h
  split at h
  · cases h; exact ⟨_, rfl⟩
  · cases h

theorem current_token_ok (s s1 : PState F) (t : Lexeme) (h : current_token s = .ok t s1) :
    s1 = s := by
  unfold current_token at h
  split at h
  · cases h
  · cases h; rfl

theorem advance_keeps {F : Type} (s : PState F) :
    (advance s).state.gState = s.gState ∧ (advance s).state.stateStack = s.stateStack ∧
      (advance s).state.CTMStack = s.CTMStack := by
  unfold advance
  split <;> simp [Res.state]

/-! ## Maps -/

theorem mapFind_mapErase_self {V : Type} (m : List (String × V)) (k : String) :
    mapFind (mapErase m k) k = none := by
  induction m with
  | nil => rfl
  | cons kv m ih =>
    obtain ⟨k1, v⟩ := kv
    by_cases hk : k1 = k
    · simpa [mapErase, hk] using ih
    · simpa [mapErase, hk, mapFind] using ih

theorem mapFind_append_single {V : Type} (m : List (String × V)) (k : String) (v : V)
    (h : mapFind m k = none) : mapFind (m ++ [(k, v)]) k = some v := by
  induction m with
  | nil => simp [mapFind]
  | cons kv m ih =>
    obtain ⟨k1, v1⟩ := kv
    by_cases hk : k1 = k
    · simp [mapFind, hk] at h
    · simp only [mapFind, hk, if_false] at h
      simpa [mapFind, hk] using ih h

theorem mapFind_insert_erase {V : Type} (m : List (String × V)) (k : String) (v : V) :
    mapFind (mapInsert (mapErase m k) k v) k = some v := by
  unfold mapInsert
  rw [mapFind_mapErase_self]
  exact mapFind_append_single _ _ _ (mapFind_mapErase_self m k)

/-! ## Relations between the states of a run -/

theorem rel_pure {R : PState F → PState F → Prop} (hrefl : ∀ s, R s s) {α : Type} (a : α) :
    Rel R (pure a : M F α) := by
  intro s b s' h
  cases h
  exact hrefl s

theorem rel_bind {R : PState F → PState F → Prop} (htrans : ∀ a b c, R a b → R b c → R a c)
    {α β : Type} (m : M F α) (f : α → M F β) (hm : Rel R m) (hf : ∀ a, Rel R (f a)) :
    Rel R (m >>= f) := by
  intro s b s' h
  rw [bind_eq] at h
  cases hms : m s with
  | ok a s1 =>
    rw [hms] at h
    exact htrans _ _ _ (hm _ _ _ hms) (hf a _ _ _ h)
  | error e s1 => rw [hms] at h; cases h

theorem rel_raise {R : PState F → PState F → Prop} {α : Type} (e : Err) :
    Rel R (raise e : M F α) := by
  intro s b s' h
  cases h

theorem rel_bound {R : PState F → PState F → Prop} {α : Type} (loop : Nat → M F α)
    (h : ∀ n, Rel R (loop n)) : Rel R (with_lexeme_bound loop) := by
  intro s b s' hs
  exact h _ _ _ _ hs

/-! ## C1: an attribute scope restores the graphics state -/

/-- Every operation on the state is framed: the saved graphics states below the
attribute stack are neither read nor written. -/
theorem framed_respects (B : List (GraphicsState F)) :
    Respects (F := F) (fun _ => True) (Framed B) := by
  constructor
  case pure =>
    intro α a s b s' h
    cases h
    rfl
  case bind =>
    intro α β m f hm hf s b s' h
    rw [bind_ok] at h
    obtain ⟨a, s1, h1, h2⟩ := h
    rw [bind_ok]
    exact ⟨a, under B s1, hm _ _ _ h1, hf a _ _ _ h2⟩
  case raise =>
    intro α e s b s' h
    cases h
  case bound =>
    intro α loop hl s b s' h
    exact hl _ _ _ _ h
  case pop_attributes =>
    intro _ s a s' h
    unfold pop_attributes at h ⊢
    cases hT : s.stateStack.getLast? with
    | none => rw [hT] at h; cases h
    | some g =>
      rw [hT] at h
      cases h
      have hne : s.stateStack ≠ [] := by
        intro h0; rw [h0] at hT; cases hT
      have h1 : (under B s).stateStack.getLast? = some g := by
        show (B ++ s.stateStack).getLast? = some g
        rw [List.getLast?_append, hT]; rfl
      rw [h1]
      simp [under, List.dropLast_append_of_ne_nil _ hne]
  all_goals
    intros
    intro s a s' h
    simp only [advance, current_token, current_path, getG, get_defaults, get_textureSavePath,
      get_scene, get_material, get_declared, get_texture, get_inObjectDefinition,
      lookup_object, push_lexer, get_unique_id, modifyCTM, set_uvscale, set_areaLight,
      insert_named_material, bind_material, erase_named_texture, insert_named_texture,
      set_defaultFocus, set_aspect, add_camera, add_group, add_instance, add_texture,
      add_environment, modify_material, new_declared_material, alloc_texture, modify_texture,
      alloc_group, begin_object, end_object, capture_group, store_object, mark_object_added,
      add_declared_to_scene, new_scene_material, push_attributes, push_transform, pop_transform,
      modifyS, modifyG, modifyScene, under] at h ⊢
    first
      | (cases h; rfl)
      | (cases h; simp; done)
      | (split at h <;> first
          | (cases h; simp_all; done)
          | (cases h; done)
          | (split at h <;> first | (cases h; simp_all; done) | (cases h; done)))


theorem world_directive_seq_framed (B : List (GraphicsState F)) (Y : Ext F) (fuel n : Nat) :
    Framed B (world_directive_seq Y fuel n) := by
  induction n with
  | zero => exact (framed_respects B).pure ()
  | succ n ih =>
    exact (framed_respects B).bind _ _
      (execute_world_directive_resp (framed_respects B) (fun _ _ => trivial) Y fuel)
      (fun _ => ih)

theorem execute_AttributeEnd_ok (s s3 : PState F) (T : List (GraphicsState F))
    (g : GraphicsState F) (hs : s.stateStack = T ++ [g]) (h3 : advance s = .ok () s3) :
    execute_AttributeEnd s = .ok () { s3 with gState := g, stateStack := T } := by
  obtain ⟨ls, rfl⟩ := advance_ok _ _ _ h3
  rw [execute_AttributeEnd, bind_eq, h3]
  simp [pop_attributes, hs]

/-- C1: let `execute_AttributeBegin` succeed from the state `s0`, and let `n`
world directives follow whose attribute scopes are well nested: run on their
own, with no scope open, they end without error and leave no scope open.  Then
these directives run without error in the scope that was opened; after them
the attribute stack is the one of `s0` with the graphics state of `s0` on top;
and `execute_AttributeEnd`, when its `advance` succeeds, gives back the
graphics state of `s0`, in every field, and the attribute stack of `s0`. -/
theorem C1_attribute_scope_restores (Y : Ext F) (fuel n : Nat) (s0 s1 t : PState F)
    (hbegin : execute_AttributeBegin s0 = .ok () s1)
    (hbody : world_directive_seq Y fuel n { s1 with stateStack := [] } = .ok () t)
    (hnested : t.stateStack = []) :
    ∃ s2, world_directive_seq Y fuel n s1 = .ok () s2 ∧
      s2.stateStack = s0.stateStack ++ [s0.gState] ∧
      (∀ s3, advance s2 = .ok () s3 →
        execute_AttributeEnd s2 =
          .ok () { s3 with gState := s0.gState, stateStack := s0.stateStack }) ∧
      (∀ s4, execute_AttributeEnd s2 = .ok () s4 →
        s4.gState = s0.gState ∧ s4.stateStack = s0.stateStack) := by
  have h1 : s1.stateStack = s0.stateStack ++ [s0.gState] := by
    simp only [execute_AttributeBegin, bind_ok] at hbegin
    obtain ⟨_, s', ha, hp⟩ := hbegin
    obtain ⟨ls, rfl⟩ := advance_ok _ _ _ ha
    cases hp
    rfl
  have h2 := world_directive_seq_framed s1.stateStack Y fuel n _ _ _ hbody
  have e1 : under s1.stateStack { s1 with stateStack := [] } = s1 := by
    simp [under]
  rw [e1] at h2
  have hs2 : (under s1.stateStack t).stateStack = s0.stateStack ++ [s0.gState] := by
    simp [under, hnested, h1]
  refine ⟨under s1.stateStack t, h2, hs2, ?_, ?_⟩
  · intro s3 h3
    exact execute_AttributeEnd_ok _ _ _ _ hs2 h3
  · intro s4 h4
    have h5 := h4
    simp only [execute_AttributeEnd, bind_ok] at h5
    obtain ⟨_, s3, h3, -⟩ := h5
    rw [execute_AttributeEnd_ok _ _ _ _ hs2 h3] at h4
    cases h4
    exact ⟨rfl, rfl⟩

/-- C1, witness: the scope `AttributeBegin Translate 1 2 3 AttributeBegin
Material "matte" AttributeEnd AttributeEnd`: the four directives of the body
change the transform, and the closing `AttributeEnd` gives back the graphics
state of the start. -/
theorem C1_attribute_scope_restores_witness :
    (world_directive_seq testExt 2 4
        (execute_AttributeBegin (at_directive scope_lexemes)).state).state.gState.CTM ≠
      (at_directive scope_lexemes).gState.CTM ∧
    ∃ s2, world_directive_seq testExt 2 4
        (execute_AttributeBegin (at_directive scope_lexemes)).state = .ok () s2 ∧
      s2.stateStack =
        (at_directive scope_lexemes).stateStack ++ [(at_directive scope_lexemes).gState] ∧
      (∀ s3, advance s2 = .ok () s3 →
        execute_AttributeEnd s2 =
          .ok () { s3 with gState := (at_directive scope_lexemes).gState,
                           stateStack := (at_directive scope_lexemes).stateStack }) ∧
      (∀ s4, execute_AttributeEnd s2 = .ok () s4 →
        s4.gState = (at_directive scope_lexemes).gState ∧
          s4.stateStack = (at_directive scope_lexemes).stateStack) :=
  ⟨by decide!,
    C1_attribute_scope_restores testExt 2 4 (at_directive scope_lexemes)
      (execute_AttributeBegin (at_directive scope_lexemes)).state
      (world_directive_seq testExt 2 4
        { (execute_AttributeBegin (at_directive scope_lexemes)).state with
          stateStack := [] }).state
      (by decide!) (by decide!) (by decide!)⟩

/-! ## C2: an end of scope without its begin -/

/-- C2, counterexample: with both stacks empty and no lexeme left after the
directive, `execute_AttributeEnd` and `execute_TransformEnd` raise the
end-of-input error of `advance`, not a syntax error. -/
theorem C2_counterexample :
    (at_directive [ident "AttributeEnd"]).stateStack = [] ∧
      (at_directive [ident "TransformEnd"]).CTMStack = [] ∧
      (execute_AttributeEnd (at_directive [ident "AttributeEnd"])).err? = some Err.inputEnded ∧
      (execute_TransformEnd (at_directive [ident "TransformEnd"])).err? = some Err.inputEnded := by
  decide!

/-- C2, amended: when the attribute stack is empty and the `advance` over the
directive succeeds, `execute_AttributeEnd` raises the syntax error of an
unmatched `AttributeEnd`, and likewise `execute_TransformEnd` on an empty
transform stack; whenever one of them fails, the graphics state and both
stacks are as they were. -/
theorem C2_unmatched_end {F : Type} (s : PState F) :
    (s.stateStack = [] → ∀ s1, advance s = .ok () s1 →
        execute_AttributeEnd s = .error
          (Err.syntaxError "AttributeEnd instruction unmatched with AttributeBegin.") s1) ∧
      (s.CTMStack = [] → ∀ s1, advance s = .ok () s1 →
        execute_TransformEnd s = .error
          (Err.syntaxError "TranformEnd instruction unmatched with TransformBegin.") s1) ∧
      (∀ e t, execute_AttributeEnd s = .error e t →
        t.gState = s.gState ∧ t.stateStack = s.stateStack ∧ t.CTMStack = s.CTMStack) ∧
      (∀ e t, execute_TransformEnd s = .error e t →
        t.gState = s.gState ∧ t.stateStack = s.stateStack ∧ t.CTMStack = s.CTMStack) := by
  have hk := advance_keeps s
  refine ⟨?_, ?_, ?_, ?_⟩
  · intro hs s1 h1
    have h2 : s1.stateStack = [] := by
      have := hk.2.1; rw [h1] at this; simpa [Res.state, hs] using this
    simp [execute_AttributeEnd, bind_eq, h1, pop_attributes, h2]
  · intro hs s1 h1
    have h2 : s1.CTMStack = [] := by
      have := hk.2.2; rw [h1] at this; simpa [Res.state, hs] using this
    simp [execute_TransformEnd, bind_eq, h1, pop_transform, h2]
  · intro e t h
    simp only [execute_AttributeEnd, bind_eq] at h
    cases ha : advance s with
    | ok a s1 =>
      rw [ha] at h hk
      simp only [Res.state] at hk
      simp only [pop_attributes] at h
      split at h
      · injection h with _ h; subst h; exact hk
      · cases h
    | error e1 s1 =>
      rw [ha] at h hk
      simp only [Res.state] at hk
      injection h with _ h; subst h; exact hk
  · intro e t h
    simp only [execute_TransformEnd, bind_eq] at h
    cases ha : advance s with
    | ok a s1 =>
      rw [ha] at h hk
      simp only [Res.state] at hk
      simp only [pop_transform] at h
      split at h
      · injection h with _ h; subst h; exact hk
      · cases h
    | error e1 s1 =>
      rw [ha] at h hk
      simp only [Res.state] at hk
      injection h with _ h; subst h; exact hk

/-- C2, witness: on an empty attribute stack, with a lexeme left after the
directive, the syntax error is raised. -/
theorem C2_unmatched_end_witness :
    (at_directive [ident "AttributeEnd", ident "WorldEnd"]).stateStack = [] ∧
      execute_AttributeEnd (at_directive [ident "AttributeEnd", ident "WorldEnd"]) =
        .error (Err.syntaxError "AttributeEnd instruction unmatched with AttributeBegin.")
          (advance (at_directive [ident "AttributeEnd", ident "WorldEnd"])).state :=
  ⟨rfl, (C2_unmatched_end (at_directive [ident "AttributeEnd", ident "WorldEnd"])).1 rfl _ rfl⟩

/-! ## C3: the type check of a parameter -/

/-- C3: `check_param_type n t` raises a syntax error exactly when `n` is in
the table of parameters and `t` is not among the types the table admits for
`n`; it returns `true` when `n` is in the table and `t` is admitted, and
`false`, without raising, when `n` is not in the table.  For `Kd` the types
`integer` and `float` raise, and `rgb`, `spectrum` and `texture` return
`true`. -/
theorem C3_check_param_type (n t : String) :
    ((∃ e, check_param_type n t = .error e) ↔
        ∃ v, mapFind parameterToType n = some v ∧ t ∉ v) ∧
      (∀ e, check_param_type n t = .error e → ∃ msg, e = Err.syntaxError msg) ∧
      (∀ v, mapFind parameterToType n = some v → t ∈ v → check_param_type n t = .ok true) ∧
      (mapFind parameterToType n = none → check_param_type n t = .ok false) ∧
      (∃ msg, check_param_type "Kd" "integer" = .error (Err.syntaxError msg)) ∧
      (∃ msg, check_param_type "Kd" "float" = .error (Err.syntaxError msg)) ∧
      check_param_type "Kd" "rgb" = .ok true ∧
      check_param_type "Kd" "spectrum" = .ok true ∧
      check_param_type "Kd" "texture" = .ok true := by
  refine ⟨?_, ?_, ?_, ?_, ⟨_, rfl⟩, ⟨_, rfl⟩, rfl, rfl, rfl⟩
  · unfold check_param_type check_param_type_in
    cases hf : mapFind parameterToType n with
    | none => simp
    | some v =>
      by_cases ht : t ∈ v
      · simp [ht]
      · simp [ht]
  · intro e he
    unfold check_param_type check_param_type_in at he
    cases hf : mapFind parameterToType n with
    | none => simp [hf] at he
    | some v =>
      by_cases ht : t ∈ v
      · simp [hf, ht] at he
      · simp [hf, ht] at he
        exact ⟨_, he.symm⟩
  · intro v hv ht
    unfold check_param_type check_param_type_in
    simp [hv, ht]
  · intro hn
    unfold check_param_type check_param_type_in
    simp [hn]

/-! ## C4: the minimal scene -/

set_option maxRecDepth 100000 in
set_option smartUnfolding false in
theorem minimal_scene_parsed_generic :
    minimal_scene_parsed (Classical.epsilon (fun w => ¬ minimal_scene_parsed w)) := by
  refine ⟨by decide!, by decide!, by decide!, by decide!, by decide!, by rfl⟩

/-- C4: for every implementation of the external functions, every default
aspect, focus and save path, and every fuel of at least 3, parsing the lexemes
of the minimal scene (`Camera "perspective" "float fov" [60] WorldBegin
Material "matte" "rgb Kd" [0.5 0.5 0.5] Shape "trianglemesh" "point3 P"
[0 0 0 1 0 0 0 1 0] "integer indices" [0 1 2] WorldEnd`) succeeds and yields a
scene with exactly one camera, exactly one material, exactly one shape group
that holds one mesh of 3 positions and the one triangle `(0, 1, 2)`, and
exactly one instance, which refers to that shape group and whose frame is the
frame of the identity matrix. -/
theorem C4_minimal_scene {F : Type} (Y : Ext F) (defaultAspect defaultFocus : F)
    (dir textureSavePath : String) (surplus : Nat) :
    minimal_scene_parsed ⟨F, Y, defaultAspect, defaultFocus, dir, textureSavePath, surplus⟩ :=
  forall_of_generic_point minimal_scene_parsed minimal_scene_parsed_generic _

/-! ## C5: the instances of an object -/

theorem advance_cons (s : PState F) (l : Lexer) (ls : List Lexer) (t : Lexeme)
    (ts : List Lexeme) (hl : s.lexers = l :: ls) (hr : l.rest = t :: ts) :
    advance s = .ok () { s with lexers := { l with cur := t, rest := ts } :: ls } := by
  unfold advance
  rw [hl]
  simp [advance_lexers, hr]

theorem instance_shapes_cons (frame : Frame3 F) (added : Bool) (g : Nat) (rest : List Nat)
    (s : PState F) :
    instance_shapes frame added (g :: rest) s =
      instance_shapes frame added rest
        { s with
          scn := { s.scn with
            shapes := if added = false then s.scn.shapes ++ [g] else s.scn.shapes
            instances := s.scn.instances ++
              [{ name := "i_" ++ toString s.instanceCounter, frame := frame, shp := some g }] }
          instanceCounter := (s.instanceCounter + 1) % 2 ^ 32 } := by
  cases added <;> rfl

theorem instance_shapes_ok (frame : Frame3 F) (added : Bool) (groups : List Nat)
    (s : PState F) :
    ∃ s', instance_shapes frame added groups s = .ok () s' ∧
      s'.lexers = s.lexers ∧ s'.nameToObject = s.nameToObject ∧ s'.gState = s.gState ∧
      s'.scn.shapes = s.scn.shapes ++ (if added = false then groups else []) ∧
      instance_refs s' = instance_refs s ++ groups.map (fun g => (some g, frame)) := by
  induction groups generalizing s with
  | nil =>
    refine ⟨s, rfl, rfl, rfl, rfl, ?_, ?_⟩
    · split <;> simp
    · simp
  | cons g rest ih =>
    rw [instance_shapes_cons]
    obtain ⟨s', h, h1, h2, h3, h4, h5⟩ := ih
      { s with
        scn := { s.scn with
          shapes := if added = false then s.scn.shapes ++ [g] else s.scn.shapes
          instances := s.scn.instances ++
            [{ name := "i_" ++ toString s.instanceCounter, frame := frame, shp := some g }] }
        instanceCounter := (s.instanceCounter + 1) % 2 ^ 32 }
    refine ⟨s', h, h1, h2, h3, ?_, ?_⟩
    · rw [h4]
      cases added <;> simp
    · rw [h5]
      simp [instance_refs]

theorem mapFind_mapAssign_self {V : Type} (m : List (String × V)) (k : String) (v v0 : V)
    (h : mapFind m k = some v0) : mapFind (mapAssign m k v) k = some v := by
  induction m with
  | nil => cases h
  | cons kv m ih =>
    obtain ⟨k1, v1⟩ := kv
    unfold mapAssign
    simp only [List.map_cons]
    by_cases hk : k1 = k
    · rw [if_pos hk]
      unfold mapFind
      rw [if_pos rfl]
    · rw [if_neg hk]
      unfold mapFind
      rw [if_neg hk]
      unfold mapFind at h
      rw [if_neg hk] at h
      exact ih h

theorem execute_ObjectInstance_ok (Y : Ext F) (s : PState F) (name : String)
    (obj : DeclaredObject F) (l : Lexer) (ls : List Lexer) (t : Lexeme) (ts : List Lexeme)
    (hl : s.lexers = l :: ls) (hr : l.rest = ⟨LexemeType.STRING, name⟩ :: t :: ts)
    (ho : mapFind s.nameToObject name = some obj) (hn : 0 < obj.sg.length) :
    ∃ s', execute_ObjectInstance Y s = .ok () s' ∧
      s'.lexers = { l with cur := t, rest := ts } :: ls ∧
      mapFind s'.nameToObject name = some { obj with addedInScene := true } ∧
      s'.gState = s.gState ∧
      s'.scn.shapes = s.scn.shapes ++ (if obj.addedInScene = false then obj.sg else []) ∧
      instance_refs s' = instance_refs s ++
        obj.sg.map (fun g => (some g, Y.mat_to_frame (Y.mat_mul s.gState.CTM obj.CTM))) := by
  have h1 := advance_cons s l ls _ _ hl hr
  have h3 : advance
      { s with lexers := { l with cur := ⟨LexemeType.STRING, name⟩, rest := t :: ts } :: ls } =
      .ok () { s with lexers := { l with cur := t, rest := ts } :: ls } :=
    advance_cons _ { l with cur := ⟨LexemeType.STRING, name⟩, rest := t :: ts } ls t ts rfl rfl
  obtain ⟨s4, h4, e1, e2, e3, e4, e5⟩ := instance_shapes_ok
    (Y.mat_to_frame (Y.mat_mul s.gState.CTM obj.CTM)) obj.addedInScene obj.sg
    { s with lexers := { l with cur := t, rest := ts } :: ls }
  have hrun : execute_ObjectInstance Y s =
      (if obj.addedInScene = false then mark_object_added name obj else pure ()) s4 := by
    rw [execute_ObjectInstance, bind_eq, h1]
    simp only []
    rw [bind_eq]
    simp only [current_token]
    rw [bind_eq]
    simp only [throw_if, ne_eq, not_true_eq_false, if_false, pure_eq]
    rw [bind_eq, h3]
    simp only []
    rw [bind_eq]
    simp only [lookup_object, ho, hn, if_true]
    rw [bind_eq]
    simp only [getG]
    rw [bind_eq, h4]
  rw [hrun]
  by_cases hf : obj.addedInScene = false
  · simp only [hf, if_true] at e4 ⊢
    refine ⟨_, rfl, e1, ?_, e3, e4, e5⟩
    show mapFind (mapAssign s4.nameToObject name _) name = _
    rw [e2]
    exact mapFind_mapAssign_self _ _ _ _ ho
  · simp only [hf, if_false] at e4 ⊢
    refine ⟨s4, rfl, e1, ?_, e3, e4, e5⟩
    rw [e2, ho]
    have hf' : obj.addedInScene = true := by simpa using hf
    cases obj
    simp only at hf'
    subst hf'
    rfl

theorem getElem?_flatten_replicate {α : Type} (L : List α) (k c j : Nat) (hc : c < k)
    (hj : j < L.length) : (List.replicate k L).flatten[c * L.length + j]? = L[j]? := by
  induction k generalizing c with
  | zero => omega
  | succ k ih =>
    rw [List.replicate_succ, List.flatten_cons]
    cases c with
    | zero =>
      rw [Nat.zero_mul, Nat.zero_add, List.getElem?_append_left hj]
    | succ c =>
      have hge : L.length ≤ (c + 1) * L.length + j := by
        rw [Nat.succ_mul]; omega
      rw [List.getElem?_append_right hge]
      have he : (c + 1) * L.length + j - L.length = c * L.length + j := by
        rw [Nat.succ_mul]; omega
      rw [he]
      exact ih c (by omega)

theorem object_instance_seq_ok (Y : Ext F) (name : String) (following : List Lexeme) :
    ∀ (s : PState F) (obj : DeclaredObject F) (l : Lexer) (ls : List Lexer)
      (tail : List Lexeme), s.lexers = l :: ls →
      l.rest = instance_lexemes name following ++ tail →
      mapFind s.nameToObject name = some obj → 0 < obj.sg.length →
      ∃ s', object_instance_seq Y following.length s = .ok () s' ∧ s'.gState = s.gState ∧
        s'.scn.shapes = s.scn.shapes ++
          (if obj.addedInScene = false ∧ following ≠ [] then obj.sg else []) ∧
        instance_refs s' = instance_refs s ++
          (List.replicate following.length (obj.sg.map (fun g =>
            (some g, Y.mat_to_frame (Y.mat_mul s.gState.CTM obj.CTM))))).flatten := by
  induction following with
  | nil =>
    intro s obj l ls tail _ _ _ _
    exact ⟨s, rfl, rfl, by simp, by simp⟩
  | cons t rest ih =>
    intro s obj l ls tail hl hr ho hn
    have hr1 : l.rest =
        ⟨LexemeType.STRING, name⟩ :: t :: (instance_lexemes name rest ++ tail) := by
      rw [hr]; rfl
    obtain ⟨s1, h1, e1, e2, e3, e4, e5⟩ :=
      execute_ObjectInstance_ok Y s name obj l ls t _ hl hr1 ho hn
    obtain ⟨s', h', f1, f2, f3⟩ := ih s1 { obj with addedInScene := true } _ ls tail e1 rfl e2 hn
    refine ⟨s', ?_, f1.trans e3, ?_, ?_⟩
    · show (execute_ObjectInstance Y >>= fun _ => object_instance_seq Y rest.length) s = _
      rw [bind_eq, h1]
      exact h'
    · rw [f2, e4]
      by_cases hf : obj.addedInScene = false <;> simp [hf]
    · rw [f3, e5, e3]
      simp [List.replicate_succ]

/-- C5.  (1) One call: when the lexemes ahead are the name of a declared
object with `n ≥ 1` captured shape groups and one more lexeme,
`execute_ObjectInstance` succeeds, appends `n` instances to the scene, the
`j`-th referring to the `j`-th captured shape group itself, with the frame of
the product of the current transform and the transform of the object, appends
the `n` shape groups to the list of shapes of the scene if the object has not
been instanced before and nothing otherwise, and marks the object as
instanced.  (2) `k ≥ 1` calls: when the object has not been instanced and the
lexemes ahead are those of `k` directives `ObjectInstance` on its name, the
`k` calls succeed; they append exactly `k * n` instances, `k` runs of `n`
instances, the `j`-th instance of every run referring to the `j`-th captured
shape group; and the `n` shape groups are appended to the list of shapes of
the scene once, by the first call. -/
theorem C5_object_instances (Y : Ext F) (s : PState F) (name : String)
    (obj : DeclaredObject F) (l : Lexer) (ls : List Lexer)
    (hl : s.lexers = l :: ls) (ho : mapFind s.nameToObject name = some obj)
    (hn : 1 ≤ obj.sg.length) :
    (∀ (t : Lexeme) (ts : List Lexeme), l.rest = ⟨LexemeType.STRING, name⟩ :: t :: ts →
      ∃ s', execute_ObjectInstance Y s = .ok () s' ∧
        mapFind s'.nameToObject name = some { obj with addedInScene := true } ∧
        s'.scn.shapes = s.scn.shapes ++ (if obj.addedInScene = false then obj.sg else []) ∧
        instance_refs s' = instance_refs s ++
          obj.sg.map (fun g => (some g, Y.mat_to_frame (Y.mat_mul s.gState.CTM obj.CTM)))) ∧
    (∀ (following tail : List Lexeme), l.rest = instance_lexemes name following ++ tail →
      obj.addedInScene = false → 1 ≤ following.length →
      ∃ s1 s', execute_ObjectInstance Y s = .ok () s1 ∧
        s1.scn.shapes = s.scn.shapes ++ obj.sg ∧
        object_instance_seq Y following.length s = .ok () s' ∧
        s'.scn.shapes = s.scn.shapes ++ obj.sg ∧
        s'.scn.instances.length =
          s.scn.instances.length + following.length * obj.sg.length ∧
        instance_refs s' = instance_refs s ++
          (List.replicate following.length (obj.sg.map (fun g =>
            (some g, Y.mat_to_frame (Y.mat_mul s.gState.CTM obj.CTM))))).flatten ∧
        ∀ c j, c < following.length → j < obj.sg.length →
          (s'.scn.instances[s.scn.instances.length + (c * obj.sg.length + j)]?).map
              (fun i => i.shp) = some obj.sg[j]?) := by
  refine ⟨?_, ?_⟩
  · intro t ts hr
    obtain ⟨s', h, -, e2, -, e4, e5⟩ := execute_ObjectInstance_ok Y s name obj l ls t ts hl hr ho hn
    exact ⟨s', h, e2, e4, e5⟩
  intro following tail hr hfresh hk
  obtain ⟨s', h', -, f2, f3⟩ := object_instance_seq_ok Y name following s obj l ls tail hl hr ho hn
  cases following with
  | nil => simp at hk
  | cons t rest =>
    have hr1 : l.rest =
        ⟨LexemeType.STRING, name⟩ :: t :: (instance_lexemes name rest ++ tail) := by
      rw [hr]; rfl
    obtain ⟨s1, h1, -, -, -, e4, -⟩ :=
      execute_ObjectInstance_ok Y s name obj l ls t _ hl hr1 ho hn
    simp only [hfresh, if_true] at e4
    have hlen := congrArg List.length f3
    simp only [instance_refs, List.length_map, List.length_append, List.length_flatten,
      List.map_replicate, List.sum_replicate, smul_eq_mul] at hlen
    refine ⟨s1, s', h1, e4, h', ?_, hlen, f3, ?_⟩
    · rw [f2]; simp [hfresh]
    · intro c j hc hj
      have := congrArg (fun r => (r[s.scn.instances.length + (c * obj.sg.length + j)]?).map
        (fun p => p.1)) f3
      simp only [instance_refs] at this
      rw [List.getElem?_map, Option.map_map,
        List.getElem?_append_right (by rw [List.length_map]; omega), List.length_map,
        Nat.add_sub_cancel_left] at this
      have hL : (obj.sg.map (fun g =>
          (some g, Y.mat_to_frame (Y.mat_mul s.gState.CTM obj.CTM)))).length = obj.sg.length :=
        List.length_map _ _
      have hget := getElem?_flatten_replicate (obj.sg.map (fun g =>
          (some g, Y.mat_to_frame (Y.mat_mul s.gState.CTM obj.CTM)))) (t :: rest).length c j hc
        (by rw [hL]; exact hj)
      rw [hL] at hget
      rw [hget, List.getElem?_map, Option.map_map] at this
      rw [List.getElem?_eq_getElem hj] at this ⊢
      exact this

/-- C5, witness: after the block of an object of two cubes, the two directives
`ObjectInstance` on it succeed, give four instances and add the two groups to
the scene once. -/
theorem C5_object_instances_witness :
    ∃ s1 s', execute_ObjectInstance testExt after_object_block = .ok () s1 ∧
      s1.scn.shapes = after_object_block.scn.shapes ++ cube_object.sg ∧
      object_instance_seq testExt instance_following.length after_object_block = .ok () s' ∧
      s'.scn.shapes = after_object_block.scn.shapes ++ cube_object.sg ∧
      s'.scn.instances.length = after_object_block.scn.instances.length +
        instance_following.length * cube_object.sg.length ∧
      instance_refs s' = instance_refs after_object_block ++
        (List.replicate instance_following.length (cube_object.sg.map (fun g =>
          (some g, testExt.mat_to_frame (testExt.mat_mul after_object_block.gState.CTM
            cube_object.CTM))))).flatten ∧
      ∀ c j, c < instance_following.length → j < cube_object.sg.length →
        (s'.scn.instances[after_object_block.scn.instances.length +
            (c * cube_object.sg.length + j)]?).map (fun i => i.shp) =
          some cube_object.sg[j]? :=
  (C5_object_instances testExt after_object_block "o" cube_object
    ⟨ident "ObjectInstance", [str "o", ident "ObjectInstance", str "o", ident "WorldEnd"], "."⟩
    [] (by decide!) (by decide!) (by decide!)).2 instance_following []
    (by decide!) (by decide!) (by decide!)

/-! ## C6: a material is added to the scene once, by the first shape that uses it -/

theorem quiet_respects : Respects (F := F) (fun e => e ∈ quietEffects) (Rel Quiet) := by
  have hrefl : ∀ s : PState F, Quiet s s := fun s => ⟨rfl, rfl, rfl⟩
  have htrans : ∀ a b c : PState F, Quiet a b → Quiet b c → Quiet a c :=
    fun a b c h1 h2 => ⟨h2.1.trans h1.1, h2.2.1.trans h1.2.1, h2.2.2.trans h1.2.2⟩
  constructor
  all_goals first
    | exact rel_pure hrefl
    | exact rel_bind htrans
    | exact rel_raise
    | exact rel_bound
    | exact fun hA => absurd hA (by decide)
    | (intros
       intro s a s' h
       simp only [advance, current_token, current_path, getG, get_defaults, get_textureSavePath,
         get_scene, get_material, get_declared, get_texture, get_inObjectDefinition,
         lookup_object, push_lexer, get_unique_id, modifyCTM, set_uvscale, set_areaLight,
         insert_named_material, bind_material, erase_named_texture, insert_named_texture,
         set_defaultFocus, set_aspect, add_camera, add_group, add_instance, add_texture,
         add_environment, modify_material, alloc_texture, modify_texture,
         alloc_group, begin_object, end_object, capture_group, store_object, mark_object_added,
         push_attributes, push_transform, pop_transform,
         modifyS, modifyG, modifyScene] at h
       first
         | (cases h; simp [Quiet]; done)
         | (split at h <;> first
             | (cases h; simp [Quiet]; done)
             | (cases h; done)))


theorem materialInv_of_eq (s s' : PState F) (h1 : s'.scn.materials = s.scn.materials)
    (h2 : s'.declaredArena = s.declaredArena)
    (h3 : s'.materialArena.length = s.materialArena.length) :
    KeepsMaterialInv s s' := by
  intro hI
  unfold MaterialInv at hI ⊢
  rw [h1, h2, h3]
  exact hI

theorem new_declared_material_inv (m : Material F) (s : PState F) (hI : MaterialInv s) :
    MaterialInv { s with
      materialArena := s.materialArena ++ [m]
      declaredArena := s.declaredArena ++ [⟨s.materialArena.length, false⟩] } := by
  obtain ⟨h1, h2, h3, h4⟩ := hI
  have hget : ∀ (d : Nat) (dm : DeclaredMaterial),
      (s.declaredArena ++ [⟨s.materialArena.length, false⟩])[d]? = some dm →
        s.declaredArena[d]? = some dm ∨
          (d = s.declaredArena.length ∧ dm = ⟨s.materialArena.length, false⟩) := by
    intro d dm hd
    by_cases hlt : d < s.declaredArena.length
    · rw [List.getElem?_append_left hlt] at hd
      exact Or.inl hd
    · have hge : s.declaredArena.length ≤ d := Nat.le_of_not_lt hlt
      rw [List.getElem?_append_right hge] at hd
      cases hk : d - s.declaredArena.length with
      | zero =>
        rw [hk] at hd
        simp at hd
        exact Or.inr ⟨by omega, hd.symm⟩
      | succ k =>
        rw [hk] at hd
        simp at hd
  refine ⟨h1, ?_, ?_, ?_⟩
  · intro x hx
    have := h2 x hx
    simp only [List.length_append, List.length_singleton]
    omega
  · intro d dm hd
    simp only [List.length_append, List.length_singleton]
    rcases hget d dm hd with h | ⟨-, rfl⟩
    · exact ⟨Nat.lt_succ_of_lt (h3 d dm h).1, (h3 d dm h).2⟩
    · exact ⟨Nat.lt_succ_self _, fun _ hm => Nat.lt_irrefl _ (h2 _ hm)⟩
  · intro d d' dm dm' hd hd' he
    rcases hget d dm hd with h | ⟨rfl, rfl⟩ <;> rcases hget d' dm' hd' with h' | ⟨rfl, rfl⟩
    · exact h4 d d' dm dm' h h' he
    · have := (h3 d dm h).1
      simp only at he
      omega
    · have := (h3 d' dm' h').1
      simp only at he
      omega
    · rfl

theorem new_scene_material_inv (m : Material F) (s : PState F) (hI : MaterialInv s) :
    MaterialInv { s with
      materialArena := s.materialArena ++ [m]
      scn := { s.scn with materials := s.scn.materials ++ [s.materialArena.length] } } := by
  obtain ⟨h1, h2, h3, h4⟩ := hI
  refine ⟨?_, ?_, ?_, h4⟩
  · show (s.scn.materials ++ [s.materialArena.length]).Nodup
    rw [List.nodup_append]
    refine ⟨h1, List.nodup_singleton _, ?_⟩
    intro a ha hb
    rw [List.mem_singleton] at hb
    subst hb
    exact Nat.lt_irrefl _ (h2 _ ha)
  · intro x hx
    simp only [List.mem_append, List.mem_singleton, List.length_append,
      List.length_singleton] at hx ⊢
    rcases hx with hx | rfl
    · exact Nat.lt_succ_of_lt (h2 x hx)
    · exact Nat.lt_succ_self _
  · intro d dm hd
    have := h3 d dm hd
    simp only [List.mem_append, List.mem_singleton, List.length_append, List.length_singleton]
    refine ⟨Nat.lt_succ_of_lt this.1, fun hf hm => ?_⟩
    rcases hm with hm | hm
    · exact this.2 hf hm
    · omega

theorem add_declared_to_scene_inv (d : Nat) (dm : DeclaredMaterial) (s : PState F)
    (hI : MaterialInv s) (hd : s.declaredArena[d]? = some dm) (hf : dm.addedInScene = false) :
    MaterialInv { s with
      declaredArena := s.declaredArena.set d { dm with addedInScene := true }
      scn := { s.scn with materials := s.scn.materials ++ [dm.mat] } } := by
  obtain ⟨h1, h2, h3, h4⟩ := hI
  have hget : ∀ (e : Nat) (em : DeclaredMaterial),
      (s.declaredArena.set d { dm with addedInScene := true })[e]? = some em →
        (e ≠ d ∧ s.declaredArena[e]? = some em) ∨
          (e = d ∧ em = { dm with addedInScene := true }) := by
    intro e em he
    rw [List.getElem?_set] at he
    by_cases hed : d = e
    · subst hed
      simp only [if_true] at he
      split at he
      · simp at he
        exact Or.inr ⟨rfl, he.symm⟩
      · cases he
    · simp only [hed, if_false] at he
      exact Or.inl ⟨fun h => hed h.symm, he⟩
  refine ⟨?_, ?_, ?_, ?_⟩
  · show (s.scn.materials ++ [dm.mat]).Nodup
    rw [List.nodup_append]
    refine ⟨h1, List.nodup_singleton _, ?_⟩
    intro a ha hb
    rw [List.mem_singleton] at hb
    subst hb
    exact (h3 d dm hd).2 hf ha
  · intro x hx
    simp only [List.mem_append, List.mem_singleton] at hx
    rcases hx with hx | rfl
    · exact h2 x hx
    · exact (h3 d dm hd).1
  · intro e em he
    rcases hget e em he with ⟨hne, h⟩ | ⟨rfl, rfl⟩
    · refine ⟨(h3 e em h).1, fun hfe hm => ?_⟩
      simp only [List.mem_append, List.mem_singleton] at hm
      rcases hm with hm | hm
      · exact (h3 e em h).2 hfe hm
      · exact hne (h4 e d em dm h hd hm)
    · exact ⟨(h3 e dm hd).1, fun hfe => by simp at hfe⟩
  · intro e e' em em' he he' hm
    rcases hget e em he with ⟨hne, h⟩ | ⟨rfl, rfl⟩ <;>
      rcases hget e' em' he' with ⟨hne', h'⟩ | ⟨rfl, rfl⟩
    · exact h4 e e' em em' h h' hm
    · exact h4 e e' em dm h hd hm
    · exact h4 e e' dm em' hd h' hm
    · rfl

theorem materialInv_respects :
    Respects (F := F) (fun _ => True) (Rel KeepsMaterialInv) := by
  have hrefl : ∀ s : PState F, KeepsMaterialInv s s := fun s h => h
  have htrans : ∀ a b c : PState F,
      KeepsMaterialInv a b → KeepsMaterialInv b c → KeepsMaterialInv a c :=
    fun a b c h1 h2 h => h2 (h1 h)
  constructor
  case new_declared_material =>
    intro _ m s a s' h hI
    cases h
    exact new_declared_material_inv m s hI
  case new_scene_material =>
    intro _ m s a s' h hI
    cases h
    exact new_scene_material_inv m s hI
  case add_declared_to_scene =>
    intro _ d s a s' h hI
    unfold add_declared_to_scene at h
    cases hd : s.declaredArena[d]? with
    | none => rw [hd] at h; cases h
    | some dm =>
      rw [hd] at h
      by_cases hf : dm.addedInScene = false
      · simp only [hf, if_true] at h
        cases h
        exact add_declared_to_scene_inv d dm s hI hd hf
      · simp only [hf, if_false] at h
        cases h
        exact hI
  all_goals first
    | exact rel_pure hrefl
    | exact rel_bind htrans
    | exact rel_raise
    | exact rel_bound
    | (intros
       intro s a s' h
       simp only [advance, current_token, current_path, getG, get_defaults, get_textureSavePath,
         get_scene, get_material, get_declared, get_texture, get_inObjectDefinition,
         lookup_object, push_lexer, get_unique_id, modifyCTM, set_uvscale, set_areaLight,
         insert_named_material, bind_material, erase_named_texture, insert_named_texture,
         set_defaultFocus, set_aspect, add_camera, add_group, add_instance, add_texture,
         add_environment, modify_material, alloc_texture, modify_texture,
         alloc_group, begin_object, end_object, capture_group, store_object, mark_object_added,
         push_attributes, pop_attributes, push_transform, pop_transform,
         modifyS, modifyG, modifyScene] at h
       first
         | (cases h; exact materialInv_of_eq _ _ rfl rfl rfl)
         | (cases h; exact materialInv_of_eq _ _ rfl rfl (by simp))
         | (split at h <;> first
             | (cases h; exact materialInv_of_eq _ _ rfl rfl rfl)
             | (cases h; exact materialInv_of_eq _ _ rfl rfl (by simp))
             | (cases h; done)))


theorem materialsGrow_refl (s : PState F) : MaterialsGrow s s :=
  ⟨⟨[], by simp⟩, fun d dm h => ⟨dm, h, rfl, fun h => h⟩⟩

theorem materialsGrow_trans (a b c : PState F) (h1 : MaterialsGrow a b)
    (h2 : MaterialsGrow b c) : MaterialsGrow a c := by
  obtain ⟨⟨l1, e1⟩, g1⟩ := h1
  obtain ⟨⟨l2, e2⟩, g2⟩ := h2
  refine ⟨⟨l1 ++ l2, by rw [e2, e1, List.append_assoc]⟩, ?_⟩
  intro d dm hd
  obtain ⟨dm1, hd1, hm1, hf1⟩ := g1 d dm hd
  obtain ⟨dm2, hd2, hm2, hf2⟩ := g2 d dm1 hd1
  exact ⟨dm2, hd2, hm2.trans hm1, fun h => hf2 (hf1 h)⟩

theorem materialsGrow_of_eq (s s' : PState F) (h1 : s'.scn.materials = s.scn.materials)
    (h2 : s'.declaredArena = s.declaredArena) : MaterialsGrow s s' := by
  refine ⟨⟨[], by simp [h1]⟩, ?_⟩
  intro d dm hd
  rw [h2]
  exact ⟨dm, hd, rfl, fun h => h⟩

theorem materialsGrow_respects :
    Respects (F := F) (fun _ => True) (Rel MaterialsGrow) := by
  constructor
  case new_declared_material =>
    intro _ m s a s' h
    cases h
    refine ⟨⟨[], by simp⟩, ?_⟩
    intro d dm hd
    refine ⟨dm, ?_, rfl, fun h => h⟩
    have hlt : d < s.declaredArena.length := by
      by_contra hge
      rw [List.getElem?_eq_none (Nat.le_of_not_lt hge)] at hd
      cases hd
    show (s.declaredArena ++ _)[d]? = some dm
    rw [List.getElem?_append_left hlt]
    exact hd
  case new_scene_material =>
    intro _ m s a s' h
    cases h
    exact ⟨⟨[s.materialArena.length], rfl⟩, fun d dm hd => ⟨dm, hd, rfl, fun h => h⟩⟩
  case add_declared_to_scene =>
    intro _ d s a s' h
    unfold add_declared_to_scene at h
    cases hd : s.declaredArena[d]? with
    | none => rw [hd] at h; cases h
    | some dm =>
      rw [hd] at h
      by_cases hf : dm.addedInScene = false
      · simp only [hf, if_true] at h
        cases h
        refine ⟨⟨[dm.mat], rfl⟩, ?_⟩
        intro e em he
        show ∃ dm', (s.declaredArena.set d _)[e]? = some dm' ∧ _
        rw [List.getElem?_set]
        by_cases hed : d = e
        · subst hed
          rw [hd] at he
          cases he
          have hlt : d < s.declaredArena.length := by
            by_contra hge
            rw [List.getElem?_eq_none (Nat.le_of_not_lt hge)] at hd
            cases hd
          simp [hlt]
        · simp only [hed, if_false]
          exact ⟨em, he, rfl, fun h => h⟩
      · simp only [hf, if_false] at h
        cases h
        exact materialsGrow_refl s
  all_goals first
    | exact rel_pure materialsGrow_refl
    | exact rel_bind materialsGrow_trans
    | exact rel_raise
    | exact rel_bound
    | (intros
       intro s a s' h
       simp only [advance, current_token, current_path, getG, get_defaults, get_textureSavePath,
         get_scene, get_material, get_declared, get_texture, get_inObjectDefinition,
         lookup_object, push_lexer, get_unique_id, modifyCTM, set_uvscale, set_areaLight,
         insert_named_material, bind_material, erase_named_texture, insert_named_texture,
         set_defaultFocus, set_aspect, add_camera, add_group, add_instance, add_texture,
         add_environment, modify_material, alloc_texture, modify_texture,
         alloc_group, begin_object, end_object, capture_group, store_object, mark_object_added,
         push_attributes, pop_attributes, push_transform, pop_transform,
         modifyS, modifyG, modifyScene] at h
       first
         | (cases h; exact materialsGrow_of_eq _ _ rfl rfl)
         | (split at h <;> first
             | (cases h; exact materialsGrow_of_eq _ _ rfl rfl)
             | (cases h; done)))


theorem execute_Material_creates (Y : Ext F) (nm : Bool) (s s' : PState F)
    (hI : MaterialInv s) (h : execute_Material Y nm s = .ok () s') :
    s'.scn.materials = s.scn.materials ∧
      s'.declaredArena = s.declaredArena ++ [⟨s.materialArena.length, false⟩] ∧
      s.materialArena.length ∉ s'.scn.materials := by
  simp only [execute_Material, bind_ok] at h
  obtain ⟨_, s1, h1, name, s2, h2, ⟨mat, dmat⟩, s3, h3, h4⟩ := h
  obtain ⟨ls, rfl⟩ := advance_ok _ _ _ h1
  cases h2
  cases h3
  have hq := define_material_resp quiet_respects
    (fun e he => by revert e he; decide) Y nm _ _ _ _ _ h4
  obtain ⟨q1, q2, q3⟩ := hq
  refine ⟨q1, q2, ?_⟩
  rw [q1]
  intro hm
  exact Nat.lt_irrefl _ (hI.2.1 _ hm)

theorem bind_material_ok (dmat : Nat) (s s' : PState F) (a : Unit)
    (h : bind_material dmat s = .ok a s') : s'.gState.mat = some dmat := by
  cases h
  rfl

theorem define_material_binds (Y : Ext F) (mat dmat : Nat) (s s' : PState F)
    (h : define_material Y false mat dmat s = .ok () s') :
    s'.gState.mat = some dmat := by
  simp only [define_material, bind_ok, Bool.false_eq_true, if_false] at h
  obtain ⟨t, s1, -, x, s2, -, h⟩ := h
  obtain ⟨params, s3, -, ty, s4, -, h⟩ := h
  cases hb : find_param "bump" params with
  | none =>
    simp only [hb, bind_ok] at h
    obtain ⟨_, _, -, _, _, -, h⟩ := h
    exact bind_material_ok _ _ _ _ h
  | some i =>
    simp only [hb, bind_ok] at h
    obtain ⟨_, _, -, _, _, -, _, _, -, _, _, -, _, _, -, _, _, -, h⟩ := h
    exact bind_material_ok _ _ _ _ h

theorem set_getElem_same {α : Type} (l : List α) (d : Nat) (h : d < l.length) :
    l = l.set d l[d] := by
  apply List.ext_getElem?
  intro i
  rw [List.getElem?_set]
  split
  · next hi => subst hi; simp [h]
  · rfl

theorem execute_Shape_publishes (Y : Ext F) (s s' : PState F) (d : Nat)
    (dm : DeclaredMaterial) (hb : s.gState.mat = some d) (hd : s.declaredArena[d]? = some dm)
    (h : execute_Shape Y s = .ok () s') :
    s'.scn.materials =
        (if dm.addedInScene = false then s.scn.materials ++ [dm.mat] else s.scn.materials) ∧
      s'.declaredArena = s.declaredArena.set d { dm with addedInScene := true } := by
  simp only [execute_Shape, bind_ok, throw_if_ok] at h
  obtain ⟨_, s1, h1, t, s2, h2, _, s3, ⟨-, rfl⟩, _, s4, h4, name, s5, h5, mat, s6, h6, h7⟩ := h
  obtain ⟨ls1, rfl⟩ := advance_ok _ _ _ h1
  cases current_token_ok _ _ _ h2
  obtain ⟨ls4, rfl⟩ := advance_ok _ _ _ h4
  cases h5
  have hq := shape_of_class_resp quiet_respects
    (fun e he => by revert e he; decide) Y _ _ _ _ _ _ h7
  obtain ⟨q1, q2, q3⟩ := hq
  rw [q1, q2]
  simp only [shape_material, bind_ok, getG] at h6
  obtain ⟨g, s', hg, h6⟩ := h6
  cases hg
  simp only [hb] at h6
  unfold add_declared_to_scene at h6
  simp only [hd] at h6
  by_cases hf : dm.addedInScene = false
  · simp only [hf, if_true] at h6 ⊢
    cases h6
    exact ⟨rfl, rfl⟩
  · simp only [hf, if_false] at h6 ⊢
    cases h6
    refine ⟨rfl, ?_⟩
    have hf' : dm.addedInScene = true := by simpa using hf
    have hlt : d < s.declaredArena.length := by
      by_contra hge
      rw [List.getElem?_eq_none (Nat.le_of_not_lt hge)] at hd
      cases hd
    have hdm : ({ dm with addedInScene := true } : DeclaredMaterial) = dm := by
      cases dm
      simp only at hf'
      subst hf'
      rfl
    rw [hdm]
    show s.declaredArena = s.declaredArena.set d dm
    rw [List.getElem?_eq_getElem hlt] at hd
    cases hd
    exact set_getElem_same _ _ hlt


theorem initial_state_materialInv (Y : Ext F) (lexemes : List Lexeme) (dir : String)
    (defaultAspect defaultFocus : F) (textureSavePath : String) :
    MaterialInv (initial_state Y lexemes dir defaultAspect defaultFocus textureSavePath) := by
  refine ⟨List.nodup_nil, ?_, ?_, ?_⟩
  · intro m hm
    cases hm
  · intro d dm hd
    simp [initial_state] at hd
  · intro d d' dm dm' hd
    simp [initial_state] at hd

/-- C6: the lazy insertion of materials.  (1) When `Material` or
`MakeNamedMaterial` finishes, the list of materials of the scene is as it was
before, the directive has created one declared material, with the flag
`addedInScene` false, and its material is not in the list; `Material` leaves
it bound.  (2) A `Shape` directive executed while a declared material is bound
appends its material to the list if the flag is false, and sets the flag; if
the flag is set, the list stays as it is.  (3) Whatever world directive runs,
in whatever scope, a declared material keeps its material and a flag that is
set stays set, the list is only extended at its end, and the invariant that
the list has no material twice (and that a material whose flag is false is not
in it) is kept.  (4) The invariant holds at the start of a parse, so that the
list of materials of every parsed scene has no material twice. -/
theorem C6_materials_added_once (Y : Ext F) :
    (∀ (namedMaterial : Bool) (s s' : PState F), MaterialInv s →
        execute_Material Y namedMaterial s = .ok () s' →
        s'.scn.materials = s.scn.materials ∧
          s'.declaredArena = s.declaredArena ++ [⟨s.materialArena.length, false⟩] ∧
          s.materialArena.length ∉ s'.scn.materials ∧
          (namedMaterial = false → s'.gState.mat = some s.declaredArena.length)) ∧
      (∀ (s s' : PState F) (d : Nat) (dm : DeclaredMaterial), s.gState.mat = some d →
        s.declaredArena[d]? = some dm → execute_Shape Y s = .ok () s' →
        s'.scn.materials =
            (if dm.addedInScene = false then s.scn.materials ++ [dm.mat]
              else s.scn.materials) ∧
          s'.declaredArena = s.declaredArena.set d { dm with addedInScene := true }) ∧
      (∀ (fuel : Nat) (s s' : PState F), execute_world_directive Y fuel s = .ok () s' →
        MaterialsGrow s s' ∧ (MaterialInv s → MaterialInv s')) ∧
      (∀ (fuel : Nat) (lexemes : List Lexeme) (dir : String) (defaultAspect defaultFocus : F)
        (textureSavePath : String) (s' : PState F),
        parse Y fuel (initial_state Y lexemes dir defaultAspect defaultFocus textureSavePath) =
          .ok () s' →
        s'.scn.materials.Nodup) := by
  refine ⟨?_, ?_, ?_, ?_⟩
  · intro nm s s' hI h
    obtain ⟨h1, h2, h3⟩ := execute_Material_creates Y nm s s' hI h
    refine ⟨h1, h2, h3, ?_⟩
    intro hnm
    subst hnm
    simp only [execute_Material, bind_ok] at h
    obtain ⟨_, s1, h1, name, s2, h2, ⟨mat, dmat⟩, s3, h3, h4⟩ := h
    obtain ⟨ls, rfl⟩ := advance_ok _ _ _ h1
    cases h2
    cases h3
    exact define_material_binds Y _ _ _ _ h4
  · intro s s' d dm hb hd h
    exact execute_Shape_publishes Y s s' d dm hb hd h
  · intro fuel s s' h
    exact ⟨execute_world_directive_resp materialsGrow_respects (fun _ _ => trivial) Y fuel
        _ _ _ h,
      execute_world_directive_resp materialInv_respects (fun _ _ => trivial) Y fuel _ _ _ h⟩
  · intro fuel lexemes dir a f p s' h
    exact (parse_resp materialInv_respects (fun _ _ => trivial) Y fuel _ _ _ h
      (initial_state_materialInv Y lexemes dir a f p)).1

/-- C6, witness: in the scene of the shared materials, four shapes are
created and the list of materials of the scene holds the two materials, each
once. -/
theorem C6_materials_added_once_witness :
    (parse testExt 10 (test_state shared_material_scene)).state.scn.shapes.length = 4 ∧
      (parse testExt 10 (test_state shared_material_scene)).state.scn.materials = [0, 1] ∧
      (parse testExt 10 (test_state shared_material_scene)).state.scn.materials.Nodup :=
  ⟨by decide!, by decide!,
    (C6_materials_added_once testExt).2.2.2 10 shared_material_scene "." 1 1 "textures" _
      (by decide!)⟩

/-! ## C7: a material that no shape uses -/

set_option maxRecDepth 100000 in
set_option smartUnfolding false in
theorem unused_material_published_generic :
    unused_material_published (Classical.epsilon (fun w => ¬ unused_material_published w)) := by
  refine ⟨by decide!, by decide!, by decide!, by decide!, by decide!, by decide!, by decide!⟩

/-- C7, the failing input: for every implementation of the external functions
and every fuel of at least 3, the scene `WorldBegin Material "matte"
Shape "cone" "float radius" [1] WorldEnd` is parsed without error; at the end
the material is in the list of materials of the scene, although the parser
created no shape at all: `execute_Shape` adds the bound material to the scene
before it looks at the class of the shape, and returns early for a class it
does not know. -/
theorem C7_unknown_shape_publishes_material {F : Type} (Y : Ext F)
    (defaultAspect defaultFocus : F) (dir textureSavePath : String) (surplus : Nat) :
    unused_material_published
      ⟨F, Y, defaultAspect, defaultFocus, dir, textureSavePath, surplus⟩ :=
  forall_of_generic_point unused_material_published unused_material_published_generic _

/-! ## C8: where a declared texture is stored -/

/-- The operations that write through a pointer to a texture keep the scene,
the graphics state and the number of texture records. -/
theorem sameScene_respects :
    Respects (F := F) (fun e => e ∈ [Effect.texture_write]) (Rel SameScene) := by
  have hrefl : ∀ s : PState F, SameScene s s := fun s => ⟨rfl, rfl, rfl⟩
  have htrans : ∀ a b c : PState F, SameScene a b → SameScene b c → SameScene a c :=
    fun a b c h1 h2 => ⟨h2.1.trans h1.1, h2.2.1.trans h1.2.1, h2.2.2.trans h1.2.2⟩
  constructor
  all_goals first
    | exact rel_pure hrefl
    | exact rel_bind htrans
    | exact rel_raise
    | exact rel_bound
    | exact fun hA => absurd hA (by decide)
    | (intros
       intro s a s' h
       simp only [advance, current_token, current_path, getG, get_defaults, get_textureSavePath,
         get_scene, get_material, get_declared, get_texture, get_inObjectDefinition,
         lookup_object, modify_texture] at h
       split at h <;> first
         | (cases h; simp [SameScene])
         | cases h)
    | (intros
       intro s a s' h
       cases h
       simp [SameScene])


theorem parse_constant_texture_txt (Y : Ext F) (dt dt' : DeclaredTexture F) (s s' : PState F)
    (h : parse_constant_texture Y dt s = .ok dt' s') : dt'.txt = dt.txt := by
  simp only [parse_constant_texture, bind_ok, pure_ok] at h
  casesm* ∃ _, _, _ ∧ _
  subst_vars
  rfl

theorem parse_imagemap_texture_txt (Y : Ext F) (dt dt' : DeclaredTexture F) (s s' : PState F)
    (h : parse_imagemap_texture Y dt s = .ok dt' s') : dt'.txt = dt.txt := by
  simp only [parse_imagemap_texture, bind_ok, pure_ok] at h
  casesm* ∃ _, _, _ ∧ _
  subst_vars
  rfl

theorem parse_checkerboard_texture_txt (Y : Ext F) (dt dt' : DeclaredTexture F) (s s' : PState F)
    (h : parse_checkerboard_texture Y dt s = .ok dt' s') : dt'.txt = dt.txt := by
  simp only [parse_checkerboard_texture, bind_ok, pure_ok] at h
  casesm* ∃ _, _, _ ∧ _
  subst_vars
  rfl

theorem parse_scale_texture_txt (Y : Ext F) (dt dt' : DeclaredTexture F) (s s' : PState F)
    (h : parse_scale_texture Y dt s = .ok dt' s') : dt'.txt = dt.txt := by
  simp only [parse_scale_texture, bind_ok, pure_ok] at h
  obtain ⟨params, s1, -, h⟩ := h
  cases h1 : find_param "tex1" params with
  | none => rw [h1] at h; cases h
  | some i1 =>
    rw [h1] at h
    simp only [bind_ok, pure_ok] at h
    obtain ⟨p1, s2, -, o1, s3, -, h⟩ := h
    cases o1 with
    | none => cases h
    | some ts1 =>
      cases h2 : find_param "tex2" params with
      | none => simp only [h2] at h; cases h
      | some i2 =>
        simp only [h2, bind_ok, pure_ok] at h
        obtain ⟨p2, s4, -, o2, s5, -, h⟩ := h
        cases o2 with
        | none => cases h
        | some ts2 =>
          simp only [bind_ok, pure_ok] at h
          casesm* ∃ _, _, _ ∧ _
          subst_vars
          rfl

theorem texture_class_same_scene (Y : Ext F) (dt dt' : DeclaredTexture F) (c : String)
    (s s' : PState F)
    (h : (if c = "imagemap" then parse_imagemap_texture Y dt
      else if c = "checkerboard" then parse_checkerboard_texture Y dt
      else if c = "constant" then parse_constant_texture Y dt
      else if c = "scale" then parse_scale_texture Y dt
      else throw_syntax_exception ("Texture class not supported: " ++ c)) s = .ok dt' s') :
    SameScene s s' ∧ dt'.txt = dt.txt := by
  have hA : ∀ e ∈ [Effect.texture_write], (fun e => e ∈ [Effect.texture_write]) e :=
    fun e he => he
  split at h
  · exact ⟨parse_imagemap_texture_resp sameScene_respects hA Y dt _ _ _ h,
      parse_imagemap_texture_txt Y dt dt' s s' h⟩
  split at h
  · exact ⟨parse_checkerboard_texture_resp sameScene_respects hA Y dt _ _ _ h,
      parse_checkerboard_texture_txt Y dt dt' s s' h⟩
  split at h
  · exact ⟨parse_constant_texture_resp sameScene_respects hA Y dt _ _ _ h,
      parse_constant_texture_txt Y dt dt' s s' h⟩
  split at h
  · exact ⟨parse_scale_texture_resp sameScene_respects hA Y dt _ _ _ h,
      parse_scale_texture_txt Y dt dt' s s' h⟩
  · cases h

/-- C8 (corrected): a `Texture` directive that succeeds leaves the texture
list of the scene as it was; it allocates one texture record and stores the
declared texture that points to it in `gState.nameToTexture`, under the name
the directive gives (the lexeme after the word `Texture`). -/
theorem C8_texture_declared (Y : Ext F) (s s' : PState F)
    (h : execute_Texture Y s = .ok () s') :
    s'.scn.textures = s.scn.textures ∧
      s'.textureArena.length = s.textureArena.length + 1 ∧
      ∃ t dt, current_token (advance s).state = .ok t (advance s).state ∧
        mapFind s'.gState.nameToTexture t.value = some dt ∧
        dt.txt = s.textureArena.length := by
  simp only [execute_Texture, bind_ok, throw_if_ok] at h
  obtain ⟨_, s1, h1, name, s2, h2, path, s3, h3, txt, s4, h4, t, s5, h5, _, s6, ⟨-, rfl⟩,
    _, s7, h7, _, s8, h8, t2, s9, h9, _, s10, ⟨-, rfl⟩, _, s11, ⟨-, rfl⟩, _, s12, h12,
    t3, s13, h13, _, s14, ⟨-, rfl⟩, _, s15, h15, dt', s16, h16, h17⟩ := h
  obtain ⟨hsame, htxt⟩ := texture_class_same_scene Y _ dt' _ _ _ h16
  obtain ⟨ls1, rfl⟩ := advance_ok _ _ _ h1
  cases h2
  cases h3
  cases h4
  cases current_token_ok _ _ _ h5
  cases h7
  obtain ⟨ls8, rfl⟩ := advance_ok _ _ _ h8
  cases current_token_ok _ _ _ h9
  obtain ⟨ls12, rfl⟩ := advance_ok _ _ _ h12
  cases current_token_ok _ _ _ h13
  obtain ⟨ls15, rfl⟩ := advance_ok _ _ _ h15
  cases h17
  obtain ⟨hscn, hg, hlen⟩ := hsame
  refine ⟨?_, ?_, t, dt', ?_, ?_, ?_⟩
  · simp [hscn]
  · simp [hlen]
  · rw [h1]
    unfold current_token at h5 ⊢
    simp only [Res.state] at h5 ⊢
    split at h5
    · cases h5
    · cases h5
      rfl
  · show mapFind (mapInsert s16.gState.nameToTexture t.value dt') t.value = some dt'
    rw [hg]
    exact mapFind_insert_erase _ _ _
  · rw [htxt]

/-- C8, counterexample: the scene `WorldBegin Texture "t" "rgb" "constant"
WorldEnd` is parsed without error, the `Texture` directive stores the texture
under its name, and the list of textures of the scene stays empty, after the
directive and at the end of the parse. -/
theorem C8_counterexample :
    (execute_Texture testExt
        (at_directive [ident "Texture", str "t", str "rgb", str "constant",
          ident "WorldEnd"])).isOk = true ∧
      (execute_Texture testExt
        (at_directive [ident "Texture", str "t", str "rgb", str "constant",
          ident "WorldEnd"])).state.scn.textures = [] ∧
      (mapFind (execute_Texture testExt
        (at_directive [ident "Texture", str "t", str "rgb", str "constant",
          ident "WorldEnd"])).state.gState.nameToTexture "t").isSome = true ∧
      (parse testExt 3 (test_state [ident "WorldBegin", ident "Texture", str "t", str "rgb",
        str "constant", ident "WorldEnd"])).isOk = true ∧
      (parse testExt 3 (test_state [ident "WorldBegin", ident "Texture", str "t", str "rgb",
        str "constant", ident "WorldEnd"])).state.scn.textures = [] := by
  decide!

/-- C8, witness: the directive `Texture "t" "rgb" "constant"` succeeds on the
test parser, and the texture is stored under `t`. -/
theorem C8_texture_declared_witness :
    ∃ s', execute_Texture testExt (at_directive [ident "Texture", str "t", str "rgb",
        str "constant", ident "WorldEnd"]) = .ok () s' ∧
      s'.scn.textures = [] ∧ s'.textureArena.length = 1 ∧
      ∃ dt, mapFind s'.gState.nameToTexture "t" = some dt ∧ dt.txt = 0 := by
  have h : execute_Texture testExt (at_directive [ident "Texture", str "t", str "rgb",
      str "constant", ident "WorldEnd"]) = .ok () (execute_Texture testExt
        (at_directive [ident "Texture", str "t", str "rgb", str "constant",
          ident "WorldEnd"])).state := by
    decide!
  obtain ⟨h1, h2, t, dt, h3, h4, h5⟩ := C8_texture_declared testExt _ _ h
  have ht : t.value = "t" := by
    have h6 : current_token (advance (at_directive [ident "Texture", str "t", str "rgb",
        str "constant", ident "WorldEnd"])).state = .ok (str "t") (advance (at_directive
          [ident "Texture", str "t", str "rgb", str "constant", ident "WorldEnd"])).state := by
      decide!
    rw [h6] at h3
    cases h3
    rfl
  rw [ht] at h4
  exact ⟨_, h, h1, h2, dt, h4, h5⟩

/-! ## C9: the indices of a triangle mesh -/

theorem parse_parameter_value_typed (Y : Ext F) (type name : String) (s s' : PState F)
    (p : PBRTParameter F) (h : parse_parameter_value Y type name s = .ok p s') :
    p.name = name ∧ (type = "point3" → ∃ v, p.value = .vec3s v) ∧
      (type = "normal3" → ∃ v, p.value = .vec3s v) ∧
      (type = "integer" → ∃ v, p.value = .ints v) ∧
      (type = "float" → ∃ v, p.value = .floats v) := by
  unfold parse_parameter_value at h
  split at h
  · simp only [bind_ok, pure_ok] at h
    obtain ⟨vals, s1, -, rfl, -⟩ := h
    refine ⟨rfl, ?_, ?_, ?_, ?_⟩ <;> intro ht <;> subst ht <;>
      first | exact ⟨_, rfl⟩ | simp_all
  split at h
  · simp only [bind_ok, pure_ok] at h
    obtain ⟨vals, s1, -, rfl, -⟩ := h
    refine ⟨rfl, ?_, ?_, ?_, ?_⟩ <;> intro ht <;> subst ht <;>
      first | exact ⟨_, rfl⟩ | simp_all
  split at h
  · simp only [bind_ok, pure_ok] at h
    obtain ⟨vals, s1, -, rfl, -⟩ := h
    refine ⟨rfl, ?_, ?_, ?_, ?_⟩ <;> intro ht <;> subst ht <;>
      first | exact ⟨_, rfl⟩ | simp_all
  split at h
  · simp only [bind_ok] at h
    obtain ⟨vals, s1, -, h⟩ := h
    split at h
    · cases h
      refine ⟨rfl, ?_, ?_, ?_, ?_⟩ <;> intro ht <;> subst ht <;>
        first | exact ⟨_, rfl⟩ | simp_all
    · cases h
  split at h
  · simp only [bind_ok] at h
    obtain ⟨vals, s1, -, h⟩ := h
    split at h
    · cases h
    · cases h
      refine ⟨rfl, ?_, ?_, ?_, ?_⟩ <;> intro ht <;> subst ht <;>
        first | exact ⟨_, rfl⟩ | simp_all
  split at h
  · next h1 h2 h3 h4 h5 h6 =>
    have hname : p.name = name := by
      simp only [bind_ok] at h
      obtain ⟨t, s1, -, h⟩ := h
      split at h
      · simp only [bind_ok] at h
        obtain ⟨_, _, -, _, _, -, h⟩ := h
        generalize Y.load_spectrum_from_file _ = r at h
        cases r with
        | none => cases h
        | some v => cases h; rfl
      · simp only [bind_ok] at h
        obtain ⟨vals, s2, -, h⟩ := h
        split at h
        · cases h
        · cases h; rfl
    refine ⟨hname, ?_, ?_, ?_, ?_⟩ <;> intro ht <;> subst ht <;> simp_all
  split at h
  · next h1 h2 h3 h4 h5 h6 h7 =>
    have hname : p.name = name := by
      simp only [bind_ok] at h
      obtain ⟨vals, s1, -, h⟩ := h
      split at h
      · cases h; rfl
      · cases h
    refine ⟨hname, ?_, ?_, ?_, ?_⟩ <;> intro ht <;> subst ht <;> simp_all
  · cases h

theorem check_param_type_admits (name type : String) (v : List String) (b : Bool)
    (hv : mapFind parameterToType name = some v) (h : check_param_type name type = .ok b) :
    type ∈ v := by
  unfold check_param_type check_param_type_in at h
  rw [hv] at h
  by_contra hn
  simp [hn] at h

theorem liftExcept_ok {α : Type} (x : Except Err α) (a : α) (s s' : PState F)
    (h : liftExcept x s = .ok a s') : x = .ok a ∧ s' = s := by
  cases x with
  | error e => cases h
  | ok b => cases h; exact ⟨rfl, rfl⟩

theorem parse_parameter_typed (Y : Ext F) (s s' : PState F) (p : PBRTParameter F)
    (h : parse_parameter Y s = .ok p s') : MeshTyped p := by
  simp only [parse_parameter, bind_ok] at h
  obtain ⟨t, s1, -, h⟩ := h
  split at h
  · cases h
  · generalize split t.value = toks at h
    match toks, h with
    | tok0 :: tok1 :: _, h =>
      simp only [bind_ok] at h
      obtain ⟨b, s2, hc, _, s3, -, hv⟩ := h
      obtain ⟨hc, -⟩ := liftExcept_ok _ _ _ _ hc
      obtain ⟨hn, h1, h2, h3, h4⟩ := parse_parameter_value_typed Y _ _ _ _ _ hv
      refine ⟨?_, ?_, ?_, ?_⟩ <;> intro hp <;> rw [hn] at hp <;> subst hp
      · exact h1 (by simpa using check_param_type_admits "P" _ ["point3"] b rfl hc)
      · exact h2 (by simpa using check_param_type_admits "N" _ ["normal3"] b rfl hc)
      · exact h3 (by simpa using check_param_type_admits "indices" _ ["integer"] b rfl hc)
      · exact h4 (by simpa using check_param_type_admits "uv" _ ["float"] b rfl hc)
    | [], h => cases h
    | [_], h => cases h

theorem parse_parameters_loop_typed (Y : Ext F) (n : Nat) :
    ∀ (pars params : List (PBRTParameter F)) (s s' : PState F),
      (∀ p ∈ pars, MeshTyped p) → parse_parameters_loop Y n pars s = .ok params s' →
      ∀ p ∈ params, MeshTyped p := by
  induction n with
  | zero =>
    intro pars params s s' _ h
    cases h
  | succ n ih =>
    intro pars params s s' hpars h
    simp only [parse_parameters_loop, bind_ok] at h
    obtain ⟨t, s1, -, h⟩ := h
    split at h
    · simp only [bind_ok] at h
      obtain ⟨p, s2, hp, h⟩ := h
      refine ih _ _ _ _ ?_ h
      intro q hq
      rw [List.mem_append, List.mem_singleton] at hq
      rcases hq with hq | rfl
      · exact hpars q hq
      · exact parse_parameter_typed Y _ _ _ hp
    · cases h
      exact hpars

theorem parse_parameters_typed (Y : Ext F) (params : List (PBRTParameter F))
    (s s' : PState F) (h : parse_parameters Y [] s = .ok params s') :
    ∀ p ∈ params, MeshTyped p :=
  parse_parameters_loop_typed Y _ [] params s s' (fun _ hp => by cases hp) h

theorem find_param_some (name : String) (params : List (PBRTParameter F)) (i : Nat)
    (h : find_param name params = some i) :
    ∃ p, params[i]? = some p ∧ p.name = name ∧ p ∈ params := by
  induction params generalizing i with
  | nil => cases h
  | cons q rest ih =>
    unfold find_param at h
    split at h
    · next hq =>
      cases h
      exact ⟨q, by simp, hq, List.mem_cons_self _ _⟩
    · cases hf : find_param name rest with
      | none => rw [hf] at h; cases h
      | some j =>
        rw [hf] at h
        cases h
        obtain ⟨p, h1, h2, h3⟩ := ih j hf
        exact ⟨p, by simpa using h1, h2, List.mem_cons_of_mem _ h3⟩

/-- The parameter of a name in a list of typed parameters: none, or one whose
value has the type of the name. -/
theorem typed_param_cases (name : String) (params : List (PBRTParameter F))
    (ht : ∀ p ∈ params, MeshTyped p) :
    find_param name params = none ∨
      ∃ i p, find_param name params = some i ∧ params[i]? = some p ∧ p.name = name ∧
        MeshTyped p := by
  cases h : find_param name params with
  | none => exact Or.inl rfl
  | some i =>
    obtain ⟨p, h1, h2, h3⟩ := find_param_some name params i h
    exact Or.inr ⟨i, p, rfl, h1, h2, ht p h3⟩

theorem trianglemesh_indices_error (Y : Ext F) (params : List (PBRTParameter F))
    (shp : Shape F) (s : PState F) (ht : ∀ p ∈ params, MeshTyped p) (i : Nat)
    (p : PBRTParameter F) (data : List Int) (hi : find_param "indices" params = some i)
    (hp : params[i]? = some p) (hd : p.value = .ints data) (h3 : data.length % 3 ≠ 0) :
    trianglemesh_of_params Y params shp s =
      .error (.syntaxError "The number of triangle vertices must be multiple of 3.") s := by
  rcases typed_param_cases "P" params ht with hP | ⟨iP, pP, hP, hPp, hPn, hPt⟩
  · rcases typed_param_cases "N" params ht with hN | ⟨iN, pN, hN, hNp, hNn, hNt⟩
    · simp only [trianglemesh_of_params, hP, hN, hi, hp, hd, if_pos h3, param_at, bind_eq,
        pure_eq, throw_syntax_exception, raise]
    · obtain ⟨vN, hvN⟩ := hNt.2.1 hNn
      simp only [trianglemesh_of_params, hP, hN, hNp, hvN, hi, hp, hd, if_pos h3, param_at,
        bind_eq, pure_eq, throw_syntax_exception, raise]
  · obtain ⟨vP, hvP⟩ := hPt.1 hPn
    rcases typed_param_cases "N" params ht with hN | ⟨iN, pN, hN, hNp, hNn, hNt⟩
    · simp only [trianglemesh_of_params, hP, hPp, hvP, hN, hi, hp, hd, if_pos h3, param_at,
        bind_eq, pure_eq, throw_syntax_exception, raise]
    · obtain ⟨vN, hvN⟩ := hNt.2.1 hNn
      simp only [trianglemesh_of_params, hP, hPp, hvP, hN, hNp, hvN, hi, hp, hd, if_pos h3,
        param_at, bind_eq, pure_eq, throw_syntax_exception, raise]

theorem trianglemesh_triangles (Y : Ext F) (params : List (PBRTParameter F))
    (shp shp' : Shape F) (s s' : PState F) (i : Nat) (p : PBRTParameter F) (data : List Int)
    (hi : find_param "indices" params = some i) (hp : params[i]? = some p)
    (hd : p.value = .ints data) (h : trianglemesh_of_params Y params shp s = .ok shp' s') :
    shp'.triangles = shp.triangles ++ triples data := by
  simp only [trianglemesh_of_params, bind_ok] at h
  obtain ⟨⟨shp1, pc⟩, s1, hP, h⟩ := h
  simp only [bind_ok] at h
  obtain ⟨shp2, s2, hN, ⟨shp3, ic⟩, s3, hI, h⟩ := h
  simp only [bind_ok] at h
  obtain ⟨shp4, s4, hU, shp5, s5, hC, h⟩ := h
  have t1 : shp1.triangles = shp.triangles := by
    cases hf : find_param "P" params with
    | none =>
      simp only [hf, pure_ok, Prod.mk.injEq] at hP
      obtain ⟨⟨rfl, -⟩, -⟩ := hP
      rfl
    | some j =>
      simp only [hf, bind_ok] at hP
      obtain ⟨q, sq, -, hP⟩ := hP
      cases hq : q.value <;> simp only [hq] at hP <;> cases hP
      rfl
  have t2 : shp2.triangles = shp1.triangles := by
    cases hf : find_param "N" params with
    | none =>
      simp only [hf, pure_ok] at hN
      obtain ⟨rfl, -⟩ := hN
      rfl
    | some j =>
      simp only [hf, bind_ok] at hN
      obtain ⟨q, sq, -, hN⟩ := hN
      cases hq : q.value <;> simp only [hq] at hN <;> cases hN
      rfl
  have t3 : shp3.triangles = shp2.triangles ++ triples data := by
    simp only [hi, bind_ok, param_at, hp, pure_ok] at hI
    obtain ⟨q, sq, ⟨rfl, -⟩, hI⟩ := hI
    simp only [hd] at hI
    split at hI
    · cases hI
    · cases hI
      rfl
  have t4 : shp4.triangles = shp3.triangles := by
    have key : ∀ iuv : Option Nat,
        (match iuv with
          | some i => do
            let p ← param_at params i
            match p.value with
            | .floats data =>
              match pair_up data with
              | some uvs => pure { shp3 with texcoord := shp3.texcoord ++ uvs }
              | none => raise .outOfRange
            | _ => raise (.undefinedBehaviour "cast of the value of uv")
          | none => pure shp3 : M F (Shape F)) s3 = .ok shp4 s4 →
        shp4.triangles = shp3.triangles := by
      intro iuv hU
      cases iuv with
      | none =>
        cases hU
        rfl
      | some j =>
        simp only [bind_ok] at hU
        obtain ⟨q, sq, -, hU⟩ := hU
        cases hq : q.value <;> simp only [hq] at hU
        case floats v =>
          cases hv : pair_up v <;> simp only [hv] at hU <;> cases hU
          rfl
        all_goals cases hU
    exact key _ hU
  have t5 : shp5.triangles = shp4.triangles := by
    cases hc : my_compute_normals Y shp4.triangles shp4.pos true <;>
      simp only [hc] at hC <;> cases hC
    rfl
  have t6 : shp' = shp5 := by
    split at h
    · cases h
    · cases h
      rfl
  rw [t6, t5, t4, t3, t2, t1]

theorem triples_length (data : List Int) : (triples data).length = data.length / 3 := by
  induction data using triples.induct with
  | case1 a b c rest ih =>
    simp only [triples, List.length_cons, ih]
    omega
  | case2 data h =>
    match data, h with
    | [], _ => simp [triples]
    | [_], _ => simp [triples]
    | [_, _], _ => simp [triples]
    | a :: b :: c :: rest, h => exact absurd rfl (h a b c rest)

theorem triples_getElem? (k : Nat) : ∀ (data : List Int) (a b c : Int),
    data[3 * k]? = some a → data[3 * k + 1]? = some b → data[3 * k + 2]? = some c →
    (triples data)[k]? = some ⟨a, b, c⟩ := by
  induction k with
  | zero =>
    intro data a b c ha hb hc
    match data, ha, hb, hc with
    | x :: y :: z :: rest, ha, hb, hc =>
      simp at ha hb hc
      subst ha hb hc
      simp [triples]
  | succ k ih =>
    intro data a b c ha hb hc
    have e0 : 3 * (k + 1) = 3 * k + 1 + 1 + 1 := by ring
    have e1 : 3 * (k + 1) + 1 = 3 * k + 1 + 1 + 1 + 1 := by ring
    have e2 : 3 * (k + 1) + 2 = 3 * k + 2 + 1 + 1 + 1 := by ring
    rw [e0] at ha
    rw [e1] at hb
    rw [e2] at hc
    match data, ha, hb, hc with
    | x :: y :: z :: rest, ha, hb, hc =>
      simp only [List.getElem?_cons_succ] at ha hb hc
      simp only [triples, List.getElem?_cons_succ]
      exact ih rest a b c ha hb hc
    | [], ha, _, _ => simp at ha
    | [_], ha, _, _ => simp at ha
    | [_, _], ha, _, _ => simp at ha

theorem mem_triples (data : List Int) (t : Vec3i) (h : t ∈ triples data) :
    t.x ∈ data ∧ t.y ∈ data ∧ t.z ∈ data := by
  induction data using triples.induct with
  | case1 a b c rest ih =>
    simp only [triples, List.mem_cons] at h
    rcases h with rfl | h
    · simp
    · obtain ⟨h1, h2, h3⟩ := ih h
      simp [h1, h2, h3]
  | case2 data hd =>
    match data, hd, h with
    | [], _, h => cases h
    | [_], _, h => cases h
    | [_, _], _, h => cases h
    | a :: b :: c :: rest, hd, _ => exact absurd rfl (hd a b c rest)

theorem at_index_some {α : Type} (v : List α) (i : Int) (h : index_ok v.length i) :
    ∃ a, at_index v i = some a := by
  unfold at_index
  rw [if_pos h.1]
  have hlt : i.toNat < v.length := by
    have := h.1
    have := h.2
    omega
  exact ⟨v[i.toNat], List.getElem?_eq_getElem hlt⟩

theorem update_index_some {α : Type} (v : List α) (i : Int) (f : α → α)
    (h : index_ok v.length i) :
    ∃ v', update_index v i f = some v' ∧ v'.length = v.length := by
  obtain ⟨a, ha⟩ := at_index_some v i h
  unfold update_index
  rw [ha]
  exact ⟨_, rfl, List.length_set _ _ _⟩

theorem accumulate_normal_some (Y : Ext F) (pos : List (Vec3 F)) (weighted : Bool)
    (norm : List (Vec3 F)) (t : Vec3i) (hn : norm.length = pos.length)
    (hx : index_ok pos.length t.x) (hy : index_ok pos.length t.y)
    (hz : index_ok pos.length t.z) :
    ∃ norm', accumulate_normal Y pos weighted norm t = some norm' ∧
      norm'.length = pos.length := by
  obtain ⟨px, hpx⟩ := at_index_some pos t.x hx
  obtain ⟨py, hpy⟩ := at_index_some pos t.y hy
  obtain ⟨pz, hpz⟩ := at_index_some pos t.z hz
  unfold accumulate_normal
  rw [hpx, hpy, hpz]
  simp only []
  obtain ⟨n1, h1, l1⟩ := update_index_some norm t.x
    (fun v => vadd Y v (if weighted = true then Y.cross (vsub Y py pz) (vsub Y px pz)
      else Y.normalize (Y.cross (vsub Y py pz) (vsub Y px pz)))) (by rw [hn]; exact hx)
  rw [h1]
  simp only []
  obtain ⟨n2, h2, l2⟩ := update_index_some n1 t.y
    (fun v => vadd Y v (if weighted = true then Y.cross (vsub Y py pz) (vsub Y px pz)
      else Y.normalize (Y.cross (vsub Y py pz) (vsub Y px pz)))) (by rw [l1, hn]; exact hy)
  rw [h2]
  simp only []
  obtain ⟨n3, h3, l3⟩ := update_index_some n2 t.z
    (fun v => vadd Y v (if weighted = true then Y.cross (vsub Y py pz) (vsub Y px pz)
      else Y.normalize (Y.cross (vsub Y py pz) (vsub Y px pz)))) (by rw [l2, l1, hn]; exact hz)
  exact ⟨n3, h3, by rw [l3, l2, l1, hn]⟩

theorem accumulate_normals_some (Y : Ext F) (pos : List (Vec3 F)) (weighted : Bool)
    (triangles : List Vec3i) :
    ∀ norm : List (Vec3 F), norm.length = pos.length →
      (∀ t ∈ triangles, index_ok pos.length t.x ∧ index_ok pos.length t.y ∧
        index_ok pos.length t.z) →
      ∃ norm', accumulate_normals Y pos weighted triangles norm = some norm' := by
  induction triangles with
  | nil => intro norm _ _; exact ⟨norm, rfl⟩
  | cons t ts ih =>
    intro norm hn ht
    obtain ⟨h1, h2, h3⟩ := ht t (List.mem_cons_self _ _)
    obtain ⟨n1, e1, l1⟩ := accumulate_normal_some Y pos weighted norm t hn h1 h2 h3
    unfold accumulate_normals
    rw [e1]
    exact ih n1 l1 (fun u hu => ht u (List.mem_cons_of_mem _ hu))

theorem my_compute_normals_some (Y : Ext F) (triangles : List Vec3i) (pos : List (Vec3 F))
    (weighted : Bool)
    (ht : ∀ t ∈ triangles, index_ok pos.length t.x ∧ index_ok pos.length t.y ∧
      index_ok pos.length t.z) :
    ∃ norm, my_compute_normals Y triangles pos weighted = some norm := by
  obtain ⟨n1, e1⟩ := accumulate_normals_some Y pos weighted triangles
    (List.replicate pos.length (vconst Y 0)) (List.length_replicate _ _) ht
  unfold my_compute_normals
  simp only [e1]
  exact ⟨_, rfl⟩

theorem pair_up_some (v : List F) (h : v.length % 2 = 0) : ∃ uvs, pair_up v = some uvs := by
  induction v using pair_up.induct with
  | case1 => exact ⟨[], rfl⟩
  | case2 a => simp at h
  | case3 a b rest ih =>
    have h' : rest.length % 2 = 0 := by
      simp only [List.length_cons] at h
      omega
    obtain ⟨uvs, hu⟩ := ih h'
    exact ⟨⟨a, b⟩ :: uvs, by simp [pair_up, hu]⟩

theorem trianglemesh_success (Y : Ext F) (params : List (PBRTParameter F))
    (shp : Shape F) (s : PState F) (ht : ∀ p ∈ params, MeshTyped p) (i : Nat)
    (p : PBRTParameter F) (data : List Int) (hi : find_param "indices" params = some i)
    (hp : params[i]? = some p) (hd : p.value = .ints data) (h3 : data.length % 3 = 0)
    (iP : Nat) (pP : PBRTParameter F) (vP : List (Vec3 F))
    (hP : find_param "P" params = some iP) (hPp : params[iP]? = some pP)
    (hvP : pP.value = .vec3s vP)
    (hrange : ∀ x ∈ data, index_ok (shp.pos ++ vP).length x)
    (hold : ∀ t ∈ shp.triangles, index_ok (shp.pos ++ vP).length t.x ∧
      index_ok (shp.pos ++ vP).length t.y ∧ index_ok (shp.pos ++ vP).length t.z)
    (huv : ∀ j, (find_param "uv" params = some j ∨
        (find_param "uv" params = none ∧ find_param "st" params = some j)) →
      ∃ q v, params[j]? = some q ∧ q.value = .floats v ∧ v.length % 2 = 0) :
    ∃ shp', trianglemesh_of_params Y params shp s = .ok shp' s := by
  obtain ⟨nm, hnm⟩ := my_compute_normals_some Y (shp.triangles ++ triples data)
    (shp.pos ++ vP) true (by
      intro t htm
      rw [List.mem_append] at htm
      rcases htm with htm | htm
      · exact hold t htm
      · obtain ⟨h1, h2, h3⟩ := mem_triples data t htm
        exact ⟨hrange _ h1, hrange _ h2, hrange _ h3⟩)
  have h3' : ¬ (data.length % 3 ≠ 0) := fun h => h h3
  rcases typed_param_cases "N" params ht with hN | ⟨iN, pN, hN, hNp, hNn, hNt⟩
  · cases hu : find_param "uv" params with
    | some j =>
      obtain ⟨q, v, hq, hqv, hv⟩ := huv j (Or.inl hu)
      obtain ⟨uvs, huvs⟩ := pair_up_some v hv
      simp only [trianglemesh_of_params, hP, hPp, hvP, hN, hi, hp, hd, if_neg h3', param_at,
        bind_eq, pure_eq, hu, hq, hqv, huvs, hnm, and_self, not_true_eq_false, if_false]
      exact ⟨_, rfl⟩
    | none =>
      cases hst : find_param "st" params with
      | some j =>
        obtain ⟨q, v, hq, hqv, hv⟩ := huv j (Or.inr ⟨hu, hst⟩)
        obtain ⟨uvs, huvs⟩ := pair_up_some v hv
        simp only [trianglemesh_of_params, hP, hPp, hvP, hN, hi, hp, hd, if_neg h3', param_at,
        bind_eq, pure_eq, hu, hst, hq, hqv, huvs, hnm, and_self, not_true_eq_false, if_false]
        exact ⟨_, rfl⟩
      | none =>
        simp only [trianglemesh_of_params, hP, hPp, hvP, hN, hi, hp, hd, if_neg h3', param_at,
        bind_eq, pure_eq, hu, hst, hnm, and_self, not_true_eq_false, if_false]
        exact ⟨_, rfl⟩
  · obtain ⟨vN, hvN⟩ := hNt.2.1 hNn
    cases hu : find_param "uv" params with
    | some j =>
      obtain ⟨q, v, hq, hqv, hv⟩ := huv j (Or.inl hu)
      obtain ⟨uvs, huvs⟩ := pair_up_some v hv
      simp only [trianglemesh_of_params, hP, hPp, hvP, hN, hNp, hvN, hi, hp, hd, if_neg h3', param_at,
        bind_eq, pure_eq, hu, hq, hqv, huvs, hnm, and_self, not_true_eq_false, if_false]
      exact ⟨_, rfl⟩
    | none =>
      cases hst : find_param "st" params with
      | some j =>
        obtain ⟨q, v, hq, hqv, hv⟩ := huv j (Or.inr ⟨hu, hst⟩)
        obtain ⟨uvs, huvs⟩ := pair_up_some v hv
        simp only [trianglemesh_of_params, hP, hPp, hvP, hN, hNp, hvN, hi, hp, hd, if_neg h3', param_at,
        bind_eq, pure_eq, hu, hst, hq, hqv, huvs, hnm, and_self, not_true_eq_false, if_false]
        exact ⟨_, rfl⟩
      | none =>
        simp only [trianglemesh_of_params, hP, hPp, hvP, hN, hNp, hvN, hi, hp, hd, if_neg h3', param_at,
        bind_eq, pure_eq, hu, hst, hnm, and_self, not_true_eq_false, if_false]
        exact ⟨_, rfl⟩

theorem parse_trianglemesh_eq (Y : Ext F) (shp : Shape F) (s s1 : PState F)
    (params : List (PBRTParameter F)) (h : parse_parameters Y [] s = .ok params s1) :
    parse_trianglemesh Y shp s = trianglemesh_of_params Y params shp s1 := by
  rw [parse_trianglemesh, bind_eq, h]

/-- C9: let `parse_trianglemesh` be called on a new shape, with no triangles,
and let the parameters it parses hold `indices`, with the values `data`.  If
the number of values is not a multiple of 3, `parse_trianglemesh` raises the
syntax error of the triangle vertices.  If it is a multiple of 3, then
whenever `parse_trianglemesh` returns a shape, the triangles of the shape are
`data` packed three by three: `data.length / 3` triangles, the `k`-th being
`(data[3k], data[3k+1], data[3k+2])`; and it does return a shape when `P` is
present, every index is within the positions, and the texture coordinates, if
any, are floats in even number. -/
theorem C9_trianglemesh_indices (Y : Ext F) (shp : Shape F) (s s1 : PState F)
    (params : List (PBRTParameter F)) (i : Nat) (p : PBRTParameter F) (data : List Int)
    (hnew : shp.triangles = [])
    (hpar : parse_parameters Y [] s = .ok params s1)
    (hi : find_param "indices" params = some i) (hp : params[i]? = some p)
    (hd : p.value = .ints data) :
    (data.length % 3 ≠ 0 →
      parse_trianglemesh Y shp s =
        .error (.syntaxError "The number of triangle vertices must be multiple of 3.") s1) ∧
    (data.length % 3 = 0 →
      (∀ shp' s', parse_trianglemesh Y shp s = .ok shp' s' →
        shp'.triangles = triples data ∧ shp'.triangles.length = data.length / 3 ∧
        ∀ k, k < data.length / 3 →
          shp'.triangles[k]? =
            some ⟨data.getD (3 * k) 0, data.getD (3 * k + 1) 0, data.getD (3 * k + 2) 0⟩) ∧
      (∀ (iP : Nat) (pP : PBRTParameter F) (vP : List (Vec3 F)),
        find_param "P" params = some iP → params[iP]? = some pP → pP.value = .vec3s vP →
        (∀ x ∈ data, index_ok (shp.pos ++ vP).length x) →
        (∀ j, (find_param "uv" params = some j ∨
            (find_param "uv" params = none ∧ find_param "st" params = some j)) →
          ∃ q v, params[j]? = some q ∧ q.value = .floats v ∧ v.length % 2 = 0) →
        ∃ shp', parse_trianglemesh Y shp s = .ok shp' s1)) := by
  have ht := parse_parameters_typed Y params s s1 hpar
  rw [parse_trianglemesh_eq Y shp s s1 params hpar]
  refine ⟨fun h3 => trianglemesh_indices_error Y params shp s1 ht i p data hi hp hd h3,
    fun h3 => ⟨?_, ?_⟩⟩
  · intro shp' s' h
    have htri := trianglemesh_triangles Y params shp shp' s1 s' i p data hi hp hd h
    rw [hnew, List.nil_append] at htri
    rw [htri]
    refine ⟨rfl, triples_length data, ?_⟩
    intro k hk
    have hlt : 3 * k + 2 < data.length := by omega
    apply triples_getElem? k data
    · rw [List.getD_eq_getElem?_getD, List.getElem?_eq_getElem (by omega)]; rfl
    · rw [List.getD_eq_getElem?_getD, List.getElem?_eq_getElem (by omega)]; rfl
    · rw [List.getD_eq_getElem?_getD, List.getElem?_eq_getElem hlt]; rfl
  · intro iP pP vP hP hPp hvP hrange huv
    exact trianglemesh_success Y params shp s1 ht i p data hi hp hd h3 iP pP vP hP hPp hvP
      hrange (by rw [hnew]; intro t h; cases h) huv

/-- C9, witness: the triangle of the minimal scene: the parameters are parsed,
`parse_trianglemesh` returns a shape, and its triangles are the indices packed
three by three. -/
theorem C9_trianglemesh_indices_witness :
    ∃ shp', parse_trianglemesh testExt (Shape.new Rat) (at_mesh_parameters triangle_lexemes) =
        .ok shp' (parse_parameters testExt [] (at_mesh_parameters triangle_lexemes)).state ∧
      shp'.triangles = triples [0, 1, 2] := by
  have h := C9_trianglemesh_indices testExt (Shape.new Rat)
    (at_mesh_parameters triangle_lexemes)
    (parse_parameters testExt [] (at_mesh_parameters triangle_lexemes)).state
    triangle_params 1 ⟨"integer", "indices", .ints [0, 1, 2]⟩ [0, 1, 2] rfl
    (by decide!) (by decide!) (by decide!) rfl
  obtain ⟨shp', hs⟩ := (h.2 (by decide)).2 0 ⟨"point3", "P", .vec3s [⟨0, 0, 0⟩, ⟨1, 0, 0⟩, ⟨0, 1, 0⟩]⟩
    [⟨0, 0, 0⟩, ⟨1, 0, 0⟩, ⟨0, 1, 0⟩] (by decide!) (by decide!) rfl (by decide!)
    (by
      intro j hj
      rcases hj with hj | ⟨-, hj⟩ <;> simp [triangle_params, find_param] at hj)
  exact ⟨shp', hs, ((h.2 (by decide)).1 shp' _ hs).1⟩

/-! ## C10: a triangle mesh without positions or without indices -/

/-- C10, the failing input: on `Shape "trianglemesh" "integer indices" [0 1 2]`,
a mesh with indices and no positions, `parse_trianglemesh` does not reach the
check of the two flags: `my_compute_normals`, called before the check, reads
the empty list of positions at the indices of the triangle.  A mesh with
positions and no indices is rejected with the syntax error of the check.  The
same outcomes end the parse of the scenes that hold these shapes. -/
theorem C10_indices_without_positions :
    (parse_trianglemesh testExt (Shape.new Rat)
        (at_mesh_parameters [str "integer indices", lbr, num "0", num "1", num "2", rbr,
          ident "WorldEnd"])).err? =
      some (Err.undefinedBehaviour "my_compute_normals: index out of bounds") ∧
    (parse_trianglemesh testExt (Shape.new Rat)
        (at_mesh_parameters [str "point3 P", lbr, num "0", num "0", num "0", num "1", num "0",
          num "0", num "0", num "1", num "0", rbr, ident "WorldEnd"])).err? =
      some (Err.syntaxError "Missing indices or positions in triangle mesh specification.") ∧
    (parse testExt 3 (test_state [ident "WorldBegin", ident "Shape", str "trianglemesh",
        str "integer indices", lbr, num "0", num "1", num "2", rbr, ident "WorldEnd"])).err? =
      some (Err.undefinedBehaviour "my_compute_normals: index out of bounds") ∧
    (parse testExt 3 (test_state [ident "WorldBegin", ident "Shape", str "trianglemesh",
        str "point3 P", lbr, num "0", num "0", num "0", num "1", num "0", num "0", num "0",
        num "1", num "0", rbr, ident "WorldEnd"])).err? =
      some (Err.syntaxError "Missing indices or positions in triangle mesh specification.") := by
  decide!

/-! ## The stack of lexers -/

theorem advance_lexers_exhausted (ls : List Lexer) (hne : ls ≠ [])
    (h : ∀ l ∈ ls, l.rest = []) : advance_lexers ls = (some Err.inputEnded, []) := by
  induction ls with
  | nil => exact absurd rfl hne
  | cons l ls ih =>
    have hl : l.rest = [] := h l (List.mem_cons_self _ _)
    cases ls with
    | nil => simp [advance_lexers, hl]
    | cons l2 ls2 =>
      have := ih (List.cons_ne_nil _ _) (fun x hx => h x (List.mem_cons_of_mem _ hx))
      simp only [advance_lexers, hl]
      exact this

theorem advance_lexers_next (above : List Lexer) (l : Lexer) (below : List Lexer)
    (t : Lexeme) (ts : List Lexeme) (h : ∀ x ∈ above, x.rest = []) (hl : l.rest = t :: ts) :
    advance_lexers (above ++ l :: below) = (none, { l with cur := t, rest := ts } :: below) := by
  induction above with
  | nil => simp [advance_lexers, hl]
  | cons a above ih =>
    have ha : a.rest = [] := h a (List.mem_cons_self _ _)
    have := ih (fun x hx => h x (List.mem_cons_of_mem _ hx))
    cases hab : above ++ l :: below with
    | nil => simp at hab
    | cons b bs =>
      rw [hab] at this
      rw [List.cons_append, hab]
      simp only [advance_lexers, ha]
      exact this

theorem lexers_split (ls : List Lexer) :
    (∀ l ∈ ls, l.rest = []) ∨
      ∃ above l below t ts, ls = above ++ l :: below ∧ (∀ x ∈ above, x.rest = []) ∧
        l.rest = t :: ts := by
  induction ls with
  | nil => exact Or.inl (fun l hl => by cases hl)
  | cons a ls ih =>
    cases ha : a.rest with
    | cons t ts =>
      exact Or.inr ⟨[], a, ls, t, ts, rfl, fun x hx => absurd hx (List.not_mem_nil x), ha⟩
    | nil =>
      rcases ih with h | ⟨above, l, below, t, ts, h1, h2, h3⟩
      · left
        intro x hx
        rcases List.mem_cons.mp hx with rfl | hx
        · exact ha
        · exact h x hx
      · right
        refine ⟨a :: above, l, below, t, ts, by rw [h1]; rfl, ?_, h3⟩
        intro x hx
        rcases List.mem_cons.mp hx with rfl | hx
        · exact ha
        · exact h2 x hx
theorem pending_exhausted (ls : List Lexer) (h : ∀ l ∈ ls, l.rest = []) : pending ls = [] := by
  induction ls with
  | nil => rfl
  | cons a ls ih =>
    simp only [pending, List.flatMap_cons, h a (List.mem_cons_self _ _), List.nil_append]
    exact ih (fun x hx => h x (List.mem_cons_of_mem _ hx))

theorem pending_append (a b : List Lexer) : pending (a ++ b) = pending a ++ pending b := by
  simp [pending, List.flatMap_append]

/-- One call of `advance` delivers the first pending lexeme and leaves the
others pending. -/
theorem advance_delivers (s : PState F) (t : Lexeme) (rest : List Lexeme)
    (h : pending s.lexers = t :: rest) :
    ∃ l below, advance s = .ok () { s with lexers := l :: below } ∧ l.cur = t ∧
      pending (l :: below) = rest := by
  rcases lexers_split s.lexers with hall | ⟨above, l, below, t', ts, h1, h2, h3⟩
  · rw [pending_exhausted _ hall] at h
    cases h
  · rw [h1, pending_append, pending_exhausted _ h2, List.nil_append] at h
    simp only [pending, List.flatMap_cons, h3, List.cons_append] at h
    obtain ⟨rfl, rfl⟩ := List.cons.inj h
    refine ⟨{ l with cur := t', rest := ts }, below, ?_, rfl, ?_⟩
    · unfold advance
      rw [h1, advance_lexers_next above l below t' ts h2 h3]
    · simp [pending]

theorem deliver_take (n : Nat) : ∀ (s : PState F), n ≤ (pending s.lexers).length →
    ∃ s', deliver n s = .ok ((pending s.lexers).take n) s' ∧
      pending s'.lexers = (pending s.lexers).drop n := by
  induction n with
  | zero =>
    intro s _
    exact ⟨s, rfl, rfl⟩
  | succ n ih =>
    intro s hn
    cases hp : pending s.lexers with
    | nil => rw [hp] at hn; simp at hn
    | cons t rest =>
      obtain ⟨l, below, ha, hc, hr⟩ := advance_delivers s t rest hp
      rw [hp] at hn
      obtain ⟨s', hd, hp'⟩ := ih { s with lexers := l :: below } (by
        show n ≤ (pending (l :: below)).length
        rw [hr]
        simpa using hn)
      refine ⟨s', ?_, ?_⟩
      · rw [deliver, bind_eq, ha]
        simp only []
        rw [bind_eq]
        simp only [current_token]
        rw [bind_eq, hd]
        simp only [pure_eq, List.take_succ_cons, hc]
        show Res.ok (t :: List.take n (pending (l :: below))) s' = _
        rw [hr]
      · rw [hp']
        show List.drop n (pending (l :: below)) = _
        rw [hr]
        rfl

/-! ## C11: the mix of two named materials -/

theorem total_bind {α β : Type} {m : M F α} {f : α → M F β} {s : PState F}
    {Q : β → PState F → Prop} (h : Total m s (fun a s1 => Total (f a) s1 Q)) :
    Total (m >>= f) s Q := by
  obtain ⟨a, s1, h1, b, s2, h2, hq⟩ := h
  exact ⟨b, s2, by rw [bind_eq, h1]; exact h2, hq⟩

theorem total_of_eq {α : Type} {m : M F α} {s : PState F} {Q : α → PState F → Prop}
    (a : α) (s1 : PState F) (h : m s = .ok a s1) (hq : Q a s1) : Total m s Q :=
  ⟨a, s1, h, hq⟩

theorem total_blend_textures (t1 t2 : Option Nat) (amount : F) (n : Nat) (s : PState F)
    (h1 : ∀ r, t1 = some r → r < n) (h2 : ∀ r, t2 = some r → r < n)
    (hn : n ≤ s.textureArena.length) :
    Total (blend_textures t1 t2 amount) s
      (fun _ s1 => s1.materialArena = s.materialArena ∧ n ≤ s1.textureArena.length) := by
  have hget : ∀ t : Option Nat, (∀ r, t = some r → r < n) →
      ∃ p, (texture_images t : M F _) s = .ok p s := by
    intro t ht
    cases t with
    | none => exact ⟨_, rfl⟩
    | some r =>
      have hr : r < s.textureArena.length := Nat.lt_of_lt_of_le (ht r rfl) hn
      refine ⟨((s.textureArena[r]).ldr, (s.textureArena[r]).hdr), ?_⟩
      simp only [texture_images]
      rw [bind_eq]
      simp only [get_texture, List.getElem?_eq_getElem hr]
      rfl
  obtain ⟨p1, e1⟩ := hget t1 h1
  obtain ⟨p2, e2⟩ := hget t2 h2
  unfold blend_textures
  apply total_bind
  refine total_of_eq _ _ e1 ?_
  apply total_bind
  refine total_of_eq _ _ e2 ?_
  cases t1 <;> cases t2 <;>
    first
    | exact ⟨_, _, rfl, rfl, hn⟩
    | (refine ⟨_, _, rfl, rfl, ?_⟩
       simp only [List.length_append, List.length_singleton]
       omega)

theorem total_modify_material (mat : Nat) (f : Material F → Material F) (s : PState F)
    (R : Material F) (h : s.materialArena[mat]? = some R) :
    Total (modify_material mat f) s
      (fun _ s1 => s1.materialArena[mat]? = some (f R) ∧ s1.textureArena = s.textureArena) := by
  refine ⟨(), { s with materialArena := s.materialArena.set mat (f R) }, ?_, ?_, rfl⟩
  · simp only [modify_material, h]
  · have hlt : mat < s.materialArena.length := by
      rcases Nat.lt_or_ge mat s.materialArena.length with hl | hl
      · exact hl
      · rw [List.getElem?_eq_none hl] at h; cases h
    simp [List.getElem?_set, hlt]

theorem total_mix_step {β : Type} (n mat : Nat) (P : Material F → Prop)
    (t1 t2 : Option Nat) (amount : F) (g : Option Nat → Material F → Material F)
    (rest : M F β) (Q : β → PState F → Prop) (s : PState F)
    (h1 : ∀ r, t1 = some r → r < n) (h2 : ∀ r, t2 = some r → r < n)
    (hg : ∀ o m, P m → P (g o m))
    (hrest : ∀ s1, MixInv n mat P s1 → Total rest s1 Q) (hI : MixInv n mat P s) :
    Total (blend_textures t1 t2 amount >>= fun x =>
      modify_material mat (g x) >>= fun _ => rest) s Q := by
  obtain ⟨hn, R, hR, hP⟩ := hI
  obtain ⟨o, s1, e1, hm1, hn1⟩ := total_blend_textures t1 t2 amount n s h1 h2 hn
  apply total_bind
  refine total_of_eq _ _ e1 ?_
  obtain ⟨u, s2, e2, hm2, ht2⟩ := total_modify_material mat (g o) s1 R (hm1 ▸ hR)
  apply total_bind
  refine total_of_eq _ _ e2 ?_
  exact hrest s2 ⟨ht2 ▸ hn1, _, hm2, hg o R hP⟩

theorem spec_mix_one [CommRing F] (a b : F) : spec_mix 1 a b = a := by
  simp [spec_mix]

theorem spec_mix_zero [CommRing F] (a b : F) : spec_mix 0 a b = b := by
  simp [spec_mix]

theorem spec_mix_vec_one [CommRing F] (a b : Vec3 F) : spec_mix_vec 1 a b = a := by
  simp [spec_mix_vec, spec_mix_one]

theorem spec_mix_vec_zero [CommRing F] (a b : Vec3 F) : spec_mix_vec 0 a b = b := by
  simp [spec_mix_vec, spec_mix_zero]

theorem mix_vec_exact [CommRing F] (Y : Ext F) (hY : ExactArith Y) (amount : F)
    (a b : Vec3 F) : mix_vec Y amount a b = spec_mix_vec amount a b := by
  simp only [mix_vec, vadd, smul, spec_mix_vec, spec_mix, hY.add, hY.sub, hY.mul, hY.one,
    Vec3.mk.injEq]
  refine ⟨?_, ?_, ?_⟩ <;> ring

/-- C11: `parse_material_mix` on two named materials A (`namedmaterial1`) and
B (`namedmaterial2`) returns, and in exact arithmetic the slots kd, ks, kr, kt,
rs and op of the material it fills are `amount * A + (1 - amount) * B`: those
of A when the amount is 1, those of B when it is 0. -/
theorem C11_material_mix [CommRing F] (Y : Ext F) (hY : ExactArith Y) (s : PState F)
    (mat : Nat) (params : List (PBRTParameter F)) (amount : F) (m1 m2 : String)
    (i1 i2 d1 d2 : Nat) (p1 p2 : PBRTParameter F) (r1 r2 : List String)
    (dm1 dm2 : DeclaredMaterial) (A B T : Material F)
    (ha : (find_param "amount" params = none ∧ amount = Y.lit (1/2)) ∨
      ∃ (i : Nat) (p : PBRTParameter F) (r : List F),
        find_param "amount" params = some i ∧ params[i]? = some p ∧
        p.value = ParamValue.floats (amount :: r))
    (hf1 : find_param "namedmaterial1" params = some i1) (hp1 : params[i1]? = some p1)
    (hv1 : p1.value = ParamValue.strings (m1 :: r1))
    (hf2 : find_param "namedmaterial2" params = some i2) (hp2 : params[i2]? = some p2)
    (hv2 : p2.value = ParamValue.strings (m2 :: r2))
    (hn1 : mapFind s.gState.nameToMaterial m1 = some d1)
    (hd1 : s.declaredArena[d1]? = some dm1) (hA : s.materialArena[dm1.mat]? = some A)
    (hn2 : mapFind s.gState.nameToMaterial m2 = some d2)
    (hd2 : s.declaredArena[d2]? = some dm2) (hB : s.materialArena[dm2.mat]? = some B)
    (hT : s.materialArena[mat]? = some T)
    (htA : ∀ r, some r ∈ material_textures A → r < s.textureArena.length)
    (htB : ∀ r, some r ∈ material_textures B → r < s.textureArena.length) :
    ∃ (s' : PState F) (R : Material F),
      parse_material_mix Y mat params s = .ok () s' ∧
      s'.materialArena[mat]? = some R ∧
      R.kd = spec_mix_vec amount A.kd B.kd ∧ R.ks = spec_mix_vec amount A.ks B.ks ∧
      R.kr = spec_mix_vec amount A.kr B.kr ∧ R.kt = spec_mix_vec amount A.kt B.kt ∧
      R.rs = spec_mix amount A.rs B.rs ∧ R.op = spec_mix amount A.op B.op ∧
      (amount = 1 → R.kd = A.kd ∧ R.ks = A.ks ∧ R.kr = A.kr ∧ R.kt = A.kt ∧
        R.rs = A.rs ∧ R.op = A.op) ∧
      (amount = 0 → R.kd = B.kd ∧ R.ks = B.ks ∧ R.kr = B.kr ∧ R.kt = B.kt ∧
        R.rs = B.rs ∧ R.op = B.op) := by
  have hgen : Total (parse_material_mix Y mat params) s (fun _ s' =>
      ∃ R, s'.materialArena[mat]? = some R ∧
        (R.kd = mix_vec Y amount A.kd B.kd ∧ R.kr = mix_vec Y amount A.kr B.kr ∧
          R.ks = mix_vec Y amount A.ks B.ks ∧ R.kt = mix_vec Y amount A.kt B.kt ∧
          R.rs = Y.add (Y.mul (Y.sub (Y.lit 1) amount) B.rs) (Y.mul amount A.rs)) ∧
        R.op = Y.add (Y.mul A.op amount) (Y.mul B.op (Y.sub (Y.lit 1) amount))) := by
    unfold parse_material_mix
    apply total_bind
    refine total_of_eq amount s ?_ ?_
    · rcases ha with ⟨hn, rfl⟩ | ⟨i, p, r, hf, hp, hv⟩
      · simp only [hn]; rfl
      · simp only [hf]
        rw [bind_eq]
        simp only [param_at, hp, pure_eq, get_first_float, hv]
    apply total_bind
    refine total_of_eq m1 s ?_ ?_
    · simp only [hf1]
      rw [bind_eq]
      simp only [param_at, hp1, pure_eq, get_first_string, hv1]
    apply total_bind
    refine total_of_eq m2 s ?_ ?_
    · simp only [hf2]
      rw [bind_eq]
      simp only [param_at, hp2, pure_eq, get_first_string, hv2]
    apply total_bind
    refine total_of_eq d1 s ?_ ?_
    · rw [material_lookup, bind_eq]
      simp only [getG, hn1, pure_eq]
    apply total_bind
    refine total_of_eq dm1 s ?_ ?_
    · simp only [get_declared, hd1]
    apply total_bind
    refine total_of_eq d2 s ?_ ?_
    · rw [material_lookup, bind_eq]
      simp only [getG, hn2, pure_eq]
    apply total_bind
    refine total_of_eq dm2 s ?_ ?_
    · simp only [get_declared, hd2]
    apply total_bind
    refine total_of_eq A s ?_ ?_
    · simp only [get_material, hA]
    apply total_bind
    refine total_of_eq B s ?_ ?_
    · simp only [get_material, hB]
    apply total_bind
    obtain ⟨u, s1, e1, hm1, ht1⟩ := total_modify_material mat (fun m =>
      { m with
        kd := mix_vec Y amount A.kd B.kd
        kr := mix_vec Y amount A.kr B.kr
        ks := mix_vec Y amount A.ks B.ks
        kt := mix_vec Y amount A.kt B.kt
        rs := Y.add (Y.mul (Y.sub (Y.lit 1) amount) B.rs) (Y.mul amount A.rs) }) s T hT
    refine total_of_eq u s1 e1 ?_
    have hI : MixInv s.textureArena.length mat (fun R : Material F =>
        R.kd = mix_vec Y amount A.kd B.kd ∧ R.kr = mix_vec Y amount A.kr B.kr ∧
        R.ks = mix_vec Y amount A.ks B.ks ∧ R.kt = mix_vec Y amount A.kt B.kt ∧
        R.rs = Y.add (Y.mul (Y.sub (Y.lit 1) amount) B.rs) (Y.mul amount A.rs)) s1 :=
      ⟨by rw [ht1], _, hm1, rfl, rfl, rfl, rfl, rfl⟩
    have hmemA : ∀ t : Option Nat, t ∈ material_textures A →
        ∀ r, t = some r → r < s.textureArena.length := fun t ht r hr => htA r (hr ▸ ht)
    have hmemB : ∀ t : Option Nat, t ∈ material_textures B →
        ∀ r, t = some r → r < s.textureArena.length := fun t ht r hr => htB r (hr ▸ ht)
    refine total_mix_step _ mat _ _ _ amount _ _ _ s1 (hmemA _ (by simp [material_textures]))
      (hmemB _ (by simp [material_textures])) (fun _ _ h => h) (fun s2 hI2 => ?_) hI
    refine total_mix_step _ mat _ _ _ amount _ _ _ s2 (hmemA _ (by simp [material_textures]))
      (hmemB _ (by simp [material_textures])) (fun _ _ h => h) (fun s3 hI3 => ?_) hI2
    refine total_mix_step _ mat _ _ _ amount _ _ _ s3 (hmemA _ (by simp [material_textures]))
      (hmemB _ (by simp [material_textures])) (fun _ _ h => h) (fun s4 hI4 => ?_) hI3
    refine total_mix_step _ mat _ _ _ amount _ _ _ s4 (hmemA _ (by simp [material_textures]))
      (hmemB _ (by simp [material_textures])) (fun _ _ h => h) (fun s5 hI5 => ?_) hI4
    refine total_mix_step _ mat _ _ _ amount _ _ _ s5 (hmemA _ (by simp [material_textures]))
      (hmemB _ (by simp [material_textures])) (fun _ _ h => h) (fun s6 hI6 => ?_) hI5
    refine total_mix_step _ mat _ _ _ amount _ _ _ s6 (hmemA _ (by simp [material_textures]))
      (hmemB _ (by simp [material_textures])) (fun _ _ h => h) (fun s7 hI7 => ?_) hI6
    refine total_mix_step _ mat _ _ _ amount _ _ _ s7 (hmemA _ (by simp [material_textures]))
      (hmemB _ (by simp [material_textures])) (fun _ _ h => h) (fun s8 hI8 => ?_) hI7
    refine total_mix_step _ mat _ _ _ amount _ _ _ s8 (hmemA _ (by simp [material_textures]))
      (hmemB _ (by simp [material_textures])) (fun _ _ h => h) (fun s9 hI9 => ?_) hI8
    obtain ⟨_, R, hR, hP⟩ := hI9
    obtain ⟨u2, s10, e10, hm10, _⟩ := total_modify_material mat (fun m =>
      { m with op := Y.add (Y.mul A.op amount) (Y.mul B.op (Y.sub (Y.lit 1) amount)) })
      s9 R hR
    exact ⟨u2, s10, e10, _, hm10, hP, rfl⟩
  obtain ⟨u, s', hrun, R, hR, ⟨hkd, hkr, hks, hkt, hrs⟩, hop⟩ := hgen
  rw [mix_vec_exact Y hY] at hkd hkr hks hkt
  have hrs' : R.rs = spec_mix amount A.rs B.rs := by
    rw [hrs, hY.add, hY.mul, hY.mul, hY.sub, hY.one, spec_mix]; ring
  have hop' : R.op = spec_mix amount A.op B.op := by
    rw [hop, hY.add, hY.mul, hY.mul, hY.sub, hY.one, spec_mix]; ring
  refine ⟨s', R, hrun, hR, hkd, hks, hkr, hkt, hrs', hop', ?_, ?_⟩
  · rintro rfl
    rw [spec_mix_vec_one] at hkd hkr hks hkt
    rw [spec_mix_one] at hrs' hop'
    exact ⟨hkd, hks, hkr, hkt, hrs', hop'⟩
  · rintro rfl
    rw [spec_mix_vec_zero] at hkd hkr hks hkt
    rw [spec_mix_zero] at hrs' hop'
    exact ⟨hkd, hks, hkr, hkt, hrs', hop'⟩

theorem exactArith_testExt : ExactArith testExt :=
  ⟨fun _ _ => rfl, fun _ _ => rfl, fun _ _ => rfl, rfl⟩

/-- C11 at the amount 1/4 of the red material `a` and the blue material `b`. -/
theorem C11_material_mix_witness :
    ∃ (s' : PState Rat) (R : Material Rat),
      parse_material_mix testExt 2 mix_params mix_state = .ok () s' ∧
      s'.materialArena[2]? = some R ∧
      R.kd = spec_mix_vec (1 / 4) named_material_a.kd named_material_b.kd ∧
      R.ks = spec_mix_vec (1 / 4) named_material_a.ks named_material_b.ks ∧
      R.kr = spec_mix_vec (1 / 4) named_material_a.kr named_material_b.kr ∧
      R.kt = spec_mix_vec (1 / 4) named_material_a.kt named_material_b.kt ∧
      R.rs = spec_mix (1 / 4) named_material_a.rs named_material_b.rs ∧
      R.op = spec_mix (1 / 4) named_material_a.op named_material_b.op ∧
      ((1 / 4 : Rat) = 1 → R.kd = named_material_a.kd ∧ R.ks = named_material_a.ks ∧
        R.kr = named_material_a.kr ∧ R.kt = named_material_a.kt ∧
        R.rs = named_material_a.rs ∧ R.op = named_material_a.op) ∧
      ((1 / 4 : Rat) = 0 → R.kd = named_material_b.kd ∧ R.ks = named_material_b.ks ∧
        R.kr = named_material_b.kr ∧ R.kt = named_material_b.kt ∧
        R.rs = named_material_b.rs ∧ R.op = named_material_b.op) :=
  C11_material_mix testExt exactArith_testExt mix_state 2 mix_params (1 / 4) "a" "b"
    1 2 0 1 ⟨"string", "namedmaterial1", .strings ["a"]⟩
    ⟨"string", "namedmaterial2", .strings ["b"]⟩ [] [] ⟨0, false⟩ ⟨1, false⟩
    named_material_a named_material_b testExt.new_material
    (Or.inr ⟨0, ⟨"float", "amount", .floats [1 / 4]⟩, [], by decide!, by decide!, rfl⟩)
    (by decide!) (by decide!) rfl (by decide!) (by decide!) rfl
    (by decide!) (by decide!) (by decide!) (by decide!) (by decide!) (by decide!)
    (by decide!)
    (fun r h => absurd h (by simp [material_textures, named_material_a, testExt]))
    (fun r h => absurd h (by simp [material_textures, named_material_b, testExt]))

/-! ## C12: a translation and its opposite -/

theorem read_float_ok (Y : Ext F) (msg : String) (s : PState F) (l : Lexer) (ls : List Lexer)
    (v : String) (t : Lexeme) (ts : List Lexeme) (hl : s.lexers = l :: ls)
    (hc : l.cur = ⟨LexemeType.NUMBER, v⟩) (hr : l.rest = t :: ts) :
    read_float Y msg s =
      .ok (Y.atof v) { s with lexers := { l with cur := t, rest := ts } :: ls } := by
  rw [read_float, bind_eq]
  simp only [current_token, hl, hc]
  rw [bind_eq]
  simp only [throw_if, ne_eq, not_true_eq_false, if_false, pure_eq]
  rw [bind_eq, advance_cons s l ls t ts hl hr]
  rfl

theorem read_vec3_ok (Y : Ext F) (s : PState F) (l : Lexer) (ls : List Lexer)
    (x y z : String) (t : Lexeme) (ts : List Lexeme) (hl : s.lexers = l :: ls)
    (hc : l.cur = ⟨LexemeType.NUMBER, x⟩)
    (hr : l.rest = ⟨LexemeType.NUMBER, y⟩ :: ⟨LexemeType.NUMBER, z⟩ :: t :: ts) :
    read_vec3 Y s =
      .ok ⟨Y.atof x, Y.atof y, Y.atof z⟩
        { s with lexers := { l with cur := t, rest := ts } :: ls } := by
  rw [read_vec3, bind_eq, read_float_ok Y _ s l ls x _ _ hl hc hr]
  simp only []
  rw [bind_eq, read_float_ok Y _ _ _ ls y ⟨LexemeType.NUMBER, z⟩ (t :: ts) rfl rfl rfl]
  simp only []
  rw [bind_eq, read_float_ok Y _ _ _ ls z t ts rfl rfl rfl]
  rfl

theorem execute_Translate_ok (Y : Ext F) (s : PState F) (l : Lexer) (ls : List Lexer)
    (x y z : String) (t : Lexeme) (ts : List Lexeme) (hl : s.lexers = l :: ls)
    (hr : l.rest = ⟨LexemeType.NUMBER, x⟩ :: ⟨LexemeType.NUMBER, y⟩ ::
      ⟨LexemeType.NUMBER, z⟩ :: t :: ts) :
    execute_Translate Y s =
      .ok () { s with
        lexers := { l with cur := t, rest := ts } :: ls
        gState := { s.gState with
          CTM := Y.mat_mul s.gState.CTM
            (Y.frame_to_mat (Y.translation_frame ⟨Y.atof x, Y.atof y, Y.atof z⟩)) } } := by
  rw [execute_Translate, bind_eq, advance_cons s l ls _ _ hl hr]
  simp only []
  rw [bind_eq, read_vec3_ok Y _ _ ls x y z t ts rfl rfl rfl]
  rfl

theorem translation_round_trip [CommRing F] (M : Mat4 F) (v : Vec3 F) :
    mat4_mul (mat4_mul M (translation_mat v)) (translation_mat ⟨-v.x, -v.y, -v.z⟩) = M := by
  obtain ⟨⟨a0, a1, a2, a3⟩, ⟨b0, b1, b2, b3⟩, ⟨c0, c1, c2, c3⟩, ⟨d0, d1, d2, d3⟩⟩ := M
  obtain ⟨x, y, z⟩ := v
  simp only [mat4_mul, mat4_mul_vec, translation_mat, Mat4.mk.injEq, Vec4.mk.injEq]
  refine ⟨⟨?_, ?_, ?_, ?_⟩, ⟨?_, ?_, ?_, ?_⟩, ⟨?_, ?_, ?_, ?_⟩, ⟨?_, ?_, ?_, ?_⟩⟩ <;> ring

theorem exactTransforms_testExt : ExactTransforms testExt := by
  constructor
  · intro a b; rfl
  · rfl
  · intro v
    obtain ⟨x, y, z⟩ := v
    rfl

/-- C12: a `Translate` directive multiplies the current transformation matrix
on the right by the matrix of the translation, in the world block and before
it; in exact arithmetic, a `Translate` by `v` followed by a `Translate` whose
numbers are the negations of those of `v` gives back the matrix there was,
and leaves the state as it was but for the lexemes consumed. -/
theorem C12_translate_round_trip [CommRing F] (Y : Ext F) (hY : ExactTransforms Y)
    (fuel : Nat) (s : PState F) (l : Lexer) (ls : List Lexer) (x y z x' y' z' : String)
    (t : Lexeme) (ts : List Lexeme) (hl : s.lexers = l :: ls)
    (hc : l.cur = ident "Translate")
    (hr : l.rest = num x :: num y :: num z :: ident "Translate" ::
      num x' :: num y' :: num z' :: t :: ts)
    (hx : Y.atof x' = - Y.atof x) (hy : Y.atof y' = - Y.atof y)
    (hz : Y.atof z' = - Y.atof z) :
    ∃ s1 s2 : PState F,
      execute_world_directive Y (fuel + 1) s = .ok () s1 ∧
      execute_world_directive Y (fuel + 1) s1 = .ok () s2 ∧
      execute_preworld_directive Y s = .ok () s1 ∧
      execute_preworld_directive Y s1 = .ok () s2 ∧
      s1.gState.CTM =
        mat4_mul s.gState.CTM (translation_mat ⟨Y.atof x, Y.atof y, Y.atof z⟩) ∧
      s2.gState.CTM =
        mat4_mul s1.gState.CTM (translation_mat ⟨Y.atof x', Y.atof y', Y.atof z'⟩) ∧
      s2.gState.CTM = s.gState.CTM ∧
      s2 = { s with lexers := { l with cur := t, rest := ts } :: ls } := by
  have hd : ∀ (n : Nat) (s0 : PState F) (l0 : Lexer) (ls0 : List Lexer),
      s0.lexers = l0 :: ls0 → l0.cur = ident "Translate" →
      execute_world_directive Y (n + 1) s0 = execute_Translate Y s0 ∧
      execute_preworld_directive Y s0 = execute_Translate Y s0 := by
    intro n s0 l0 ls0 h0 hc0
    constructor
    · rw [execute_world_directive, bind_eq]
      simp only [current_token, h0, hc0, ident]
      rw [bind_eq]
      simp only [throw_if, ne_eq, not_true_eq_false, if_false, pure_eq]
      simp only [String.reduceEq, if_false, if_true]
    · rw [execute_preworld_directive, bind_eq]
      simp only [current_token, h0, hc0, ident]
      rw [bind_eq]
      simp only [throw_if, ne_eq, not_true_eq_false, if_false, pure_eq]
      simp only [String.reduceEq, if_false, if_true]
  have h1 := execute_Translate_ok Y s l ls x y z (ident "Translate")
    (num x' :: num y' :: num z' :: t :: ts) hl hr
  have h2 := execute_Translate_ok Y
    { s with
      lexers := { l with cur := ident "Translate",
                         rest := num x' :: num y' :: num z' :: t :: ts } :: ls
      gState := { s.gState with
        CTM := Y.mat_mul s.gState.CTM
          (Y.frame_to_mat (Y.translation_frame ⟨Y.atof x, Y.atof y, Y.atof z⟩)) } }
    { l with cur := ident "Translate", rest := num x' :: num y' :: num z' :: t :: ts }
    ls x' y' z' t ts rfl rfl
  have e1 := hd fuel s l ls hl hc
  have e2 := hd fuel
    { s with
      lexers := { l with cur := ident "Translate",
                         rest := num x' :: num y' :: num z' :: t :: ts } :: ls
      gState := { s.gState with
        CTM := Y.mat_mul s.gState.CTM
          (Y.frame_to_mat (Y.translation_frame ⟨Y.atof x, Y.atof y, Y.atof z⟩)) } }
    { l with cur := ident "Translate", rest := num x' :: num y' :: num z' :: t :: ts }
    ls rfl rfl
  have hM : Y.mat_mul (Y.mat_mul s.gState.CTM
        (Y.frame_to_mat (Y.translation_frame ⟨Y.atof x, Y.atof y, Y.atof z⟩)))
        (Y.frame_to_mat (Y.translation_frame ⟨Y.atof x', Y.atof y', Y.atof z'⟩)) =
      s.gState.CTM := by
    rw [hY.mat_mul, hY.mat_mul, hY.translation, hY.translation, hx, hy, hz]
    exact translation_round_trip s.gState.CTM ⟨Y.atof x, Y.atof y, Y.atof z⟩
  refine ⟨_, _, e1.1.trans h1, e2.1.trans h2, e1.2.trans h1, e2.2.trans h2, ?_, ?_, ?_, ?_⟩
  · simp only [hY.mat_mul, hY.translation]
  · simp only [hY.mat_mul, hY.translation]
  · exact hM
  · simp only [hM]

/-- C12 at `Translate 1 0 0 Translate -1 0 0`, from the identity. -/
theorem C12_translate_round_trip_witness :
    (at_directive round_trip_lexemes).gState.CTM = mat4_identity ∧
    ∃ s1 s2 : PState Rat,
      execute_world_directive testExt (0 + 1) (at_directive round_trip_lexemes) = .ok () s1 ∧
      execute_world_directive testExt (0 + 1) s1 = .ok () s2 ∧
      execute_preworld_directive testExt (at_directive round_trip_lexemes) = .ok () s1 ∧
      execute_preworld_directive testExt s1 = .ok () s2 ∧
      s1.gState.CTM =
        mat4_mul (at_directive round_trip_lexemes).gState.CTM
          (translation_mat ⟨testExt.atof "1", testExt.atof "0", testExt.atof "0"⟩) ∧
      s2.gState.CTM =
        mat4_mul s1.gState.CTM
          (translation_mat ⟨testExt.atof "-1", testExt.atof "0", testExt.atof "0"⟩) ∧
      s2.gState.CTM = (at_directive round_trip_lexemes).gState.CTM ∧
      s2 = { at_directive round_trip_lexemes with
        lexers := [{ (⟨ident "Translate", [num "1", num "0", num "0", ident "Translate",
            num "-1", num "0", num "0", ident "WorldEnd"], "."⟩ : Lexer) with
          cur := ident "WorldEnd", rest := [] }] } :=
  ⟨by decide!,
    C12_translate_round_trip testExt exactTransforms_testExt 0
      (at_directive round_trip_lexemes)
      ⟨ident "Translate", [num "1", num "0", num "0", ident "Translate",
            num "-1", num "0", num "0", ident "WorldEnd"], "."⟩ []
      "1" "0" "0" "-1" "0" "0" (ident "WorldEnd") [] (by decide!) rfl rfl
      (by decide!) (by decide!) (by decide!)⟩

/-! ## The header of a parameter -/

theorem parse_parameter_eq (Y : Ext F) (s0 s : PState F) (l : Lexer) (ls : List Lexer)
    (tok0 tok1 : String) (rest : List String) (b : Bool)
    (hl : s0.lexers = l :: ls) (ht : l.cur.type = LexemeType.STRING)
    (hs : split l.cur.value = tok0 :: tok1 :: rest)
    (hc : check_param_type tok1 (check_synonyms tok0) = .ok b)
    (ha : advance s0 = .ok () s) :
    parse_parameter Y s0 = parse_parameter_value Y (check_synonyms tok0) tok1 s := by
  rw [parse_parameter, bind_eq]
  simp only [current_token, hl, ht, ne_eq, not_true_eq_false, if_false, hs]
  rw [bind_eq]
  simp only [hc, liftExcept, pure_eq]
  rw [bind_eq, ha]

theorem parse_parameter_inv (Y : Ext F) (s0 s' : PState F) (p : PBRTParameter F)
    (h : parse_parameter Y s0 = .ok p s') :
    ∃ (t : Lexeme) (tok0 tok1 : String) (rest : List String) (b : Bool) (s : PState F),
      current_token s0 = .ok t s0 ∧ t.type = LexemeType.STRING ∧
      split t.value = tok0 :: tok1 :: rest ∧
      check_param_type tok1 (check_synonyms tok0) = .ok b ∧ advance s0 = .ok () s ∧
      parse_parameter_value Y (check_synonyms tok0) tok1 s = .ok p s' := by
  simp only [parse_parameter, bind_ok] at h
  obtain ⟨t, s1, ht, h⟩ := h
  cases current_token_ok _ _ _ ht
  split at h
  · cases h
  · next hty =>
    generalize hsp : split t.value = toks at h
    match toks, hsp, h with
    | tok0 :: tok1 :: rest, hsp, h =>
      simp only [bind_ok] at h
      obtain ⟨b, s2, hc, _, s3, ha, hv⟩ := h
      obtain ⟨hc', rfl⟩ := liftExcept_ok _ _ _ _ hc
      exact ⟨t, tok0, tok1, rest, b, s3, ht, by simpa using hty, hsp, hc', ha, hv⟩
    | [], _, h => cases h
    | [_], _, h => cases h

/-! ## C13: vectors packed three by three -/

theorem group3_length (vals : List F) : (group3 vals).length = vals.length / 3 := by
  induction vals using group3.induct with
  | case1 a b c rest ih =>
    simp only [group3, List.length_cons, ih]
    omega
  | case2 vals h =>
    match vals, h with
    | [], _ => simp [group3]
    | [_], _ => simp [group3]
    | [_, _], _ => simp [group3]
    | a :: b :: c :: rest, h => exact absurd rfl (h a b c rest)

theorem group3_getElem? (k : Nat) : ∀ (vals : List F) (a b c : F),
    vals[3 * k]? = some a → vals[3 * k + 1]? = some b → vals[3 * k + 2]? = some c →
    (group3 vals)[k]? = some ⟨a, b, c⟩ := by
  induction k with
  | zero =>
    intro vals a b c ha hb hc
    match vals, ha, hb, hc with
    | x :: y :: z :: rest, ha, hb, hc =>
      simp at ha hb hc
      subst ha hb hc
      simp [group3]
  | succ k ih =>
    intro vals a b c ha hb hc
    have e0 : 3 * (k + 1) = 3 * k + 1 + 1 + 1 := by ring
    have e1 : 3 * (k + 1) + 1 = 3 * k + 1 + 1 + 1 + 1 := by ring
    have e2 : 3 * (k + 1) + 2 = 3 * k + 2 + 1 + 1 + 1 := by ring
    rw [e0] at ha
    rw [e1] at hb
    rw [e2] at hc
    match vals, ha, hb, hc with
    | x :: y :: z :: rest, ha, hb, hc =>
      simp only [List.getElem?_cons_succ] at ha hb hc
      simp only [group3, List.getElem?_cons_succ]
      exact ih rest a b c ha hb hc
    | [], ha, _, _ => simp at ha
    | [_], ha, _, _ => simp at ha
    | [_, _], ha, _, _ => simp at ha

theorem group3_flatten (vals : List F) (h : vals.length % 3 = 0) :
    (group3 vals).flatMap (fun v => [v.x, v.y, v.z]) = vals := by
  induction vals using group3.induct with
  | case1 a b c rest ih =>
    have h' : rest.length % 3 = 0 := by
      simp only [List.length_cons] at h
      omega
    simp only [group3, List.flatMap_cons, ih h']
    rfl
  | case2 vals hv =>
    match vals, hv, h with
    | [], _, _ => simp [group3]
    | [_], _, h => simp at h
    | [_, _], _, h => simp at h
    | a :: b :: c :: rest, hv, _ => exact absurd rfl (hv a b c rest)

theorem parse_parameter_value_vec3 (Y : Ext F) (type name : String)
    (htype : type = "point3" ∨ type = "normal3" ∨ type = "rgb") (s : PState F) :
    parse_parameter_value Y type name s =
      (parse_value LexemeType.NUMBER Y.atof >>= fun vals =>
        if vals.length % 3 ≠ 0 then throw_syntax_exception "Wrong number of values given."
        else pure ⟨type, name, .vec3s (group3 vals)⟩ : M F (PBRTParameter F)) s := by
  rcases htype with rfl | rfl | rfl <;> simp [parse_parameter_value]

/-- C13: let the header of a parameter declare one of the types `point3`,
`normal3` and `rgb` (after the synonyms), pass the check of the type, and be
followed by values that `parse_value` reads as the floats `vals`.  If the
number of values is not a multiple of 3, `parse_parameter` raises the syntax
error of the wrong number of values.  Otherwise it returns the parameter whose
value is `vals` packed three by three: `vals.length / 3` vectors, the `i`-th
being `(vals[3i], vals[3i+1], vals[3i+2])`, so that the components of the
vectors, in order, are `vals`. -/
theorem C13_vec3_parameter (Y : Ext F) (s0 s s1 : PState F) (l : Lexer) (ls : List Lexer)
    (tok0 name : String) (rest : List String) (b : Bool) (vals : List F)
    (hl : s0.lexers = l :: ls) (ht : l.cur.type = LexemeType.STRING)
    (hs : split l.cur.value = tok0 :: name :: rest)
    (htype : check_synonyms tok0 = "point3" ∨ check_synonyms tok0 = "normal3" ∨
      check_synonyms tok0 = "rgb")
    (hc : check_param_type name (check_synonyms tok0) = .ok b)
    (ha : advance s0 = .ok () s)
    (hv : parse_value LexemeType.NUMBER Y.atof s = .ok vals s1) :
    (vals.length % 3 ≠ 0 →
      parse_parameter Y s0 = .error (.syntaxError "Wrong number of values given.") s1) ∧
    (vals.length % 3 = 0 →
      parse_parameter Y s0 = .ok ⟨check_synonyms tok0, name, .vec3s (group3 vals)⟩ s1 ∧
      (group3 vals).length = vals.length / 3 ∧
      (∀ (i : Nat) (a b c : F), vals[3 * i]? = some a → vals[3 * i + 1]? = some b →
        vals[3 * i + 2]? = some c → (group3 vals)[i]? = some ⟨a, b, c⟩) ∧
      (group3 vals).flatMap (fun v => [v.x, v.y, v.z]) = vals) := by
  rw [parse_parameter_eq Y s0 s l ls tok0 name rest b hl ht hs hc ha,
    parse_parameter_value_vec3 Y _ name htype s, bind_eq, hv]
  refine ⟨fun h3 => ?_, fun h3 => ⟨?_, group3_length vals, fun i => group3_getElem? i vals,
    group3_flatten vals h3⟩⟩
  · simp only [if_pos h3]
    rfl
  · have h3' : ¬ (vals.length % 3 ≠ 0) := fun h => h h3
    simp only [if_neg h3']
    rfl

/-- C13, witness: the parameter `"point3 P" [0 0 0 1 0 0]` is returned with
the two vectors `(0, 0, 0)` and `(1, 0, 0)`. -/
theorem C13_vec3_parameter_witness :
    parse_parameter testExt (at_directive point_lexemes) =
      .ok ⟨check_synonyms "point3", "P", .vec3s (group3 [0, 0, 0, 1, 0, 0])⟩
        (parse_value LexemeType.NUMBER testExt.atof
          (advance (at_directive point_lexemes)).state).state :=
  ((C13_vec3_parameter testExt (at_directive point_lexemes)
    (advance (at_directive point_lexemes)).state
    (parse_value LexemeType.NUMBER testExt.atof (advance (at_directive point_lexemes)).state).state
    ⟨str "point3 P", [lbr, num "0", num "0", num "0", num "1", num "0", num "0", rbr,
      ident "Shape"], "."⟩ [] "point3" "P" [] true [0, 0, 0, 1, 0, 0]
    (by decide!) rfl (by decide!) (Or.inl (by decide)) rfl (by decide!) (by decide!)).2
    (by decide)).1

/-! ## C15: the values of a spectrum and of a black body -/

/-- The value `parse_parameter_value` returns for the type `spectrum` when the
values are given in the text. -/
theorem parse_parameter_value_spectrum (Y : Ext F) (name : String) (s : PState F)
    (l : Lexer) (ls : List Lexer) (hl : s.lexers = l :: ls)
    (hns : l.cur.type ≠ LexemeType.STRING) :
    parse_parameter_value Y "spectrum" name s =
      (parse_value LexemeType.NUMBER Y.atof >>= fun vals =>
        if vals.length % 2 ≠ 0 then throw_syntax_exception "Wrong number of values given."
        else pure ⟨"rgb", name, .vec3s [Y.spectrum_to_rgb (group2 vals)]⟩ :
          M F (PBRTParameter F)) s := by
  simp only [parse_parameter_value]
  simp only [String.reduceEq, or_self, if_false, if_true]
  rw [bind_eq]
  simp only [current_token, hl, hns, if_false]

theorem parse_parameter_value_blackbody (Y : Ext F) (name : String) (s : PState F) :
    parse_parameter_value Y "blackbody" name s =
      (parse_value LexemeType.NUMBER Y.atof >>= fun vals =>
        match vals with
        | [t, sc] => pure ⟨"rgb", name, .vec3s [Y.blackbody_to_rgb t sc]⟩
        | _ => throw_syntax_exception "Wrong number of values given." :
          M F (PBRTParameter F)) s := by
  simp only [parse_parameter_value]
  rfl

theorem group2_length (vals : List F) : (group2 vals).length = vals.length / 2 := by
  induction vals using group2.induct with
  | case1 a b rest ih =>
    simp only [group2, List.length_cons, ih]
    omega
  | case2 vals h =>
    match vals, h with
    | [], _ => simp [group2]
    | [_], _ => simp [group2]
    | a :: b :: rest, h => exact absurd rfl (h a b rest)

theorem group2_getElem? (k : Nat) : ∀ (vals : List F) (a b : F),
    vals[2 * k]? = some a → vals[2 * k + 1]? = some b →
    (group2 vals)[k]? = some ⟨a, b⟩ := by
  induction k with
  | zero =>
    intro vals a b ha hb
    match vals, ha, hb with
    | x :: y :: rest, ha, hb =>
      simp at ha hb
      subst ha hb
      simp [group2]
  | succ k ih =>
    intro vals a b ha hb
    have e0 : 2 * (k + 1) = 2 * k + 1 + 1 := by ring
    have e1 : 2 * (k + 1) + 1 = 2 * k + 1 + 1 + 1 := by ring
    rw [e0] at ha
    rw [e1] at hb
    match vals, ha, hb with
    | x :: y :: rest, ha, hb =>
      simp only [List.getElem?_cons_succ] at ha hb
      simp only [group2, List.getElem?_cons_succ]
      exact ih rest a b ha hb
    | [], ha, _ => simp at ha
    | [_], ha, _ => simp at ha

theorem group2_flatten (vals : List F) (h : vals.length % 2 = 0) :
    (group2 vals).flatMap (fun v => [v.x, v.y]) = vals := by
  induction vals using group2.induct with
  | case1 a b rest ih =>
    have h' : rest.length % 2 = 0 := by
      simp only [List.length_cons] at h
      omega
    simp only [group2, List.flatMap_cons, ih h']
    rfl
  | case2 vals hv =>
    match vals, hv, h with
    | [], _, _ => simp [group2]
    | [_], _, h => simp at h
    | a :: b :: rest, hv, _ => exact absurd rfl (hv a b rest)

/-- C15: let the header of a parameter pass the check of the type and be
followed by values that `parse_value` reads as the floats `vals`.  If the type
is `spectrum` and the lexeme after the header is not a string (the samples are
given in the text): an odd number of values raises the syntax error of the
wrong number of values, and an even number returns the colour that
`spectrum_to_rgb` gives for the pairs `(vals[2i], vals[2i+1])`, in order.  If
the type is `blackbody`: a number of values other than 2 raises the same
error, and the values `(t, sc)` return the colour that `blackbody_to_rgb`
gives for `t` and `sc`. -/
theorem C15_spectrum_blackbody (Y : Ext F) (s0 s s1 : PState F) (l : Lexer)
    (ls : List Lexer) (tok0 name : String) (rest : List String) (b : Bool) (vals : List F)
    (hl : s0.lexers = l :: ls) (ht : l.cur.type = LexemeType.STRING)
    (hs : split l.cur.value = tok0 :: name :: rest)
    (hc : check_param_type name (check_synonyms tok0) = .ok b)
    (ha : advance s0 = .ok () s)
    (hv : parse_value LexemeType.NUMBER Y.atof s = .ok vals s1) :
    (check_synonyms tok0 = "spectrum" →
      (∃ l' ls', s.lexers = l' :: ls' ∧ l'.cur.type ≠ LexemeType.STRING) →
      (vals.length % 2 ≠ 0 →
        parse_parameter Y s0 = .error (.syntaxError "Wrong number of values given.") s1) ∧
      (vals.length % 2 = 0 →
        parse_parameter Y s0 =
          .ok ⟨"rgb", name, .vec3s [Y.spectrum_to_rgb (group2 vals)]⟩ s1 ∧
        (group2 vals).length = vals.length / 2 ∧
        (∀ (i : Nat) (a b : F), vals[2 * i]? = some a → vals[2 * i + 1]? = some b →
          (group2 vals)[i]? = some ⟨a, b⟩) ∧
        (group2 vals).flatMap (fun v => [v.x, v.y]) = vals)) ∧
    (check_synonyms tok0 = "blackbody" →
      (vals.length ≠ 2 →
        parse_parameter Y s0 = .error (.syntaxError "Wrong number of values given.") s1) ∧
      (∀ t sc : F, vals = [t, sc] →
        parse_parameter Y s0 = .ok ⟨"rgb", name, .vec3s [Y.blackbody_to_rgb t sc]⟩ s1)) := by
  rw [parse_parameter_eq Y s0 s l ls tok0 name rest b hl ht hs hc ha]
  refine ⟨?_, ?_⟩
  · rintro hty ⟨l', ls', hl', hns⟩
    rw [hty, parse_parameter_value_spectrum Y name s l' ls' hl' hns, bind_eq, hv]
    refine ⟨fun h2 => ?_, fun h2 => ⟨?_, group2_length vals, fun i => group2_getElem? i vals,
      group2_flatten vals h2⟩⟩
    · simp only [if_pos h2]
      rfl
    · have h2' : ¬ (vals.length % 2 ≠ 0) := fun h => h h2
      simp only [if_neg h2']
      rfl
  · intro hty
    rw [hty, parse_parameter_value_blackbody Y name s, bind_eq, hv]
    refine ⟨?_, ?_⟩
    · intro hlen
      match vals, hlen with
      | [], _ => rfl
      | [_], _ => rfl
      | [_, _], hlen => exact absurd rfl hlen
      | _ :: _ :: _ :: _, _ => rfl
    · rintro t sc rfl
      rfl

/-- C15, witness: the parameter `"spectrum Kd" [400 1 500 1]`: the two pairs
`(400, 1)` and `(500, 1)` are passed to `spectrum_to_rgb`. -/
theorem C15_spectrum_blackbody_witness :
    parse_parameter testExt (at_directive spectrum_lexemes) =
      .ok ⟨"rgb", "Kd", .vec3s [testExt.spectrum_to_rgb (group2 [400, 1, 500, 1])]⟩
        (parse_value LexemeType.NUMBER testExt.atof
          (advance (at_directive spectrum_lexemes)).state).state :=
  (((C15_spectrum_blackbody testExt (at_directive spectrum_lexemes)
    (advance (at_directive spectrum_lexemes)).state
    (parse_value LexemeType.NUMBER testExt.atof
      (advance (at_directive spectrum_lexemes)).state).state
    ⟨str "spectrum Kd", [lbr, num "400", num "1", num "500", num "1", rbr, ident "Shape"], "."⟩
    [] "spectrum" "Kd" [] true [400, 1, 500, 1]
    (by decide!) rfl (by decide!) rfl (by decide!) (by decide!)).1 (by decide)
    ⟨⟨lbr, [num "400", num "1", num "500", num "1", rbr, ident "Shape"], "."⟩, [],
      by decide!, by decide⟩).2 (by decide)).1

/-! ## C14: the type of a spectrum or a black body becomes `rgb` -/

/-- What `parse_parameter_value` returns: the name it was given; the type it
was given, unless that is `spectrum` or `blackbody`, for which the type
returned is `rgb` and the value one colour. -/
theorem parse_parameter_value_rewrite (Y : Ext F) (type name : String) (s s' : PState F)
    (p : PBRTParameter F) (h : parse_parameter_value Y type name s = .ok p s') :
    p.name = name ∧
      ((type = "spectrum" ∨ type = "blackbody") → p.type = "rgb" ∧ ∃ c, p.value = .vec3s [c]) ∧
      (type ≠ "spectrum" → type ≠ "blackbody" → p.type = type) := by
  unfold parse_parameter_value at h
  split at h
  · next h0 =>
    simp only [bind_ok, pure_ok] at h
    obtain ⟨vals, s1, -, rfl, -⟩ := h
    refine ⟨rfl, ?_, fun _ _ => rfl⟩
    rintro (rfl | rfl) <;> simp at h0
  split at h
  · next h0 =>
    simp only [bind_ok, pure_ok] at h
    obtain ⟨vals, s1, -, rfl, -⟩ := h
    refine ⟨rfl, ?_, fun _ _ => rfl⟩
    rintro (rfl | rfl) <;> simp at h0
  split at h
  · next h0 =>
    simp only [bind_ok, pure_ok] at h
    obtain ⟨vals, s1, -, rfl, -⟩ := h
    refine ⟨rfl, ?_, fun _ _ => rfl⟩
    rintro (rfl | rfl) <;> simp at h0
  split at h
  · next h0 =>
    simp only [bind_ok] at h
    obtain ⟨vals, s1, -, h⟩ := h
    split at h
    · cases h
      refine ⟨rfl, ?_, fun _ _ => rfl⟩
      rintro (rfl | rfl) <;> simp at h0
    · cases h
  split at h
  · next h0 =>
    simp only [bind_ok] at h
    obtain ⟨vals, s1, -, h⟩ := h
    split at h
    · cases h
    · cases h
      refine ⟨rfl, ?_, fun _ _ => rfl⟩
      rintro (rfl | rfl) <;> simp at h0
  split at h
  · next h0 =>
    have hp : p.name = name ∧ p.type = "rgb" ∧ ∃ c, p.value = .vec3s [c] := by
      simp only [bind_ok] at h
      obtain ⟨t, s1, -, h⟩ := h
      split at h
      · simp only [bind_ok] at h
        obtain ⟨_, _, -, _, _, -, h⟩ := h
        generalize Y.load_spectrum_from_file _ = r at h
        cases r with
        | none => cases h
        | some v => cases h; exact ⟨rfl, rfl, _, rfl⟩
      · simp only [bind_ok] at h
        obtain ⟨vals, s2, -, h⟩ := h
        split at h
        · cases h
        · cases h; exact ⟨rfl, rfl, _, rfl⟩
    exact ⟨hp.1, fun _ => hp.2, fun hn _ => absurd h0 hn⟩
  split at h
  · next h0 =>
    have hp : p.name = name ∧ p.type = "rgb" ∧ ∃ c, p.value = .vec3s [c] := by
      simp only [bind_ok] at h
      obtain ⟨vals, s1, -, h⟩ := h
      split at h
      · cases h; exact ⟨rfl, rfl, _, rfl⟩
      · cases h
    exact ⟨hp.1, fun _ => hp.2, fun _ hn => absurd h0 hn⟩
  · cases h

/-- C14: a parameter that `parse_parameter` returns never has the type
`spectrum` or `blackbody`.  The check of the type is made on the type the
header declares (after the synonyms), with the name of the parameter; when
that type is `spectrum` or `blackbody`, the parameter returned has the type
`rgb` and its value is one colour; otherwise it has the declared type. -/
theorem C14_spectrum_becomes_rgb (Y : Ext F) (s0 s' : PState F) (p : PBRTParameter F)
    (h : parse_parameter Y s0 = .ok p s') :
    p.type ≠ "spectrum" ∧ p.type ≠ "blackbody" ∧
      ∃ (t : Lexeme) (tok0 : String) (rest : List String) (b : Bool),
        current_token s0 = .ok t s0 ∧ split t.value = tok0 :: p.name :: rest ∧
        check_param_type p.name (check_synonyms tok0) = .ok b ∧
        ((check_synonyms tok0 = "spectrum" ∨ check_synonyms tok0 = "blackbody") →
          p.type = "rgb" ∧ ∃ c, p.value = .vec3s [c]) ∧
        (check_synonyms tok0 ≠ "spectrum" → check_synonyms tok0 ≠ "blackbody" →
          p.type = check_synonyms tok0) := by
  obtain ⟨t, tok0, tok1, rest, b, s, ht, -, hs, hc, -, hv⟩ := parse_parameter_inv Y s0 s' p h
  obtain ⟨hn, h1, h2⟩ := parse_parameter_value_rewrite Y _ _ _ _ _ hv
  subst hn
  have htype : p.type ≠ "spectrum" ∧ p.type ≠ "blackbody" := by
    by_cases hsp : check_synonyms tok0 = "spectrum"
    · rw [(h1 (Or.inl hsp)).1]
      exact ⟨by decide, by decide⟩
    by_cases hbb : check_synonyms tok0 = "blackbody"
    · rw [(h1 (Or.inr hbb)).1]
      exact ⟨by decide, by decide⟩
    rw [h2 hsp hbb]
    exact ⟨hsp, hbb⟩
  exact ⟨htype.1, htype.2, t, tok0, rest, b, ht, hs, hc, h1, h2⟩

/-- C14, witness: the parameter `"blackbody L" [6500 1]` is accepted, because
`L` admits the type `blackbody`, and is returned with the type `rgb`. -/
theorem C14_spectrum_becomes_rgb_witness :
    (parse_parameter testExt (at_directive blackbody_lexemes)).isOk = true ∧
      ∃ p s', parse_parameter testExt (at_directive blackbody_lexemes) = .ok p s' ∧
        p.type ≠ "spectrum" ∧ p.type ≠ "blackbody" :=
  ⟨by decide!, ⟨"rgb", "L", .vec3s [⟨1, 1, 1⟩]⟩,
    (parse_parameter testExt (at_directive blackbody_lexemes)).state, by decide!,
    (C14_spectrum_becomes_rgb testExt (at_directive blackbody_lexemes)
      (parse_parameter testExt (at_directive blackbody_lexemes)).state
      ⟨"rgb", "L", .vec3s [⟨1, 1, 1⟩]⟩ (by decide!)).1,
    (C14_spectrum_becomes_rgb testExt (at_directive blackbody_lexemes)
      (parse_parameter testExt (at_directive blackbody_lexemes)).state
      ⟨"rgb", "L", .vec3s [⟨1, 1, 1⟩]⟩ (by decide!)).2.1⟩

/-! ## C16: a type that is not supported -/

/-- C16, counterexample: the header `"vector foo"` as the last lexeme of the
input: its type, `vector3`, is not supported and the name `foo` is not in the
table, yet `parse_parameter` raises the end of the input, not the error of the
type: the `advance` over the header comes first. -/
theorem C16_counterexample :
    check_synonyms "vector" = "vector3" ∧ "vector3" ∉ supported_types ∧
      (parse_parameter testExt (at_directive [str "vector foo"])).err? =
        some Err.inputEnded := by
  decide!

/-- C16 (corrected): let the type of the header of a parameter, after the
synonyms, be none of `string`, `texture`, `float`, `integer`, `bool`, `point3`,
`normal3`, `rgb`, `spectrum` and `blackbody`, let the header pass the check of
the type, and let the `advance` over the header succeed.  Then `parse_parameter`
raises the syntax error that the type is not supported.  The type `vector3`,
which the synonym `vector` gives, is such a type. -/
theorem C16_unsupported_type (Y : Ext F) (s0 s : PState F) (l : Lexer) (ls : List Lexer)
    (tok0 name : String) (rest : List String) (b : Bool)
    (hl : s0.lexers = l :: ls) (ht : l.cur.type = LexemeType.STRING)
    (hs : split l.cur.value = tok0 :: name :: rest)
    (htype : check_synonyms tok0 ∉ supported_types)
    (hc : check_param_type name (check_synonyms tok0) = .ok b)
    (ha : advance s0 = .ok () s) :
    parse_parameter Y s0 =
        .error (.syntaxError ("Cannot able to parse the value: type '" ++
          check_synonyms tok0 ++ "' not supported.")) s ∧
      check_synonyms "vector" = "vector3" ∧ "vector3" ∉ supported_types := by
  refine ⟨?_, by decide, by decide⟩
  rw [parse_parameter_eq Y s0 s l ls tok0 name rest b hl ht hs hc ha]
  simp only [supported_types, List.mem_cons, List.mem_singleton, List.not_mem_nil, or_false,
    not_or] at htype
  obtain ⟨h1, h2, h3, h4, h5, h6, h7, h8, h9, h10⟩ := htype
  simp only [parse_parameter_value, h1, h2, h3, h4, h5, h6, h7, h8, h9, h10, or_self, if_false]
  rfl

/-- C16, witness: the header `"vector foo"` followed by a number. -/
theorem C16_unsupported_type_witness :
    parse_parameter testExt (at_directive [str "vector foo", num "1"]) =
      .error (.syntaxError ("Cannot able to parse the value: type '" ++
        check_synonyms "vector" ++ "' not supported."))
        (advance (at_directive [str "vector foo", num "1"])).state :=
  (C16_unsupported_type testExt (at_directive [str "vector foo", num "1"])
    (advance (at_directive [str "vector foo", num "1"])).state
    ⟨str "vector foo", [num "1"], "."⟩ [] "vector" "foo" [] false
    (by decide!) rfl (by decide!) (by decide) rfl (by decide!)).1

/-! ## C17: the synonyms of the types -/

/-- C17, counterexample: `check_synonyms` maps `normal` to `normal3`, not to
`vector3`. -/
theorem C17_counterexample : check_synonyms "normal" ≠ "vector3" := by
  decide

/-- C17 (corrected): `check_synonyms` maps `point` to `point3`, `normal` to
`normal3`, `vector` to `vector3` and `color` to `rgb`; every other string is
returned unchanged; and `check_synonyms` is idempotent. -/
theorem C17_check_synonyms (s : String) :
    check_synonyms "point" = "point3" ∧ check_synonyms "normal" = "normal3" ∧
      check_synonyms "vector" = "vector3" ∧ check_synonyms "color" = "rgb" ∧
      (s ≠ "point" → s ≠ "normal" → s ≠ "vector" → s ≠ "color" → check_synonyms s = s) ∧
      check_synonyms (check_synonyms s) = check_synonyms s := by
  refine ⟨by decide, by decide, by decide, by decide, ?_, ?_⟩
  · intro h1 h2 h3 h4
    simp [check_synonyms, h1, h2, h3, h4]
  · unfold check_synonyms
    by_cases h1 : s = "point"
    · simp [h1]
    by_cases h2 : s = "normal"
    · simp [h2]
    by_cases h3 : s = "vector"
    · simp [h3]
    by_cases h4 : s = "color"
    · simp [h4]
    simp [h1, h2, h3, h4]

/-! ## C18: the inclusion of a file -/

/-- C18: let `Include` be the current lexeme of the lexer `l`, followed by the
name of a file that can be opened, with the lexemes `inc`, and then by the
lexemes `after`.  `execute_Include` is the `advance` from the state in which
the lexer of the file lies on top of `l`, whose current lexeme is the name of
the file.  The lexemes pending there are those of the file, in order, then
`after`, then those of the lexers below; successive calls of `advance`, the
one of `execute_Include` first, deliver exactly these lexemes in this order,
so that the name of the file is not delivered and no lexeme of the includer
comes before the last lexeme of the file.  When the file is empty,
`execute_Include` does what two calls of `advance` do: it skips the word
`Include` and the name. -/
theorem C18_include (Y : Ext F) (s0 : PState F) (l : Lexer) (ls : List Lexer)
    (fname : String) (after inc : List Lexeme) (dir : String)
    (hl : s0.lexers = l :: ls) (hr : l.rest = ⟨LexemeType.STRING, fname⟩ :: after)
    (hopen : Y.open_lexer (Y.concatenate_paths l.path fname) = some (inc, dir)) :
    execute_Include Y s0 = advance (included s0 l ls fname after inc dir) ∧
      pending (included s0 l ls fname after inc dir).lexers = inc ++ after ++ pending ls ∧
      (∀ n, n ≤ (inc ++ after ++ pending ls).length →
        ∃ s', deliver n (included s0 l ls fname after inc dir) =
            .ok ((inc ++ after ++ pending ls).take n) s' ∧
          pending s'.lexers = (inc ++ after ++ pending ls).drop n) ∧
      (inc = [] → execute_Include Y s0 = (advance >>= fun _ => advance) s0) := by
  have h1 : advance s0 =
      .ok () { s0 with lexers := { l with cur := ⟨LexemeType.STRING, fname⟩, rest := after } :: ls } := by
    unfold advance
    rw [hl]
    simp [advance_lexers, hr]
  have hrun : execute_Include Y s0 = advance (included s0 l ls fname after inc dir) := by
    rw [execute_Include, bind_eq, h1]
    simp only []
    rw [bind_eq]
    simp only [current_token]
    rw [bind_eq]
    simp only [throw_if, ne_eq, not_true_eq_false, if_false, pure_eq]
    rw [bind_eq]
    simp only [current_path, hopen]
    rw [bind_eq]
    rfl
  have hpend : pending (included s0 l ls fname after inc dir).lexers =
      inc ++ after ++ pending ls := by
    simp [pending, included]
  refine ⟨hrun, hpend, ?_, ?_⟩
  · intro n hn
    rw [← hpend] at hn ⊢
    exact deliver_take n _ hn
  · intro hinc
    subst hinc
    rw [hrun, bind_eq, h1]
    simp only [advance, included, advance_lexers]

/-- C18, witness: the file `inc.pbrt`, with the lexemes `Translate 1 0 0`, is
included before `WorldBegin`: six calls of `advance` deliver `Translate 1 0 0
WorldBegin WorldEnd`. -/
theorem C18_include_witness :
    ∃ s', deliver 6 (included (at_directive [ident "Include", str "inc.pbrt",
        ident "WorldBegin", ident "WorldEnd"])
        ⟨ident "Include", [str "inc.pbrt", ident "WorldBegin", ident "WorldEnd"], "."⟩ []
        "inc.pbrt" [ident "WorldBegin", ident "WorldEnd"]
        [ident "Translate", num "1", num "0", num "0"] ".") =
      .ok [ident "Translate", num "1", num "0", num "0", ident "WorldBegin", ident "WorldEnd"]
        s' ∧ pending s'.lexers = [] :=
  (C18_include includeExt (at_directive [ident "Include", str "inc.pbrt",
      ident "WorldBegin", ident "WorldEnd"])
    ⟨ident "Include", [str "inc.pbrt", ident "WorldBegin", ident "WorldEnd"], "."⟩ []
    "inc.pbrt" [ident "WorldBegin", ident "WorldEnd"]
    [ident "Translate", num "1", num "0", num "0"] "." (by decide!) rfl (by decide!)).2.2.1 6
    (by decide)

/-! ## C19: the end of the input -/

theorem keepsLexers_of_lexers {α : Type} (m : M F α) (h : ∀ s, (m s).state.lexers = s.lexers) :
    KeepsLexers m := fun s hs => Or.inl (by rw [h s]; exact hs)

theorem keepsLexers_bind {α β : Type} (m : M F α) (f : α → M F β) (hm : KeepsLexers m)
    (hf : ∀ a, KeepsLexers (f a)) : KeepsLexers (m >>= f) := by
  intro s hs
  rw [bind_eq]
  have h1 := hm s hs
  cases hms : m s with
  | ok a s1 =>
    rw [hms] at h1
    rcases h1 with h1 | h1
    · exact hf a s1 h1
    · cases h1
  | error e s1 =>
    rw [hms] at h1
    exact h1

theorem advance_lexers_left (ls : List Lexer) (hne : ls ≠ []) :
    (advance_lexers ls).1 = some Err.inputEnded ∨
      ((advance_lexers ls).1 = none ∧ (advance_lexers ls).2 ≠ []) := by
  rcases lexers_split ls with hall | ⟨above, l, below, t, ts, h1, h2, h3⟩
  · rw [advance_lexers_exhausted ls hne hall]
    exact Or.inl rfl
  · rw [h1, advance_lexers_next above l below t ts h2 h3]
    exact Or.inr ⟨rfl, List.cons_ne_nil _ _⟩

theorem keepsLexers_advance : KeepsLexers (advance : M F Unit) := by
  intro s hs
  unfold advance
  rcases advance_lexers_left s.lexers hs with h | ⟨h, h2⟩
  · cases hp : advance_lexers s.lexers with
    | mk e ls =>
      rw [hp] at h
      cases h
      exact Or.inr rfl
  · cases hp : advance_lexers s.lexers with
    | mk e ls =>
      rw [hp] at h h2
      cases h
      exact Or.inl h2

theorem keepsLexers_respects :
    Respects (F := F) (fun _ => True) KeepsLexers := by
  constructor
  case advance => exact keepsLexers_advance
  case bind => exact keepsLexers_bind
  case pure => exact fun a => keepsLexers_of_lexers _ (fun s => rfl)
  case raise => exact fun e => keepsLexers_of_lexers _ (fun s => rfl)
  case bound => exact fun loop h s hs => h _ s hs
  case push_lexer =>
    intro _ lx s hs
    exact Or.inl (List.cons_ne_nil _ _)
  case current_token =>
    refine keepsLexers_of_lexers _ (fun s => ?_)
    unfold current_token
    split <;> rfl
  case current_path =>
    refine keepsLexers_of_lexers _ (fun s => ?_)
    unfold current_path
    split <;> rfl
  case get_material =>
    refine fun r => keepsLexers_of_lexers _ (fun s => ?_)
    unfold get_material
    split <;> rfl
  case get_declared =>
    refine fun r => keepsLexers_of_lexers _ (fun s => ?_)
    unfold get_declared
    split <;> rfl
  case get_texture =>
    refine fun r => keepsLexers_of_lexers _ (fun s => ?_)
    unfold get_texture
    split <;> rfl
  case get_unique_id =>
    refine fun _ id => keepsLexers_of_lexers _ (fun s => ?_)
    cases id <;> rfl
  case modify_material =>
    refine fun _ r f => keepsLexers_of_lexers _ (fun s => ?_)
    unfold modify_material
    split <;> rfl
  case modify_texture =>
    refine fun _ r f => keepsLexers_of_lexers _ (fun s => ?_)
    unfold modify_texture
    split <;> rfl
  case pop_attributes =>
    refine fun _ => keepsLexers_of_lexers _ (fun s => ?_)
    unfold pop_attributes
    split <;> rfl
  case pop_transform =>
    refine fun _ => keepsLexers_of_lexers _ (fun s => ?_)
    unfold pop_transform
    split <;> rfl
  case add_declared_to_scene =>
    refine fun _ d => keepsLexers_of_lexers _ (fun s => ?_)
    unfold add_declared_to_scene
    cases hd : s.declaredArena[d]? with
    | none => rfl
    | some dm =>
      simp only []
      split <;> rfl
  all_goals
    (intros
     first
       | exact keepsLexers_of_lexers _ (fun s => rfl)
       | (refine keepsLexers_of_lexers _ (fun s => ?_)
          simp only [getG, get_defaults, get_textureSavePath,
            get_scene, get_inObjectDefinition,
            lookup_object, modifyCTM, set_uvscale, set_areaLight,
            insert_named_material, bind_material, erase_named_texture, insert_named_texture,
            set_defaultFocus, set_aspect, add_camera, add_group, add_instance, add_texture,
            add_environment, new_declared_material, alloc_texture,
            alloc_group, begin_object, end_object, capture_group, store_object,
            mark_object_added, new_scene_material, push_attributes,
            push_transform, modifyS, modifyG, modifyScene, Res.state]
          first
            | rfl
            | (split <;> rfl)))

/-- C19: in every state in which the parser calls `advance` the stack of
lexers is not empty: the constructor leaves one lexer on it, and every
directive, and the whole parse, when it starts on a stack that is not empty,
ends on a stack that is not empty unless it raises the end of the input, which
nothing catches but `advance` itself.  On a stack that is not empty `advance`
raises the end of the input if and only if no lexer of the stack has a lexeme
left, and then it leaves the stack empty; it raises no other error; and when
the topmost lexer that has a lexeme left is `l`, below the exhausted lexers
`above`, `advance` returns with the stack `l :: below`, in which the current
lexeme of `l` is its next lexeme: exactly the lexers `above` have been
erased. -/
theorem C19_advance (Y : Ext F) (s : PState F) (hne : s.lexers ≠ []) :
    ((advance s).err? = some Err.inputEnded ↔ ∀ l ∈ s.lexers, l.rest = []) ∧
      ((∀ l ∈ s.lexers, l.rest = []) →
        advance s = .error Err.inputEnded { s with lexers := [] }) ∧
      (∀ e, (advance s).err? = some e → e = Err.inputEnded) ∧
      (∀ (above : List Lexer) (l : Lexer) (below : List Lexer) (t : Lexeme)
        (ts : List Lexeme), s.lexers = above ++ l :: below → (∀ x ∈ above, x.rest = []) →
        l.rest = t :: ts →
        advance s = .ok () { s with lexers := { l with cur := t, rest := ts } :: below }) ∧
      (∀ (lexemes : List Lexeme) (dir : String) (aspect focus : F) (path : String),
        (initial_state Y lexemes dir aspect focus path).lexers ≠ []) ∧
      (∀ fuel : Nat, KeepsLexers (parse Y fuel) ∧ KeepsLexers (execute_preworld_directive Y) ∧
        KeepsLexers (execute_world_directive Y fuel) ∧ KeepsLexers (execute_Include Y)) := by
  have hex : (∀ l ∈ s.lexers, l.rest = []) →
      advance s = .error Err.inputEnded { s with lexers := [] } := by
    intro h
    unfold advance
    rw [advance_lexers_exhausted s.lexers hne h]
  have hnext : ∀ (above : List Lexer) (l : Lexer) (below : List Lexer) (t : Lexeme)
      (ts : List Lexeme), s.lexers = above ++ l :: below → (∀ x ∈ above, x.rest = []) →
      l.rest = t :: ts →
      advance s = .ok () { s with lexers := { l with cur := t, rest := ts } :: below } := by
    intro above l below t ts h1 h2 h3
    unfold advance
    rw [h1, advance_lexers_next above l below t ts h2 h3]
  refine ⟨⟨?_, ?_⟩, hex, ?_, hnext, ?_, ?_⟩
  · intro h
    rcases lexers_split s.lexers with hall | ⟨above, l, below, t, ts, h1, h2, h3⟩
    · exact hall
    · rw [hnext above l below t ts h1 h2 h3] at h
      cases h
  · intro h
    rw [hex h]
    rfl
  · intro e h
    rcases lexers_split s.lexers with hall | ⟨above, l, below, t, ts, h1, h2, h3⟩
    · rw [hex hall] at h
      cases h
      rfl
    · rw [hnext above l below t ts h1 h2 h3] at h
      cases h
  · intro lexemes dir aspect focus path
    exact List.cons_ne_nil _ _
  · intro fuel
    exact ⟨parse_resp keepsLexers_respects (fun _ _ => trivial) Y fuel,
      execute_preworld_directive_resp keepsLexers_respects (fun _ _ => trivial) Y,
      execute_world_directive_resp keepsLexers_respects (fun _ _ => trivial) Y fuel,
      execute_Include_resp keepsLexers_respects (fun _ _ => trivial) Y⟩

/-- C19, witness: two exhausted lexers above a lexer with a lexeme left. -/
theorem C19_advance_witness :
    advance { test_state [] with
        lexers := [⟨ident "a", [], "x"⟩, ⟨ident "b", [], "y"⟩,
          ⟨str "f", [ident "c", ident "d"], "z"⟩, ⟨str "g", [ident "e"], "w"⟩] } =
      .ok () { test_state [] with
        lexers := [⟨ident "c", [ident "d"], "z"⟩, ⟨str "g", [ident "e"], "w"⟩] } :=
  (C19_advance testExt _ (by decide)).2.2.2.1 [⟨ident "a", [], "x"⟩, ⟨ident "b", [], "y"⟩]
    ⟨str "f", [ident "c", ident "d"], "z"⟩ [⟨str "g", [ident "e"], "w"⟩] (ident "c")
    [ident "d"] rfl (by decide) rfl

/-! ## C20: an identifier that is not a directive -/

theorem remaining_eq_pending (ls : List Lexer) : remaining ls = (pending ls).length := by
  induction ls with
  | nil => rfl
  | cons a ls ih =>
    simp only [remaining, List.map_cons, List.sum_cons, pending, List.flatMap_cons,
      List.length_append] at ih ⊢
    rw [ih]

/-- The loop of `ignore_current_directive`: from a current lexeme that, with
the pending ones, starts with lexemes that are not identifiers and then has an
identifier, the loop stops at that identifier. -/
theorem skip_to_identifier_ok (skipped : List Lexeme) (next : Lexeme) (tail : List Lexeme)
    (hskip : ∀ t ∈ skipped, t.type ≠ LexemeType.IDENTIFIER)
    (hnext : next.type = LexemeType.IDENTIFIER) :
    ∀ (n : Nat) (s : PState F) (l : Lexer) (below : List Lexer), s.lexers = l :: below →
      l.cur :: pending (l :: below) = skipped ++ next :: tail → skipped.length < n →
      ∃ l' below', skip_to_identifier n s = .ok () { s with lexers := l' :: below' } ∧
        l'.cur = next ∧ pending (l' :: below') = tail := by
  induction skipped with
  | nil =>
    intro n s l below hl hp hn
    cases n with
    | zero => omega
    | succ n =>
      simp only [List.nil_append, List.cons.injEq] at hp
      obtain ⟨hc, hp⟩ := hp
      refine ⟨l, below, ?_, hc, hp⟩
      rw [skip_to_identifier, bind_eq]
      simp only [current_token, hl, hc, hnext, ne_eq, not_true_eq_false, if_false, pure_eq]
      congr 1
      rw [← hl]
  | cons c sk ih =>
    intro n s l below hl hp hn
    cases n with
    | zero => omega
    | succ n =>
      simp only [List.cons_append, List.cons.injEq] at hp
      obtain ⟨hc, hp⟩ := hp
      have hcn : c.type ≠ LexemeType.IDENTIFIER := hskip c (List.mem_cons_self _ _)
      cases hsk : sk ++ next :: tail with
      | nil => simp at hsk
      | cons t rest =>
        rw [hsk] at hp
        obtain ⟨l1, below1, ha, hc1, hr1⟩ := advance_delivers s t rest (by rw [hl]; exact hp)
        obtain ⟨l', below', h', hc', hp'⟩ := ih
          (fun x hx => hskip x (List.mem_cons_of_mem _ hx)) n
          { s with lexers := l1 :: below1 } l1 below1 rfl
          (by rw [hc1, hr1, hsk]) (by simpa using hn)
        refine ⟨l', below', ?_, hc', hp'⟩
        rw [skip_to_identifier, bind_eq]
        simp only [current_token, hl, hc, hcn, ne_eq, not_false_eq_true, if_true]
        rw [bind_eq, ha]
        exact h'

theorem ignore_current_directive_ok (s : PState F) (skipped : List Lexeme) (next : Lexeme)
    (tail : List Lexeme) (hp : pending s.lexers = skipped ++ next :: tail)
    (hskip : ∀ t ∈ skipped, t.type ≠ LexemeType.IDENTIFIER)
    (hnext : next.type = LexemeType.IDENTIFIER) :
    ∃ l' below', ignore_current_directive s = .ok () { s with lexers := l' :: below' } ∧
      l'.cur = next ∧ pending (l' :: below') = tail := by
  cases hsk : skipped ++ next :: tail with
  | nil => simp at hsk
  | cons t rest =>
    rw [hsk] at hp
    obtain ⟨l1, below1, ha, hc1, hr1⟩ := advance_delivers s t rest hp
    obtain ⟨l', below', h', hc', hp'⟩ := skip_to_identifier_ok skipped next tail hskip hnext
      (remaining (l1 :: below1) + 1) { s with lexers := l1 :: below1 } l1 below1 rfl
      (by rw [hc1, hr1, hsk]) (by
        rw [remaining_eq_pending, hr1]
        have := congrArg List.length hsk
        simp only [List.length_append, List.length_cons] at this
        omega)
    refine ⟨l', below', ?_, hc', hp'⟩
    rw [ignore_current_directive, bind_eq, ha]
    exact h'

/-- C20: let the current lexeme be an identifier `w`, and let the lexemes
pending after it be lexemes that are not identifiers, `skipped`, then an
identifier `next`, then `tail`.  If `w` is not a directive of the pre-world
phase, `execute_preworld_directive` succeeds, and if `w` is not a directive of
the world phase, `execute_world_directive` succeeds: the state afterwards is
the state before with another stack of lexers, whose current lexeme is `next`
and whose pending lexemes are `tail`; the graphics state, the two stacks of
scopes, the registries and the scene are those of the state before. -/
theorem C20_unknown_directive (Y : Ext F) (fuel : Nat) (s : PState F) (l : Lexer)
    (below : List Lexer) (w : String) (skipped : List Lexeme) (next : Lexeme)
    (tail : List Lexeme) (hl : s.lexers = l :: below)
    (hcur : l.cur = ⟨LexemeType.IDENTIFIER, w⟩)
    (hp : pending s.lexers = skipped ++ next :: tail)
    (hskip : ∀ t ∈ skipped, t.type ≠ LexemeType.IDENTIFIER)
    (hnext : next.type = LexemeType.IDENTIFIER) :
    (w ∉ preworld_directives →
      ∃ l' below', execute_preworld_directive Y s = .ok () { s with lexers := l' :: below' } ∧
        l'.cur = next ∧ pending (l' :: below') = tail) ∧
    (w ∉ world_directives →
      ∃ l' below', execute_world_directive Y (fuel + 1) s =
          .ok () { s with lexers := l' :: below' } ∧
        l'.cur = next ∧ pending (l' :: below') = tail) := by
  obtain ⟨l', below', h, hc, hp'⟩ := ignore_current_directive_ok s skipped next tail hp hskip hnext
  refine ⟨fun hw => ⟨l', below', ?_, hc, hp'⟩, fun hw => ⟨l', below', ?_, hc, hp'⟩⟩
  · simp only [preworld_directives, List.mem_cons, List.mem_singleton, List.not_mem_nil,
      or_false, not_or] at hw
    obtain ⟨h1, h2, h3, h4, h5, h6, h7, h8, h9⟩ := hw
    rw [execute_preworld_directive, bind_eq]
    simp only [current_token, hl, hcur]
    rw [bind_eq]
    simp only [throw_if, ne_eq, not_true_eq_false, if_false, pure_eq, h1, h2, h3, h4, h5, h6,
      h7, h8, h9]
    exact h
  · simp only [world_directives, List.mem_cons, List.mem_singleton, List.not_mem_nil,
      or_false, not_or] at hw
    obtain ⟨h1, h2, h3, h4, h5, h6, h7, h8, h9, h10, h11, h12, h13, h14, h15, h16, h17, h18,
      h19, h20⟩ := hw
    rw [execute_world_directive, bind_eq]
    simp only [current_token, hl, hcur]
    rw [bind_eq]
    simp only [throw_if, ne_eq, not_true_eq_false, if_false, pure_eq, h1, h2, h3, h4, h5, h6,
      h7, h8, h9, h10, h11, h12, h13, h14, h15, h16, h17, h18, h19, h20]
    exact h

/-- C20, witness: the identifier `PixelFilter`, which neither phase knows,
with its two parameters, before `WorldBegin`. -/
theorem C20_unknown_directive_witness :
    (∃ l' below', execute_preworld_directive testExt
          (at_directive [ident "PixelFilter", str "box", num "1", ident "WorldBegin"]) =
          .ok () { at_directive [ident "PixelFilter", str "box", num "1", ident "WorldBegin"]
            with lexers := l' :: below' } ∧
        l'.cur = ident "WorldBegin" ∧ pending (l' :: below') = []) ∧
      (∃ l' below', execute_world_directive testExt (0 + 1)
          (at_directive [ident "PixelFilter", str "box", num "1", ident "WorldBegin"]) =
          .ok () { at_directive [ident "PixelFilter", str "box", num "1", ident "WorldBegin"]
            with lexers := l' :: below' } ∧
        l'.cur = ident "WorldBegin" ∧ pending (l' :: below') = []) :=
  ⟨(C20_unknown_directive testExt 0
      (at_directive [ident "PixelFilter", str "box", num "1", ident "WorldBegin"])
      ⟨ident "PixelFilter", [str "box", num "1", ident "WorldBegin"], "."⟩ [] "PixelFilter"
      [str "box", num "1"] (ident "WorldBegin") [] (by decide!) rfl (by decide!)
      (by decide) rfl).1 (by decide),
    (C20_unknown_directive testExt 0
      (at_directive [ident "PixelFilter", str "box", num "1", ident "WorldBegin"])
      ⟨ident "PixelFilter", [str "box", num "1", ident "WorldBegin"], "."⟩ [] "PixelFilter"
      [str "box", num "1"] (ident "WorldBegin") [] (by decide!) rfl (by decide!)
      (by decide) rfl).2 (by decide)⟩

/-! ## C22, C23: transform scopes and attribute scopes -/

/-- Every operation on the state is framed for the transform stack: the saved
transforms below it are neither read nor written. -/
theorem framedC_respects (B : List (Mat4 F)) :
    Respects (F := F) (fun _ => True) (FramedC B) := by
  constructor
  case pure =>
    intro α a s b s' h
    cases h
    rfl
  case bind =>
    intro α β m f hm hf s b s' h
    rw [bind_ok] at h
    obtain ⟨a, s1, h1, h2⟩ := h
    rw [bind_ok]
    exact ⟨a, underC B s1, hm _ _ _ h1, hf a _ _ _ h2⟩
  case raise =>
    intro α e s b s' h
    cases h
  case bound =>
    intro α loop hl s b s' h
    exact hl _ _ _ _ h
  case pop_transform =>
    intro _ s a s' h
    unfold pop_transform at h ⊢
    cases hT : s.CTMStack.getLast? with
    | none => rw [hT] at h; cases h
    | some g =>
      rw [hT] at h
      cases h
      have hne : s.CTMStack ≠ [] := by
        intro h0; rw [h0] at hT; cases hT
      have h1 : (underC B s).CTMStack.getLast? = some g := by
        show (B ++ s.CTMStack).getLast? = some g
        rw [List.getLast?_append, hT]; rfl
      rw [h1]
      simp [underC, List.dropLast_append_of_ne_nil _ hne]
  all_goals
    intros
    intro s a s' h
    simp only [advance, current_token, current_path, getG, get_defaults, get_textureSavePath,
      get_scene, get_material, get_declared, get_texture, get_inObjectDefinition,
      lookup_object, push_lexer, get_unique_id, modifyCTM, set_uvscale, set_areaLight,
      insert_named_material, bind_material, erase_named_texture, insert_named_texture,
      set_defaultFocus, set_aspect, add_camera, add_group, add_instance, add_texture,
      add_environment, modify_material, new_declared_material, alloc_texture, modify_texture,
      alloc_group, begin_object, end_object, capture_group, store_object, mark_object_added,
      add_declared_to_scene, new_scene_material, push_attributes, push_transform, pop_attributes,
      modifyS, modifyG, modifyScene, underC] at h ⊢
    first
      | (cases h; rfl)
      | (cases h; simp; done)
      | (split at h <;> first
          | (cases h; simp_all; done)
          | (cases h; done)
          | (split at h <;> first | (cases h; simp_all; done) | (cases h; done)))

theorem world_directive_seq_framedC (B : List (Mat4 F)) (Y : Ext F) (fuel n : Nat) :
    FramedC B (world_directive_seq Y fuel n) := by
  induction n with
  | zero => exact (framedC_respects B).pure ()
  | succ n ih =>
    exact (framedC_respects B).bind _ _
      (execute_world_directive_resp (framedC_respects B) (fun _ _ => trivial) Y fuel)
      (fun _ => ih)

theorem execute_TransformEnd_ok (s s3 : PState F) (T : List (Mat4 F))
    (m : Mat4 F) (hs : s.CTMStack = T ++ [m]) (h3 : advance s = .ok () s3) :
    execute_TransformEnd s =
      .ok () { s3 with gState := { s.gState with CTM := m }, CTMStack := T } := by
  obtain ⟨ls, rfl⟩ := advance_ok _ _ _ h3
  rw [execute_TransformEnd, bind_eq, h3]
  simp [pop_transform, hs]

theorem execute_TransformBegin_eq (s s1 : PState F) (h : execute_TransformBegin s = .ok () s1) :
    ∃ ls, s1 = { s with lexers := ls, CTMStack := s.CTMStack ++ [s.gState.CTM] } := by
  simp only [execute_TransformBegin, bind_ok] at h
  obtain ⟨_, s', ha, hp⟩ := h
  obtain ⟨ls, rfl⟩ := advance_ok _ _ _ ha
  cases hp
  exact ⟨ls, rfl⟩

theorem execute_AttributeBegin_eq (s s1 : PState F) (h : execute_AttributeBegin s = .ok () s1) :
    ∃ ls, s1 = { s with lexers := ls, stateStack := s.stateStack ++ [s.gState] } := by
  simp only [execute_AttributeBegin, bind_ok] at h
  obtain ⟨_, s', ha, hp⟩ := h
  obtain ⟨ls, rfl⟩ := advance_ok _ _ _ ha
  cases hp
  exact ⟨ls, rfl⟩

theorem execute_TransformEnd_eq (s s1 : PState F) (h : execute_TransformEnd s = .ok () s1) :
    ∃ ls m, s.CTMStack = s1.CTMStack ++ [m] ∧
      s1 = { s with lexers := ls, gState := { s.gState with CTM := m },
                    CTMStack := s1.CTMStack } := by
  simp only [execute_TransformEnd, bind_ok] at h
  obtain ⟨_, s', ha, hp⟩ := h
  obtain ⟨ls, rfl⟩ := advance_ok _ _ _ ha
  unfold pop_transform at hp
  cases hT : s.CTMStack.getLast? with
  | none => simp only [hT] at hp; cases hp
  | some m =>
    simp only [hT] at hp
    cases hp
    refine ⟨ls, m, ?_, rfl⟩
    have := List.dropLast_append_getLast? m hT
    simpa using this.symm

theorem execute_AttributeEnd_eq (s s1 : PState F) (h : execute_AttributeEnd s = .ok () s1) :
    ∃ ls g, s.stateStack = s1.stateStack ++ [g] ∧
      s1 = { s with lexers := ls, gState := g, stateStack := s1.stateStack } := by
  simp only [execute_AttributeEnd, bind_ok] at h
  obtain ⟨_, s', ha, hp⟩ := h
  obtain ⟨ls, rfl⟩ := advance_ok _ _ _ ha
  unfold pop_attributes at hp
  cases hT : s.stateStack.getLast? with
  | none => simp only [hT] at hp; cases hp
  | some m =>
    simp only [hT] at hp
    cases hp
    refine ⟨ls, m, ?_, rfl⟩
    have := List.dropLast_append_getLast? m hT
    simpa using this.symm

/-- C22: `execute_TransformBegin` saves the transform and nothing else, and
changes neither the graphics state nor the attribute stack.  Let `n` world
directives follow whose transform scopes are well nested: run with no
transform scope open they end without error and leave none open.  Then they
run without error in the scope that was opened, and `execute_TransformEnd`
after them gives back the transform there was at `execute_TransformBegin`,
keeps every other field of the graphics state as the directives left it, and
keeps the attribute stack.  In every state `execute_TransformEnd` changes of
the graphics state the transform only, to the transform it pops, and keeps the
attribute stack; `execute_AttributeBegin` and `execute_AttributeEnd` keep the
transform stack. -/
theorem C22_transform_scope (Y : Ext F) (fuel n : Nat) (s0 s1 t : PState F)
    (hbegin : execute_TransformBegin s0 = .ok () s1)
    (hbody : world_directive_seq Y fuel n { s1 with CTMStack := [] } = .ok () t)
    (hnested : t.CTMStack = []) :
    (s1.gState = s0.gState ∧ s1.stateStack = s0.stateStack ∧
      s1.CTMStack = s0.CTMStack ++ [s0.gState.CTM]) ∧
    (∃ s2, world_directive_seq Y fuel n s1 = .ok () s2 ∧
      s2.CTMStack = s0.CTMStack ++ [s0.gState.CTM] ∧
      (∀ s3, advance s2 = .ok () s3 →
        execute_TransformEnd s2 =
          .ok () { s3 with gState := { s2.gState with CTM := s0.gState.CTM },
                           CTMStack := s0.CTMStack }) ∧
      (∀ s4, execute_TransformEnd s2 = .ok () s4 →
        s4.gState = { s2.gState with CTM := s0.gState.CTM } ∧
          s4.CTMStack = s0.CTMStack ∧ s4.stateStack = s2.stateStack)) ∧
    (∀ s s' : PState F, execute_TransformEnd s = .ok () s' →
      s'.stateStack = s.stateStack ∧
        ∃ m, s.CTMStack = s'.CTMStack ++ [m] ∧ s'.gState = { s.gState with CTM := m }) ∧
    (∀ s s' : PState F, execute_AttributeBegin s = .ok () s' → s'.CTMStack = s.CTMStack) ∧
    (∀ s s' : PState F, execute_AttributeEnd s = .ok () s' → s'.CTMStack = s.CTMStack) := by
  obtain ⟨ls1, rfl⟩ := execute_TransformBegin_eq _ _ hbegin
  have h2 := world_directive_seq_framedC (s0.CTMStack ++ [s0.gState.CTM]) Y fuel n _ _ _ hbody
  have e1 : underC (s0.CTMStack ++ [s0.gState.CTM])
      { ({ s0 with lexers := ls1, CTMStack := s0.CTMStack ++ [s0.gState.CTM] } : PState F) with
        CTMStack := [] } =
      { s0 with lexers := ls1, CTMStack := s0.CTMStack ++ [s0.gState.CTM] } := by
    simp [underC]
  rw [e1] at h2
  have hs2 : (underC (s0.CTMStack ++ [s0.gState.CTM]) t).CTMStack =
      s0.CTMStack ++ [s0.gState.CTM] := by
    simp [underC, hnested]
  refine ⟨⟨rfl, rfl, rfl⟩, ⟨_, h2, hs2, ?_, ?_⟩, ?_, ?_, ?_⟩
  · intro s3 h3
    exact execute_TransformEnd_ok _ _ _ _ hs2 h3
  · intro s4 h4
    have h5 := h4
    simp only [execute_TransformEnd, bind_ok] at h5
    obtain ⟨_, s3, h3, -⟩ := h5
    rw [execute_TransformEnd_ok _ _ _ _ hs2 h3] at h4
    obtain ⟨ls3, rfl⟩ := advance_ok _ _ _ h3
    cases h4
    exact ⟨rfl, rfl, rfl⟩
  · intro s s' h
    obtain ⟨ls, m, hst, he⟩ := execute_TransformEnd_eq _ _ h
    refine ⟨by rw [he], m, hst, by rw [he]⟩
  · intro s s' h
    obtain ⟨ls, rfl⟩ := execute_AttributeBegin_eq _ _ h
    rfl
  · intro s s' h
    obtain ⟨ls, g, -, he⟩ := execute_AttributeEnd_eq _ _ h
    rw [he]

/-- C22, witness: the scope `TransformBegin Translate 1 2 3 Material "matte"
TransformEnd`: the two directives of the body move the origin and bind a
material; `TransformEnd` gives back the transform and keeps the material. -/
theorem C22_transform_scope_witness :
    ((world_directive_seq testExt 2 2
        (execute_TransformBegin (at_directive transform_scope_lexemes)).state).state.gState.CTM ≠
        (at_directive transform_scope_lexemes).gState.CTM ∧
      (world_directive_seq testExt 2 2
        (execute_TransformBegin (at_directive transform_scope_lexemes)).state).state.gState.mat ≠
        (at_directive transform_scope_lexemes).gState.mat) ∧
    ((execute_TransformBegin (at_directive transform_scope_lexemes)).state.gState =
        (at_directive transform_scope_lexemes).gState ∧
      (execute_TransformBegin (at_directive transform_scope_lexemes)).state.stateStack =
        (at_directive transform_scope_lexemes).stateStack ∧
      (execute_TransformBegin (at_directive transform_scope_lexemes)).state.CTMStack =
        (at_directive transform_scope_lexemes).CTMStack ++
          [(at_directive transform_scope_lexemes).gState.CTM]) ∧
    (∃ s2, world_directive_seq testExt 2 2
        (execute_TransformBegin (at_directive transform_scope_lexemes)).state = .ok () s2 ∧
      s2.CTMStack = (at_directive transform_scope_lexemes).CTMStack ++
        [(at_directive transform_scope_lexemes).gState.CTM] ∧
      (∀ s3, advance s2 = .ok () s3 →
        execute_TransformEnd s2 =
          .ok () { s3 with
            gState := { s2.gState with CTM := (at_directive transform_scope_lexemes).gState.CTM },
            CTMStack := (at_directive transform_scope_lexemes).CTMStack }) ∧
      (∀ s4, execute_TransformEnd s2 = .ok () s4 →
        s4.gState =
            { s2.gState with CTM := (at_directive transform_scope_lexemes).gState.CTM } ∧
          s4.CTMStack = (at_directive transform_scope_lexemes).CTMStack ∧
          s4.stateStack = s2.stateStack)) ∧
    (∀ s s' : PState Rat, execute_TransformEnd s = .ok () s' →
      s'.stateStack = s.stateStack ∧
        ∃ m, s.CTMStack = s'.CTMStack ++ [m] ∧ s'.gState = { s.gState with CTM := m }) ∧
    (∀ s s' : PState Rat, execute_AttributeBegin s = .ok () s' → s'.CTMStack = s.CTMStack) ∧
    (∀ s s' : PState Rat, execute_AttributeEnd s = .ok () s' → s'.CTMStack = s.CTMStack) :=
  ⟨by decide!,
    C22_transform_scope testExt 2 2 (at_directive transform_scope_lexemes)
      (execute_TransformBegin (at_directive transform_scope_lexemes)).state
      (world_directive_seq testExt 2 2
        { (execute_TransformBegin (at_directive transform_scope_lexemes)).state with
          CTMStack := [] }).state
      (by decide!) (by decide!) (by decide!)⟩

/-- C23, counterexample: in `AttributeBegin Translate 1 0 0 TransformBegin
AttributeEnd TransformEnd` the five directives succeed, `AttributeEnd` gives
back the transform there was before `AttributeBegin`, and `TransformEnd` then
pops the transform saved inside the closed scope: the final transform is the
translated one, not the one before `AttributeBegin`. -/
theorem C23_counterexample :
    (world_directive_seq testExt 2 5 (at_directive leak_lexemes)).isOk = true ∧
    (world_directive_seq testExt 2 4 (at_directive leak_lexemes)).state.gState.CTM =
      (at_directive leak_lexemes).gState.CTM ∧
    (world_directive_seq testExt 2 5 (at_directive leak_lexemes)).state.gState.CTM =
      (world_directive_seq testExt 2 2 (at_directive leak_lexemes)).state.gState.CTM ∧
    (world_directive_seq testExt 2 5 (at_directive leak_lexemes)).state.gState.CTM ≠
      (at_directive leak_lexemes).gState.CTM := by
  decide!

/-- C23: an attribute scope leaks no transform when its transform scopes are
closed inside it.  Let `execute_AttributeBegin` succeed from `s0`, and let `n`
world directives follow whose attribute scopes and transform scopes are well
nested: run with no scope of either kind open they end without error and
leave none open.  Then they run without error in the scope that was opened,
after them the transform stack is the one of `s0`, and `execute_AttributeEnd`
gives back the graphics state of `s0`, its transform included, with the
attribute stack and the transform stack of `s0`: no transform saved inside
the scope is left to be popped after it. -/
theorem C23_nested_scopes (Y : Ext F) (fuel n : Nat) (s0 s1 t : PState F)
    (hbegin : execute_AttributeBegin s0 = .ok () s1)
    (hbody : world_directive_seq Y fuel n { s1 with stateStack := [], CTMStack := [] } =
      .ok () t)
    (hnested : t.stateStack = [] ∧ t.CTMStack = []) :
    ∃ s2, world_directive_seq Y fuel n s1 = .ok () s2 ∧
      s2.stateStack = s0.stateStack ++ [s0.gState] ∧ s2.CTMStack = s0.CTMStack ∧
      (∀ s3, advance s2 = .ok () s3 →
        execute_AttributeEnd s2 =
          .ok () { s3 with gState := s0.gState, stateStack := s0.stateStack }) ∧
      (∀ s4, execute_AttributeEnd s2 = .ok () s4 →
        s4.gState = s0.gState ∧ s4.stateStack = s0.stateStack ∧
          s4.CTMStack = s0.CTMStack) := by
  obtain ⟨ls1, rfl⟩ := execute_AttributeBegin_eq _ _ hbegin
  have h2 := world_directive_seq_framed (s0.stateStack ++ [s0.gState]) Y fuel n _ _ _ hbody
  have h3 := world_directive_seq_framedC s0.CTMStack Y fuel n _ _ _ h2
  have e1 : underC s0.CTMStack (under (s0.stateStack ++ [s0.gState])
      { ({ s0 with lexers := ls1, stateStack := s0.stateStack ++ [s0.gState] } : PState F) with
        stateStack := [], CTMStack := [] }) =
      { s0 with lexers := ls1, stateStack := s0.stateStack ++ [s0.gState] } := by
    simp [under, underC]
  rw [e1] at h3
  have hs2 : (underC s0.CTMStack (under (s0.stateStack ++ [s0.gState]) t)).stateStack =
      s0.stateStack ++ [s0.gState] := by
    simp [under, underC, hnested.1]
  have hc2 : (underC s0.CTMStack (under (s0.stateStack ++ [s0.gState]) t)).CTMStack =
      s0.CTMStack := by
    simp [under, underC, hnested.2]
  refine ⟨_, h3, hs2, hc2, ?_, ?_⟩
  · intro s3 h3
    exact execute_AttributeEnd_ok _ _ _ _ hs2 h3
  · intro s4 h4
    have h5 := h4
    simp only [execute_AttributeEnd, bind_ok] at h5
    obtain ⟨_, s3, h3', -⟩ := h5
    rw [execute_AttributeEnd_ok _ _ _ _ hs2 h3'] at h4
    obtain ⟨ls3, rfl⟩ := advance_ok _ _ _ h3'
    cases h4
    exact ⟨rfl, rfl, hc2⟩

/-- C23, witness: the scope `AttributeBegin Translate 1 0 0 TransformBegin
Translate 0 1 0 TransformEnd AttributeEnd`. -/
theorem C23_nested_scopes_witness :
    (world_directive_seq testExt 2 4
        (execute_AttributeBegin (at_directive nested_scope_lexemes)).state).state.gState.CTM ≠
      (at_directive nested_scope_lexemes).gState.CTM ∧
    ∃ s2, world_directive_seq testExt 2 4
        (execute_AttributeBegin (at_directive nested_scope_lexemes)).state = .ok () s2 ∧
      s2.stateStack = (at_directive nested_scope_lexemes).stateStack ++
        [(at_directive nested_scope_lexemes).gState] ∧
      s2.CTMStack = (at_directive nested_scope_lexemes).CTMStack ∧
      (∀ s3, advance s2 = .ok () s3 →
        execute_AttributeEnd s2 =
          .ok () { s3 with gState := (at_directive nested_scope_lexemes).gState,
                           stateStack := (at_directive nested_scope_lexemes).stateStack }) ∧
      (∀ s4, execute_AttributeEnd s2 = .ok () s4 →
        s4.gState = (at_directive nested_scope_lexemes).gState ∧
          s4.stateStack = (at_directive nested_scope_lexemes).stateStack ∧
          s4.CTMStack = (at_directive nested_scope_lexemes).CTMStack) :=
  ⟨by decide!,
    C23_nested_scopes testExt 2 4 (at_directive nested_scope_lexemes)
      (execute_AttributeBegin (at_directive nested_scope_lexemes)).state
      (world_directive_seq testExt 2 4
        { (execute_AttributeBegin (at_directive nested_scope_lexemes)).state with
          stateStack := [], CTMStack := [] }).state
      (by decide!) (by decide!) (by decide!)⟩

/-! ## C24, C25: named materials -/

theorem execute_NamedMaterial_eq (s s1 : PState F) (name : String)
    (h1 : advance s = .ok () s1) (hc : current_token s1 = .ok (str name) s1) :
    execute_NamedMaterial s =
      match advance s1 with
      | .ok _ s2 =>
        match mapFind s.gState.nameToMaterial name with
        | none => .error (.syntaxError "No material with the specified name.") s2
        | some d => .ok () { s2 with gState := { s.gState with mat := some d } }
      | .error e s2 => .error e s2 := by
  rw [execute_NamedMaterial, bind_eq, h1]
  simp only []
  rw [bind_eq, hc]
  simp only []
  rw [bind_eq]
  simp only [throw_if, str, ne_eq, not_true_eq_false, if_false, pure_eq]
  rw [bind_eq]
  obtain ⟨ls1, rfl⟩ := advance_ok _ _ _ h1
  cases h2 : advance ({ s with lexers := ls1 } : PState F) with
  | error e s2 => rfl
  | ok u s2 =>
    obtain ⟨ls2, rfl⟩ := advance_ok _ _ _ h2
    simp only []
    rw [bind_eq]
    simp only [getG]
    cases hf : mapFind s.gState.nameToMaterial name with
    | none => rfl
    | some d => rfl

/-- C25, counterexample: `NamedMaterial "m"` at the end of the input, with no
material of the name `m`: the error is the end of the input, raised by the
second `advance`, and not a syntax error. -/
theorem C25_counterexample :
    mapFind (at_directive last_named_material).gState.nameToMaterial "m" = none ∧
    (∃ s', execute_NamedMaterial (at_directive last_named_material) = .error .inputEnded s') ∧
    ¬ ∃ msg s', execute_NamedMaterial (at_directive last_named_material) =
      .error (.syntaxError msg) s' := by
  refine ⟨by decide!, ⟨(execute_NamedMaterial (at_directive last_named_material)).state,
    by decide!⟩, ?_⟩
  rintro ⟨msg, s', h⟩
  have h2 : (execute_NamedMaterial (at_directive last_named_material)).err? =
      some .inputEnded := by decide!
  rw [h] at h2
  cases h2

/-- C25: let the name of the directive be the string `name` and let a lexeme
follow it, so that both calls of `advance` succeed.  If the map of the
graphics state has the declared material `d` at `name`,
`execute_NamedMaterial` binds `d` and changes nothing else in the graphics
state; if it has none, `execute_NamedMaterial` raises the syntax error of a
missing material and the graphics state, its bound material included, is
unchanged.  If the second `advance` fails, its error is the error of the
directive. -/
theorem C25_named_material (s s1 : PState F) (name : String)
    (h1 : advance s = .ok () s1) (hc : current_token s1 = .ok (str name) s1) :
    (∀ s2, advance s1 = .ok () s2 →
      (∀ d, mapFind s.gState.nameToMaterial name = some d →
        execute_NamedMaterial s =
          .ok () { s2 with gState := { s.gState with mat := some d } }) ∧
      (mapFind s.gState.nameToMaterial name = none →
        execute_NamedMaterial s =
            .error (.syntaxError "No material with the specified name.") s2 ∧
          s2.gState = s.gState)) ∧
    (∀ e s2, advance s1 = .error e s2 → execute_NamedMaterial s = .error e s2) := by
  have key := execute_NamedMaterial_eq s s1 name h1 hc
  refine ⟨fun s2 h2 => ⟨fun d hd => ?_, fun hn => ⟨?_, ?_⟩⟩, fun e s2 h2 => ?_⟩
  · rw [key, h2]; simp only [hd]
  · rw [key, h2]; simp only [hn]
  · obtain ⟨ls1, rfl⟩ := advance_ok _ _ _ h1
    obtain ⟨ls2, rfl⟩ := advance_ok _ _ _ h2
    rfl
  · rw [key, h2]

/-- C25, witness: `NamedMaterial "m"` after the declaration of `m`, before
`WorldEnd`. -/
theorem C25_named_material_witness :
    (mapFind (execute_world_directive testExt 2
        (at_directive bind_named_lexemes)).state.gState.nameToMaterial "m" = some 0 ∧
      (execute_NamedMaterial (execute_world_directive testExt 2
        (at_directive bind_named_lexemes)).state).isOk = true ∧
      (execute_NamedMaterial (execute_world_directive testExt 2
        (at_directive bind_named_lexemes)).state).state.gState.mat = some 0) ∧
    ((∀ s2, advance (advance (execute_world_directive testExt 2
          (at_directive bind_named_lexemes)).state).state = .ok () s2 →
      (∀ d, mapFind (execute_world_directive testExt 2
          (at_directive bind_named_lexemes)).state.gState.nameToMaterial "m" = some d →
        execute_NamedMaterial (execute_world_directive testExt 2
          (at_directive bind_named_lexemes)).state =
          .ok () { s2 with gState := { (execute_world_directive testExt 2
            (at_directive bind_named_lexemes)).state.gState with mat := some d } }) ∧
      (mapFind (execute_world_directive testExt 2
          (at_directive bind_named_lexemes)).state.gState.nameToMaterial "m" = none →
        execute_NamedMaterial (execute_world_directive testExt 2
          (at_directive bind_named_lexemes)).state =
            .error (.syntaxError "No material with the specified name.") s2 ∧
          s2.gState = (execute_world_directive testExt 2
            (at_directive bind_named_lexemes)).state.gState)) ∧
    (∀ e s2, advance (advance (execute_world_directive testExt 2
          (at_directive bind_named_lexemes)).state).state = .error e s2 →
      execute_NamedMaterial (execute_world_directive testExt 2
          (at_directive bind_named_lexemes)).state = .error e s2)) :=
  ⟨by decide!,
    C25_named_material (execute_world_directive testExt 2
        (at_directive bind_named_lexemes)).state
      (advance (execute_world_directive testExt 2
        (at_directive bind_named_lexemes)).state).state "m" (by decide!) (by decide!)⟩

theorem attribute_scope_closed (Y : Ext F) (fuel n : Nat) (s0 s1 t : PState F)
    (hbegin : execute_AttributeBegin s0 = .ok () s1)
    (hbody : world_directive_seq Y fuel n { s1 with stateStack := [] } = .ok () t)
    (hnested : t.stateStack = []) :
    ∃ s2, world_directive_seq Y fuel n s1 = .ok () s2 ∧
      (∀ s3, advance s2 = .ok () s3 →
        execute_AttributeEnd s2 =
          .ok () { s3 with gState := s0.gState, stateStack := s0.stateStack }) ∧
      (∀ s4, execute_AttributeEnd s2 = .ok () s4 →
        s4.gState = s0.gState ∧ s4.stateStack = s0.stateStack) := by
  have h1 : s1.stateStack = s0.stateStack ++ [s0.gState] := by
    simp only [execute_AttributeBegin, bind_ok] at hbegin
    obtain ⟨_, s', ha, hp⟩ := hbegin
    obtain ⟨ls, rfl⟩ := advance_ok _ _ _ ha
    cases hp
    rfl
  have h2 := world_directive_seq_framed s1.stateStack Y fuel n _ _ _ hbody
  have e1 : under s1.stateStack { s1 with stateStack := [] } = s1 := by
    simp [under]
  rw [e1] at h2
  have hs2 : (under s1.stateStack t).stateStack = s0.stateStack ++ [s0.gState] := by
    simp [under, hnested, h1]
  refine ⟨under s1.stateStack t, h2, ?_, ?_⟩
  · intro s3 h3
    exact execute_AttributeEnd_ok _ _ _ _ hs2 h3
  · intro s4 h4
    have h5 := h4
    simp only [execute_AttributeEnd, bind_ok] at h5
    obtain ⟨_, s3, h3, -⟩ := h5
    rw [execute_AttributeEnd_ok _ _ _ _ hs2 h3] at h4
    cases h4
    exact ⟨rfl, rfl⟩

theorem execute_NamedMaterial_absent (s : PState F) (l : Lexer) (ls : List Lexer)
    (name : String) (ts : List Lexeme) (hl : s.lexers = l :: ls)
    (hr : l.rest = str name :: ts) (hn : mapFind s.gState.nameToMaterial name = none) :
    ∃ e s', execute_NamedMaterial s = .error e s' := by
  have h1 := advance_cons s l ls _ _ hl hr
  rw [execute_NamedMaterial_eq s _ name h1 rfl]
  cases advance ({ s with lexers := { l with cur := str name, rest := ts } :: ls } : PState F) with
  | ok u s2 =>
    exact ⟨.syntaxError "No material with the specified name.", s2, by simp only [hn]⟩
  | error e s2 => exact ⟨e, s2, rfl⟩

theorem execute_NamedMaterial_present (s : PState F) (l : Lexer) (ls : List Lexer)
    (name : String) (t : Lexeme) (ts : List Lexeme) (d : Nat) (hl : s.lexers = l :: ls)
    (hr : l.rest = str name :: t :: ts) (hn : mapFind s.gState.nameToMaterial name = some d) :
    execute_NamedMaterial s =
      .ok () { s with lexers := { l with cur := t, rest := ts } :: ls,
                      gState := { s.gState with mat := some d } } := by
  have h1 := advance_cons s l ls _ _ hl hr
  rw [execute_NamedMaterial_eq s _ name h1 rfl,
    advance_cons _ { l with cur := str name, rest := t :: ts } ls t ts rfl rfl]
  simp only [hn]

/-- C24: let `execute_AttributeBegin` succeed from `s0` and let `n` world
directives follow whose attribute scopes are well nested; whatever names they
declare, after the `execute_AttributeEnd` that closes the scope the map of the
named materials is the one of `s0`.  So a directive `NamedMaterial` on a name
that `s0` does not have raises, also when the name was declared inside the
scope, and on a name that `s0` has, when a lexeme follows the name, it binds
the declared material the name had in `s0` and changes nothing else of the
graphics state of `s0`. -/
theorem C24_named_material_scope (Y : Ext F) (fuel n : Nat) (s0 s1 t : PState F)
    (hbegin : execute_AttributeBegin s0 = .ok () s1)
    (hbody : world_directive_seq Y fuel n { s1 with stateStack := [] } = .ok () t)
    (hnested : t.stateStack = []) :
    ∃ s2, world_directive_seq Y fuel n s1 = .ok () s2 ∧
      ∀ s4, execute_AttributeEnd s2 = .ok () s4 →
        s4.gState.nameToMaterial = s0.gState.nameToMaterial ∧
        ∀ (l : Lexer) (ls : List Lexer) (name : String) (ts : List Lexeme),
          s4.lexers = l :: ls → l.rest = str name :: ts →
          (mapFind s0.gState.nameToMaterial name = none →
            ∃ e s', execute_NamedMaterial s4 = .error e s') ∧
          (∀ (d : Nat) (t' : Lexeme) (ts' : List Lexeme),
            mapFind s0.gState.nameToMaterial name = some d → ts = t' :: ts' →
            ∃ s5, execute_NamedMaterial s4 = .ok () s5 ∧
              s5.gState = { s0.gState with mat := some d }) := by
  obtain ⟨s2, hrun, -, hend⟩ := attribute_scope_closed Y fuel n s0 s1 t hbegin hbody hnested
  refine ⟨s2, hrun, fun s4 h4 => ?_⟩
  obtain ⟨hg, -⟩ := hend s4 h4
  refine ⟨by rw [hg], fun l ls name ts hl hr => ⟨fun hn => ?_, fun d t' ts' hd hts => ?_⟩⟩
  · exact execute_NamedMaterial_absent s4 l ls name ts hl hr (by rw [hg]; exact hn)
  · subst hts
    refine ⟨_, execute_NamedMaterial_present s4 l ls name t' ts' d hl hr (by rw [hg]; exact hd),
      ?_⟩
    simp only [hg]

/-- C24, witness: after the declaration of `a`, the scope `AttributeBegin
MakeNamedMaterial "b" AttributeEnd`: the name `b` resolves inside the scope. -/
theorem C24_named_material_scope_witness :
    (mapFind before_named_scope.gState.nameToMaterial "a" = some 0 ∧
      mapFind before_named_scope.gState.nameToMaterial "b" = none ∧
      mapFind (world_directive_seq testExt 2 1
        (execute_AttributeBegin before_named_scope).state).state.gState.nameToMaterial "b" =
        some 1 ∧
      (execute_AttributeEnd (world_directive_seq testExt 2 1
        (execute_AttributeBegin before_named_scope).state).state).isOk = true) ∧
    ∃ s2, world_directive_seq testExt 2 1
        (execute_AttributeBegin before_named_scope).state = .ok () s2 ∧
      ∀ s4, execute_AttributeEnd s2 = .ok () s4 →
        s4.gState.nameToMaterial = before_named_scope.gState.nameToMaterial ∧
        ∀ (l : Lexer) (ls : List Lexer) (name : String) (ts : List Lexeme),
          s4.lexers = l :: ls → l.rest = str name :: ts →
          (mapFind before_named_scope.gState.nameToMaterial name = none →
            ∃ e s', execute_NamedMaterial s4 = .error e s') ∧
          (∀ (d : Nat) (t' : Lexeme) (ts' : List Lexeme),
            mapFind before_named_scope.gState.nameToMaterial name = some d → ts = t' :: ts' →
            ∃ s5, execute_NamedMaterial s4 = .ok () s5 ∧
              s5.gState = { before_named_scope.gState with mat := some d }) :=
  ⟨by decide!,
    C24_named_material_scope testExt 2 1 before_named_scope
      (execute_AttributeBegin before_named_scope).state
      (world_directive_seq testExt 2 1
        { (execute_AttributeBegin before_named_scope).state with stateStack := [] }).state
      (by decide!) (by decide!) (by decide!)⟩

/-! ## C26: object blocks are not reentrant -/

theorem staysInObject_respects :
    Respects (F := F) (fun e => e ≠ Effect.object_end) (Rel StaysInObject) := by
  have hrefl : ∀ s : PState F, StaysInObject s s := fun s h => h
  have htrans : ∀ a b c : PState F, StaysInObject a b → StaysInObject b c →
      StaysInObject a c := fun a b c h1 h2 h => h2 (h1 h)
  constructor
  all_goals first
    | exact rel_pure hrefl
    | exact rel_bind htrans
    | exact rel_raise
    | exact rel_bound
    | exact fun hA => absurd rfl hA
    | (intros
       intro s a s' h
       simp only [advance, current_token, current_path, getG, get_defaults, get_textureSavePath,
         get_scene, get_material, get_declared, get_texture, get_inObjectDefinition,
         lookup_object, push_lexer, get_unique_id, modifyCTM, set_uvscale, set_areaLight,
         insert_named_material, bind_material, erase_named_texture, insert_named_texture,
         set_defaultFocus, set_aspect, add_camera, add_group, add_instance, add_texture,
         add_environment, modify_material, new_declared_material, alloc_texture, modify_texture,
         alloc_group, begin_object, capture_group, store_object, mark_object_added,
         add_declared_to_scene, new_scene_material, push_attributes, pop_attributes,
         push_transform, pop_transform, modifyS, modifyG, modifyScene] at h
       first
         | (cases h; simp [StaysInObject]; done)
         | (cases h; intro hf; exact hf)
         | (split at h <;> first
             | (cases h; simp [StaysInObject]; done)
             | (cases h; intro hf; exact hf)
             | (cases h; done)
             | (split at h <;> first
                 | (cases h; simp [StaysInObject]; done)
                 | (cases h; intro hf; exact hf)
                 | (cases h; done))))

theorem execute_ObjectBlock_reentrant (directive : M F Unit) (fuel : Nat) (s : PState F)
    (hf : s.inObjectDefinition = true) :
    execute_ObjectBlock directive fuel s =
      .error (.syntaxError "Cannot define an object inside another object.") s := by
  rw [execute_ObjectBlock, bind_eq]
  simp only [get_inObjectDefinition]
  rw [bind_eq]
  simp only [throw_if, hf, if_true]
  rfl

theorem execute_ObjectBlock_stays (directive : M F Unit) (fuel : Nat) :
    Rel StaysInObject (execute_ObjectBlock directive fuel) := by
  intro s a s' h hf
  rw [execute_ObjectBlock_reentrant directive fuel s hf] at h
  cases h

/-- A property that the operations other than the end of an object block
respect, and that every object block has, is a property of every world
directive. -/
theorem execute_world_directive_resp_block (h : Respects A P)
    (hA : ∀ e ∈ [Effect.lexer_push, Effect.counters, Effect.ctm, Effect.uvscale,
      Effect.area_light, Effect.named_materials, Effect.bound_material, Effect.named_textures,
      Effect.focus, Effect.scene_shapes, Effect.instances, Effect.scene_textures,
      Effect.environments, Effect.material_write, Effect.material_new, Effect.texture_new,
      Effect.texture_write, Effect.group_new, Effect.object_begin,
      Effect.capture, Effect.object_store, Effect.object_mark, Effect.publish_declared,
      Effect.publish_new, Effect.attr_push, Effect.attr_pop, Effect.ctm_push,
      Effect.ctm_pop], A e)
    (hblock : ∀ (directive : M F Unit) (fuel : Nat), P (execute_ObjectBlock directive fuel))
    (Y : Ext F) (fuel : Nat) : P (execute_world_directive Y fuel) := by
  induction fuel with
  | zero => exact h.raise _
  | succ n ih =>
    unfold execute_world_directive
    repeat' first
      | with_reducible first
        | apply hblock | apply execute_AreaLightSource_resp h
        | apply execute_AttributeBegin_resp h | apply execute_AttributeEnd_resp h
        | apply execute_ConcatTransform_resp h | apply execute_Include_resp h
        | apply execute_LightSource_resp h | apply execute_LookAt_resp h
        | apply execute_Material_resp h | apply execute_NamedMaterial_resp h
        | apply execute_ObjectInstance_resp h | apply execute_Rotate_resp h
        | apply execute_Scale_resp h | apply execute_Shape_resp h | apply execute_Texture_resp h
        | apply execute_Transform_resp h | apply execute_TransformBegin_resp h
        | apply execute_TransformEnd_resp h | apply execute_Translate_resp h
        | apply ignore_current_directive_resp h | apply Respects.throw_if h
        | apply h.current_token | apply h.bind | apply h.pure | apply h.raise | apply resp_ite
      | exact fun e he => hA e (by revert e he; decide)
      | intro _ | split | dsimp only

theorem execute_world_directive_stays (Y : Ext F) (fuel : Nat) :
    Rel StaysInObject (execute_world_directive Y fuel) :=
  execute_world_directive_resp_block staysInObject_respects
    (fun e he => by revert e he; decide) execute_ObjectBlock_stays Y fuel

theorem world_directive_seq_stays (Y : Ext F) (fuel n : Nat) :
    Rel StaysInObject (world_directive_seq Y fuel n) := by
  induction n with
  | zero => exact staysInObject_respects.pure ()
  | succ n ih =>
    exact staysInObject_respects.bind _ _ (execute_world_directive_stays Y fuel) (fun _ => ih)

theorem execute_ObjectBlock_open (directive : M F Unit) (fuel : Nat) (s : PState F)
    (l : Lexer) (ls : List Lexer) (name : String) (t : Lexeme) (ts : List Lexeme)
    (hf : s.inObjectDefinition = false) (hl : s.lexers = l :: ls)
    (hr : l.rest = str name :: t :: ts) :
    execute_ObjectBlock directive fuel s =
      (directive_loop "ObjectEnd" directive fuel >>= fun _ =>
        store_object name >>= fun _ => end_object >>= fun _ => execute_AttributeEnd)
        { s with
          lexers := { l with cur := t, rest := ts } :: ls
          stateStack := s.stateStack ++ [s.gState]
          inObjectDefinition := true
          shapesInObject := [] } := by
  rw [execute_ObjectBlock, bind_eq]
  simp only [get_inObjectDefinition]
  rw [bind_eq]
  simp only [throw_if, hf, Bool.false_eq_true, if_false, pure_eq]
  rw [bind_eq, execute_AttributeBegin, bind_eq, advance_cons s l ls _ _ hl hr]
  simp only [push_attributes, modifyS]
  rw [bind_eq]
  simp only [begin_object, modifyS]
  rw [bind_eq]
  simp only [current_token]
  rw [bind_eq]
  simp only [str, ne_eq, not_true_eq_false, if_false, pure_eq]
  rw [bind_eq, advance_cons _ { l with cur := ⟨LexemeType.STRING, name⟩, rest := t :: ts } ls t ts
    rfl rfl]

theorem execute_ObjectBlock_closed (directive : M F Unit) (fuel : Nat) (s s' : PState F)
    (h : execute_ObjectBlock directive fuel s = .ok () s') :
    s.inObjectDefinition = false ∧ s'.inObjectDefinition = false := by
  have hf : s.inObjectDefinition = false := by
    cases hb : s.inObjectDefinition with
    | false => rfl
    | true => rw [execute_ObjectBlock_reentrant directive fuel s hb] at h; cases h
  refine ⟨hf, ?_⟩
  simp only [execute_ObjectBlock, bind_ok] at h
  obtain ⟨_, _, -, _, _, -, _, _, -, _, _, -, _, _, -, _, _, -, _, _, -, _, _, -, _, sa, -,
    _, sb, he, hend⟩ := h
  have hb : sb.inObjectDefinition = false := by
    simp only [end_object, modifyS] at he
    cases he
    rfl
  obtain ⟨ls, g, -, e⟩ := execute_AttributeEnd_eq _ _ hend
  rw [e]
  exact hb

theorem execute_world_directive_ObjectBegin (Y : Ext F) (fuel : Nat) (s : PState F)
    (l : Lexer) (ls : List Lexer) (hl : s.lexers = l :: ls)
    (hc : l.cur = ident "ObjectBegin") :
    execute_world_directive Y (fuel + 1) s =
      execute_ObjectBlock (execute_world_directive Y fuel) fuel s := by
  rw [execute_world_directive, bind_eq]
  simp only [current_token, hl, hc, ident]
  rw [bind_eq]
  simp only [throw_if, ne_eq, not_true_eq_false, if_false, pure_eq]
  simp only [String.reduceEq, if_false, if_true]

/-- C26: a directive `ObjectBegin` met while an object block is open raises the
syntax error of an object inside another, and leaves the state as it is; the
world directives that succeed inside an open block, those that open and close
attribute scopes and transform scopes among them, leave the block open, so
that the error is raised at whatever depth of scopes the directive is met.
When no block is open `execute_ObjectBlock` passes the test, opens the block
and runs the directives of its body in it; and when it succeeds, no block is
open after it. -/
theorem C26_object_block_nonreentrant (Y : Ext F) (fuel : Nat) :
    (∀ (s : PState F) (l : Lexer) (ls : List Lexer),
      s.lexers = l :: ls → l.cur = ident "ObjectBegin" → s.inObjectDefinition = true →
      execute_world_directive Y (fuel + 1) s =
        .error (.syntaxError "Cannot define an object inside another object.") s) ∧
    (∀ (n : Nat) (s s' : PState F), s.inObjectDefinition = true →
      world_directive_seq Y fuel n s = .ok () s' → s'.inObjectDefinition = true) ∧
    (∀ (s : PState F) (l : Lexer) (ls : List Lexer) (name : String) (t : Lexeme)
        (ts : List Lexeme),
      s.inObjectDefinition = false → s.lexers = l :: ls → l.rest = str name :: t :: ts →
      execute_ObjectBlock (execute_world_directive Y fuel) fuel s =
        (directive_loop "ObjectEnd" (execute_world_directive Y fuel) fuel >>= fun _ =>
          store_object name >>= fun _ => end_object >>= fun _ => execute_AttributeEnd)
          { s with
            lexers := { l with cur := t, rest := ts } :: ls
            stateStack := s.stateStack ++ [s.gState]
            inObjectDefinition := true
            shapesInObject := [] }) ∧
    (∀ s s' : PState F,
      execute_ObjectBlock (execute_world_directive Y fuel) fuel s = .ok () s' →
      s'.inObjectDefinition = false) := by
  refine ⟨fun s l ls hl hc hf => ?_, fun n s s' hf h => ?_,
    fun s l ls name t ts hf hl hr => ?_, fun s s' h => ?_⟩
  · rw [execute_world_directive_ObjectBegin Y fuel s l ls hl hc]
    exact execute_ObjectBlock_reentrant _ _ s hf
  · exact world_directive_seq_stays Y fuel n s () s' h hf
  · exact execute_ObjectBlock_open _ fuel s l ls name t ts hf hl hr
  · exact (execute_ObjectBlock_closed _ fuel s s' h).2

/-- C26, witness: an `ObjectBegin` inside an attribute scope and a transform
scope of an open block, and two blocks one after the other. -/
theorem C26_object_block_nonreentrant_witness :
    ((execute_world_directive testExt 5 (at_directive reentrant_lexemes)).err? =
        some (.syntaxError "Cannot define an object inside another object.") ∧
      (world_directive_seq testExt 3 2 (at_directive two_blocks_lexemes)).isOk = true) ∧
    execute_world_directive testExt (2 + 1) inside_block =
      .error (.syntaxError "Cannot define an object inside another object.") inside_block ∧
    inside_block.inObjectDefinition = true ∧
    execute_ObjectBlock (execute_world_directive testExt 2) 2
        (at_directive two_blocks_lexemes) =
      (directive_loop "ObjectEnd" (execute_world_directive testExt 2) 2 >>= fun _ =>
        store_object "o" >>= fun _ => end_object >>= fun _ => execute_AttributeEnd)
        { at_directive two_blocks_lexemes with
          lexers := [{ (⟨ident "ObjectBegin",
                [str "o", ident "Shape", str "cube", ident "ObjectEnd",
                  ident "ObjectBegin", str "p", ident "Shape", str "cube", ident "ObjectEnd",
                  ident "WorldEnd"], "."⟩ : Lexer) with
              cur := ident "Shape"
              rest := [str "cube", ident "ObjectEnd",
                ident "ObjectBegin", str "p", ident "Shape", str "cube", ident "ObjectEnd",
                ident "WorldEnd"] }]
          stateStack := (at_directive two_blocks_lexemes).stateStack ++
            [(at_directive two_blocks_lexemes).gState]
          inObjectDefinition := true
          shapesInObject := [] } ∧
    (execute_ObjectBlock (execute_world_directive testExt 2) 2
      (at_directive two_blocks_lexemes)).state.inObjectDefinition = false :=
  ⟨by decide!,
    (C26_object_block_nonreentrant testExt 2).1 inside_block
      ⟨ident "ObjectBegin", [str "p", ident "ObjectEnd", ident "WorldEnd"], "."⟩ []
      (by decide!) rfl (by decide!),
    (C26_object_block_nonreentrant testExt 2).2.1 2
      { at_directive [ident "AttributeBegin", ident "TransformBegin",
          ident "ObjectBegin", str "p", ident "ObjectEnd", ident "WorldEnd"] with
        inObjectDefinition := true }
      inside_block rfl (by decide!),
    (C26_object_block_nonreentrant testExt 2).2.2.1 (at_directive two_blocks_lexemes)
      ⟨ident "ObjectBegin",
        [str "o", ident "Shape", str "cube", ident "ObjectEnd",
          ident "ObjectBegin", str "p", ident "Shape", str "cube", ident "ObjectEnd",
          ident "WorldEnd"], "."⟩ [] "o" (ident "Shape")
      [str "cube", ident "ObjectEnd",
        ident "ObjectBegin", str "p", ident "Shape", str "cube", ident "ObjectEnd",
        ident "WorldEnd"] (by decide!) (by decide!) rfl,
    (C26_object_block_nonreentrant testExt 2).2.2.2 (at_directive two_blocks_lexemes)
      (execute_ObjectBlock (execute_world_directive testExt 2) 2
        (at_directive two_blocks_lexemes)).state (by decide!)⟩

/-! ## C27: the latest definition of an object -/

theorem mapFind_store (m : List (String × DeclaredObject F)) (k : String)
    (v : DeclaredObject F) :
    mapFind (match mapFind m k with
      | none => mapInsert m k v
      | some _ => mapAssign m k v) k = some v := by
  cases h : mapFind m k with
  | none =>
    simp only [mapInsert, h]
    exact mapFind_append_single m k v h
  | some v0 =>
    simp only []
    exact mapFind_mapAssign_self m k v v0 h

theorem execute_ObjectBlock_stores (directive : M F Unit) (fuel : Nat) (s sl : PState F)
    (l l2 : Lexer) (ls ls2 : List Lexer) (name : String) (t t2 : Lexeme)
    (ts ts2 : List Lexeme) (T : List (GraphicsState F)) (g : GraphicsState F)
    (hf : s.inObjectDefinition = false) (hl : s.lexers = l :: ls)
    (hr : l.rest = str name :: t :: ts)
    (hloop : directive_loop "ObjectEnd" directive fuel (opened_block s l ls t ts) = .ok () sl)
    (hl2 : sl.lexers = l2 :: ls2) (hr2 : l2.rest = t2 :: ts2)
    (hst : sl.stateStack = T ++ [g]) :
    ∃ s', execute_ObjectBlock directive fuel s = .ok () s' ∧
      mapFind s'.nameToObject name = some ⟨sl.shapesInObject, sl.gState.CTM, false⟩ ∧
      s'.gState = g ∧ s'.lexers = { l2 with cur := t2, rest := ts2 } :: ls2 ∧
      s'.scn = sl.scn ∧ s'.inObjectDefinition = false := by
  have hrun : execute_ObjectBlock directive fuel s =
      .ok () { sl with
        lexers := { l2 with cur := t2, rest := ts2 } :: ls2
        gState := g
        stateStack := T
        inObjectDefinition := false
        nameToObject :=
          match mapFind sl.nameToObject name with
          | none => mapInsert sl.nameToObject name ⟨sl.shapesInObject, sl.gState.CTM, false⟩
          | some _ => mapAssign sl.nameToObject name ⟨sl.shapesInObject, sl.gState.CTM, false⟩ } := by
    rw [execute_ObjectBlock_open directive fuel s l ls name t ts hf hl hr]
    show (directive_loop "ObjectEnd" directive fuel >>= _) (opened_block s l ls t ts) = _
    rw [bind_eq, hloop]
    simp only []
    rw [bind_eq]
    simp only [store_object, modifyS]
    rw [bind_eq]
    simp only [end_object, modifyS]
    rw [execute_AttributeEnd, bind_eq]
    cases hm : mapFind sl.nameToObject name with
    | none =>
      simp only []
      rw [advance_cons _ l2 ls2 t2 ts2 (by exact hl2) hr2]
      simp [pop_attributes, hst]
    | some o =>
      simp only []
      rw [advance_cons _ l2 ls2 t2 ts2 (by exact hl2) hr2]
      simp [pop_attributes, hst]
  exact ⟨_, hrun, mapFind_store _ _ _, rfl, rfl, rfl, rfl⟩

theorem execute_ObjectInstance_missing (Y : Ext F) (s : PState F) (name : String)
    (l : Lexer) (ls : List Lexer) (t : Lexeme) (ts : List Lexeme)
    (hl : s.lexers = l :: ls) (hr : l.rest = str name :: t :: ts)
    (ho : mapFind s.nameToObject name = none) :
    execute_ObjectInstance Y s =
      .error (.syntaxError "Object name not found.")
        { s with lexers := { l with cur := t, rest := ts } :: ls } := by
  rw [execute_ObjectInstance, bind_eq, advance_cons s l ls _ _ hl hr]
  simp only []
  rw [bind_eq]
  simp only [current_token]
  rw [bind_eq]
  simp only [str, throw_if, ne_eq, not_true_eq_false, if_false, pure_eq]
  rw [bind_eq, advance_cons _ { l with cur := ⟨LexemeType.STRING, name⟩, rest := t :: ts } ls t ts
    rfl rfl]
  simp only []
  rw [bind_eq]
  simp only [lookup_object, ho]
  rfl

/-- C27, counterexample: `ObjectInstance "o"` at the end of the input, with no
object of the name `o`: the error is the end of the input, raised by the
`advance` over the name, and not a syntax error. -/
theorem C27_counterexample :
    mapFind (at_directive last_object_instance).nameToObject "o" = none ∧
    (execute_ObjectInstance testExt (at_directive last_object_instance)).err? =
      some .inputEnded ∧
    ¬ ∃ msg s', execute_ObjectInstance testExt (at_directive last_object_instance) =
      .error (.syntaxError msg) s' := by
  have h2 : (execute_ObjectInstance testExt (at_directive last_object_instance)).err? =
      some .inputEnded := by decide!
  refine ⟨by decide!, h2, ?_⟩
  rintro ⟨msg, s', h⟩
  rw [h] at h2
  cases h2

/-- C27: let no object block be open, let the name of the block be `name`, let
the directives of the body end without error at `ObjectEnd` in the state `sl`,
with at least one shape group captured and the graphics state `g` on top of
the attribute stack, and let `ObjectInstance`, `name` and one more lexeme
follow `ObjectEnd`.  Then the block succeeds and, whether or not `name` had an
object before, the object of `name` is the list of shape groups captured by
this block with the transform of `sl`; the directive `ObjectInstance` that
follows succeeds and adds one instance for each of these shape groups, and no
other, with the frame of the product of the current transform and the
transform of `sl`.  An `ObjectInstance` on a name that has no object, when a
lexeme follows the name, raises the syntax error of a missing object. -/
theorem C27_latest_definition (Y : Ext F) (fuel : Nat) (s sl : PState F)
    (l l2 : Lexer) (ls ls2 : List Lexer) (name : String) (t t3 : Lexeme)
    (ts ts3 : List Lexeme) (T : List (GraphicsState F)) (g : GraphicsState F)
    (hf : s.inObjectDefinition = false) (hl : s.lexers = l :: ls)
    (hr : l.rest = str name :: t :: ts)
    (hloop : directive_loop "ObjectEnd" (execute_world_directive Y fuel) fuel
      (opened_block s l ls t ts) = .ok () sl)
    (hl2 : sl.lexers = l2 :: ls2)
    (hr2 : l2.rest = ident "ObjectInstance" :: str name :: t3 :: ts3)
    (hst : sl.stateStack = T ++ [g]) (hn : 0 < sl.shapesInObject.length) :
    (∃ s' s'', execute_ObjectBlock (execute_world_directive Y fuel) fuel s = .ok () s' ∧
      mapFind s'.nameToObject name = some ⟨sl.shapesInObject, sl.gState.CTM, false⟩ ∧
      s'.gState = g ∧
      execute_ObjectInstance Y s' = .ok () s'' ∧
      instance_refs s'' = instance_refs sl ++
        sl.shapesInObject.map
          (fun sg => (some sg, Y.mat_to_frame (Y.mat_mul g.CTM sl.gState.CTM)))) ∧
    (∀ (s0 : PState F) (n0 : String) (l0 : Lexer) (ls0 : List Lexer) (t0 : Lexeme)
        (ts0 : List Lexeme),
      s0.lexers = l0 :: ls0 → l0.rest = str n0 :: t0 :: ts0 →
      mapFind s0.nameToObject n0 = none →
      execute_ObjectInstance Y s0 =
        .error (.syntaxError "Object name not found.")
          { s0 with lexers := { l0 with cur := t0, rest := ts0 } :: ls0 }) := by
  refine ⟨?_, fun s0 n0 l0 ls0 t0 ts0 h0 hr0 hm =>
    execute_ObjectInstance_missing Y s0 n0 l0 ls0 t0 ts0 h0 hr0 hm⟩
  obtain ⟨s', hrun, hfind, hg, hlex, hscn, -⟩ :=
    execute_ObjectBlock_stores _ fuel s sl l l2 ls ls2 name t (ident "ObjectInstance") ts
      (str name :: t3 :: ts3) T g hf hl hr hloop hl2 hr2 hst
  obtain ⟨s'', hinst, -, -, -, -, hrefs⟩ :=
    execute_ObjectInstance_ok Y s' name ⟨sl.shapesInObject, sl.gState.CTM, false⟩ _ ls2 t3 ts3
      hlex rfl hfind hn
  refine ⟨s', s'', hrun, hfind, hg, hinst, ?_⟩
  rw [hrefs, hg]
  simp only [instance_refs, hscn]

/-- C27, witness: the object `o` is defined with one cube and then, after a
translation, with two cubes under another translation; the instance that
follows is of the two cubes of the second block. -/
theorem C27_latest_definition_witness :
    (mapFind before_redefinition.nameToObject "o" =
        some ⟨[0], testExt.identity_mat4f, false⟩ ∧
      at_second_ObjectEnd.shapesInObject = [1, 2] ∧
      at_second_ObjectEnd.gState.CTM ≠ before_redefinition.gState.CTM) ∧
    (∃ s' s'', execute_ObjectBlock (execute_world_directive testExt 5) 5
        before_redefinition = .ok () s' ∧
      mapFind s'.nameToObject "o" =
        some ⟨at_second_ObjectEnd.shapesInObject, at_second_ObjectEnd.gState.CTM, false⟩ ∧
      s'.gState = before_redefinition.gState ∧
      execute_ObjectInstance testExt s' = .ok () s'' ∧
      instance_refs s'' = instance_refs at_second_ObjectEnd ++
        at_second_ObjectEnd.shapesInObject.map
          (fun sg => (some sg, testExt.mat_to_frame
            (testExt.mat_mul before_redefinition.gState.CTM
              at_second_ObjectEnd.gState.CTM)))) ∧
    (∀ (s0 : PState Rat) (n0 : String) (l0 : Lexer) (ls0 : List Lexer) (t0 : Lexeme)
        (ts0 : List Lexeme),
      s0.lexers = l0 :: ls0 → l0.rest = str n0 :: t0 :: ts0 →
      mapFind s0.nameToObject n0 = none →
      execute_ObjectInstance testExt s0 =
        .error (.syntaxError "Object name not found.")
          { s0 with lexers := { l0 with cur := t0, rest := ts0 } :: ls0 }) :=
  ⟨by decide!,
    C27_latest_definition testExt 5 before_redefinition at_second_ObjectEnd
      redefinition_lexer second_ObjectEnd_lexer [] [] "o" (ident "Translate")
      (ident "WorldEnd")
      [ num "0", num "2", num "0",
        ident "Shape", str "cube", ident "Shape", str "cube", ident "ObjectEnd",
        ident "ObjectInstance", str "o", ident "WorldEnd" ] []
      [] before_redefinition.gState
      (by decide!) (by decide!) rfl (by decide!) (by decide!) rfl (by decide!) (by decide!)⟩

/-! ## C28, C29: the class matte by default, and set_k_property -/

theorem parse_material_class_unknown (Y : Ext F) (cls : String) (hc : cls ∉ material_classes) :
    parse_material_class Y cls = parse_material_matte Y := by
  funext mat params
  simp only [material_classes, List.mem_cons, List.mem_singleton, List.not_mem_nil, or_false,
    not_or] at hc
  obtain ⟨h1, h2, h3, h4, h5, h6, h7, h8, h9⟩ := hc
  rw [parse_material_class, if_neg h1, if_neg h2, if_neg h3, if_neg h4, if_neg h5, if_neg h6,
    if_neg h7, if_neg h8, if_neg h9]

theorem parse_material_class_matte (Y : Ext F) :
    parse_material_class Y "matte" = parse_material_matte Y := by
  rfl

theorem advance_cur (s : PState F) (l : Lexer) (ls : List Lexer) (c1 c2 : Lexeme) :
    advance ({ s with lexers := { l with cur := c1 } :: ls } : PState F) =
      advance ({ s with lexers := { l with cur := c2 } :: ls } : PState F) := by
  unfold advance
  simp only [advance_lexers]

theorem define_material_class (Y : Ext F) (mat dmat : Nat) (s : PState F) (l : Lexer)
    (ls : List Lexer) (cls : String) (hc : cls ∉ material_classes) :
    define_material Y false mat dmat
        ({ s with lexers := { l with cur := str cls } :: ls } : PState F) =
      define_material Y false mat dmat
        ({ s with lexers := { l with cur := str "matte" } :: ls } : PState F) := by
  rw [define_material, bind_eq, bind_eq]
  simp only [current_token]
  rw [bind_eq, bind_eq]
  simp only [Bool.false_eq_true, if_false]
  rw [bind_eq, bind_eq]
  simp only [throw_if, str, ne_eq, not_true_eq_false, if_false, pure_eq]
  rw [bind_eq, bind_eq,
    advance_cur s l ls ⟨LexemeType.STRING, cls⟩ ⟨LexemeType.STRING, "matte"⟩]
  cases advance ({ s with lexers :=
      { l with cur := ⟨LexemeType.STRING, "matte"⟩ } :: ls } : PState F) with
  | error e s1 => rfl
  | ok u s1 =>
    simp only [pure_eq]
    rw [bind_eq, bind_eq]
    cases parse_parameters Y [] s1 with
    | error e s2 => rfl
    | ok params s2 =>
      simp only []
      rw [bind_eq, bind_eq]
      simp only [pure_eq, parse_material_class_unknown Y cls hc, parse_material_class_matte Y]

theorem execute_Material_class (Y : Ext F) (s : PState F) (l : Lexer) (ls : List Lexer)
    (cls : String) (ts : List Lexeme) (hc : cls ∉ material_classes) :
    execute_Material Y false (with_class s l ls cls ts) =
      execute_Material Y false (with_class s l ls "matte" ts) := by
  rw [execute_Material, bind_eq, bind_eq,
    advance_cons (with_class s l ls cls ts) { l with rest := str cls :: ts } ls (str cls) ts
      rfl rfl,
    advance_cons (with_class s l ls "matte" ts) { l with rest := str "matte" :: ts } ls
      (str "matte") ts rfl rfl]
  simp only []
  rw [bind_eq, bind_eq]
  simp only [get_unique_id]
  rw [bind_eq, bind_eq]
  simp only [new_declared_material, with_class]
  exact define_material_class Y _ _
    { s with
      materialCounter := (s.materialCounter + 1) % 2 ^ 32
      materialArena := s.materialArena ++
        [{ Y.new_material with name := "m_" ++ toString s.materialCounter }]
      declaredArena := s.declaredArena ++ [⟨s.materialArena.length, false⟩] }
    { l with rest := ts } ls cls hc

theorem set_k_property_texture (Y : Ext F) (par : PBRTParameter F) (k : Vec3 F)
    (txt : Option Nat) (s : PState F) (name : String) (r : List String)
    (dt : DeclaredTexture F) (ht : par.type = "texture")
    (hv : par.value = ParamValue.strings (name :: r))
    (hn : mapFind s.gState.nameToTexture name = some dt) :
    set_k_property Y par k txt s =
      .ok (vconst Y 1, some dt.txt)
        { s with gState := { s.gState with uscale := dt.uscale, vscale := dt.vscale } } := by
  rw [set_k_property, if_pos ht, bind_eq]
  simp only [get_first_string, hv, pure_eq]
  rw [bind_eq, texture_lookup, bind_eq]
  simp only [getG, hn, pure_eq]
  rfl

theorem set_k_property_colour (Y : Ext F) (par : PBRTParameter F) (k : Vec3 F)
    (txt : Option Nat) (s : PState F) (v : Vec3 F) (r : List (Vec3 F))
    (ht : par.type ≠ "texture") (hv : par.value = ParamValue.vec3s (v :: r)) :
    set_k_property Y par k txt s = .ok (v, txt) s := by
  rw [set_k_property, if_neg ht, bind_eq]
  simp only [get_first_vec3, hv, pure_eq]

theorem sameMaterials_respects :
    Respects (F := F) (fun e => e ∈ [Effect.uvscale]) (Rel SameMaterials) := by
  have hrefl : ∀ s : PState F, SameMaterials s s := fun s => rfl
  have htrans : ∀ a b c : PState F, SameMaterials a b → SameMaterials b c →
      SameMaterials a c := fun a b c h1 h2 => h2.trans h1
  constructor
  all_goals first
    | exact rel_pure hrefl
    | exact rel_bind htrans
    | exact rel_raise
    | exact rel_bound
    | exact fun hA => absurd hA (by decide)
    | (intros
       intro s a s' h
       simp only [advance, current_token, current_path, getG, get_defaults, get_textureSavePath,
         get_scene, get_material, get_declared, get_texture, get_inObjectDefinition,
         lookup_object, set_uvscale, modifyS, modifyG] at h
       first
         | (cases h; rfl)
         | (split at h <;> first
             | (cases h; rfl)
             | (cases h; done)))

theorem set_k_property_arena (Y : Ext F) (par : PBRTParameter F) (k : Vec3 F)
    (txt : Option Nat) (s s' : PState F) (p : Vec3 F × Option Nat)
    (h : set_k_property Y par k txt s = .ok p s') :
    s'.materialArena = s.materialArena :=
  set_k_property_resp sameMaterials_respects (fun e he => he) Y par k txt s p s' h

theorem param_at_ok (params : List (PBRTParameter F)) (i : Nat) (s s' : PState F)
    (p : PBRTParameter F) (h : param_at params i s = .ok p s') :
    s' = s ∧ params[i]? = some p := by
  unfold param_at at h
  cases hp : params[i]? with
  | none => simp only [hp] at h; cases h
  | some q =>
    simp only [hp] at h
    cases h
    exact ⟨rfl, rfl⟩

theorem set_kd_rs (Y : Ext F) (params : List (PBRTParameter F)) (mat : Nat) (s s' : PState F)
    (m : Material F) (h : set_kd Y params mat s = .ok () s')
    (hm : s.materialArena[mat]? = some m) :
    ∃ m', s'.materialArena[mat]? = some m' ∧ m'.rs = m.rs := by
  unfold set_kd at h
  cases hf : find_param "Kd" params with
  | none =>
    simp only [hf] at h
    cases h
    exact ⟨m, hm, rfl⟩
  | some i =>
    simp only [hf, bind_ok] at h
    obtain ⟨p, s1, h1, m0, s2, h2, kt, s3, h3, h4⟩ := h
    obtain ⟨rfl, -⟩ := param_at_ok _ _ _ _ _ h1
    have e2 : s2 = s1 ∧ m0 = m := by
      simp only [get_material, hm] at h2
      cases h2
      exact ⟨rfl, rfl⟩
    obtain ⟨rfl, rfl⟩ := e2
    have e3 := set_k_property_arena Y p _ _ _ _ _ h3
    have hm3 : s3.materialArena[mat]? = some m0 := by rw [e3]; exact hm
    obtain ⟨u, s4, e4, hm4, -⟩ := total_modify_material mat
      (fun m => { m with kd := kt.1, kd_txt := kt.2 }) s3 m0 hm3
    rw [e4] at h4
    cases h4
    exact ⟨_, hm4, rfl⟩

theorem parse_material_matte_rs (Y : Ext F) (mat : Nat) (params : List (PBRTParameter F))
    (s s' : PState F) (h : parse_material_matte Y mat params s = .ok () s') :
    ∃ m', s'.materialArena[mat]? = some m' ∧ m'.rs = Y.lit 1 := by
  simp only [parse_material_matte, bind_ok] at h
  obtain ⟨u, s1, h1, h2⟩ := h
  cases hm : s.materialArena[mat]? with
  | none => simp only [modify_material, hm] at h1; cases h1
  | some m =>
    obtain ⟨u1, s1', e1, hm1, -⟩ := total_modify_material mat
      (fun m => { m with kd := vconst Y (1/2), rs := Y.lit 1 }) s m hm
    rw [e1] at h1
    cases h1
    obtain ⟨m', hm', hrs⟩ := set_kd_rs Y params mat _ _ _ h2 hm1
    exact ⟨m', hm', hrs⟩

theorem parse_material_matte_default (Y : Ext F) (mat : Nat) (params : List (PBRTParameter F))
    (s : PState F) (m : Material F) (hm : s.materialArena[mat]? = some m)
    (hk : find_param "Kd" params = none) :
    parse_material_matte Y mat params s =
      .ok () { s with materialArena :=
        s.materialArena.set mat { m with kd := vconst Y (1/2), rs := Y.lit 1 } } := by
  rw [parse_material_matte, bind_eq]
  simp only [modify_material, hm, set_kd, hk]
  rfl

/-- C28: a class of material that the chain of `execute_Material` does not
name is treated as `matte`: the dispatch on the class is `parse_material_matte`,
and the directive `Material` on the class gives, error or not, the result it
gives on `matte` with the same lexemes after the class.  The material gets the
`kd` of one half and the `rs` of one when there is no parameter `Kd`, and the
`rs` of one whenever the dispatch succeeds. -/
theorem C28_unknown_material_class (Y : Ext F) (cls : String)
    (hc : cls ∉ material_classes) :
    parse_material_class Y cls = parse_material_matte Y ∧
    (∀ (s : PState F) (l : Lexer) (ls : List Lexer) (ts : List Lexeme),
      execute_Material Y false (with_class s l ls cls ts) =
        execute_Material Y false (with_class s l ls "matte" ts)) ∧
    (∀ (mat : Nat) (params : List (PBRTParameter F)) (s : PState F) (m : Material F),
      s.materialArena[mat]? = some m → find_param "Kd" params = none →
      parse_material_class Y cls mat params s =
        .ok () { s with materialArena :=
          s.materialArena.set mat { m with kd := vconst Y (1/2), rs := Y.lit 1 } }) ∧
    (∀ (mat : Nat) (params : List (PBRTParameter F)) (s s' : PState F),
      parse_material_class Y cls mat params s = .ok () s' →
      ∃ m', s'.materialArena[mat]? = some m' ∧ m'.rs = Y.lit 1) := by
  have h0 := parse_material_class_unknown Y cls hc
  refine ⟨h0, fun s l ls ts => execute_Material_class Y s l ls cls ts hc,
    fun mat params s m hm hk => ?_, fun mat params s s' h => ?_⟩
  · rw [h0]
    exact parse_material_matte_default Y mat params s m hm hk
  · rw [h0] at h
    exact parse_material_matte_rs Y mat params s s' h

/-- C28, witness: the class `hair`, and the directive `Material "hair"
"rgb Kd" [1 0 0]`. -/
theorem C28_unknown_material_class_witness :
    ((execute_Material testExt false (at_directive unknown_material_lexemes)).isOk = true ∧
      (execute_Material testExt false
          (at_directive unknown_material_lexemes)).state.materialArena.map
          (fun m => (m.kd, m.rs)) = [(⟨1, 0, 0⟩, 1)] ∧
      at_directive unknown_material_lexemes =
        with_class (at_directive unknown_material_lexemes)
          ⟨ident "Material", [], "."⟩ [] "hair"
          [str "rgb Kd", lbr, num "1", num "0", num "0", rbr, ident "WorldEnd"]) ∧
    parse_material_class testExt "hair" = parse_material_matte testExt ∧
    (∀ (s : PState Rat) (l : Lexer) (ls : List Lexer) (ts : List Lexeme),
      execute_Material testExt false (with_class s l ls "hair" ts) =
        execute_Material testExt false (with_class s l ls "matte" ts)) ∧
    (∀ (mat : Nat) (params : List (PBRTParameter Rat)) (s : PState Rat) (m : Material Rat),
      s.materialArena[mat]? = some m → find_param "Kd" params = none →
      parse_material_class testExt "hair" mat params s =
        .ok () { s with materialArena :=
          s.materialArena.set mat { m with kd := vconst testExt (1/2), rs := testExt.lit 1 } }) ∧
    (∀ (mat : Nat) (params : List (PBRTParameter Rat)) (s s' : PState Rat),
      parse_material_class testExt "hair" mat params s = .ok () s' →
      ∃ m', s'.materialArena[mat]? = some m' ∧ m'.rs = testExt.lit 1) :=
  ⟨by decide!, C28_unknown_material_class testExt "hair" (by decide)⟩

theorem set_kd_texture (Y : Ext F) (params : List (PBRTParameter F)) (mat i : Nat)
    (s : PState F) (par : PBRTParameter F) (m : Material F) (name : String)
    (r : List String) (dt : DeclaredTexture F)
    (hf : find_param "Kd" params = some i) (hp : params[i]? = some par)
    (hm : s.materialArena[mat]? = some m) (ht : par.type = "texture")
    (hv : par.value = ParamValue.strings (name :: r))
    (hn : mapFind s.gState.nameToTexture name = some dt) :
    set_kd Y params mat s =
      .ok () { s with
        gState := { s.gState with uscale := dt.uscale, vscale := dt.vscale }
        materialArena :=
          s.materialArena.set mat { m with kd := vconst Y 1, kd_txt := some dt.txt } } := by
  unfold set_kd
  simp only [hf]
  rw [bind_eq]
  simp only [param_at, hp, pure_eq]
  rw [bind_eq]
  simp only [get_material, hm]
  rw [bind_eq, set_k_property_texture Y par _ _ s name r dt ht hv hn]
  simp only [modify_material, hm]

theorem set_kd_colour (Y : Ext F) (params : List (PBRTParameter F)) (mat i : Nat)
    (s : PState F) (par : PBRTParameter F) (m : Material F) (v : Vec3 F)
    (r : List (Vec3 F))
    (hf : find_param "Kd" params = some i) (hp : params[i]? = some par)
    (hm : s.materialArena[mat]? = some m) (ht : par.type ≠ "texture")
    (hv : par.value = ParamValue.vec3s (v :: r)) :
    set_kd Y params mat s =
      .ok () { s with
        materialArena := s.materialArena.set mat { m with kd := v, kd_txt := m.kd_txt } } := by
  unfold set_kd
  simp only [hf]
  rw [bind_eq]
  simp only [param_at, hp, pure_eq]
  rw [bind_eq]
  simp only [get_material, hm]
  rw [bind_eq, set_k_property_colour Y par _ _ s v r ht hv]
  simp only [modify_material, hm]

/-- C29: on a parameter of type `texture` that names a declared texture,
`set_k_property` gives the colour `(1, 1, 1)` and the pointer of the declared
texture, and sets the scale of the graphics state to the scale of the
declared texture; on a parameter of another type whose value is a list of
colours it gives the first colour and the pointer there was, and leaves the
state as it is.  So the block of `parse_material_matte` on `Kd` writes to a
material `kd` and `kd_txt` accordingly. -/
theorem C29_set_k_property (Y : Ext F) (par : PBRTParameter F) (k : Vec3 F)
    (txt : Option Nat) (s : PState F) :
    (∀ (name : String) (r : List String) (dt : DeclaredTexture F),
      par.type = "texture" → par.value = ParamValue.strings (name :: r) →
      mapFind s.gState.nameToTexture name = some dt →
      set_k_property Y par k txt s =
          .ok (vconst Y 1, some dt.txt)
            { s with gState := { s.gState with uscale := dt.uscale, vscale := dt.vscale } } ∧
        ∀ (params : List (PBRTParameter F)) (mat i : Nat) (m : Material F),
          find_param "Kd" params = some i → params[i]? = some par →
          s.materialArena[mat]? = some m →
          set_kd Y params mat s =
            .ok () { s with
              gState := { s.gState with uscale := dt.uscale, vscale := dt.vscale }
              materialArena :=
                s.materialArena.set mat
                  { m with kd := vconst Y 1, kd_txt := some dt.txt } }) ∧
    (∀ (v : Vec3 F) (r : List (Vec3 F)),
      par.type ≠ "texture" → par.value = ParamValue.vec3s (v :: r) →
      set_k_property Y par k txt s = .ok (v, txt) s ∧
        ∀ (params : List (PBRTParameter F)) (mat i : Nat) (m : Material F),
          find_param "Kd" params = some i → params[i]? = some par →
          s.materialArena[mat]? = some m →
          set_kd Y params mat s =
            .ok () { s with
              materialArena :=
                s.materialArena.set mat { m with kd := v, kd_txt := m.kd_txt } }) := by
  refine ⟨fun name r dt ht hv hn => ⟨set_k_property_texture Y par k txt s name r dt ht hv hn,
      fun params mat i m hf hp hm =>
        set_kd_texture Y params mat i s par m name r dt hf hp hm ht hv hn⟩,
    fun v r ht hv => ⟨set_k_property_colour Y par k txt s v r ht hv,
      fun params mat i m hf hp hm => set_kd_colour Y params mat i s par m v r hf hp hm ht hv⟩⟩

/-- C29, witness: the parameters `"texture Kd" "t"` and `"rgb Kd" [1 0 0]` in
a state that declares the texture `t`. -/
theorem C29_set_k_property_witness :
    (set_k_property testExt texture_Kd ⟨0, 0, 0⟩ none textured_state =
        .ok (vconst testExt 1, some 7)
          { textured_state with
            gState := { textured_state.gState with uscale := 2, vscale := 3 } } ∧
      set_kd testExt [texture_Kd] 0 textured_state =
        .ok () { textured_state with
          gState := { textured_state.gState with uscale := 2, vscale := 3 }
          materialArena := textured_state.materialArena.set 0
            { testExt.new_material with kd := vconst testExt 1, kd_txt := some 7 } }) ∧
    (set_k_property testExt rgb_Kd ⟨0, 0, 0⟩ (some 5) textured_state =
        .ok (⟨1, 0, 0⟩, some 5) textured_state ∧
      set_kd testExt [rgb_Kd] 0 textured_state =
        .ok () { textured_state with
          materialArena := textured_state.materialArena.set 0
            { testExt.new_material with
              kd := ⟨1, 0, 0⟩, kd_txt := testExt.new_material.kd_txt } }) :=
  ⟨⟨((C29_set_k_property testExt texture_Kd ⟨0, 0, 0⟩ none textured_state).1 "t" []
        ⟨7, 2, 3⟩ rfl rfl (by decide!)).1,
      ((C29_set_k_property testExt texture_Kd ⟨0, 0, 0⟩ none textured_state).1 "t" []
        ⟨7, 2, 3⟩ rfl rfl (by decide!)).2 [texture_Kd] 0 0 testExt.new_material
        (by decide!) rfl (by decide!)⟩,
    ⟨((C29_set_k_property testExt rgb_Kd ⟨0, 0, 0⟩ (some 5) textured_state).2 ⟨1, 0, 0⟩ []
        (by decide) rfl).1,
      ((C29_set_k_property testExt rgb_Kd ⟨0, 0, 0⟩ (some 5) textured_state).2 ⟨1, 0, 0⟩ []
        (by decide) rfl).2 [rgb_Kd] 0 0 testExt.new_material (by decide!) rfl (by decide!)⟩⟩

/-! ## C30, C21: what a shape adds, and the transform at the start of the world block -/

theorem shapesKept_respects :
    Respects (F := F)
      (fun e => e ∈ [Effect.counters, Effect.publish_declared, Effect.publish_new,
        Effect.material_write])
      (Rel ShapesKept) := by
  have hrefl : ∀ s : PState F, ShapesKept s s := fun s => ⟨rfl, rfl, rfl, rfl, rfl, rfl⟩
  have htrans : ∀ a b c : PState F, ShapesKept a b → ShapesKept b c → ShapesKept a c :=
    fun a b c h1 h2 => ⟨h2.1.trans h1.1, h2.2.1.trans h1.2.1, h2.2.2.1.trans h1.2.2.1,
      h2.2.2.2.1.trans h1.2.2.2.1, h2.2.2.2.2.1.trans h1.2.2.2.2.1,
      h2.2.2.2.2.2.trans h1.2.2.2.2.2⟩
  constructor
  all_goals first
    | exact rel_pure hrefl
    | exact rel_bind htrans
    | exact rel_raise
    | exact rel_bound
    | exact fun hA => absurd hA (by decide)
    | (intros
       intro s a s' h
       simp only [advance, current_token, current_path, getG, get_defaults, get_textureSavePath,
         get_scene, get_material, get_declared, get_texture, get_inObjectDefinition,
         lookup_object, get_unique_id, modify_material, add_declared_to_scene,
         new_scene_material, modifyS, modifyG, modifyScene] at h
       first
         | (cases h; simp [ShapesKept]; done)
         | (split at h <;> first
             | (cases h; simp [ShapesKept]; done)
             | (cases h; done)
             | (split at h <;> first
                 | (cases h; simp [ShapesKept]; done)
                 | (cases h; done))))

theorem add_shape_inside (Y : Ext F) (shp : Shape F) (s : PState F)
    (hf : s.inObjectDefinition = true) :
    add_shape Y shp s =
      .ok () { s with
        shapeGroupCounter := (s.shapeGroupCounter + 1) % 2 ^ 32
        groupArena := s.groupArena ++
          [⟨"sg_" ++ toString s.shapeGroupCounter,
            [{ shp with
               texcoord :=
                 shp.texcoord.map
                   (fun uv => ⟨Y.mul uv.x s.gState.uscale, Y.mul uv.y s.gState.vscale⟩) }]⟩]
        shapesInObject := s.shapesInObject ++ [s.groupArena.length] } := by
  rw [add_shape, bind_eq]
  simp only [getG]
  rw [bind_eq]
  simp only [get_unique_id]
  rw [bind_eq]
  simp only [alloc_group]
  rw [bind_eq]
  simp only [get_inObjectDefinition, hf, if_true, capture_group, modifyS]

theorem add_shape_outside (Y : Ext F) (shp : Shape F) (s : PState F)
    (hf : s.inObjectDefinition = false) :
    add_shape Y shp s =
      .ok () { s with
        shapeGroupCounter := (s.shapeGroupCounter + 1) % 2 ^ 32
        groupArena := s.groupArena ++
          [⟨"sg_" ++ toString s.shapeGroupCounter,
            [{ shp with
               texcoord :=
                 shp.texcoord.map
                   (fun uv => ⟨Y.mul uv.x s.gState.uscale, Y.mul uv.y s.gState.vscale⟩) }]⟩]
        scn := { s.scn with
          shapes := s.scn.shapes ++ [s.groupArena.length]
          instances := s.scn.instances ++
            [⟨"i_" ++ toString s.instanceCounter, Y.mat_to_frame s.gState.CTM,
              some s.groupArena.length⟩] }
        instanceCounter := (s.instanceCounter + 1) % 2 ^ 32 } := by
  rw [add_shape, bind_eq]
  simp only [getG]
  rw [bind_eq]
  simp only [get_unique_id]
  rw [bind_eq]
  simp only [alloc_group]
  rw [bind_eq]
  simp only [get_inObjectDefinition, hf, Bool.false_eq_true, if_false]
  rw [bind_eq]
  simp only [add_group, modifyScene, modifyS]
  rw [bind_eq]
  simp only [get_unique_id, add_instance, modifyScene, modifyS]

theorem add_shape_added (Y : Ext F) (shp : Shape F) (s : PState F) :
    ∃ s', add_shape Y shp s = .ok () s' ∧ ShapeAdded Y s s' := by
  cases hf : s.inObjectDefinition with
  | true =>
    refine ⟨_, add_shape_inside Y shp s hf, ?_⟩
    unfold ShapeAdded
    refine ⟨"sg_" ++ toString s.shapeGroupCounter, _, rfl, ?_, ?_⟩
    · intro h; rw [hf] at h; cases h
    · intro _; exact ⟨rfl, rfl, rfl⟩
  | false =>
    refine ⟨_, add_shape_outside Y shp s hf, ?_⟩
    unfold ShapeAdded
    refine ⟨"sg_" ++ toString s.shapeGroupCounter, _, rfl, ?_, ?_⟩
    · intro _; exact ⟨rfl, ⟨_, rfl⟩, rfl⟩
    · intro h; rw [hf] at h; cases h

theorem shapeAdded_of_kept (Y : Ext F) (s s1 s' : PState F) (h1 : ShapesKept s s1)
    (h2 : ShapeAdded Y s1 s') : ShapeAdded Y s s' := by
  obtain ⟨e1, e2, e3, e4, e5, e6⟩ := h1
  obtain ⟨gname, shp, hg, hout, hin⟩ := h2
  rw [e1, e2, e3, e4, e5, e6] at *
  exact ⟨gname, shp, hg, hout, hin⟩

theorem shapeAdded_step (Y : Ext F) {α : Type} (m : M F α) (hm : Rel ShapesKept m) (a : α)
    (s s1 s' : PState F) (h1 : m s = .ok a s1) (h2 : ShapeAdded Y s1 s') :
    ShapeAdded Y s s' :=
  shapeAdded_of_kept Y s s1 s' (hm s a s1 h1) h2

theorem add_shape_ok (Y : Ext F) (shp : Shape F) (s s' : PState F)
    (h : add_shape Y shp s = .ok () s') : ShapeAdded Y s s' := by
  obtain ⟨s'', e, hadd⟩ := add_shape_added Y shp s
  rw [e] at h
  cases h
  exact hadd

theorem shape_of_class_added (Y : Ext F) (cls : String) (shp : Shape F) (mat : Nat)
    (s s' : PState F) (h : shape_of_class Y cls shp mat s = .ok () s')
    (hc : cls ∈ shape_classes ∨ s.gState.areaLight.active = true) : ShapeAdded Y s s' := by
  have hk := shapesKept_respects (F := F)
  rw [shape_of_class, bind_eq] at h
  simp only [getG] at h
  by_cases hact : s.gState.areaLight.active = true
  · rw [if_pos hact, bind_ok] at h
    obtain ⟨u, s1, h1, h2⟩ := h
    exact shapeAdded_step Y _ (hk.modify_material (by decide) _ _) _ _ _ _ h1
      (add_shape_ok Y _ _ _ h2)
  · rw [if_neg hact] at h
    rcases hc with hc | hc
    swap
    · exact absurd hc hact
    simp only [shape_classes, List.mem_cons, List.mem_singleton, List.not_mem_nil,
      or_false] at hc
    rcases hc with rfl | rfl | rfl | rfl | rfl
    · simp only [if_true, bind_ok] at h
      obtain ⟨shp1, s1, h1, h2⟩ := h
      exact shapeAdded_step Y _ (parse_trianglemesh_resp hk Y shp) _ _ _ _ h1
        (add_shape_ok Y _ _ _ h2)
    · simp only [String.reduceEq, if_false, if_true, bind_ok] at h
      obtain ⟨shp1, s1, h1, h2⟩ := h
      exact shapeAdded_step Y _ (parse_cube_resp hk Y shp) _ _ _ _ h1
        (add_shape_ok Y _ _ _ h2)
    · simp only [String.reduceEq, if_false, if_true] at h
      rw [bind_ok] at h
      obtain ⟨params, s1, h1, h2⟩ := h
      rw [bind_ok] at h2
      obtain ⟨radius, s2, h3, h4⟩ := h2
      have hr : ShapesKept s1 s2 := by
        cases hfp : find_param "radius" params with
        | none =>
          simp only [hfp] at h3
          cases h3
          exact ⟨rfl, rfl, rfl, rfl, rfl, rfl⟩
        | some i =>
          simp only [hfp] at h3
          exact (hk.bind _ _ (Respects.param_at hk params i)
            (fun p => Respects.get_first_float hk p)) _ _ _ h3
      exact shapeAdded_step Y _ (parse_parameters_resp hk Y []) _ _ _ _ h1
        (shapeAdded_of_kept Y _ _ _ hr (add_shape_ok Y _ _ _ h4))
    · simp only [String.reduceEq, if_false, if_true, bind_ok] at h
      obtain ⟨u, s1, h1, h2⟩ := h
      exact shapeAdded_step Y _ (ignore_current_directive_resp hk) _ _ _ _ h1
        (add_shape_ok Y _ _ _ h2)
    · simp only [String.reduceEq, if_false, if_true] at h
      rw [bind_ok] at h
      obtain ⟨par, s1, h1, h2⟩ := h
      rw [bind_ok] at h2
      obtain ⟨u, s2, h3, h4⟩ := h2
      rw [bind_ok] at h4
      obtain ⟨path, s3, h5, h6⟩ := h4
      rw [bind_ok] at h6
      obtain ⟨file, s4, h7, h8⟩ := h6
      refine shapeAdded_step Y _ (parse_parameter_resp hk Y) _ _ _ _ h1
        (shapeAdded_step Y _ (Respects.throw_if hk _ _) _ _ _ _ h3
          (shapeAdded_step Y _ hk.current_path _ _ _ _ h5
            (shapeAdded_step Y _ (Respects.get_first_string hk par) _ _ _ _ h7 ?_)))
      cases hply : Y.parse_ply (path ++ "/" ++ file) shp with
      | none =>
        simp only [hply] at h8
        cases h8
      | some shp1 =>
        simp only [hply, bind_ok] at h8
        obtain ⟨u2, s5, h9, h10⟩ := h8
        exact shapeAdded_step Y _ (hk.bound _ (fun n => skip_to_identifier_resp hk n)) _ _ _ _ h9
          (add_shape_ok Y _ _ _ h10)

theorem execute_Shape_added (Y : Ext F) (s s1 s' : PState F) (cls : String)
    (h : execute_Shape Y s = .ok () s') (h1 : advance s = .ok () s1)
    (hc : current_token s1 = .ok (str cls) s1)
    (hcls : cls ∈ shape_classes ∨ s.gState.areaLight.active = true) : ShapeAdded Y s s' := by
  have hk := shapesKept_respects (F := F)
  rw [execute_Shape, bind_eq, h1] at h
  simp only [] at h
  rw [bind_eq, hc] at h
  simp only [] at h
  rw [bind_ok] at h
  obtain ⟨u, s2, h2, h3⟩ := h
  rw [bind_ok] at h3
  obtain ⟨u2, s3, h4, h5⟩ := h3
  rw [bind_ok] at h5
  obtain ⟨name, s4, h6, h7⟩ := h5
  rw [bind_ok] at h7
  obtain ⟨mat, s5, h8, h9⟩ := h7
  have k1 : ShapesKept s s1 := hk.advance _ _ _ h1
  have k2 : ShapesKept s1 s2 := Respects.throw_if hk _ _ _ _ _ h2
  have k3 : ShapesKept s2 s3 := hk.advance _ _ _ h4
  have k4 : ShapesKept s3 s4 := hk.get_unique_id (by decide) _ _ _ _ h6
  have k5 : ShapesKept s4 s5 :=
    shape_material_resp hk (fun e he => by revert e he; decide) Y _ _ _ h8
  have hact : s5.gState.areaLight.active = s.gState.areaLight.active := by
    rw [k5.2.2.2.2.1, k4.2.2.2.2.1, k3.2.2.2.2.1, k2.2.2.2.2.1, k1.2.2.2.2.1]
  refine shapeAdded_of_kept Y _ _ _ k1 (shapeAdded_of_kept Y _ _ _ k2
    (shapeAdded_of_kept Y _ _ _ k3 (shapeAdded_of_kept Y _ _ _ k4
      (shapeAdded_of_kept Y _ _ _ k5
        (shape_of_class_added Y _ _ _ _ _ h9 ?_)))))
  rcases hcls with hcls | hcls
  · exact Or.inl hcls
  · exact Or.inr (by rw [hact]; exact hcls)

/-- C30: let `execute_Shape` succeed on a class of shape that its chain of
branches names, or with an area light active.  Then it allocates one shape
group of one shape.  Outside an object block it appends this shape group to
the shapes of the scene and one instance of it, with the frame of the current
transform, to the instances of the scene, and keeps the list of captured
shape groups; inside an object block it appends the shape group to the list
of captured shape groups and keeps the shapes and the instances of the
scene. -/
theorem C30_shape_added (Y : Ext F) (s s1 s' : PState F) (cls : String)
    (h : execute_Shape Y s = .ok () s') (h1 : advance s = .ok () s1)
    (hc : current_token s1 = .ok (str cls) s1)
    (hcls : cls ∈ shape_classes ∨ s.gState.areaLight.active = true) :
    ∃ (gname : String) (shp : Shape F),
      s'.groupArena = s.groupArena ++ [⟨gname, [shp]⟩] ∧
      (s.inObjectDefinition = false →
        s'.scn.shapes = s.scn.shapes ++ [s.groupArena.length] ∧
        (∃ iname, s'.scn.instances = s.scn.instances ++
          [⟨iname, Y.mat_to_frame s.gState.CTM, some s.groupArena.length⟩]) ∧
        s'.shapesInObject = s.shapesInObject) ∧
      (s.inObjectDefinition = true →
        s'.shapesInObject = s.shapesInObject ++ [s.groupArena.length] ∧
        s'.scn.shapes = s.scn.shapes ∧ s'.scn.instances = s.scn.instances) :=
  execute_Shape_added Y s s1 s' cls h h1 hc hcls

/-- C30, witness: a cube outside an object block and a cube inside one. -/
theorem C30_shape_added_witness :
    (∃ (gname : String) (shp : Shape Rat),
      (execute_Shape testExt at_cube).state.groupArena =
        at_cube.groupArena ++ [⟨gname, [shp]⟩] ∧
      (at_cube.inObjectDefinition = false →
        (execute_Shape testExt at_cube).state.scn.shapes =
          at_cube.scn.shapes ++ [at_cube.groupArena.length] ∧
        (∃ iname, (execute_Shape testExt at_cube).state.scn.instances =
          at_cube.scn.instances ++
            [⟨iname, testExt.mat_to_frame at_cube.gState.CTM,
              some at_cube.groupArena.length⟩]) ∧
        (execute_Shape testExt at_cube).state.shapesInObject = at_cube.shapesInObject) ∧
      (at_cube.inObjectDefinition = true →
        (execute_Shape testExt at_cube).state.shapesInObject =
          at_cube.shapesInObject ++ [at_cube.groupArena.length] ∧
        (execute_Shape testExt at_cube).state.scn.shapes = at_cube.scn.shapes ∧
        (execute_Shape testExt at_cube).state.scn.instances = at_cube.scn.instances)) ∧
    (∃ (gname : String) (shp : Shape Rat),
      (execute_Shape testExt at_cube_in_object).state.groupArena =
        at_cube_in_object.groupArena ++ [⟨gname, [shp]⟩] ∧
      (at_cube_in_object.inObjectDefinition = false →
        (execute_Shape testExt at_cube_in_object).state.scn.shapes =
          at_cube_in_object.scn.shapes ++ [at_cube_in_object.groupArena.length] ∧
        (∃ iname, (execute_Shape testExt at_cube_in_object).state.scn.instances =
          at_cube_in_object.scn.instances ++
            [⟨iname, testExt.mat_to_frame at_cube_in_object.gState.CTM,
              some at_cube_in_object.groupArena.length⟩]) ∧
        (execute_Shape testExt at_cube_in_object).state.shapesInObject =
          at_cube_in_object.shapesInObject) ∧
      (at_cube_in_object.inObjectDefinition = true →
        (execute_Shape testExt at_cube_in_object).state.shapesInObject =
          at_cube_in_object.shapesInObject ++ [at_cube_in_object.groupArena.length] ∧
        (execute_Shape testExt at_cube_in_object).state.scn.shapes =
          at_cube_in_object.scn.shapes ∧
        (execute_Shape testExt at_cube_in_object).state.scn.instances =
          at_cube_in_object.scn.instances)) :=
  ⟨C30_shape_added testExt at_cube (advance at_cube).state
      (execute_Shape testExt at_cube).state "cube" (by decide!) (by decide!) (by decide!)
      (Or.inl (by decide)),
    C30_shape_added testExt at_cube_in_object (advance at_cube_in_object).state
      (execute_Shape testExt at_cube_in_object).state "cube" (by decide!) (by decide!)
      (by decide!) (Or.inl (by decide))⟩

theorem execute_world_directive_Shape (Y : Ext F) (fuel : Nat) (s : PState F)
    (l : Lexer) (ls : List Lexer) (hl : s.lexers = l :: ls) (hc : l.cur = ident "Shape") :
    execute_world_directive Y (fuel + 1) s = execute_Shape Y s := by
  rw [execute_world_directive, bind_eq]
  simp only [current_token, hl, hc, ident]
  rw [bind_eq]
  simp only [throw_if, ne_eq, not_true_eq_false, if_false, pure_eq]
  simp only [String.reduceEq, if_false, if_true]

/-- C21: whatever the state `s` that the directives before `WorldBegin` leave,
`execute_world_directives` runs the world directives from the state that
follows `WorldBegin` with the identity as current transform.  So when the first
of them is a `Shape`, it is `execute_Shape` that runs in that state, and when
it succeeds on a class of shape that it knows, outside an object block, it
appends to the instances of the scene one instance with the frame of the
identity. -/
theorem C21_world_starts_at_identity (Y : Ext F) (k : Nat) (s s1 : PState F)
    (h1 : advance ({ s with gState := { s.gState with CTM := Y.identity_mat4f } } : PState F) =
      .ok () s1) :
    s1.gState = { s.gState with CTM := Y.identity_mat4f } ∧
    execute_world_directives Y (k + 1) s =
      directive_loop "WorldEnd" (execute_world_directive Y (k + 1)) (k + 1) s1 ∧
    (∀ (l : Lexer) (ls : List Lexer), s1.lexers = l :: ls → l.cur = ident "Shape" →
      execute_world_directives Y (k + 1) s =
        (execute_Shape Y >>= fun _ =>
          directive_loop "WorldEnd" (execute_world_directive Y (k + 1)) k) s1 ∧
      ∀ (s2 s1' : PState F) (cls : String), execute_Shape Y s1 = .ok () s2 →
        advance s1 = .ok () s1' → current_token s1' = .ok (str cls) s1' →
        cls ∈ shape_classes → s.inObjectDefinition = false →
        ∃ iname, s2.scn.instances = s.scn.instances ++
          [⟨iname, Y.mat_to_frame Y.identity_mat4f, some s.groupArena.length⟩]) := by
  have e0 : execute_world_directives Y (k + 1) s =
      directive_loop "WorldEnd" (execute_world_directive Y (k + 1)) (k + 1) s1 := by
    rw [execute_world_directives, bind_eq]
    simp only [modifyCTM, modifyG, modifyS]
    rw [bind_eq, h1]
  have hg : s1.gState = { s.gState with CTM := Y.identity_mat4f } := by
    obtain ⟨ls1, rfl⟩ := advance_ok _ _ _ h1
    rfl
  have hkeep : s1.scn = s.scn ∧ s1.groupArena = s.groupArena ∧
      s1.inObjectDefinition = s.inObjectDefinition := by
    obtain ⟨ls1, rfl⟩ := advance_ok _ _ _ h1
    exact ⟨rfl, rfl, rfl⟩
  refine ⟨hg, e0, fun l ls hl hc => ⟨?_, fun s2 s1' cls h2 h3 h4 hcls hf => ?_⟩⟩
  · have hd := execute_world_directive_Shape Y k s1 l ls hl hc
    rw [e0, directive_loop, bind_eq]
    simp only [current_token, hl, hc, ident, String.reduceEq, and_false, if_false]
    rw [bind_eq, bind_eq, hd]
  · obtain ⟨gname, shp, -, hout, -⟩ :=
      execute_Shape_added Y _ s1' s2 cls h2 h3 h4 (Or.inl hcls)
    obtain ⟨-, ⟨iname, hi⟩, -⟩ := hout (by rw [hkeep.2.2]; exact hf)
    refine ⟨iname, ?_⟩
    rw [hi, hg, hkeep.1, hkeep.2.1]

/-- C21, witness: the scene `Translate 1 2 3 WorldBegin Shape "cube" WorldEnd`:
the transform is not the identity at `WorldBegin`, and the instance of the
cube has the frame of the identity. -/
theorem C21_world_starts_at_identity_witness :
    (at_WorldBegin.gState.CTM ≠ testExt.identity_mat4f ∧
      (parse testExt 5 (test_state moved_scene)).isOk = true ∧
      (parse testExt 5 (test_state moved_scene)).state.scn.instances.map
          (fun i => (i.shp, i.frame)) =
        [(some 0, testExt.mat_to_frame testExt.identity_mat4f)]) ∧
    (advance ({ at_WorldBegin with
        gState := { at_WorldBegin.gState with CTM := testExt.identity_mat4f } } :
        PState Rat)).state.gState =
      { at_WorldBegin.gState with CTM := testExt.identity_mat4f } ∧
    execute_world_directives testExt (4 + 1) at_WorldBegin =
      directive_loop "WorldEnd" (execute_world_directive testExt (4 + 1)) (4 + 1)
        (advance ({ at_WorldBegin with
          gState := { at_WorldBegin.gState with CTM := testExt.identity_mat4f } } :
          PState Rat)).state ∧
    (∀ (l : Lexer) (ls : List Lexer),
      (advance ({ at_WorldBegin with
        gState := { at_WorldBegin.gState with CTM := testExt.identity_mat4f } } :
        PState Rat)).state.lexers = l :: ls → l.cur = ident "Shape" →
      execute_world_directives testExt (4 + 1) at_WorldBegin =
        (execute_Shape testExt >>= fun _ =>
          directive_loop "WorldEnd" (execute_world_directive testExt (4 + 1)) 4)
          (advance ({ at_WorldBegin with
            gState := { at_WorldBegin.gState with CTM := testExt.identity_mat4f } } :
            PState Rat)).state ∧
      ∀ (s2 s1' : PState Rat) (cls : String),
        execute_Shape testExt (advance ({ at_WorldBegin with
          gState := { at_WorldBegin.gState with CTM := testExt.identity_mat4f } } :
          PState Rat)).state = .ok () s2 →
        advance (advance ({ at_WorldBegin with
          gState := { at_WorldBegin.gState with CTM := testExt.identity_mat4f } } :
          PState Rat)).state = .ok () s1' → current_token s1' = .ok (str cls) s1' →
        cls ∈ shape_classes → at_WorldBegin.inObjectDefinition = false →
        ∃ iname, s2.scn.instances = at_WorldBegin.scn.instances ++
          [⟨iname, testExt.mat_to_frame testExt.identity_mat4f,
            some at_WorldBegin.groupArena.length⟩]) :=
  ⟨by decide!,
    C21_world_starts_at_identity testExt 4 at_WorldBegin
      (advance ({ at_WorldBegin with
        gState := { at_WorldBegin.gState with CTM := testExt.identity_mat4f } } :
        PState Rat)).state (by decide!)⟩

/-! ## C33: the names of get_unique_id -/

theorem digits_value_append (l1 l2 : List Char) :
    digits_value (l1 ++ l2) = digits_value l1 * 10 ^ l2.length + digits_value l2 := by
  unfold digits_value
  induction l2 using List.reverseRecOn with
  | nil => simp
  | append_singleton l c ih =>
    rw [← List.append_assoc, List.foldl_append, ih, List.foldl_append]
    simp only [List.foldl_cons, List.foldl_nil, List.length_append, List.length_singleton]
    ring

theorem digitChar_value (d : Nat) (h : d < 10) : (Nat.digitChar d).toNat - 48 = d := by
  interval_cases d <;> rfl

theorem toDigitsCore_value (fuel : Nat) :
    ∀ (n : Nat) (ds : List Char), n < fuel →
      ∃ l, Nat.toDigitsCore 10 fuel n ds = l ++ ds ∧ digits_value l = n := by
  induction fuel with
  | zero => intro n ds h; omega
  | succ fuel ih =>
    intro n ds h
    unfold Nat.toDigitsCore
    by_cases h0 : n / 10 = 0
    · simp only [h0, if_true]
      refine ⟨[Nat.digitChar (n % 10)], rfl, ?_⟩
      simp only [digits_value, List.foldl_cons, List.foldl_nil]
      rw [digitChar_value _ (Nat.mod_lt _ (by decide))]
      omega
    · simp only [h0, if_false]
      obtain ⟨l, hl, hv⟩ := ih (n / 10) (Nat.digitChar (n % 10) :: ds) (by omega)
      refine ⟨l ++ [Nat.digitChar (n % 10)], by rw [hl]; simp, ?_⟩
      rw [digits_value_append, hv]
      simp only [digits_value, List.foldl_cons, List.foldl_nil, List.length_singleton]
      rw [digitChar_value _ (Nat.mod_lt _ (by decide))]
      omega

theorem toString_value (n : Nat) : digits_value (toString n).data = n := by
  obtain ⟨l, hl, hv⟩ := toDigitsCore_value (n + 1) n [] (Nat.lt_succ_self n)
  have : (toString n).data = l := by
    show (Nat.repr n).data = l
    simp only [Nat.repr, Nat.toDigits, hl, List.append_nil, List.asString]
  rw [this, hv]

theorem toString_nat_injective (a b : Nat) (h : toString a = toString b) : a = b := by
  have := congrArg (fun s => digits_value s.data) h
  simpa [toString_value] using this


theorem minted_name_injective (id1 id2 : CounterID) (c1 c2 : Nat)
    (h : minted_name id1 c1 = minted_name id2 c2) : id1 = id2 ∧ c1 = c2 := by
  have hd := congrArg String.data h
  simp only [minted_name, String.data_append] at hd
  cases id1 <;> cases id2 <;>
    first
    | (simp only [counter_tag, List.cons_append, List.nil_append] at hd
       exact ⟨rfl, toString_nat_injective _ _
         (String.ext (by simpa using hd))⟩)
    | (exfalso
       simp [counter_tag] at hd
       done)

theorem get_unique_id_run (id : CounterID) (s : PState F) :
    ∃ s', get_unique_id id s = .ok (minted_name id (counter_of id s)) s' ∧
      counter_of id s' = (counter_of id s + 1) % 2 ^ 32 ∧
      (∀ id', id' ≠ id → counter_of id' s' = counter_of id' s) ∧
      s'.lexers = s.lexers ∧ s'.scn = s.scn ∧ s'.gState = s.gState := by
  cases id <;>
    exact ⟨_, rfl, rfl, fun id' h => by cases id' <;> first | rfl | exact absurd rfl h,
      rfl, rfl, rfl⟩

theorem countersKept_respects :
    Respects (F := F) (fun e => e ≠ Effect.counters) (Rel CountersKept) := by
  have hrefl : ∀ s : PState F, CountersKept s s := fun s id => rfl
  have htrans : ∀ a b c : PState F, CountersKept a b → CountersKept b c → CountersKept a c :=
    fun a b c h1 h2 id => (h2 id).trans (h1 id)
  constructor
  all_goals first
    | exact rel_pure hrefl
    | exact rel_bind htrans
    | exact rel_raise
    | exact rel_bound
    | exact fun hA => absurd rfl hA
    | (intros
       intro s a s' h id
       simp only [advance, current_token, current_path, getG, get_defaults, get_textureSavePath,
         get_scene, get_material, get_declared, get_texture, get_inObjectDefinition,
         lookup_object, push_lexer, modifyCTM, set_uvscale, set_areaLight,
         insert_named_material, bind_material, erase_named_texture, insert_named_texture,
         set_defaultFocus, set_aspect, add_camera, add_group, add_instance, add_texture,
         add_environment, modify_material, new_declared_material, alloc_texture, modify_texture,
         alloc_group, begin_object, end_object, capture_group, store_object, mark_object_added,
         add_declared_to_scene, new_scene_material, push_attributes, pop_attributes,
         push_transform, pop_transform, modifyS, modifyG, modifyScene] at h
       first
         | (cases h; cases id <;> rfl)
         | (split at h <;> first
             | (cases h; cases id <;> rfl)
             | (cases h; done)
             | (split at h <;> first
                 | (cases h; cases id <;> rfl)
                 | (cases h; done))))

theorem mint_all_distinct (ids : List CounterID) :
    ∀ s : PState F, (∀ id, counter_of id s + ids.count id < 2 ^ 32) →
      ∃ names s', mint_all ids s = .ok names s' ∧ names.Nodup ∧
        names.length = ids.length ∧
        (∀ n ∈ names, ∃ id c, n = minted_name id c ∧ counter_of id s ≤ c ∧
          c < counter_of id s + ids.count id) ∧
        ∀ id, counter_of id s' = counter_of id s + ids.count id := by
  induction ids with
  | nil =>
    intro s _
    exact ⟨[], s, rfl, List.nodup_nil, rfl, fun n hn => absurd hn (List.not_mem_nil n),
      fun id => rfl⟩
  | cons id0 rest ih =>
    intro s hs
    obtain ⟨s1, h1, hc1, ho1, -, -, -⟩ := get_unique_id_run id0 s
    have hlt : counter_of id0 s + 1 < 2 ^ 32 := by
      have := hs id0
      simp only [List.count_cons_self] at this
      omega
    rw [Nat.mod_eq_of_lt hlt] at hc1
    have hs1 : ∀ id, counter_of id s1 + rest.count id < 2 ^ 32 := by
      intro id
      have := hs id
      by_cases hid : id = id0
      · subst hid
        simp only [List.count_cons_self] at this
        rw [hc1]; omega
      · rw [ho1 id hid]
        rw [List.count_cons_of_ne hid] at this
        exact this
    obtain ⟨names, s', hrun, hnd, hlen, hmem, hfin⟩ := ih s1 hs1
    refine ⟨minted_name id0 (counter_of id0 s) :: names, s', ?_, ?_, ?_, ?_, ?_⟩
    · rw [mint_all, bind_eq, h1]
      simp only []
      rw [bind_eq, hrun]
      rfl
    · refine List.nodup_cons.mpr ⟨fun hin => ?_, hnd⟩
      obtain ⟨id, c, he, hle, -⟩ := hmem _ hin
      obtain ⟨rfl, rfl⟩ := minted_name_injective _ _ _ _ he
      rw [hc1] at hle
      omega
    · simp [hlen]
    · intro n hn
      rcases List.mem_cons.mp hn with rfl | hn
      · exact ⟨id0, _, rfl, Nat.le_refl _, by simp⟩
      · obtain ⟨id, c, he, hle, hlt'⟩ := hmem n hn
        refine ⟨id, c, he, ?_, ?_⟩
        · by_cases hid : id = id0
          · subst hid; rw [hc1] at hle; omega
          · rw [ho1 id hid] at hle; exact hle
        · by_cases hid : id = id0
          · subst hid
            rw [hc1] at hlt'
            simp only [List.count_cons_self]
            omega
          · rw [ho1 id hid] at hlt'
            rw [List.count_cons_of_ne hid]
            exact hlt'
    · intro id
      rw [hfin id]
      by_cases hid : id = id0
      · subst hid
        rw [hc1]
        simp only [List.count_cons_self]
        omega
      · rw [ho1 id hid, List.count_cons_of_ne hid]

/-- C33: a call of `get_unique_id` returns the string of the kind followed by
the decimal value of the counter of the kind, adds one to that counter, modulo
`2^32`, and keeps the five other counters; two names are equal only if they
are of the same kind and of the same value of the counter; every other
operation on the state keeps the six counters, so that the directives change
them through `get_unique_id` alone; and the names of any sequence of calls
that takes no counter beyond `2^32 - 1` are pairwise different. -/
theorem C33_unique_names (s : PState F) (ids : List CounterID)
    (hroom : ∀ id, counter_of id s + ids.count id < 2 ^ 32) :
    (∀ (id : CounterID) (s0 : PState F),
      ∃ s', get_unique_id id s0 = .ok (minted_name id (counter_of id s0)) s' ∧
        counter_of id s' = (counter_of id s0 + 1) % 2 ^ 32 ∧
        (counter_of id s0 < 2 ^ 32 - 1 → counter_of id s' = counter_of id s0 + 1) ∧
        ∀ id', id' ≠ id → counter_of id' s' = counter_of id' s0) ∧
    (∀ (id1 id2 : CounterID) (c1 c2 : Nat),
      minted_name id1 c1 = minted_name id2 c2 → id1 = id2 ∧ c1 = c2) ∧
    Respects (F := F) (fun e => e ≠ Effect.counters) (Rel CountersKept) ∧
    ∃ names s', mint_all ids s = .ok names s' ∧ names.Nodup ∧
      names.length = ids.length ∧
      (∀ n ∈ names, ∃ id c, n = minted_name id c ∧ counter_of id s ≤ c ∧
        c < counter_of id s + ids.count id) ∧
      ∀ id, counter_of id s' = counter_of id s + ids.count id := by
  refine ⟨fun id s0 => ?_, minted_name_injective, countersKept_respects,
    mint_all_distinct ids s hroom⟩
  obtain ⟨s', h1, h2, h3, -⟩ := get_unique_id_run id s0
  refine ⟨s', h1, h2, fun hlt => ?_, h3⟩
  rw [h2, Nat.mod_eq_of_lt (by omega)]

/-- C33, witness: three shapes, two materials and a shape group, from the
counters of the start. -/
theorem C33_unique_names_witness :
    mint_all [CounterID.shape, CounterID.material, CounterID.shape, CounterID.shape_group,
        CounterID.material, CounterID.shape] (test_state []) =
      .ok ["s_0", "m_0", "s_1", "sg_0", "m_1", "s_2"]
        (mint_all [CounterID.shape, CounterID.material, CounterID.shape,
          CounterID.shape_group, CounterID.material, CounterID.shape] (test_state [])).state ∧
    ∃ names s', mint_all [CounterID.shape, CounterID.material, CounterID.shape,
        CounterID.shape_group, CounterID.material, CounterID.shape] (test_state []) =
        .ok names s' ∧ names.Nodup ∧
      names.length = [CounterID.shape, CounterID.material, CounterID.shape,
        CounterID.shape_group, CounterID.material, CounterID.shape].length ∧
      (∀ n ∈ names, ∃ id c, n = minted_name id c ∧ counter_of id (test_state []) ≤ c ∧
        c < counter_of id (test_state []) +
          [CounterID.shape, CounterID.material, CounterID.shape, CounterID.shape_group,
            CounterID.material, CounterID.shape].count id) ∧
      ∀ id, counter_of id s' = counter_of id (test_state []) +
        [CounterID.shape, CounterID.material, CounterID.shape, CounterID.shape_group,
          CounterID.material, CounterID.shape].count id :=
  ⟨by decide!,
    (C33_unique_names (test_state [])
      [CounterID.shape, CounterID.material, CounterID.shape, CounterID.shape_group,
        CounterID.material, CounterID.shape]
      (fun id => by cases id <;> decide)).2.2.2⟩

/-! ## C34: the lists of the scene only grow -/

theorem extends_refl {α : Type} (l : List α) : Extends l l := ⟨[], by simp⟩

theorem extends_trans {α : Type} (a b c : List α) (h1 : Extends a b) (h2 : Extends b c) :
    Extends a c := by
  obtain ⟨t1, e1⟩ := h1
  obtain ⟨t2, e2⟩ := h2
  exact ⟨t1 ++ t2, by rw [e2, e1, List.append_assoc]⟩

theorem sceneGrows_refl (s : PState F) : SceneGrows s s :=
  ⟨extends_refl _, extends_refl _, extends_refl _, extends_refl _, extends_refl _,
    extends_refl _⟩

theorem sceneGrows_trans (a b c : PState F) (h1 : SceneGrows a b) (h2 : SceneGrows b c) :
    SceneGrows a c :=
  ⟨extends_trans _ _ _ h1.1 h2.1, extends_trans _ _ _ h1.2.1 h2.2.1,
    extends_trans _ _ _ h1.2.2.1 h2.2.2.1, extends_trans _ _ _ h1.2.2.2.1 h2.2.2.2.1,
    extends_trans _ _ _ h1.2.2.2.2.1 h2.2.2.2.2.1,
    extends_trans _ _ _ h1.2.2.2.2.2 h2.2.2.2.2.2⟩

theorem sceneGrows_of_eq (s s' : PState F) (h : s'.scn = s.scn) : SceneGrows s s' := by
  unfold SceneGrows
  rw [h]
  exact sceneGrows_refl s

theorem always_pure {R : PState F → PState F → Prop} (hrefl : ∀ s, R s s) {α : Type} (a : α) :
    Always R (pure a : M F α) := fun s => hrefl s

theorem always_raise {R : PState F → PState F → Prop} (hrefl : ∀ s, R s s) {α : Type}
    (e : Err) : Always R (raise e : M F α) := fun s => hrefl s

theorem always_bind {R : PState F → PState F → Prop} (htrans : ∀ a b c, R a b → R b c → R a c)
    {α β : Type} (m : M F α) (f : α → M F β) (hm : Always R m) (hf : ∀ a, Always R (f a)) :
    Always R (m >>= f) := by
  intro s
  rw [bind_eq]
  have h1 := hm s
  cases hms : m s with
  | ok a s1 =>
    rw [hms] at h1
    exact htrans _ _ _ h1 (hf a s1)
  | error e s1 =>
    rw [hms] at h1
    exact h1

theorem always_bound {R : PState F → PState F → Prop} {α : Type} (loop : Nat → M F α)
    (h : ∀ n, Always R (loop n)) : Always R (with_lexeme_bound loop) :=
  fun s => h _ s

theorem camera_fields_aspect (cams : List (Camera F)) (asp : F) :
    (cams.map (fun cam => { cam with aspect := asp })).map camera_fields =
      cams.map camera_fields := by
  rw [List.map_map]
  rfl

theorem always_of_scn {α : Type} (m : M F α) (h : ∀ s, (m s).state.scn = s.scn) :
    Always SceneGrows m := fun s => sceneGrows_of_eq _ _ (h s)

theorem sceneGrows_respects :
    Respects (F := F) (fun _ => True) (Always SceneGrows) := by
  constructor
  case set_aspect =>
    intro _ v s
    refine ⟨?_, extends_refl _, extends_refl _, extends_refl _, extends_refl _, extends_refl _⟩
    show Extends _ ((s.scn.cameras.map (fun cam => { cam with aspect := v })).map camera_fields)
    rw [camera_fields_aspect]
    exact extends_refl _
  case add_declared_to_scene =>
    intro _ d s
    show SceneGrows s (add_declared_to_scene d s).state
    unfold add_declared_to_scene
    cases hd : s.declaredArena[d]? with
    | none => exact sceneGrows_refl s
    | some dm =>
      simp only []
      split
      · exact ⟨extends_refl _, extends_refl _, extends_refl _, ⟨[dm.mat], rfl⟩,
          extends_refl _, extends_refl _⟩
      · exact sceneGrows_refl s
  case advance =>
    refine always_of_scn _ (fun s => ?_)
    unfold advance
    split <;> rfl
  case current_token =>
    refine always_of_scn _ (fun s => ?_)
    unfold current_token
    split <;> rfl
  case current_path =>
    refine always_of_scn _ (fun s => ?_)
    unfold current_path
    split <;> rfl
  case get_material =>
    refine fun r => always_of_scn _ (fun s => ?_)
    unfold get_material
    split <;> rfl
  case get_declared =>
    refine fun r => always_of_scn _ (fun s => ?_)
    unfold get_declared
    split <;> rfl
  case get_texture =>
    refine fun r => always_of_scn _ (fun s => ?_)
    unfold get_texture
    split <;> rfl
  case get_unique_id =>
    refine fun _ id => always_of_scn _ (fun s => ?_)
    cases id <;> rfl
  case modify_material =>
    refine fun _ r f => always_of_scn _ (fun s => ?_)
    unfold modify_material
    split <;> rfl
  case modify_texture =>
    refine fun _ r f => always_of_scn _ (fun s => ?_)
    unfold modify_texture
    split <;> rfl
  case pop_attributes =>
    refine fun _ => always_of_scn _ (fun s => ?_)
    unfold pop_attributes
    split <;> rfl
  case pop_transform =>
    refine fun _ => always_of_scn _ (fun s => ?_)
    unfold pop_transform
    split <;> rfl
  case add_camera =>
    intro _ c s
    exact ⟨⟨[camera_fields c], by simp [add_camera, modifyScene, modifyS, Res.state]⟩,
      extends_refl _, extends_refl _, extends_refl _, extends_refl _, extends_refl _⟩
  case add_group =>
    intro _ g s
    exact ⟨extends_refl _, ⟨[g], rfl⟩, extends_refl _, extends_refl _, extends_refl _,
      extends_refl _⟩
  case add_instance =>
    intro _ i s
    exact ⟨extends_refl _, extends_refl _, ⟨[i], rfl⟩, extends_refl _, extends_refl _,
      extends_refl _⟩
  case new_scene_material =>
    intro _ m s
    exact ⟨extends_refl _, extends_refl _, extends_refl _, ⟨[s.materialArena.length], rfl⟩,
      extends_refl _, extends_refl _⟩
  case add_texture =>
    intro _ t s
    exact ⟨extends_refl _, extends_refl _, extends_refl _, extends_refl _, ⟨[t], rfl⟩,
      extends_refl _⟩
  case add_environment =>
    intro _ e s
    exact ⟨extends_refl _, extends_refl _, extends_refl _, extends_refl _, extends_refl _,
      ⟨[e], rfl⟩⟩
  all_goals first
    | exact always_pure sceneGrows_refl
    | exact always_bind sceneGrows_trans
    | exact always_raise sceneGrows_refl
    | exact always_bound
    | (intros
       intro s
       simp only [current_token, current_path, getG, get_defaults, get_textureSavePath,
         get_scene, get_material, get_declared, get_texture, get_inObjectDefinition,
         lookup_object, push_lexer, get_unique_id, modifyCTM, set_uvscale, set_areaLight,
         insert_named_material, bind_material, erase_named_texture, insert_named_texture,
         set_defaultFocus, add_camera, add_group, add_instance, add_texture,
         add_environment, modify_material, new_declared_material, alloc_texture, modify_texture,
         alloc_group, begin_object, end_object, capture_group, store_object, mark_object_added,
         new_scene_material, push_attributes, pop_attributes,
         push_transform, pop_transform, modifyS, modifyG, modifyScene, Res.state]
       first
         | exact sceneGrows_of_eq _ _ rfl
         | (split <;> exact sceneGrows_of_eq _ _ rfl))

/-- C34: every directive, whether it returns or raises, ends in a state in
which each list of the scene, the shapes, the instances, the materials, the
textures and the environments, is the list it started from with entries added
at its end, and in which the cameras are those it started from, in the same
order, with cameras added at the end; of a camera that is in the scene only
the aspect is ever assigned again (by `Film`, through the pointer).  This holds
of the directives before `WorldBegin`, of the world directives, among them
`Shape` and `ObjectInstance`, and of a whole parse. -/
theorem C34_scene_grows (Y : Ext F) (fuel : Nat) (s : PState F) :
    SceneGrows s (execute_preworld_directive Y s).state ∧
    SceneGrows s (execute_world_directive Y fuel s).state ∧
    SceneGrows s (execute_Shape Y s).state ∧
    SceneGrows s (execute_ObjectInstance Y s).state ∧
    SceneGrows s (parse Y fuel s).state :=
  ⟨execute_preworld_directive_resp sceneGrows_respects (fun _ _ => trivial) Y s,
    execute_world_directive_resp sceneGrows_respects (fun _ _ => trivial) Y fuel s,
    execute_Shape_resp sceneGrows_respects (fun _ _ => trivial) Y s,
    execute_ObjectInstance_resp sceneGrows_respects (fun _ _ => trivial) Y s,
    parse_resp sceneGrows_respects (fun _ _ => trivial) Y fuel s⟩

/-! ## C36: an active area light suppresses the geometry of shapes -/

theorem shape_material_lexers (Y : Ext F) (s s' : PState F) (m : Nat)
    (h : shape_material Y s = .ok m s') : s'.lexers = s.lexers := by
  simp only [shape_material, bind_ok] at h
  obtain ⟨g, s1, hg, h⟩ := h
  cases hg
  cases hm : s.gState.mat with
  | none =>
    simp only [hm, bind_ok] at h
    obtain ⟨name, s2, hn, h⟩ := h
    cases hn
    cases h
    rfl
  | some d =>
    simp only [hm] at h
    unfold add_declared_to_scene at h
    cases hd : s.declaredArena[d]? with
    | none => simp only [hd] at h; cases h
    | some dm =>
      simp only [hd] at h
      split at h
      · cases h; rfl
      · cases h; rfl

theorem modify_material_lexers (r : Nat) (f : Material F → Material F) (s s' : PState F)
    (h : modify_material r f s = .ok () s') :
    s'.lexers = s.lexers ∧ s'.groupArena = s.groupArena := by
  unfold modify_material at h
  cases hm : s.materialArena[r]? with
  | none => simp only [hm] at h; cases h
  | some m => simp only [hm] at h; cases h; exact ⟨rfl, rfl⟩

theorem add_shape_lexers (Y : Ext F) (shp : Shape F) (s s' : PState F)
    (h : add_shape Y shp s = .ok () s') :
    s'.lexers = s.lexers ∧
      ∃ gname shp', s'.groupArena = s.groupArena ++ [⟨gname, [shp']⟩] ∧
        shp'.pos = shp.pos ∧ shp'.norm = shp.norm ∧ shp'.triangles = shp.triangles ∧
        shp'.quads = shp.quads := by
  cases hf : s.inObjectDefinition with
  | true =>
    rw [add_shape_inside Y shp s hf] at h
    cases h
    exact ⟨rfl, _, _, rfl, rfl, rfl, rfl, rfl⟩
  | false =>
    rw [add_shape_outside Y shp s hf] at h
    cases h
    exact ⟨rfl, _, _, rfl, rfl, rfl, rfl, rfl⟩

theorem execute_world_directive_no_identifier (Y : Ext F) (fuel : Nat) (s : PState F)
    (l : Lexer) (ls : List Lexer) (hl : s.lexers = l :: ls)
    (ht : l.cur.type ≠ LexemeType.IDENTIFIER) :
    execute_world_directive Y (fuel + 1) s =
      .error (.syntaxError ("Identifier expected, got " ++ l.cur.value ++ " instead.")) s := by
  rw [execute_world_directive, bind_eq]
  simp only [current_token, hl]
  rw [bind_eq]
  simp only [throw_if, ne_eq, ht, not_false_eq_true, if_true, throw_syntax_exception, raise]

/-- C36, the failing input: let an area light be active, and let the class of
the shape and one more lexeme follow the word `Shape`.  When `execute_Shape`
returns, the current lexeme is the lexeme that follows the class of the shape:
the parameters of the shape are not read, whatever the class.  The shape that
was added has no positions, no normals, no triangles and no quads.  So when the
shape has parameters, the next directive is looked for at the header of the
first parameter, and `execute_world_directive` raises the syntax error of a
missing identifier. -/
theorem C36_area_light_suppresses_geometry (Y : Ext F) (s s' : PState F) (l : Lexer)
    (ls : List Lexer) (cls : String) (t : Lexeme) (ts : List Lexeme)
    (hl : s.lexers = l :: ls) (hr : l.rest = str cls :: t :: ts)
    (hact : s.gState.areaLight.active = true) (h : execute_Shape Y s = .ok () s') :
    s'.lexers = { l with cur := t, rest := ts } :: ls ∧
    (∃ gname shp, s'.groupArena = s.groupArena ++ [⟨gname, [shp]⟩] ∧
      shp.pos = [] ∧ shp.norm = [] ∧ shp.triangles = [] ∧ shp.quads = []) ∧
    (t.type ≠ LexemeType.IDENTIFIER → ∀ fuel,
      execute_world_directive Y (fuel + 1) s' =
        .error (.syntaxError ("Identifier expected, got " ++ t.value ++ " instead.")) s') := by
  have hk := shapesKept_respects (F := F)
  have h1 := advance_cons s l ls (str cls) (t :: ts) hl hr
  rw [execute_Shape, bind_eq, h1] at h
  simp only [] at h
  rw [bind_eq] at h
  simp only [current_token] at h
  rw [bind_eq] at h
  simp only [throw_if, str, ne_eq, not_true_eq_false, if_false, pure_eq] at h
  rw [bind_eq, advance_cons _ { l with cur := ⟨LexemeType.STRING, cls⟩, rest := t :: ts } ls t ts
    rfl rfl] at h
  simp only [] at h
  rw [bind_ok] at h
  obtain ⟨name, s4, h6, h7⟩ := h
  rw [bind_ok] at h7
  obtain ⟨mat, s5, h8, h9⟩ := h7
  have e4 : s4.lexers = { l with cur := t, rest := ts } :: ls ∧ s4.groupArena = s.groupArena ∧
      s4.gState = s.gState := by
    cases h6
    exact ⟨rfl, rfl, rfl⟩
  have e5 := shape_material_lexers Y _ _ _ h8
  have k5 : ShapesKept s4 s5 :=
    shape_material_resp hk (fun e he => by revert e he; decide) Y _ _ _ h8
  have hact5 : s5.gState.areaLight.active = true := by
    rw [k5.2.2.2.2.1, e4.2.2]
    exact hact
  rw [shape_of_class, bind_eq] at h9
  simp only [getG] at h9
  rw [if_pos hact5, bind_ok] at h9
  obtain ⟨u, s6, h10, h11⟩ := h9
  obtain ⟨e6, g6⟩ := modify_material_lexers _ _ _ _ h10
  obtain ⟨e7, gname, shp, hg, hp, hn, htr, hq⟩ := add_shape_lexers Y _ _ _ h11
  have hlex : s'.lexers = { l with cur := t, rest := ts } :: ls := by
    rw [e7, e6, e5, e4.1]
  refine ⟨hlex, ⟨gname, shp, ?_, hp, hn, htr, hq⟩, fun ht fuel => ?_⟩
  · rw [hg, g6, k5.2.2.2.2.2, e4.2.1]
  · exact execute_world_directive_no_identifier Y fuel s' _ ls hlex ht

/-- C36, witness: `AreaLightSource "diffuse" Shape "trianglemesh" "point3 P"
[0 0 0 1 0 0 0 1 0] "integer indices" [0 1 2] WorldEnd`.  The directive `Shape`
returns at the header `point3 P`, and the parse of the scene ends there in a
syntax error; without the area light the same scene is parsed, and its shape
has the three positions. -/
theorem C36_area_light_suppresses_geometry_witness :
    ((parse testExt 5 (test_state (ident "WorldBegin" :: lit_triangle_lexemes))).err? =
        some (.syntaxError "Identifier expected, got point3 P instead.") ∧
      (parse testExt 5 (test_state (ident "WorldBegin" :: lit_triangle_lexemes.drop 2))).isOk =
        true ∧
      (parse testExt 5
        (test_state (ident "WorldBegin" :: lit_triangle_lexemes.drop 2))).state.groupArena.map
          (fun g => g.shapes.map (fun shp => shp.pos.length)) = [[3]]) ∧
    (execute_Shape testExt at_lit_triangle).state.lexers =
      { lit_triangle_lexer with cur := str "point3 P", rest := lit_triangle_lexemes.drop 5 } ::
        [] ∧
    (∃ gname shp, (execute_Shape testExt at_lit_triangle).state.groupArena =
        at_lit_triangle.groupArena ++ [⟨gname, [shp]⟩] ∧
      shp.pos = [] ∧ shp.norm = [] ∧ shp.triangles = [] ∧ shp.quads = []) ∧
    ((str "point3 P").type ≠ LexemeType.IDENTIFIER → ∀ fuel,
      execute_world_directive testExt (fuel + 1) (execute_Shape testExt at_lit_triangle).state =
        .error (.syntaxError ("Identifier expected, got " ++ (str "point3 P").value ++
          " instead.")) (execute_Shape testExt at_lit_triangle).state) :=
  ⟨by decide!,
    C36_area_light_suppresses_geometry testExt at_lit_triangle
      (execute_Shape testExt at_lit_triangle).state lit_triangle_lexer [] "trianglemesh"
      (str "point3 P") (lit_triangle_lexemes.drop 5) (by decide!) (by decide!) (by decide!)
      (by decide!)⟩

/-! ## C31: a shape of an unknown class -/

theorem shape_material_total (Y : Ext F) (s : PState F)
    (hmat : ∀ d, s.gState.mat = some d → ∃ dm, s.declaredArena[d]? = some dm) :
    ∃ m s', shape_material Y s = .ok m s' := by
  rw [shape_material, bind_eq]
  simp only [getG]
  cases hm : s.gState.mat with
  | none =>
    simp only []
    rw [bind_eq]
    simp only [get_unique_id, new_scene_material]
    exact ⟨_, _, rfl⟩
  | some d =>
    obtain ⟨dm, hd⟩ := hmat d hm
    simp only [add_declared_to_scene, hd]
    split
    · exact ⟨_, _, rfl⟩
    · exact ⟨_, _, rfl⟩

theorem shape_of_class_unknown (Y : Ext F) (cls : String) (shp : Shape F) (mat : Nat)
    (s : PState F) (hc : cls ∉ shape_classes) (hact : s.gState.areaLight.active = false) :
    shape_of_class Y cls shp mat s = ignore_current_directive s := by
  simp only [shape_classes, List.mem_cons, List.mem_singleton, List.not_mem_nil, or_false,
    not_or] at hc
  obtain ⟨h1, h2, h3, h4, h5⟩ := hc
  rw [shape_of_class, bind_eq]
  simp only [getG, hact, Bool.false_eq_true, if_false, h1, h2, h3, h4, h5]

/-- C31, the failing input: let the class `cls` of the shape and one more
lexeme `c` follow the word `Shape`, and let `cls` be none of the five classes
that `execute_Shape` names.  With no area light active, when the lexemes after
`c` are lexemes that are not identifiers, then the identifier `next`, then
`tail`, `execute_Shape` succeeds, creates no shape group and keeps the shapes
and the instances of the scene and the captured shape groups, and the current
lexeme afterwards is `next`: the next identifier when `c` is the header of a
parameter, but the second next when `c` is itself the identifier of the next
directive, which is skipped with the shape.  With an area light active,
whenever `execute_Shape` returns it has allocated a shape group of one shape
and added it to the scene with an instance, or to the captured shape groups
inside an object block. -/
theorem C31_unknown_shape_class (Y : Ext F) (s : PState F) (l : Lexer) (ls : List Lexer)
    (cls : String) (c : Lexeme) (rest : List Lexeme) (hl : s.lexers = l :: ls)
    (hr : l.rest = str cls :: c :: rest) (hc : cls ∉ shape_classes) :
    (s.gState.areaLight.active = false →
      (∀ d, s.gState.mat = some d → ∃ dm, s.declaredArena[d]? = some dm) →
      ∀ (skipped : List Lexeme) (next : Lexeme) (tail : List Lexeme),
        rest ++ pending ls = skipped ++ next :: tail →
        (∀ t ∈ skipped, t.type ≠ LexemeType.IDENTIFIER) →
        next.type = LexemeType.IDENTIFIER →
        ∃ s', execute_Shape Y s = .ok () s' ∧
          s'.scn.shapes = s.scn.shapes ∧ s'.scn.instances = s.scn.instances ∧
          s'.shapesInObject = s.shapesInObject ∧ s'.groupArena = s.groupArena ∧
          ∃ l' below', s'.lexers = l' :: below' ∧ l'.cur = next ∧
            pending (l' :: below') = tail) ∧
    (s.gState.areaLight.active = true →
      ∀ s', execute_Shape Y s = .ok () s' →
        ∃ (gname : String) (shp : Shape F),
          s'.groupArena = s.groupArena ++ [⟨gname, [shp]⟩] ∧
          (s.inObjectDefinition = false →
            s'.scn.shapes = s.scn.shapes ++ [s.groupArena.length] ∧
            (∃ iname, s'.scn.instances = s.scn.instances ++
              [⟨iname, Y.mat_to_frame s.gState.CTM, some s.groupArena.length⟩])) ∧
          (s.inObjectDefinition = true →
            s'.shapesInObject = s.shapesInObject ++ [s.groupArena.length])) := by
  have hk := shapesKept_respects (F := F)
  have h1 := advance_cons s l ls (str cls) (c :: rest) hl hr
  constructor
  · intro hact hmat skipped next tail hp hskip hnext
    obtain ⟨m, s5, h8⟩ := shape_material_total Y
      ({ s with
        lexers := { l with cur := c, rest := rest } :: ls
        shapeCounter := (s.shapeCounter + 1) % 2 ^ 32 } : PState F) hmat
    have e5 := shape_material_lexers Y _ _ _ h8
    have k5 : ShapesKept _ s5 :=
      shape_material_resp hk (fun e he => by revert e he; decide) Y _ _ _ h8
    obtain ⟨q1, q2, q3, q4, q5, q6⟩ := k5
    have hp5 : pending s5.lexers = skipped ++ next :: tail := by
      rw [e5, ← hp]
      simp [pending]
    obtain ⟨l', below', hrun, hcur, hpend⟩ :=
      ignore_current_directive_ok s5 skipped next tail hp5 hskip hnext
    refine ⟨{ s5 with lexers := l' :: below' }, ?_, q1, q2, q3, q6, l', below', rfl, hcur, hpend⟩
    rw [execute_Shape, bind_eq, h1]
    simp only []
    rw [bind_eq]
    simp only [current_token]
    rw [bind_eq]
    simp only [throw_if, str, ne_eq, not_true_eq_false, if_false, pure_eq]
    rw [bind_eq, advance_cons _ { l with cur := ⟨LexemeType.STRING, cls⟩, rest := c :: rest } ls
      c rest rfl rfl]
    simp only []
    rw [bind_eq]
    simp only [get_unique_id]
    rw [bind_eq, h8]
    simp only []
    rw [shape_of_class_unknown Y cls _ m s5 hc (by rw [q5]; exact hact)]
    exact hrun
  · intro hact s' h
    obtain ⟨gname, shp, hg, hout, hin⟩ := execute_Shape_added Y s _ s' cls h h1 rfl (Or.inr hact)
    exact ⟨gname, shp, hg, fun hf => ⟨(hout hf).1, (hout hf).2.1⟩, fun hf => (hin hf).1⟩

/-- C31, witness: `Shape "cone" "float radius" [1]` before `WorldEnd` is
skipped; with an area light active it adds a shape group to the scene; and
`Shape "cone"` without parameters before `Shape "cube"` skips the cube as
well.  The parse of a scene ends in an error when an area light precedes the
cone with its parameter, and when the cone without parameters is the last
directive. -/
theorem C31_unknown_shape_class_witness :
    ((parse testExt 5 (test_state [ident "WorldBegin", ident "AreaLightSource", str "diffuse",
        ident "Shape", str "cone", str "float radius", lbr, num "1", rbr,
        ident "WorldEnd"])).err? =
        some (.syntaxError "Identifier expected, got float radius instead.") ∧
      (parse testExt 5 (test_state [ident "WorldBegin", ident "Shape", str "cone",
        ident "WorldEnd"])).err? = some .inputEnded) ∧
    (∃ s', execute_Shape testExt at_cone = .ok () s' ∧
      s'.scn.shapes = at_cone.scn.shapes ∧ s'.scn.instances = at_cone.scn.instances ∧
      s'.shapesInObject = at_cone.shapesInObject ∧ s'.groupArena = at_cone.groupArena ∧
      ∃ l' below', s'.lexers = l' :: below' ∧ l'.cur = ident "WorldEnd" ∧
        pending (l' :: below') = []) ∧
    (∃ (gname : String) (shp : Shape Rat),
      (execute_Shape testExt at_lit_cone).state.groupArena =
        at_lit_cone.groupArena ++ [⟨gname, [shp]⟩] ∧
      (at_lit_cone.inObjectDefinition = false →
        (execute_Shape testExt at_lit_cone).state.scn.shapes =
          at_lit_cone.scn.shapes ++ [at_lit_cone.groupArena.length] ∧
        (∃ iname, (execute_Shape testExt at_lit_cone).state.scn.instances =
          at_lit_cone.scn.instances ++
            [⟨iname, testExt.mat_to_frame at_lit_cone.gState.CTM,
              some at_lit_cone.groupArena.length⟩])) ∧
      (at_lit_cone.inObjectDefinition = true →
        (execute_Shape testExt at_lit_cone).state.shapesInObject =
          at_lit_cone.shapesInObject ++ [at_lit_cone.groupArena.length])) ∧
    (∃ s', execute_Shape testExt at_bare_cone = .ok () s' ∧
      s'.scn.shapes = at_bare_cone.scn.shapes ∧
      s'.scn.instances = at_bare_cone.scn.instances ∧
      s'.shapesInObject = at_bare_cone.shapesInObject ∧
      s'.groupArena = at_bare_cone.groupArena ∧
      ∃ l' below', s'.lexers = l' :: below' ∧ l'.cur = ident "WorldEnd" ∧
        pending (l' :: below') = []) :=
  ⟨by decide!,
    (C31_unknown_shape_class testExt at_cone
      ⟨ident "Shape", [str "cone", str "float radius", lbr, num "1", rbr, ident "WorldEnd"],
        "."⟩ [] "cone" (str "float radius") [lbr, num "1", rbr, ident "WorldEnd"]
      (by decide!) rfl (by decide)).1 (by decide!)
      (by
        intro d hd
        have hm : at_cone.gState.mat = none := by decide!
        rw [hm] at hd
        cases hd) [lbr, num "1", rbr] (ident "WorldEnd") []
      (by decide!) (by decide) rfl,
    (C31_unknown_shape_class testExt at_lit_cone
      ⟨ident "Shape", [str "cone", str "float radius", lbr, num "1", rbr, ident "WorldEnd"],
        "."⟩ [] "cone" (str "float radius") [lbr, num "1", rbr, ident "WorldEnd"]
      (by decide!) rfl (by decide)).2 (by decide!) _ (by decide!),
    (C31_unknown_shape_class testExt at_bare_cone
      ⟨ident "Shape", [str "cone", ident "Shape", str "cube", ident "WorldEnd"], "."⟩ []
      "cone" (ident "Shape") [str "cube", ident "WorldEnd"]
      (by decide!) rfl (by decide)).1 (by decide!)
      (by
        intro d hd
        have hm : at_bare_cone.gState.mat = none := by decide!
        rw [hm] at hd
        cases hd) [str "cube"] (ident "WorldEnd") []
      (by decide!) (by decide) rfl⟩

/-! ## C37: the normals of a triangle mesh are always computed -/

theorem update_index_length {α : Type} (v v' : List α) (i : Int) (f : α → α)
    (h : update_index v i f = some v') : v'.length = v.length := by
  unfold update_index at h
  cases ha : at_index v i with
  | none => simp only [ha] at h; cases h
  | some a =>
    simp only [ha, Option.some.injEq] at h
    rw [← h, List.length_set]

theorem accumulate_normal_length (Y : Ext F) (pos : List (Vec3 F)) (weighted : Bool)
    (norm norm' : List (Vec3 F)) (t : Vec3i)
    (h : accumulate_normal Y pos weighted norm t = some norm') :
    norm'.length = norm.length := by
  unfold accumulate_normal at h
  split at h
  · simp only [] at h
    split at h
    · cases h
    · next n1 h1 =>
      split at h
      · cases h
      · next n2 h2 =>
        rw [update_index_length _ _ _ _ h, update_index_length _ _ _ _ h2,
          update_index_length _ _ _ _ h1]
  · cases h

theorem accumulate_normals_length (Y : Ext F) (pos : List (Vec3 F)) (weighted : Bool)
    (triangles : List Vec3i) :
    ∀ norm norm' : List (Vec3 F), accumulate_normals Y pos weighted triangles norm = some norm' →
      norm'.length = norm.length := by
  induction triangles with
  | nil =>
    intro norm norm' h
    simp only [accumulate_normals, Option.some.injEq] at h
    rw [h]
  | cons t ts ih =>
    intro norm norm' h
    unfold accumulate_normals at h
    cases h1 : accumulate_normal Y pos weighted norm t with
    | none => simp only [h1] at h; cases h
    | some n1 =>
      simp only [h1] at h
      rw [ih n1 norm' h, accumulate_normal_length Y pos weighted norm n1 t h1]

/-- The normals that `my_compute_normals` returns: one for each position. -/
theorem my_compute_normals_length (Y : Ext F) (triangles : List Vec3i) (pos : List (Vec3 F))
    (weighted : Bool) (norm : List (Vec3 F))
    (h : my_compute_normals Y triangles pos weighted = some norm) :
    norm.length = pos.length := by
  unfold my_compute_normals at h
  simp only [] at h
  cases h1 : accumulate_normals Y pos weighted triangles
      (List.replicate pos.length (vconst Y 0)) with
  | none => simp only [h1] at h; cases h
  | some n1 =>
    simp only [h1, Option.some.injEq] at h
    rw [← h, List.length_map, accumulate_normals_length Y pos weighted triangles _ n1 h1,
      List.length_replicate]

theorem param_value_some (name : String) (params : List (PBRTParameter F)) (v : ParamValue F)
    (h : param_value name params = some v) :
    ∃ i p, find_param name params = some i ∧ params[i]? = some p ∧ p.value = v := by
  unfold param_value at h
  cases hf : find_param name params with
  | none => simp only [hf] at h; cases h
  | some i =>
    simp only [hf] at h
    cases hp : params[i]? with
    | none => simp only [hp, Option.map_none'] at h; cases h
    | some p =>
      simp only [hp, Option.map_some', Option.some.injEq] at h
      exact ⟨i, p, rfl, hp, h⟩

/-- A successful `trianglemesh_of_params`: the parameters hold positions and
indices, the shape has the positions and the triangles of these added to its
own, and its normals are those that `my_compute_normals` computes of these
triangles and positions. -/
theorem trianglemesh_of_params_ok (Y : Ext F) (params : List (PBRTParameter F))
    (shp shp' : Shape F) (s s' : PState F)
    (h : trianglemesh_of_params Y params shp s = .ok shp' s') :
    ∃ vP data, param_value "P" params = some (.vec3s vP) ∧
      param_value "indices" params = some (.ints data) ∧
      shp'.pos = shp.pos ++ vP ∧ shp'.triangles = shp.triangles ++ triples data ∧
      my_compute_normals Y shp'.triangles shp'.pos true = some shp'.norm := by
  simp only [trianglemesh_of_params, bind_ok] at h
  obtain ⟨⟨shp1, pc⟩, s1, hP, h⟩ := h
  simp only [bind_ok] at h
  obtain ⟨shp2, s2, hN, ⟨shp3, ic⟩, s3, hI, h⟩ := h
  simp only [bind_ok] at h
  obtain ⟨shp4, s4, hU, shp5, s5, hC, h⟩ := h
  have t1 : shp1.triangles = shp.triangles ∧
      (pc = true → ∃ vP, param_value "P" params = some (.vec3s vP) ∧
        shp1.pos = shp.pos ++ vP) := by
    cases hf : find_param "P" params with
    | none =>
      simp only [hf, pure_ok, Prod.mk.injEq] at hP
      obtain ⟨⟨rfl, rfl⟩, -⟩ := hP
      exact ⟨rfl, fun hpc => by cases hpc⟩
    | some j =>
      simp only [hf, bind_ok] at hP
      obtain ⟨q, sq, hq0, hP⟩ := hP
      obtain ⟨-, hq1⟩ := param_at_ok _ _ _ _ _ hq0
      cases hq : q.value <;> simp only [hq] at hP <;> cases hP
      exact ⟨rfl, fun _ => ⟨_, by simp only [param_value, hf, hq1, Option.map_some', hq], rfl⟩⟩
  have t2 : shp2.triangles = shp1.triangles ∧ shp2.pos = shp1.pos := by
    cases hf : find_param "N" params with
    | none =>
      simp only [hf, pure_ok] at hN
      obtain ⟨rfl, -⟩ := hN
      exact ⟨rfl, rfl⟩
    | some j =>
      simp only [hf, bind_ok] at hN
      obtain ⟨q, sq, -, hN⟩ := hN
      cases hq : q.value <;> simp only [hq] at hN <;> cases hN
      exact ⟨rfl, rfl⟩
  have t3 : shp3.pos = shp2.pos ∧
      (ic = true → ∃ data, param_value "indices" params = some (.ints data) ∧
        shp3.triangles = shp2.triangles ++ triples data) := by
    cases hf : find_param "indices" params with
    | none =>
      simp only [hf, pure_ok, Prod.mk.injEq] at hI
      obtain ⟨⟨rfl, rfl⟩, -⟩ := hI
      exact ⟨rfl, fun hic => by cases hic⟩
    | some j =>
      simp only [hf, bind_ok] at hI
      obtain ⟨q, sq, hq0, hI⟩ := hI
      obtain ⟨-, hq1⟩ := param_at_ok _ _ _ _ _ hq0
      cases hq : q.value <;> simp only [hq] at hI
      case ints data =>
        split at hI
        · cases hI
        · cases hI
          exact ⟨rfl, fun _ =>
            ⟨_, by simp only [param_value, hf, hq1, Option.map_some', hq], rfl⟩⟩
      all_goals cases hI
  have t4 : shp4.triangles = shp3.triangles ∧ shp4.pos = shp3.pos := by
    have key : ∀ iuv : Option Nat,
        (match iuv with
          | some i => do
            let p ← param_at params i
            match p.value with
            | .floats data =>
              match pair_up data with
              | some uvs => pure { shp3 with texcoord := shp3.texcoord ++ uvs }
              | none => raise .outOfRange
            | _ => raise (.undefinedBehaviour "cast of the value of uv")
          | none => pure shp3 : M F (Shape F)) s3 = .ok shp4 s4 →
        shp4.triangles = shp3.triangles ∧ shp4.pos = shp3.pos := by
      intro iuv hU
      cases iuv with
      | none =>
        cases hU
        exact ⟨rfl, rfl⟩
      | some j =>
        simp only [bind_ok] at hU
        obtain ⟨q, sq, -, hU⟩ := hU
        cases hq : q.value <;> simp only [hq] at hU
        case floats v =>
          cases hv : pair_up v <;> simp only [hv] at hU <;> cases hU
          exact ⟨rfl, rfl⟩
        all_goals cases hU
    exact key _ hU
  have t5 : shp5.triangles = shp4.triangles ∧ shp5.pos = shp4.pos ∧
      my_compute_normals Y shp4.triangles shp4.pos true = some shp5.norm := by
    cases hc : my_compute_normals Y shp4.triangles shp4.pos true <;>
      simp only [hc] at hC <;> cases hC
    exact ⟨rfl, rfl, rfl⟩
  have t6 : shp' = shp5 ∧ ic = true ∧ pc = true := by
    split at h
    · cases h
    · next hflags =>
      cases h
      exact ⟨rfl, not_not.mp hflags⟩
  obtain ⟨rfl, hic, hpc⟩ := t6
  obtain ⟨vP, hvP, hpos⟩ := t1.2 hpc
  obtain ⟨data, hdata, htri⟩ := t3.2 hic
  refine ⟨vP, data, hvP, hdata, ?_, ?_, ?_⟩
  · rw [t5.2.1, t4.2, t3.1, t2.2, hpos]
  · rw [t5.1, t4.1, htri, t2.1, t1.1]
  · rw [t5.1, t5.2.1]
    exact t5.2.2

/-- C37: let the parameters of a triangle mesh be parsed.  Whenever
`parse_trianglemesh` returns a shape, the parameters hold positions `P` and
`indices`, the shape has the positions and the triangles of these added to its
own, and its normals are those that `my_compute_normals` computes of its
triangles and positions, one for each position: no value of an `N` parameter
is among them, and every mesh that `parse_trianglemesh` builds from the same
shape with the same values of `P` and of `indices` has the same normals,
whatever its other parameters.  And `parse_trianglemesh` does return a shape
when the number of indices is a multiple of 3, every index of the shape and of
the parameters is within the positions, and the texture coordinates, if any,
are floats in even number. -/
theorem C37_normals_recomputed (Y : Ext F) (shp : Shape F) (s s1 : PState F)
    (params : List (PBRTParameter F)) (hpar : parse_parameters Y [] s = .ok params s1) :
    (∀ shp' s', parse_trianglemesh Y shp s = .ok shp' s' →
      my_compute_normals Y shp'.triangles shp'.pos true = some shp'.norm ∧
      shp'.norm.length = shp'.pos.length ∧
      (∃ vP data, param_value "P" params = some (.vec3s vP) ∧
        param_value "indices" params = some (.ints data) ∧
        shp'.pos = shp.pos ++ vP ∧ shp'.triangles = shp.triangles ++ triples data) ∧
      ∀ (t t1 t2 : PState F) (params2 : List (PBRTParameter F)) (shp2 : Shape F),
        parse_parameters Y [] t = .ok params2 t1 →
        parse_trianglemesh Y shp t = .ok shp2 t2 →
        param_value "P" params2 = param_value "P" params →
        param_value "indices" params2 = param_value "indices" params →
        shp2.norm = shp'.norm) ∧
    (∀ (vP : List (Vec3 F)) (data : List Int),
      param_value "P" params = some (.vec3s vP) →
      param_value "indices" params = some (.ints data) → data.length % 3 = 0 →
      (∀ x ∈ data, index_ok (shp.pos ++ vP).length x) →
      (∀ t ∈ shp.triangles, index_ok (shp.pos ++ vP).length t.x ∧
        index_ok (shp.pos ++ vP).length t.y ∧ index_ok (shp.pos ++ vP).length t.z) →
      (∀ j, (find_param "uv" params = some j ∨
          (find_param "uv" params = none ∧ find_param "st" params = some j)) →
        ∃ q v, params[j]? = some q ∧ q.value = .floats v ∧ v.length % 2 = 0) →
      ∃ shp', parse_trianglemesh Y shp s = .ok shp' s1) := by
  rw [parse_trianglemesh_eq Y shp s s1 params hpar]
  constructor
  · intro shp' s' h
    obtain ⟨vP, data, hP, hI, hpos, htri, hn⟩ := trianglemesh_of_params_ok Y params shp shp' s1 s' h
    refine ⟨hn, my_compute_normals_length Y _ _ _ _ hn, ⟨vP, data, hP, hI, hpos, htri⟩, ?_⟩
    intro t t1 t2 params2 shp2 hpar2 h2 eP eI
    rw [parse_trianglemesh_eq Y shp t t1 params2 hpar2] at h2
    obtain ⟨vP2, data2, hP2, hI2, hpos2, htri2, hn2⟩ :=
      trianglemesh_of_params_ok Y params2 shp shp2 t1 t2 h2
    rw [eP, hP] at hP2
    rw [eI, hI] at hI2
    cases hP2
    cases hI2
    rw [hpos2, htri2] at hn2
    rw [hpos, htri, hn2] at hn
    exact Option.some.inj hn
  · intro vP data hP hI h3 hrange hold huv
    obtain ⟨iP, pP, hfP, hpP, hvP⟩ := param_value_some "P" params _ hP
    obtain ⟨i, p, hfi, hp, hv⟩ := param_value_some "indices" params _ hI
    exact trianglemesh_success Y params shp s1 (parse_parameters_typed Y params s s1 hpar)
      i p data hfi hp hv h3 iP pP vP hfP hpP hvP hrange hold huv

/-- C37, witness: the triangle of the minimal scene with the normals
`(1, 0, 0)` supplied: `parse_trianglemesh` returns a shape whose normals are
the computed ones, `(0, 0, -1)`, as for the same triangle without `N`. -/
theorem C37_normals_recomputed_witness :
    ∃ shp', parse_trianglemesh testExt (Shape.new Rat)
          (at_mesh_parameters triangle_with_normals_lexemes) =
        .ok shp' (parse_parameters testExt []
          (at_mesh_parameters triangle_with_normals_lexemes)).state ∧
      shp'.norm = [⟨0, 0, -1⟩, ⟨0, 0, -1⟩, ⟨0, 0, -1⟩] ∧
      shp'.norm.length = shp'.pos.length ∧
      ∀ shp2 t2, parse_trianglemesh testExt (Shape.new Rat)
          (at_mesh_parameters triangle_lexemes) = .ok shp2 t2 → shp2.norm = shp'.norm := by
  have h := C37_normals_recomputed testExt (Shape.new Rat)
    (at_mesh_parameters triangle_with_normals_lexemes)
    (parse_parameters testExt [] (at_mesh_parameters triangle_with_normals_lexemes)).state
    triangle_with_normals_params (by decide!)
  obtain ⟨shp', hs⟩ := h.2 [⟨0, 0, 0⟩, ⟨1, 0, 0⟩, ⟨0, 1, 0⟩] [0, 1, 2] (by decide!) (by decide!)
    (by decide) (by decide!) (by intro t ht; cases ht)
    (by
      intro j hj
      rcases hj with hj | ⟨-, hj⟩ <;> simp [triangle_with_normals_params, find_param] at hj)
  obtain ⟨hn, hlen, ⟨vP, data, hP, hI, hpos, htri⟩, hsame⟩ := h.1 shp' _ hs
  have e1 : vP = [⟨0, 0, 0⟩, ⟨1, 0, 0⟩, ⟨0, 1, 0⟩] := by
    have : param_value "P" triangle_with_normals_params =
        some (.vec3s [⟨0, 0, 0⟩, ⟨1, 0, 0⟩, ⟨0, 1, 0⟩]) := by decide!
    rw [this] at hP
    cases hP
    rfl
  have e2 : data = [0, 1, 2] := by
    have : param_value "indices" triangle_with_normals_params = some (.ints [0, 1, 2]) := by
      decide!
    rw [this] at hI
    cases hI
    rfl
  subst e1 e2
  refine ⟨shp', hs, ?_, hlen, ?_⟩
  · rw [hpos, htri] at hn
    have : my_compute_normals testExt ((Shape.new Rat).triangles ++ triples [0, 1, 2])
        ((Shape.new Rat).pos ++ [⟨0, 0, 0⟩, ⟨1, 0, 0⟩, ⟨0, 1, 0⟩]) true =
        some [⟨0, 0, -1⟩, ⟨0, 0, -1⟩, ⟨0, 0, -1⟩] := by decide!
    rw [this] at hn
    exact (Option.some.inj hn).symm
  · intro shp2 t2 h2
    exact hsame (at_mesh_parameters triangle_lexemes)
      (parse_parameters testExt [] (at_mesh_parameters triangle_lexemes)).state t2
      triangle_params shp2 (by decide!) h2 (by decide!) (by decide!)

/-! ## C38: parse_parameters -/

theorem consumes_refl (s : PState F) : Consumes s s := ⟨0, rfl⟩

theorem consumes_trans (s s1 s2 : PState F) (h1 : Consumes s s1) (h2 : Consumes s1 s2) :
    Consumes s s2 := by
  obtain ⟨k1, e1⟩ := h1
  obtain ⟨k2, e2⟩ := h2
  exact ⟨k1 + k2, by rw [e2, e1, List.drop_drop, Nat.add_comm]⟩

theorem safe_pure {α : Type} (a : α) : Safe (pure a : M F α) := by
  refine ⟨fun s e s' h => ?_, fun s b s' h => ?_⟩
  · cases h
  · cases h
    exact consumes_refl _

theorem safe_raise {α : Type} (e : Err) (he : e ≠ Err.timeout) : Safe (raise e : M F α) := by
  refine ⟨fun s e' s' h => ?_, fun s b s' h => ?_⟩
  · cases h
    exact he
  · cases h

theorem safe_throw {α : Type} (msg : String) : Safe (throw_syntax_exception msg : M F α) :=
  safe_raise _ (by intro h; cases h)

theorem safe_bind {α β : Type} (m : M F α) (f : α → M F β) (hm : Safe m)
    (hf : ∀ a, Safe (f a)) : Safe (m >>= f) := by
  constructor
  · intro s e s' h
    rw [bind_eq] at h
    cases hms : m s with
    | ok a s1 => rw [hms] at h; exact (hf a).no_timeout s1 e s' h
    | error e1 s1 => rw [hms] at h; cases h; exact hm.no_timeout s _ _ hms
  · intro s b s' h
    rw [bind_eq] at h
    cases hms : m s with
    | ok a s1 =>
      rw [hms] at h
      exact consumes_trans _ _ _ (hm.consumes s a s1 hms) ((hf a).consumes s1 b s' h)
    | error e1 s1 => rw [hms] at h; cases h

theorem safe_ite {α : Type} (c : Prop) [Decidable c] (a b : M F α) (ha : Safe a)
    (hb : Safe b) : Safe (if c then a else b) := by
  split
  · exact ha
  · exact hb

theorem remaining_advance_lexers (ls ls' : List Lexer)
    (h : advance_lexers ls = (none, ls')) : remaining ls' + 1 = remaining ls := by
  induction ls with
  | nil => simp [advance_lexers] at h
  | cons l ls ih =>
    cases hr : l.rest with
    | cons t ts =>
      simp only [advance_lexers, hr] at h
      cases h
      simp [remaining, hr]
      omega
    | nil =>
      cases ls with
      | nil => simp [advance_lexers, hr] at h
      | cons l2 ls2 =>
        simp only [advance_lexers, hr] at h
        have := ih (by simpa only [advance_lexers] using h)
        simp only [remaining, List.map_cons, List.sum_cons, hr, List.length_nil,
          Nat.zero_add] at this ⊢
        exact this

theorem advance_lexers_error (ls ls' : List Lexer) (e : Err)
    (h : advance_lexers ls = (some e, ls')) : e ≠ Err.timeout := by
  induction ls with
  | nil =>
    simp only [advance_lexers, Prod.mk.injEq, Option.some.injEq] at h
    rw [← h.1]
    intro he; cases he
  | cons l ls ih =>
    cases hr : l.rest with
    | cons t ts => simp [advance_lexers, hr] at h
    | nil =>
      cases ls with
      | nil =>
        simp only [advance_lexers, hr, Prod.mk.injEq, Option.some.injEq] at h
        rw [← h.1]
        intro he; cases he
      | cons l2 ls2 =>
        simp only [advance_lexers, hr] at h
        exact ih (by simpa only [advance_lexers] using h)

theorem advance_remaining (s s' : PState F) (h : advance s = .ok () s') :
    remaining s'.lexers + 1 = remaining s.lexers := by
  unfold advance at h
  cases ha : advance_lexers s.lexers with
  | mk e ls =>
    cases e with
    | none =>
      simp only [ha] at h
      cases h
      exact remaining_advance_lexers _ _ ha
    | some e =>
      simp only [ha] at h
      cases h

theorem advance_error (s s' : PState F) (e : Err) (h : advance s = .error e s') :
    e ≠ Err.timeout := by
  unfold advance at h
  cases ha : advance_lexers s.lexers with
  | mk e0 ls =>
    cases e0 with
    | none => simp only [ha] at h; cases h
    | some e1 =>
      simp only [ha] at h
      cases h
      exact advance_lexers_error _ _ _ ha

theorem advance_upcoming (s s' : PState F) (h : advance s = .ok () s') :
    upcoming s'.lexers = (upcoming s.lexers).drop 1 := by
  have hrem := advance_remaining s s' h
  cases hp : pending s.lexers with
  | nil =>
    rw [remaining_eq_pending s.lexers, hp] at hrem
    simp at hrem
  | cons t rest =>
    obtain ⟨l, below, ha, hc, hpr⟩ := advance_delivers s t rest hp
    rw [h] at ha
    cases ha
    cases hl : s.lexers with
    | nil => rw [hl] at hp; cases hp
    | cons l0 ls0 =>
      rw [hl] at hp
      simp only [upcoming, hc, hpr, hp, List.drop_succ_cons, List.drop_zero]

theorem safe_advance : Safe (advance : M F Unit) :=
  ⟨fun s e s' h => advance_error s s' e h, fun s _ s' h => ⟨1, advance_upcoming s s' h⟩⟩

theorem consumes_remaining (s s' : PState F) (h : Consumes s s') :
    remaining s'.lexers ≤ remaining s.lexers := by
  obtain ⟨k, hk⟩ := h
  have hlen := congrArg List.length hk
  rw [List.length_drop] at hlen
  rw [remaining_eq_pending, remaining_eq_pending]
  cases hl' : s'.lexers with
  | nil => simp [pending]
  | cons l' ls' =>
    cases hl : s.lexers with
    | nil => rw [hl, hl'] at hlen; simp [upcoming] at hlen
    | cons l ls =>
      rw [hl, hl'] at hlen
      simp only [upcoming, List.length_cons] at hlen
      omega

theorem safe_current_token : Safe (current_token : M F Lexeme) := by
  constructor
  · intro s e s' h
    unfold current_token at h
    cases hl : s.lexers with
    | nil => simp only [hl] at h; cases h; intro he; cases he
    | cons l ls => simp only [hl] at h; cases h
  · intro s a s' h
    rw [current_token_ok _ _ _ h]
    exact consumes_refl _

theorem safe_current_path : Safe (current_path : M F String) := by
  constructor
  · intro s e s' h
    unfold current_path at h
    cases hl : s.lexers with
    | nil => simp only [hl] at h; cases h; intro he; cases he
    | cons l ls => simp only [hl] at h; cases h
  · intro s a s' h
    unfold current_path at h
    cases hl : s.lexers with
    | nil => simp only [hl] at h; cases h
    | cons l ls => simp only [hl] at h; cases h; exact consumes_refl _

theorem safe_check (name type : String) :
    Safe (liftExcept (check_param_type name type) : M F Bool) := by
  unfold check_param_type check_param_type_in
  split
  · exact safe_pure _
  · split
    · exact safe_pure _
    · exact safe_raise _ (by intro h; cases h)

theorem collect_values_safe {T : Type} (kind : LexemeType) (conv : String → T) (n : Nat) :
    ∀ (acc : List T) (s : PState F), remaining s.lexers < n →
      (∀ e s', collect_values kind conv n acc s = .error e s' → e ≠ Err.timeout) ∧
      (∀ a s', collect_values kind conv n acc s = .ok a s' → Consumes s s') := by
  induction n with
  | zero => intro acc s h; omega
  | succ n ih =>
    intro acc s hn
    unfold collect_values
    cases hc : (current_token : M F Lexeme) s with
    | error e s1 =>
      constructor
      · intro e' s' h
        rw [bind_eq, hc] at h
        cases h
        exact safe_current_token.no_timeout s _ _ hc
      · intro a s' h
        rw [bind_eq, hc] at h
        cases h
    | ok t s1 =>
      have e1 := current_token_ok _ _ _ hc
      subst e1
      by_cases hk : t.type = kind
      · cases ha : (advance : M F Unit) s1 with
        | error e s2 =>
          constructor
          · intro e' s' h
            rw [bind_eq, hc] at h
            simp only [hk, if_true] at h
            rw [bind_eq, ha] at h
            cases h
            exact advance_error _ _ _ ha
          · intro a s' h
            rw [bind_eq, hc] at h
            simp only [hk, if_true] at h
            rw [bind_eq, ha] at h
            cases h
        | ok u s2 =>
          have hr := advance_remaining _ _ ha
          have := ih (acc ++ [conv t.value]) s2 (by omega)
          constructor
          · intro e' s' h
            rw [bind_eq, hc] at h
            simp only [hk, if_true] at h
            rw [bind_eq, ha] at h
            exact this.1 _ _ h
          · intro a s' h
            rw [bind_eq, hc] at h
            simp only [hk, if_true] at h
            rw [bind_eq, ha] at h
            exact consumes_trans _ _ _ ⟨1, advance_upcoming _ _ ha⟩ (this.2 _ _ h)
      · constructor
        · intro e' s' h
          rw [bind_eq, hc] at h
          simp only [hk, if_false] at h
          cases h
        · intro a s' h
          rw [bind_eq, hc] at h
          simp only [hk, if_false] at h
          cases h
          exact consumes_refl _

theorem safe_collect {T : Type} (kind : LexemeType) (conv : String → T) :
    Safe (with_lexeme_bound (fun n => collect_values kind conv n ([] : List T)) : M F _) :=
  ⟨fun s => (collect_values_safe kind conv _ [] s (Nat.lt_succ_self _)).1,
    fun s => (collect_values_safe kind conv _ [] s (Nat.lt_succ_self _)).2⟩

theorem safe_parse_value {T : Type} (kind : LexemeType) (conv : String → T) :
    Safe (parse_value kind conv : M F (List T)) := by
  unfold parse_value
  repeat' first
    | with_reducible first
      | apply safe_collect | apply safe_advance | apply safe_current_token
      | apply safe_throw | apply safe_bind | apply safe_pure | apply safe_ite
    | intro _ | split | dsimp only

theorem safe_parse_parameter_value (Y : Ext F) (type name : String) :
    Safe (parse_parameter_value Y type name) := by
  unfold parse_parameter_value
  repeat' first
    | with_reducible first
      | apply safe_parse_value | apply safe_advance | apply safe_current_token
      | apply safe_current_path
      | apply safe_throw | apply safe_bind | apply safe_pure | apply safe_ite
    | intro _ | split | dsimp only

theorem safe_parse_parameter (Y : Ext F) : Safe (parse_parameter Y) := by
  unfold parse_parameter
  repeat' first
    | with_reducible first
      | apply safe_parse_parameter_value | apply safe_advance | apply safe_current_token
      | apply safe_check
      | apply safe_throw | apply safe_bind | apply safe_pure | apply safe_ite
    | exact safe_raise _ (fun h => by cases h)
    | intro _ | split | dsimp only

/-- A successful `parse_parameter` has read the header, which is a lexeme of
type STRING, advanced over it, and parsed the value from there. -/
theorem parse_parameter_ok (Y : Ext F) (s s' : PState F) (p : PBRTParameter F)
    (h : parse_parameter Y s = .ok p s') :
    ∃ s2, advance s = .ok () s2 ∧ Consumes s2 s' := by
  unfold parse_parameter at h
  rw [bind_ok] at h
  obtain ⟨t, s1, hc, h⟩ := h
  have e1 := current_token_ok _ _ _ hc
  subst e1
  by_cases ht : t.type = LexemeType.STRING
  · simp only [ht, ne_eq, not_true_eq_false, if_false] at h
    cases hs : split t.value with
    | nil => simp only [hs] at h; cases h
    | cons tok0 r =>
      cases r with
      | nil => simp only [hs] at h; cases h
      | cons tok1 more =>
        simp only [hs] at h
        rw [bind_ok] at h
        obtain ⟨b, s2, hchk, h⟩ := h
        have e2 := (liftExcept_ok _ _ _ _ hchk).2
        subst e2
        rw [bind_ok] at h
        obtain ⟨u, s3, ha, h⟩ := h
        exact ⟨s3, ha, (safe_parse_parameter_value Y _ _).consumes _ _ _ h⟩
  · simp only [ht, ne_eq, not_false_eq_true, if_true] at h
    cases h

theorem parse_parameter_decreases (Y : Ext F) (s s' : PState F) (p : PBRTParameter F)
    (h : parse_parameter Y s = .ok p s') : remaining s'.lexers < remaining s.lexers := by
  obtain ⟨s2, ha, hc⟩ := parse_parameter_ok Y s s' p h
  have h1 := advance_remaining _ _ ha
  have h2 := consumes_remaining _ _ hc
  omega

theorem current_token_cur (s s' : PState F) (t : Lexeme) (h : current_token s = .ok t s') :
    ∃ l ls, s.lexers = l :: ls ∧ l.cur = t := by
  unfold current_token at h
  cases hl : s.lexers with
  | nil => simp only [hl] at h; cases h
  | cons l ls => simp only [hl] at h; cases h; exact ⟨l, ls, rfl, rfl⟩

/-- The loop of `parse_parameters`, with more fuel than there are lexemes
left to read: it does not run out of fuel, and when it returns the current
lexeme is an identifier and the parameters added are those of successive calls
of `parse_parameter`. -/
theorem parse_parameters_loop_spec (Y : Ext F) (n : Nat) :
    ∀ (pars : List (PBRTParameter F)) (s : PState F), remaining s.lexers < n →
      (∀ e s', parse_parameters_loop Y n pars s = .error e s' → e ≠ Err.timeout) ∧
      (∀ ps s', parse_parameters_loop Y n pars s = .ok ps s' →
        (∃ l ls, s'.lexers = l :: ls ∧ l.cur.type = LexemeType.IDENTIFIER) ∧ Consumes s s' ∧
        ∃ new, ps = pars ++ new ∧ parameter_seq Y new.length s = .ok new s') := by
  induction n with
  | zero => intro pars s h; omega
  | succ n ih =>
    intro pars s hn
    unfold parse_parameters_loop
    cases hc : (current_token : M F Lexeme) s with
    | error e s1 =>
      constructor
      · intro e' s' h
        rw [bind_eq, hc] at h
        cases h
        exact safe_current_token.no_timeout s _ _ hc
      · intro a s' h
        rw [bind_eq, hc] at h
        cases h
    | ok t s1 =>
      have e1 := current_token_ok _ _ _ hc
      subst e1
      obtain ⟨l, ls, hl, hcur⟩ := current_token_cur _ _ _ hc
      by_cases hid : t.type = LexemeType.IDENTIFIER
      · constructor
        · intro e' s' h
          rw [bind_eq, hc] at h
          simp only [hid, ne_eq, not_true_eq_false, if_false] at h
          cases h
        · intro ps s' h
          rw [bind_eq, hc] at h
          simp only [hid, ne_eq, not_true_eq_false, if_false] at h
          cases h
          exact ⟨⟨l, ls, hl, by rw [hcur]; exact hid⟩, consumes_refl _, [],
            (List.append_nil _).symm, rfl⟩
      · cases hp : parse_parameter Y s1 with
        | error e s2 =>
          constructor
          · intro e' s' h
            rw [bind_eq, hc] at h
            simp only [ne_eq, hid, not_false_eq_true, if_true] at h
            rw [bind_eq, hp] at h
            cases h
            exact (safe_parse_parameter Y).no_timeout _ _ _ hp
          · intro ps s' h
            rw [bind_eq, hc] at h
            simp only [ne_eq, hid, not_false_eq_true, if_true] at h
            rw [bind_eq, hp] at h
            cases h
        | ok p s2 =>
          have hdec := parse_parameter_decreases Y _ _ _ hp
          have hrec := ih (pars ++ [p]) s2 (by omega)
          constructor
          · intro e' s' h
            rw [bind_eq, hc] at h
            simp only [ne_eq, hid, not_false_eq_true, if_true] at h
            rw [bind_eq, hp] at h
            exact hrec.1 _ _ h
          · intro ps s' h
            rw [bind_eq, hc] at h
            simp only [ne_eq, hid, not_false_eq_true, if_true] at h
            rw [bind_eq, hp] at h
            obtain ⟨hident, hcons, new, hps, hseq⟩ := hrec.2 _ _ h
            refine ⟨hident, consumes_trans _ _ _
              ((safe_parse_parameter Y).consumes _ _ _ hp) hcons, p :: new, ?_, ?_⟩
            · rw [hps, List.append_assoc, List.singleton_append]
            · rw [List.length_cons, parameter_seq, bind_eq, hp]
              simp only []
              rw [bind_eq, hseq]
              rfl

theorem parse_parameters_spec (Y : Ext F) (pars : List (PBRTParameter F)) (s : PState F) :
    (∀ e s', parse_parameters Y pars s = .error e s' → e ≠ Err.timeout) ∧
    (∀ ps s', parse_parameters Y pars s = .ok ps s' →
      (∃ l ls, s'.lexers = l :: ls ∧ l.cur.type = LexemeType.IDENTIFIER) ∧ Consumes s s' ∧
      ∃ new, ps = pars ++ new ∧ parameter_seq Y new.length s = .ok new s') :=
  parse_parameters_loop_spec Y _ pars s (Nat.lt_succ_self _)

/-- A header that is not a lexeme of type STRING, and not an identifier. -/
theorem parse_parameters_bad_header (Y : Ext F) (pars : List (PBRTParameter F)) (s : PState F)
    (l : Lexer) (ls : List Lexer) (hl : s.lexers = l :: ls)
    (h1 : l.cur.type ≠ LexemeType.IDENTIFIER) (h2 : l.cur.type ≠ LexemeType.STRING) :
    parse_parameters Y pars s =
      .error (.syntaxError "Expected a string with type and name of a parameter.") s := by
  show parse_parameters_loop Y (remaining s.lexers + 1) pars s = _
  rw [parse_parameters_loop, bind_eq]
  simp only [current_token, hl, ne_eq, h1, not_false_eq_true, if_true]
  rw [bind_eq, parse_parameter, bind_eq]
  simp only [current_token, hl, ne_eq, h2, not_false_eq_true, if_true]
  rfl

/-- A well-formed header that is the last lexeme of the input. -/
theorem parse_parameters_input_ended (Y : Ext F) (pars : List (PBRTParameter F))
    (s : PState F) (l : Lexer) (hl : s.lexers = [l]) (hr : l.rest = [])
    (ht : l.cur.type = LexemeType.STRING) (tok0 tok1 : String) (more : List String)
    (hs : split l.cur.value = tok0 :: tok1 :: more) (b : Bool)
    (hchk : check_param_type tok1 (check_synonyms tok0) = .ok b) :
    parse_parameters Y pars s = .error .inputEnded { s with lexers := [] } := by
  show parse_parameters_loop Y (remaining s.lexers + 1) pars s = _
  rw [parse_parameters_loop, bind_eq]
  simp only [current_token, hl, ne_eq, ht, not_false_eq_true, if_true, reduceCtorEq]
  rw [bind_eq, parse_parameter, bind_eq]
  simp only [current_token, hl, ne_eq, ht, not_true_eq_false, if_false, hs]
  rw [bind_eq]
  simp only [hchk, liftExcept, pure_eq]
  rw [bind_eq]
  simp only [advance, hl, advance_lexers, hr]

theorem upcoming_mem_of_consumes (s s' : PState F) (h : Consumes s s') (l : Lexer)
    (ls : List Lexer) (hl : s'.lexers = l :: ls) : l.cur ∈ upcoming s.lexers := by
  obtain ⟨k, hk⟩ := h
  rw [hl] at hk
  have : l.cur ∈ (upcoming s.lexers).drop k := by
    rw [← hk]
    simp [upcoming]
  exact List.mem_of_mem_drop this

/-- C38: `parse_parameters` stops on every stack of lexers, and reads
parameters up to the next identifier.  The model runs the loop with one round
more than there are lexemes left to read, and every successful
`parse_parameter` leaves fewer lexemes to read, so the loop never runs out of
rounds: `parse_parameters` raises no timeout.  When it returns, the current
lexeme is an identifier and the result is the given list followed by the
parameters that as many successive calls of `parse_parameter` return from the
same state, in this order.  When the current lexeme is a number,
`parse_parameters` raises the syntax error for a missing header and leaves the
state as it is.  When no lexeme that is current or pending is an identifier,
`parse_parameters` raises an error, which is not a timeout; when a well-formed
header is the last lexeme of the input, this error is the end of the input. -/
theorem C38_parse_parameters (Y : Ext F) (pars : List (PBRTParameter F)) (s : PState F) :
    (∀ s', parse_parameters Y pars s ≠ .error .timeout s') ∧
    (∀ p s', parse_parameter Y s = .ok p s' → remaining s'.lexers < remaining s.lexers) ∧
    (∀ ps s', parse_parameters Y pars s = .ok ps s' →
      (∃ l ls, s'.lexers = l :: ls ∧ l.cur.type = LexemeType.IDENTIFIER) ∧
      ∃ new, ps = pars ++ new ∧ parameter_seq Y new.length s = .ok new s') ∧
    (∀ l ls, s.lexers = l :: ls → l.cur.type = LexemeType.NUMBER →
      parse_parameters Y pars s =
        .error (.syntaxError "Expected a string with type and name of a parameter.") s) ∧
    ((∀ t ∈ upcoming s.lexers, t.type ≠ LexemeType.IDENTIFIER) →
      ∃ e s', parse_parameters Y pars s = .error e s' ∧ e ≠ Err.timeout) ∧
    (∀ l tok0 tok1 more b, s.lexers = [l] → l.rest = [] → l.cur.type = LexemeType.STRING →
      split l.cur.value = tok0 :: tok1 :: more →
      check_param_type tok1 (check_synonyms tok0) = .ok b →
      parse_parameters Y pars s = .error .inputEnded { s with lexers := [] }) := by
  have hspec := parse_parameters_spec Y pars s
  refine ⟨fun s' h => hspec.1 _ _ h rfl, fun p s' h => parse_parameter_decreases Y s s' p h,
    fun ps s' h => ⟨(hspec.2 ps s' h).1, (hspec.2 ps s' h).2.2⟩, ?_, ?_, ?_⟩
  · intro l ls hl hn
    exact parse_parameters_bad_header Y pars s l ls hl (by rw [hn]; decide) (by rw [hn]; decide)
  · intro hno
    cases hr : parse_parameters Y pars s with
    | error e s' => exact ⟨e, s', rfl, hspec.1 e s' hr⟩
    | ok ps s' =>
      obtain ⟨⟨l, ls, hl, hid⟩, hcons, _⟩ := hspec.2 ps s' hr
      exact absurd hid (hno _ (upcoming_mem_of_consumes s s' hcons l ls hl))
  · intro l tok0 tok1 more b hl hr ht hs hchk
    exact parse_parameters_input_ended Y pars s l hl hr ht tok0 tok1 more hs b hchk

/-- C38, witness: a parameter `"float fov" 45` before `WorldBegin`; the number
45 with no header; the same parameter as the last lexemes of the input; and
the header as the last lexeme of the input. -/
theorem C38_parse_parameters_witness :
    ((∃ l ls, (parse_parameters testExt []
          (at_parameters [str "float fov", num "45", ident "WorldBegin"])).state.lexers = l :: ls ∧
        l.cur.type = LexemeType.IDENTIFIER) ∧
      ∃ new, [(⟨"float", "fov", .floats [45]⟩ : PBRTParameter Rat)] = [] ++ new ∧
        parameter_seq testExt new.length
            (at_parameters [str "float fov", num "45", ident "WorldBegin"]) =
          .ok new (parse_parameters testExt []
            (at_parameters [str "float fov", num "45", ident "WorldBegin"])).state) ∧
    parse_parameters testExt [] (at_parameters [num "45", ident "WorldBegin"]) =
      .error (.syntaxError "Expected a string with type and name of a parameter.")
        (at_parameters [num "45", ident "WorldBegin"]) ∧
    (∃ e s', parse_parameters testExt [] (at_parameters [str "float fov", num "45"]) =
      .error e s' ∧ e ≠ Err.timeout) ∧
    parse_parameters testExt [] (at_parameters [str "float fov"]) =
      .error .inputEnded { at_parameters [str "float fov"] with lexers := [] } :=
  ⟨(C38_parse_parameters testExt []
      (at_parameters [str "float fov", num "45", ident "WorldBegin"])).2.2.1
      [⟨"float", "fov", .floats [45]⟩] _ (by decide!),
    (C38_parse_parameters testExt [] (at_parameters [num "45", ident "WorldBegin"])).2.2.2.1
      ⟨num "45", [ident "WorldBegin"], "."⟩ [] (by decide!) (by decide),
    (C38_parse_parameters testExt [] (at_parameters [str "float fov", num "45"])).2.2.2.2.1
      (by decide!),
    (C38_parse_parameters testExt [] (at_parameters [str "float fov"])).2.2.2.2.2
      ⟨str "float fov", [], "."⟩ "float" "fov" [] true (by decide!) rfl (by decide) (by decide!)
      rfl⟩

/-! ## C39: the indices of a triangle mesh are not checked -/

theorem at_index_ok {α : Type} (v : List α) (i : Int) (a : α) (h : at_index v i = some a) :
    index_ok v.length i := by
  unfold at_index at h
  split at h
  · next h0 =>
    have hlt : i.toNat < v.length := by
      by_contra hge
      rw [List.getElem?_eq_none (by omega)] at h
      cases h
    exact ⟨h0, by omega⟩
  · cases h

theorem accumulate_normal_ok (Y : Ext F) (pos : List (Vec3 F)) (weighted : Bool)
    (norm norm' : List (Vec3 F)) (t : Vec3i)
    (h : accumulate_normal Y pos weighted norm t = some norm') :
    index_ok pos.length t.x ∧ index_ok pos.length t.y ∧ index_ok pos.length t.z := by
  unfold accumulate_normal at h
  split at h
  · next py pz px hy hz hx =>
    exact ⟨at_index_ok _ _ _ hx, at_index_ok _ _ _ hy, at_index_ok _ _ _ hz⟩
  · cases h

theorem accumulate_normals_ok (Y : Ext F) (pos : List (Vec3 F)) (weighted : Bool)
    (triangles : List Vec3i) :
    ∀ norm norm' : List (Vec3 F), accumulate_normals Y pos weighted triangles norm = some norm' →
      ∀ t ∈ triangles,
        index_ok pos.length t.x ∧ index_ok pos.length t.y ∧ index_ok pos.length t.z := by
  induction triangles with
  | nil => intro norm norm' _ t ht; cases ht
  | cons u us ih =>
    intro norm norm' h t ht
    unfold accumulate_normals at h
    cases h1 : accumulate_normal Y pos weighted norm u with
    | none => simp only [h1] at h; cases h
    | some n1 =>
      simp only [h1] at h
      rcases List.mem_cons.mp ht with rfl | ht
      · exact accumulate_normal_ok Y pos weighted norm n1 _ h1
      · exact ih n1 norm' h t ht

/-- The pass of `my_compute_normals` stays within the bounds only when every
component of every triangle is an index of a position. -/
theorem my_compute_normals_ok (Y : Ext F) (triangles : List Vec3i) (pos : List (Vec3 F))
    (weighted : Bool) (norm : List (Vec3 F))
    (h : my_compute_normals Y triangles pos weighted = some norm) :
    ∀ t ∈ triangles,
      index_ok pos.length t.x ∧ index_ok pos.length t.y ∧ index_ok pos.length t.z := by
  unfold my_compute_normals at h
  simp only [] at h
  cases h1 : accumulate_normals Y pos weighted triangles
      (List.replicate pos.length (vconst Y 0)) with
  | none => simp only [h1] at h; cases h
  | some n1 => exact accumulate_normals_ok Y pos weighted triangles _ n1 h1

theorem mem_triples_of_mem (data : List Int) (x : Int) (h3 : data.length % 3 = 0)
    (hx : x ∈ data) : ∃ t ∈ triples data, x = t.x ∨ x = t.y ∨ x = t.z := by
  induction data using triples.induct with
  | case1 a b c rest ih =>
    simp only [List.mem_cons] at hx
    rcases hx with rfl | rfl | rfl | hx
    · exact ⟨⟨x, b, c⟩, by simp [triples], Or.inl rfl⟩
    · exact ⟨⟨a, x, c⟩, by simp [triples], Or.inr (Or.inl rfl)⟩
    · exact ⟨⟨a, b, x⟩, by simp [triples], Or.inr (Or.inr rfl)⟩
    · have h3' : rest.length % 3 = 0 := by
        simp only [List.length_cons] at h3
        omega
      obtain ⟨t, ht, hc⟩ := ih h3' hx
      exact ⟨t, by simp [triples, ht], hc⟩
  | case2 data hd =>
    match data, hd, h3, hx with
    | [], _, _, hx => cases hx
    | [_], _, h3, _ => simp at h3
    | [_, _], _, h3, _ => simp at h3
    | a :: b :: c :: rest, hd, _, _ => exact absurd rfl (hd a b c rest)

/-- The pass of `my_compute_normals` leaves the bounds when a triangle has a
component that is not an index of a position. -/
theorem my_compute_normals_none (Y : Ext F) (triangles : List Vec3i) (pos : List (Vec3 F))
    (weighted : Bool) (t : Vec3i) (ht : t ∈ triangles)
    (hbad : ¬ (index_ok pos.length t.x ∧ index_ok pos.length t.y ∧ index_ok pos.length t.z)) :
    my_compute_normals Y triangles pos weighted = none := by
  cases h : my_compute_normals Y triangles pos weighted with
  | none => rfl
  | some norm => exact absurd (my_compute_normals_ok Y triangles pos weighted norm h t ht) hbad

theorem trianglemesh_out_of_bounds (Y : Ext F) (params : List (PBRTParameter F))
    (shp : Shape F) (s : PState F) (ht : ∀ p ∈ params, MeshTyped p) (i : Nat)
    (p : PBRTParameter F) (data : List Int) (hi : find_param "indices" params = some i)
    (hp : params[i]? = some p) (hd : p.value = .ints data) (h3 : data.length % 3 = 0)
    (iP : Nat) (pP : PBRTParameter F) (vP : List (Vec3 F))
    (hP : find_param "P" params = some iP) (hPp : params[iP]? = some pP)
    (hvP : pP.value = .vec3s vP)
    (x : Int) (hx : x ∈ data) (hbad : ¬ index_ok (shp.pos ++ vP).length x)
    (huv : ∀ j, (find_param "uv" params = some j ∨
        (find_param "uv" params = none ∧ find_param "st" params = some j)) →
      ∃ q v, params[j]? = some q ∧ q.value = .floats v ∧ v.length % 2 = 0) :
    trianglemesh_of_params Y params shp s =
      .error (.undefinedBehaviour "my_compute_normals: index out of bounds") s := by
  obtain ⟨t, htm, hc⟩ := mem_triples_of_mem data x h3 hx
  have hnm : my_compute_normals Y (shp.triangles ++ triples data) (shp.pos ++ vP) true = none :=
    my_compute_normals_none Y _ _ true t (List.mem_append_right _ htm) (by
      rintro ⟨h1, h2, h4⟩
      rcases hc with rfl | rfl | rfl
      · exact hbad h1
      · exact hbad h2
      · exact hbad h4)
  have h3' : ¬ (data.length % 3 ≠ 0) := fun h => h h3
  rcases typed_param_cases "N" params ht with hN | ⟨iN, pN, hN, hNp, hNn, hNt⟩
  · cases hu : find_param "uv" params with
    | some j =>
      obtain ⟨q, v, hq, hqv, hv⟩ := huv j (Or.inl hu)
      obtain ⟨uvs, huvs⟩ := pair_up_some v hv
      simp only [trianglemesh_of_params, hP, hPp, hvP, hN, hi, hp, hd, if_neg h3', param_at,
        bind_eq, pure_eq, hu, hq, hqv, huvs, hnm, raise]
    | none =>
      cases hst : find_param "st" params with
      | some j =>
        obtain ⟨q, v, hq, hqv, hv⟩ := huv j (Or.inr ⟨hu, hst⟩)
        obtain ⟨uvs, huvs⟩ := pair_up_some v hv
        simp only [trianglemesh_of_params, hP, hPp, hvP, hN, hi, hp, hd, if_neg h3', param_at,
          bind_eq, pure_eq, hu, hst, hq, hqv, huvs, hnm, raise]
      | none =>
        simp only [trianglemesh_of_params, hP, hPp, hvP, hN, hi, hp, hd, if_neg h3', param_at,
          bind_eq, pure_eq, hu, hst, hnm, raise]
  · obtain ⟨vN, hvN⟩ := hNt.2.1 hNn
    cases hu : find_param "uv" params with
    | some j =>
      obtain ⟨q, v, hq, hqv, hv⟩ := huv j (Or.inl hu)
      obtain ⟨uvs, huvs⟩ := pair_up_some v hv
      simp only [trianglemesh_of_params, hP, hPp, hvP, hN, hNp, hvN, hi, hp, hd, if_neg h3',
        param_at, bind_eq, pure_eq, hu, hq, hqv, huvs, hnm, raise]
    | none =>
      cases hst : find_param "st" params with
      | some j =>
        obtain ⟨q, v, hq, hqv, hv⟩ := huv j (Or.inr ⟨hu, hst⟩)
        obtain ⟨uvs, huvs⟩ := pair_up_some v hv
        simp only [trianglemesh_of_params, hP, hPp, hvP, hN, hNp, hvN, hi, hp, hd, if_neg h3',
          param_at, bind_eq, pure_eq, hu, hst, hq, hqv, huvs, hnm, raise]
      | none =>
        simp only [trianglemesh_of_params, hP, hPp, hvP, hN, hNp, hvN, hi, hp, hd, if_neg h3',
          param_at, bind_eq, pure_eq, hu, hst, hnm, raise]

/-- C39, the failing input: let the parameters of a triangle mesh be parsed,
and hold positions `P`, `indices` in a number that is a multiple of 3 and
well-formed texture coordinates, if any.  If one of the indices is negative, or
not less than the number of positions, `parse_trianglemesh` does not reject the
mesh with a syntax error: it checks no index, and `my_compute_normals` reads
the positions and writes the normals at this index, out of the bounds of the
two vectors. -/
theorem C39_index_out_of_range (Y : Ext F) (shp : Shape F) (s s1 : PState F)
    (params : List (PBRTParameter F)) (i : Nat) (p : PBRTParameter F) (data : List Int)
    (iP : Nat) (pP : PBRTParameter F) (vP : List (Vec3 F)) (x : Int)
    (hpar : parse_parameters Y [] s = .ok params s1)
    (hi : find_param "indices" params = some i) (hp : params[i]? = some p)
    (hd : p.value = .ints data) (h3 : data.length % 3 = 0)
    (hP : find_param "P" params = some iP) (hPp : params[iP]? = some pP)
    (hvP : pP.value = .vec3s vP)
    (hx : x ∈ data) (hbad : x < 0 ∨ ((shp.pos ++ vP).length : Int) ≤ x)
    (huv : ∀ j, (find_param "uv" params = some j ∨
        (find_param "uv" params = none ∧ find_param "st" params = some j)) →
      ∃ q v, params[j]? = some q ∧ q.value = .floats v ∧ v.length % 2 = 0) :
    my_compute_normals Y (shp.triangles ++ triples data) (shp.pos ++ vP) true = none ∧
    parse_trianglemesh Y shp s =
      .error (.undefinedBehaviour "my_compute_normals: index out of bounds") s1 := by
  have hbad' : ¬ index_ok (shp.pos ++ vP).length x := by
    unfold index_ok
    omega
  refine ⟨?_, ?_⟩
  · obtain ⟨t, htm, hc⟩ := mem_triples_of_mem data x h3 hx
    refine my_compute_normals_none Y _ _ true t (List.mem_append_right _ htm) ?_
    rintro ⟨h1, h2, h4⟩
    rcases hc with rfl | rfl | rfl
    · exact hbad' h1
    · exact hbad' h2
    · exact hbad' h4
  · rw [parse_trianglemesh_eq Y shp s s1 params hpar]
    exact trianglemesh_out_of_bounds Y params shp s1 (parse_parameters_typed Y params s s1 hpar)
      i p data hi hp hd h3 iP pP vP hP hPp hvP x hx hbad' huv

/-- C39, witness: `Shape "trianglemesh" "point3 P" [0 0 0 1 0 0 0 1 0]
"integer indices" [0 1 3]`, a triangle whose last index is the number of
positions. -/
theorem C39_index_out_of_range_witness :
    my_compute_normals testExt ((Shape.new Rat).triangles ++ triples [0, 1, 3])
        ((Shape.new Rat).pos ++ [⟨0, 0, 0⟩, ⟨1, 0, 0⟩, ⟨0, 1, 0⟩]) true = none ∧
    parse_trianglemesh testExt (Shape.new Rat)
        (at_mesh_parameters (indexed_triangle_lexemes "0" "1" "3")) =
      .error (.undefinedBehaviour "my_compute_normals: index out of bounds")
        (parse_parameters testExt []
          (at_mesh_parameters (indexed_triangle_lexemes "0" "1" "3"))).state :=
  C39_index_out_of_range testExt (Shape.new Rat)
    (at_mesh_parameters (indexed_triangle_lexemes "0" "1" "3"))
    (parse_parameters testExt [] (at_mesh_parameters (indexed_triangle_lexemes "0" "1" "3"))).state
    (indexed_triangle_params 0 1 3) 1 ⟨"integer", "indices", .ints [0, 1, 3]⟩ [0, 1, 3]
    0 ⟨"point3", "P", .vec3s [⟨0, 0, 0⟩, ⟨1, 0, 0⟩, ⟨0, 1, 0⟩]⟩
    [⟨0, 0, 0⟩, ⟨1, 0, 0⟩, ⟨0, 1, 0⟩] 3 (by decide!) (by decide!) (by decide!) rfl (by decide)
    (by decide!) (by decide!) rfl (by decide) (Or.inr (by decide!))
    (by
      intro j hj
      rcases hj with hj | ⟨-, hj⟩ <;> simp [indexed_triangle_params, find_param] at hj)

/-! ## C40: a named material that is declared twice -/

theorem sameNames_respects :
    Respects (F := F) (fun e => e ∉ [Effect.named_materials, Effect.attr_pop])
      (Rel SameNames) := by
  have hrefl : ∀ s : PState F, SameNames s s := fun s => rfl
  have htrans : ∀ a b c : PState F, SameNames a b → SameNames b c → SameNames a c :=
    fun a b c h1 h2 => Eq.trans h2 h1
  constructor
  all_goals first
    | exact rel_pure hrefl
    | exact rel_bind htrans
    | exact rel_raise
    | exact rel_bound
    | exact fun hA => absurd hA (by decide)
    | (intros
       intro s a s' h
       simp only [advance, current_token, current_path, getG, get_defaults, get_textureSavePath,
         get_scene, get_material, get_declared, get_texture, get_inObjectDefinition,
         lookup_object, push_lexer, get_unique_id, modifyCTM, set_uvscale, set_areaLight,
         insert_named_material, bind_material, erase_named_texture, insert_named_texture,
         set_defaultFocus, set_aspect, add_camera, add_group, add_instance, add_texture,
         add_environment, modify_material, new_declared_material, alloc_texture, modify_texture,
         alloc_group, begin_object, end_object, capture_group, store_object, mark_object_added,
         add_declared_to_scene, new_scene_material, push_attributes, pop_attributes,
         push_transform, pop_transform, modifyS, modifyG, modifyScene] at h
       first
         | (cases h; rfl)
         | (split at h <;> first
             | (cases h; rfl)
             | (cases h; done)
             | (split at h <;> first
                 | (cases h; rfl)
                 | (cases h; done))))

theorem execute_world_directive_MakeNamedMaterial (Y : Ext F) (fuel : Nat) (s : PState F)
    (l : Lexer) (ls : List Lexer) (hl : s.lexers = l :: ls)
    (hc : l.cur = ident "MakeNamedMaterial") :
    execute_world_directive Y (fuel + 1) s = execute_Material Y true s := by
  rw [execute_world_directive, bind_eq]
  simp only [current_token, hl, hc, ident]
  rw [bind_eq]
  simp only [throw_if, ne_eq, not_true_eq_false, if_false, pure_eq]
  simp only [String.reduceEq, if_false, if_true]

/-- A declaration of a named material on a name that the map has. -/
theorem execute_Material_duplicate (Y : Ext F) (s : PState F) (l : Lexer) (ls : List Lexer)
    (name : String) (ts : List Lexeme) (d : Nat) (hl : s.lexers = l :: ls)
    (hr : l.rest = str name :: ts) (hn : mapFind s.gState.nameToMaterial name = some d) :
    execute_Material Y true s =
      .error (.syntaxError "A material with the specified name already exists.")
        { s with
          lexers := { l with cur := str name, rest := ts } :: ls
          materialCounter := (s.materialCounter + 1) % 2 ^ 32
          materialArena := s.materialArena ++
            [{ Y.new_material with name := "m_" ++ toString s.materialCounter }]
          declaredArena := s.declaredArena ++ [⟨s.materialArena.length, false⟩] } := by
  rw [execute_Material, bind_eq, advance_cons s l ls (str name) ts hl hr]
  simp only []
  rw [bind_eq]
  simp only [get_unique_id]
  rw [bind_eq]
  simp only [new_declared_material]
  rw [define_material, bind_eq]
  simp only [current_token]
  rw [bind_eq]
  simp only [if_true]
  simp only [throw_if, str, ne_eq, not_true_eq_false, if_false, pure_eq, getG, bind_eq, hn,
    Option.isSome_some, if_true, throw_syntax_exception, raise]

theorem get_first_string_ok (p : PBRTParameter F) (s s' : PState F) (v : String)
    (h : get_first_string p s = .ok v s') : s' = s := by
  unfold get_first_string at h
  cases hv : p.value with
  | strings l =>
    cases l with
    | nil => simp only [hv] at h; cases h
    | cons a r => simp only [hv] at h; cases h; rfl
  | floats l => simp only [hv] at h; cases h
  | ints l => simp only [hv] at h; cases h
  | vec3s l => simp only [hv] at h; cases h

/-- A declaration of a named material on a name that the map does not have:
when it succeeds, the map has the new declared material under the name, and
the entries it had. -/
theorem execute_Material_declares (Y : Ext F) (s s' : PState F) (l : Lexer) (ls : List Lexer)
    (name : String) (ts : List Lexeme) (hl : s.lexers = l :: ls)
    (hr : l.rest = str name :: ts) (hn : mapFind s.gState.nameToMaterial name = none)
    (h : execute_Material Y true s = .ok () s') :
    s'.gState.nameToMaterial = s.gState.nameToMaterial ++ [(name, s.declaredArena.length)] ∧
      mapFind s'.gState.nameToMaterial name = some s.declaredArena.length := by
  have hA : ∀ e ∈ [Effect.counters, Effect.uvscale, Effect.scene_textures,
      Effect.material_write, Effect.texture_new],
      (fun e => e ∉ [Effect.named_materials, Effect.attr_pop]) e := by
    intro e he
    revert e he
    decide
  have hR := sameNames_respects (F := F)
  rw [execute_Material, bind_eq, advance_cons s l ls (str name) ts hl hr] at h
  simp only [] at h
  rw [bind_eq] at h
  simp only [get_unique_id] at h
  rw [bind_eq] at h
  simp only [new_declared_material] at h
  simp only [define_material, bind_ok, if_true] at h
  obtain ⟨t, s1, hc, ⟨mn, mt⟩, s2, hname, params, s3, hpar, ty, s4, hty, h⟩ := h
  cases hc
  simp only [bind_ok, throw_if_ok, pure_ok, Prod.mk.injEq] at hname
  obtain ⟨_, s5, ⟨-, e5⟩, g, s6, hg, _, s7, ⟨-, e7⟩, _, s8, hadv, ⟨hmn, -⟩, e8⟩ := hname
  cases hg
  have hmn' : mn = name := hmn
  rw [e7, e5] at hadv
  have e2 : SameNames _ s8 := hR.advance _ _ _ hadv
  rw [← e8] at e2
  have e3 : SameNames s2 s3 := parse_parameters_resp hR Y [] _ _ _ hpar
  have e4 : s4 = s3 := by
    cases hf : find_param "type" params with
    | none => simp only [hf] at hty; cases hty
    | some i =>
      simp only [hf, bind_ok] at hty
      obtain ⟨p, s9, hp, hs⟩ := hty
      rw [get_first_string_ok _ _ _ _ hs, (param_at_ok _ _ _ _ _ hp).1]
  rw [e4] at h
  have key : ∀ (sa sb : PState F), SameNames s3 sa →
      (∃ (u : Unit) (sc : PState F),
        parse_material_class Y ty s.materialArena.length params sa = .ok u sc ∧
        insert_named_material mn s.declaredArena.length sc = .ok () sb) →
      sb.gState.nameToMaterial =
        mapInsert s3.gState.nameToMaterial name s.declaredArena.length := by
    intro sa sb hsa hrun
    obtain ⟨_, sc, hcls, hins⟩ := hrun
    have e5 : SameNames sa sc := parse_material_class_resp hR hA Y _ _ _ _ _ _ hcls
    cases hins
    show mapInsert sc.gState.nameToMaterial mn _ = _
    rw [e5, hsa, hmn']
  have hmap : s'.gState.nameToMaterial =
      mapInsert s3.gState.nameToMaterial name s.declaredArena.length := by
    cases hb : find_param "bump" params with
    | none =>
      simp only [hb, bind_ok, pure_ok] at h
      obtain ⟨_, sa, ⟨-, rfl⟩, h⟩ := h
      exact key _ _ rfl h
    | some i =>
      simp only [hb, bind_ok] at h
      obtain ⟨p, s9, hp, txtName, s10, hs, dbump, s11, hlook, _, s12, hmod, _, sa, huv, h⟩ := h
      have f1 : s9 = s3 := (param_at_ok _ _ _ _ _ hp).1
      have f2 : s10 = s9 := get_first_string_ok _ _ _ _ hs
      have f3 : SameNames s10 s11 := texture_lookup_resp hR _ _ _ _ _ hlook
      have f4 : SameNames s11 s12 := hR.modify_material (by decide) _ _ _ _ _ hmod
      have f5 : SameNames s12 sa := hR.set_uvscale (by decide) _ _ _ _ _ huv
      rw [f2, f1] at f3
      exact key _ _ (Eq.trans f5 (Eq.trans f4 f3)) h
  have hs3 : s3.gState.nameToMaterial = s.gState.nameToMaterial := Eq.trans e3 e2
  rw [hmap, hs3]
  have hins : mapInsert s.gState.nameToMaterial name s.declaredArena.length =
      s.gState.nameToMaterial ++ [(name, s.declaredArena.length)] := by
    simp only [mapInsert, hn]
  rw [hins]
  exact ⟨rfl, mapFind_append_single _ _ _ hn⟩

/-- A `Texture` directive that succeeds stores the new declared texture under
its name, whatever the name had before. -/
theorem execute_Texture_declares (Y : Ext F) (s s' : PState F)
    (h : execute_Texture Y s = .ok () s') :
    ∃ t dt, current_token (advance s).state = .ok t (advance s).state ∧
      mapFind s'.gState.nameToTexture t.value = some dt ∧
      dt.txt = s.textureArena.length := by
  simp only [execute_Texture, bind_ok, throw_if_ok] at h
  obtain ⟨_, s1, h1, name, s2, h2, path, s3, h3, txt, s4, h4, t, s5, h5, _, s6, ⟨-, rfl⟩,
    _, s7, h7, _, s8, h8, t2, s9, h9, _, s10, ⟨-, rfl⟩, _, s11, ⟨-, rfl⟩, _, s12, h12,
    t3, s13, h13, _, s14, ⟨-, rfl⟩, _, s15, h15, dt', s16, h16, h17⟩ := h
  obtain ⟨hsame, htxt⟩ := texture_class_same_scene Y _ dt' _ _ _ h16
  obtain ⟨ls1, rfl⟩ := advance_ok _ _ _ h1
  cases h2
  cases h3
  cases h4
  cases current_token_ok _ _ _ h5
  cases h7
  obtain ⟨ls8, rfl⟩ := advance_ok _ _ _ h8
  cases current_token_ok _ _ _ h9
  obtain ⟨ls12, rfl⟩ := advance_ok _ _ _ h12
  cases current_token_ok _ _ _ h13
  obtain ⟨ls15, rfl⟩ := advance_ok _ _ _ h15
  cases h17
  obtain ⟨hscn, hg, hlen⟩ := hsame
  refine ⟨t, dt', ?_, ?_, ?_⟩
  · rw [h1]
    unfold current_token at h5 ⊢
    simp only [Res.state] at h5 ⊢
    split at h5
    · cases h5
    · cases h5
      rfl
  · show mapFind (mapInsert s16.gState.nameToTexture t.value dt') t.value = some dt'
    rw [hg]
    exact mapFind_insert_erase _ _ _
  · rw [htxt]

/-- C40: let the current lexeme be the identifier `MakeNamedMaterial`, followed
by the string `name`.  If the map of the named materials of the graphics state
has `name`, the directive raises the syntax error of the name that already
exists, and the graphics state, with this map and the bound material, is the
one before.  If the map does not have `name` and the directive succeeds, the
map afterwards is the map before with the new declared material added under
`name`.  This is so when the state follows the `AttributeEnd` of a scope that
was opened in a state whose map did not have `name`, whatever the directives of
the scope declared: the map is again the one of before the scope.  A `Texture`
directive that succeeds stores the new declared texture under its name, and
the end of an object block stores the new object under its name, whatever the
name had before. -/
theorem C40_duplicate_named_material (Y : Ext F) (fuel : Nat) (s : PState F) (l : Lexer)
    (ls : List Lexer) (name : String) (ts : List Lexeme) (hl : s.lexers = l :: ls)
    (hc : l.cur = ident "MakeNamedMaterial") (hr : l.rest = str name :: ts) :
    (∀ d, mapFind s.gState.nameToMaterial name = some d →
      ∃ s', execute_world_directive Y (fuel + 1) s =
          .error (.syntaxError "A material with the specified name already exists.") s' ∧
        s'.gState = s.gState) ∧
    (mapFind s.gState.nameToMaterial name = none →
      ∀ s', execute_world_directive Y (fuel + 1) s = .ok () s' →
        s'.gState.nameToMaterial =
          s.gState.nameToMaterial ++ [(name, s.declaredArena.length)] ∧
        mapFind s'.gState.nameToMaterial name = some s.declaredArena.length) ∧
    (∀ (k n : Nat) (s0 s1 t : PState F), execute_AttributeBegin s0 = .ok () s1 →
      world_directive_seq Y k n { s1 with stateStack := [] } = .ok () t → t.stateStack = [] →
      ∃ s2, world_directive_seq Y k n s1 = .ok () s2 ∧
        (execute_AttributeEnd s2 = .ok () s →
          mapFind s0.gState.nameToMaterial name = none →
          mapFind s.gState.nameToMaterial name = none ∧
          ∀ s', execute_world_directive Y (fuel + 1) s = .ok () s' →
            mapFind s'.gState.nameToMaterial name = some s.declaredArena.length)) ∧
    (∀ (t t' : PState F), execute_Texture Y t = .ok () t' →
      ∃ tok dt, current_token (advance t).state = .ok tok (advance t).state ∧
        mapFind t'.gState.nameToTexture tok.value = some dt ∧
        dt.txt = t.textureArena.length) ∧
    (∀ (objName : String) (t : PState F), ∃ t', store_object objName t = .ok () t' ∧
      mapFind t'.nameToObject objName = some ⟨t.shapesInObject, t.gState.CTM, false⟩) := by
  have hdisp := execute_world_directive_MakeNamedMaterial Y fuel s l ls hl hc
  have hdecl : mapFind s.gState.nameToMaterial name = none →
      ∀ s', execute_world_directive Y (fuel + 1) s = .ok () s' →
        s'.gState.nameToMaterial =
          s.gState.nameToMaterial ++ [(name, s.declaredArena.length)] ∧
        mapFind s'.gState.nameToMaterial name = some s.declaredArena.length := by
    intro hn s' h
    rw [hdisp] at h
    exact execute_Material_declares Y s s' l ls name ts hl hr hn h
  refine ⟨?_, hdecl, ?_, fun t t' h => execute_Texture_declares Y t t' h, ?_⟩
  · intro d hd
    rw [hdisp, execute_Material_duplicate Y s l ls name ts d hl hr hd]
    exact ⟨_, rfl, rfl⟩
  · intro k n s0 s1 t hbegin hbody hnested
    obtain ⟨s2, hrun, -, hend⟩ := attribute_scope_closed Y k n s0 s1 t hbegin hbody hnested
    refine ⟨s2, hrun, fun h4 hn0 => ?_⟩
    have hn : mapFind s.gState.nameToMaterial name = none := by
      rw [(hend s h4).1]
      exact hn0
    exact ⟨hn, fun s' h => (hdecl hn s' h).2⟩
  · intro objName t
    refine ⟨_, rfl, ?_⟩
    simp only []
    cases hf : mapFind t.nameToObject objName with
    | none =>
      simp only [mapInsert, hf]
      exact mapFind_append_single _ _ _ hf
    | some v0 =>
      simp only []
      exact mapFind_mapAssign_self _ _ _ v0 hf

/-- C40, witness: `MakeNamedMaterial "a"` twice in the same scope, where the
second raises and leaves the graphics state; and `AttributeBegin
MakeNamedMaterial "a" AttributeEnd MakeNamedMaterial "a"`, where the second
succeeds and stores a new declared material under `a`. -/
theorem C40_duplicate_named_material_witness :
    (∃ s', execute_world_directive testExt (1 + 1) at_second_declaration =
        .error (.syntaxError "A material with the specified name already exists.") s' ∧
      s'.gState = at_second_declaration.gState) ∧
    (mapFind (execute_world_directive testExt (1 + 1)
        after_closed_scope).state.gState.nameToMaterial "a" =
      some after_closed_scope.declaredArena.length) ∧
    ∃ s2, world_directive_seq testExt 2 1
        (execute_AttributeBegin (at_directive redeclared_after_scope)).state = .ok () s2 ∧
      (execute_AttributeEnd s2 = .ok () after_closed_scope →
        mapFind (at_directive redeclared_after_scope).gState.nameToMaterial "a" = none →
        mapFind after_closed_scope.gState.nameToMaterial "a" = none ∧
        ∀ s', execute_world_directive testExt (1 + 1) after_closed_scope = .ok () s' →
          mapFind s'.gState.nameToMaterial "a" = some after_closed_scope.declaredArena.length) :=
  ⟨(C40_duplicate_named_material testExt 1 at_second_declaration
      ⟨ident "MakeNamedMaterial", [str "a", str "string type", str "mirror", ident "WorldEnd"],
        "."⟩ [] "a" [str "string type", str "mirror", ident "WorldEnd"]
      (by decide!) rfl rfl).1 0 (by decide!),
    ((C40_duplicate_named_material testExt 1 after_closed_scope
      ⟨ident "MakeNamedMaterial", [str "a", str "string type", str "mirror", ident "WorldEnd"],
        "."⟩ [] "a" [str "string type", str "mirror", ident "WorldEnd"]
      (by decide!) rfl rfl).2.1 (by decide!) _ (by decide!)).2,
    (C40_duplicate_named_material testExt 1 after_closed_scope
      ⟨ident "MakeNamedMaterial", [str "a", str "string type", str "mirror", ident "WorldEnd"],
        "."⟩ [] "a" [str "string type", str "mirror", ident "WorldEnd"]
      (by decide!) rfl rfl).2.2.1 2 1 (at_directive redeclared_after_scope)
      (execute_AttributeBegin (at_directive redeclared_after_scope)).state
      (world_directive_seq testExt 2 1
        { (execute_AttributeBegin (at_directive redeclared_after_scope)).state
          with stateStack := [] }).state
      (by decide!) (by decide!) (by decide!)⟩

/-! ## The directives that write a material record -/

theorem set_kd_at (h : Respects A P)
    (hA : ∀ e ∈ [Effect.uvscale], A e)
    (Y : Ext F) (params : List (PBRTParameter F)) (mat : Nat)
    (hmod : ∀ f, P (modify_material mat f : M F Unit)) :
    P (set_kd Y params mat : M F Unit) := by
  unfold set_kd
  repeat' first
    | with_reducible first
      | apply set_k_property_resp h | apply Respects.param_at h
      | apply hmod | apply h.get_material | apply h.bind
      | apply h.pure | apply h.raise | apply resp_ite
    | exact hmod
    | exact fun e he => hA e (by revert e he; decide)
    | intro _ | split | dsimp only

theorem set_ks_at (h : Respects A P)
    (hA : ∀ e ∈ [Effect.uvscale], A e)
    (Y : Ext F) (params : List (PBRTParameter F)) (mat : Nat)
    (hmod : ∀ f, P (modify_material mat f : M F Unit)) :
    P (set_ks Y params mat : M F Unit) := by
  unfold set_ks
  repeat' first
    | with_reducible first
      | apply set_k_property_resp h | apply Respects.param_at h
      | apply hmod | apply h.get_material | apply h.bind
      | apply h.pure | apply h.raise | apply resp_ite
    | exact hmod
    | exact fun e he => hA e (by revert e he; decide)
    | intro _ | split | dsimp only

theorem set_kr_at (h : Respects A P)
    (hA : ∀ e ∈ [Effect.uvscale], A e)
    (Y : Ext F) (params : List (PBRTParameter F)) (mat : Nat)
    (hmod : ∀ f, P (modify_material mat f : M F Unit)) :
    P (set_kr Y params mat : M F Unit) := by
  unfold set_kr
  repeat' first
    | with_reducible first
      | apply set_k_property_resp h | apply Respects.param_at h
      | apply hmod | apply h.get_material | apply h.bind
      | apply h.pure | apply h.raise | apply resp_ite
    | exact hmod
    | exact fun e he => hA e (by revert e he; decide)
    | intro _ | split | dsimp only

theorem set_kt_at (h : Respects A P)
    (hA : ∀ e ∈ [Effect.uvscale], A e)
    (Y : Ext F) (params : List (PBRTParameter F)) (mat : Nat)
    (hmod : ∀ f, P (modify_material mat f : M F Unit)) :
    P (set_kt Y params mat : M F Unit) := by
  unfold set_kt
  repeat' first
    | with_reducible first
      | apply set_k_property_resp h | apply Respects.param_at h
      | apply hmod | apply h.get_material | apply h.bind
      | apply h.pure | apply h.raise | apply resp_ite
    | exact hmod
    | exact fun e he => hA e (by revert e he; decide)
    | intro _ | split | dsimp only

theorem set_roughness_at (h : Respects A P)
    (hA : ∀ e ∈ [], A e)
    (Y : Ext F) (params : List (PBRTParameter F)) (mat : Nat)
    (hmod : ∀ f, P (modify_material mat f : M F Unit)) :
    P (set_roughness Y params mat : M F Unit) := by
  unfold set_roughness
  repeat' first
    | with_reducible first
      | apply texture_lookup_resp h | apply Respects.get_first_float h
      | apply Respects.get_first_string h | apply Respects.param_at h
      | apply hmod | apply h.bind | apply h.pure | apply h.raise
      | apply resp_ite
    | exact hmod
    | exact fun e he => hA e (by revert e he; decide)
    | intro _ | split | dsimp only

theorem parse_material_matte_at (h : Respects A P)
    (hA : ∀ e ∈ [Effect.uvscale], A e)
    (Y : Ext F) (mat : Nat) (params : List (PBRTParameter F))
    (hmod : ∀ f, P (modify_material mat f : M F Unit)) :
    P (parse_material_matte Y mat params : M F Unit) := by
  unfold parse_material_matte
  repeat' first
    | with_reducible first
      | apply set_kd_at h | apply hmod | apply h.bind
      | apply h.pure | apply h.raise | apply resp_ite
    | exact hmod
    | exact fun e he => hA e (by revert e he; decide)
    | intro _ | split | dsimp only

theorem parse_material_uber_at (h : Respects A P)
    (hA : ∀ e ∈ [Effect.uvscale], A e)
    (Y : Ext F) (mat : Nat) (params : List (PBRTParameter F))
    (hmod : ∀ f, P (modify_material mat f : M F Unit)) :
    P (parse_material_uber Y mat params : M F Unit) := by
  unfold parse_material_uber
  repeat' first
    | with_reducible first
      | apply set_kd_at h | apply set_kr_at h | apply set_ks_at h
      | apply set_roughness_at h | apply hmod | apply h.bind
      | apply h.pure | apply h.raise | apply resp_ite
    | exact hmod
    | exact fun e he => hA e (by revert e he; decide)
    | intro _ | split | dsimp only

theorem parse_material_translucent_at (h : Respects A P)
    (hA : ∀ e ∈ [Effect.uvscale], A e)
    (Y : Ext F) (mat : Nat) (params : List (PBRTParameter F))
    (hmod : ∀ f, P (modify_material mat f : M F Unit)) :
    P (parse_material_translucent Y mat params : M F Unit) := by
  unfold parse_material_translucent
  repeat' first
    | with_reducible first
      | apply set_kd_at h | apply set_kr_at h | apply set_ks_at h | apply set_kt_at h
      | apply set_roughness_at h | apply hmod | apply h.bind
      | apply h.pure | apply h.raise | apply resp_ite
    | exact hmod
    | exact fun e he => hA e (by revert e he; decide)
    | intro _ | split | dsimp only

theorem parse_material_metal_at (h : Respects A P)
    (hA : ∀ e ∈ [Effect.uvscale], A e)
    (Y : Ext F) (mat : Nat) (params : List (PBRTParameter F))
    (hmod : ∀ f, P (modify_material mat f : M F Unit)) :
    P (parse_material_metal Y mat params : M F Unit) := by
  unfold parse_material_metal
  repeat' first
    | with_reducible first
      | apply set_k_property_resp h | apply set_roughness_at h | apply Respects.param_at h
      | apply hmod | apply h.bind | apply h.pure | apply h.raise
      | apply resp_ite
    | exact hmod
    | exact fun e he => hA e (by revert e he; decide)
    | intro _ | split | dsimp only

theorem parse_material_mirror_at (h : Respects A P)
    (hA : ∀ e ∈ [Effect.uvscale], A e)
    (Y : Ext F) (mat : Nat) (params : List (PBRTParameter F))
    (hmod : ∀ f, P (modify_material mat f : M F Unit)) :
    P (parse_material_mirror Y mat params : M F Unit) := by
  unfold parse_material_mirror
  repeat' first
    | with_reducible first
      | apply set_kr_at h | apply hmod | apply h.bind
      | apply h.pure | apply h.raise | apply resp_ite
    | exact hmod
    | exact fun e he => hA e (by revert e he; decide)
    | intro _ | split | dsimp only

theorem parse_material_plastic_at (h : Respects A P)
    (hA : ∀ e ∈ [Effect.uvscale], A e)
    (Y : Ext F) (mat : Nat) (params : List (PBRTParameter F))
    (hmod : ∀ f, P (modify_material mat f : M F Unit)) :
    P (parse_material_plastic Y mat params : M F Unit) := by
  unfold parse_material_plastic
  repeat' first
    | with_reducible first
      | apply set_kd_at h | apply set_ks_at h | apply hmod
      | apply h.bind | apply h.pure | apply h.raise | apply resp_ite
    | exact hmod
    | exact fun e he => hA e (by revert e he; decide)
    | intro _ | split | dsimp only

theorem parse_material_substrate_at (h : Respects A P)
    (hA : ∀ e ∈ [Effect.uvscale], A e)
    (Y : Ext F) (mat : Nat) (params : List (PBRTParameter F))
    (hmod : ∀ f, P (modify_material mat f : M F Unit)) :
    P (parse_material_substrate Y mat params : M F Unit) := by
  unfold parse_material_substrate
  repeat' first
    | with_reducible first
      | apply set_kd_at h | apply set_ks_at h | apply hmod
      | apply h.bind | apply h.pure | apply h.raise | apply resp_ite
    | exact hmod
    | exact fun e he => hA e (by revert e he; decide)
    | intro _ | split | dsimp only

theorem parse_material_glass_at (h : Respects A P)
    (hA : ∀ e ∈ [Effect.uvscale], A e)
    (Y : Ext F) (mat : Nat) (params : List (PBRTParameter F))
    (hmod : ∀ f, P (modify_material mat f : M F Unit)) :
    P (parse_material_glass Y mat params : M F Unit) := by
  unfold parse_material_glass
  repeat' first
    | with_reducible first
      | apply set_ks_at h | apply set_kt_at h | apply hmod
      | apply h.bind | apply h.pure | apply h.raise | apply resp_ite
    | exact hmod
    | exact fun e he => hA e (by revert e he; decide)
    | intro _ | split | dsimp only

theorem parse_material_mix_at (h : Respects A P)
    (hA : ∀ e ∈ [Effect.counters, Effect.scene_textures, Effect.texture_new], A e)
    (Y : Ext F) (mat : Nat) (params : List (PBRTParameter F))
    (hmod : ∀ f, P (modify_material mat f : M F Unit)) :
    P (parse_material_mix Y mat params : M F Unit) := by
  unfold parse_material_mix
  repeat' first
    | with_reducible first
      | apply blend_textures_resp h | apply material_lookup_resp h
      | apply Respects.get_first_float h | apply Respects.get_first_string h
      | apply Respects.param_at h | apply Respects.throw h
      | apply hmod | apply h.get_declared | apply h.get_material
      | apply h.bind | apply h.pure | apply h.raise | apply resp_ite
    | exact hmod
    | exact fun e he => hA e (by revert e he; decide)
    | intro _ | split | dsimp only

theorem parse_material_class_at (h : Respects A P)
    (hA : ∀ e ∈ [Effect.counters, Effect.uvscale, Effect.scene_textures, Effect.texture_new], A e)
    (Y : Ext F) (materialType : String) (mat : Nat) (params : List (PBRTParameter F))
    (hmod : ∀ f, P (modify_material mat f : M F Unit)) :
    P (parse_material_class Y materialType mat params : M F Unit) := by
  unfold parse_material_class
  repeat' first
    | with_reducible first
      | apply parse_material_glass_at h | apply parse_material_matte_at h
      | apply parse_material_metal_at h | apply parse_material_mirror_at h
      | apply parse_material_mix_at h | apply parse_material_plastic_at h
      | apply parse_material_substrate_at h | apply parse_material_translucent_at h
      | apply parse_material_uber_at h | apply h.bind | apply h.pure | apply h.raise
      | apply resp_ite
    | exact hmod
    | exact fun e he => hA e (by revert e he; decide)
    | intro _ | split | dsimp only

theorem define_material_at (h : Respects A P)
    (hA : ∀ e ∈ [Effect.counters, Effect.uvscale, Effect.named_materials, Effect.bound_material,
      Effect.scene_textures, Effect.texture_new], A e)
    (Y : Ext F) (namedMaterial : Bool) (mat dmat : Nat)
    (hmod : ∀ f, P (modify_material mat f : M F Unit)) :
    P (define_material Y namedMaterial mat dmat : M F Unit) := by
  unfold define_material
  repeat' first
    | with_reducible first
      | apply parse_material_class_at h | apply parse_parameters_resp h
      | apply texture_lookup_resp h | apply Respects.get_first_string h
      | apply Respects.param_at h | apply Respects.throw_if h | apply Respects.throw h
      | apply h.bind_material (hA _ (by decide))
      | apply h.insert_named_material (hA _ (by decide))
      | apply hmod
      | apply h.set_uvscale (hA _ (by decide))
      | apply h.advance | apply h.current_token | apply h.getG | apply h.bind | apply h.pure
      | apply h.raise | apply resp_ite
    | exact hmod
    | exact fun e he => hA e (by revert e he; decide)
    | intro _ | split | dsimp only

theorem shape_of_class_at (h : Respects A P)
    (hA : ∀ e ∈ [Effect.counters, Effect.scene_shapes, Effect.instances, Effect.group_new, Effect.capture], A e)
    (Y : Ext F) (shapeName : String) (shp : Shape F) (mat : Nat)
    (hmod : ∀ (L : Vec3 F) (t : Bool),
      P (modify_material mat (fun m => { m with ke := L, double_sided := t }) : M F Unit)) :
    P (shape_of_class Y shapeName shp mat : M F Unit) := by
  unfold shape_of_class
  repeat' first
    | with_reducible first
      | apply add_shape_resp h | apply ignore_current_directive_resp h | apply parse_cube_resp h
      | apply parse_parameter_resp h | apply parse_parameters_resp h
      | apply parse_trianglemesh_resp h | apply skip_to_identifier_resp h
      | apply Respects.get_first_float h | apply Respects.get_first_string h
      | apply Respects.param_at h | apply Respects.throw_if h | apply Respects.throw h
      | apply hmod | apply h.current_path | apply h.getG
      | apply h.bound | apply h.bind | apply h.pure | apply h.raise | apply resp_ite
    | exact fun e he => hA e (by revert e he; decide)
    | intro _ | split | dsimp only

theorem execute_Shape_at (h : Respects A P)
    (hA : ∀ e ∈ [Effect.counters, Effect.scene_shapes, Effect.instances, Effect.group_new, Effect.capture, Effect.publish_declared, Effect.publish_new], A e)
    (Y : Ext F)
    (hmod : ∀ (mat : Nat) (L : Vec3 F) (t : Bool),
      P (modify_material mat (fun m => { m with ke := L, double_sided := t }) : M F Unit)) :
    P (execute_Shape Y : M F Unit) := by
  unfold execute_Shape
  repeat' first
    | with_reducible first
      | apply shape_material_resp h | apply shape_of_class_at h | apply Respects.throw_if h
      | apply h.get_unique_id (hA _ (by decide)) | apply h.advance | apply h.current_token
      | apply h.bind | apply h.pure | apply h.raise | apply resp_ite
    | exact hmod _
    | exact fun e he => hA e (by revert e he; decide)
    | intro _ | split | dsimp only

theorem execute_world_directive_at (h : Respects A P)
    (hA : ∀ e ∈ [Effect.lexer_push, Effect.counters, Effect.ctm, Effect.uvscale,
      Effect.area_light, Effect.named_materials, Effect.bound_material, Effect.named_textures,
      Effect.focus, Effect.scene_shapes, Effect.instances, Effect.scene_textures,
      Effect.environments, Effect.material_new, Effect.texture_new,
      Effect.texture_write, Effect.group_new, Effect.object_begin, Effect.object_end,
      Effect.capture, Effect.object_store, Effect.object_mark, Effect.publish_declared,
      Effect.publish_new, Effect.attr_push, Effect.attr_pop, Effect.ctm_push,
      Effect.ctm_pop], A e)
    (Y : Ext F) (hMat : ∀ nm, P (execute_Material Y nm)) (hShape : P (execute_Shape Y))
    (fuel : Nat) : P (execute_world_directive Y fuel) := by
  induction fuel with
  | zero => exact h.raise _
  | succ n ih =>
    unfold execute_world_directive
    repeat' first
      | with_reducible first
        | apply execute_ObjectBlock_resp h _ _ ih | apply execute_AreaLightSource_resp h
        | apply execute_AttributeBegin_resp h | apply execute_AttributeEnd_resp h
        | apply execute_ConcatTransform_resp h | apply execute_Include_resp h
        | apply execute_LightSource_resp h | apply execute_LookAt_resp h
        | apply hMat | apply execute_NamedMaterial_resp h
        | apply execute_ObjectInstance_resp h | apply execute_Rotate_resp h
        | apply execute_Scale_resp h | apply hShape | apply execute_Texture_resp h
        | apply execute_Transform_resp h | apply execute_TransformBegin_resp h
        | apply execute_TransformEnd_resp h | apply execute_Translate_resp h
        | apply ignore_current_directive_resp h | apply Respects.throw_if h
        | apply h.current_token | apply h.bind | apply h.pure | apply h.raise | apply resp_ite
      | exact fun e he => hA e (by revert e he; decide)
      | intro _ | split | dsimp only

theorem kept_refl (Q : Nat → Material F → Material F → Prop) (hrefl : ∀ i a, Q i a a)
    (s : PState F) : Kept Q s s :=
  fun i rec h => ⟨rec, h, hrefl i rec⟩

theorem kept_trans (Q : Nat → Material F → Material F → Prop)
    (htrans : ∀ i a b c, Q i a b → Q i b c → Q i a c) (a b c : PState F)
    (h1 : Kept Q a b) (h2 : Kept Q b c) : Kept Q a c := by
  intro i rec h
  obtain ⟨r1, e1, q1⟩ := h1 i rec h
  obtain ⟨r2, e2, q2⟩ := h2 i r1 e1
  exact ⟨r2, e2, htrans i _ _ _ q1 q2⟩

theorem kept_of_arena (Q : Nat → Material F → Material F → Prop) (hrefl : ∀ i a, Q i a a)
    (s s' : PState F) (h : s'.materialArena = s.materialArena) : Kept Q s s' := by
  intro i rec hi
  rw [h]
  exact ⟨rec, hi, hrefl i rec⟩

theorem kept_of_append (Q : Nat → Material F → Material F → Prop) (hrefl : ∀ i a, Q i a a)
    (s s' : PState F) (m : Material F) (h : s'.materialArena = s.materialArena ++ [m]) :
    Kept Q s s' := by
  intro i rec hi
  have hlt : i < s.materialArena.length := by
    by_contra hge
    rw [List.getElem?_eq_none (Nat.le_of_not_lt hge)] at hi
    cases hi
  rw [h, List.getElem?_append_left hlt]
  exact ⟨rec, hi, hrefl i rec⟩

theorem kept_respects (Q : Nat → Material F → Material F → Prop) (hrefl : ∀ i a, Q i a a)
    (htrans : ∀ i a b c, Q i a b → Q i b c → Q i a c) :
    Respects (F := F) (fun e => e ≠ Effect.material_write) (Rel (Kept Q)) := by
  constructor
  case new_declared_material =>
    intro _ m s a s' h
    cases h
    exact kept_of_append Q hrefl _ _ m rfl
  case new_scene_material =>
    intro _ m s a s' h
    cases h
    exact kept_of_append Q hrefl _ _ m rfl
  all_goals first
    | exact rel_pure (kept_refl Q hrefl)
    | exact rel_bind (kept_trans Q htrans)
    | exact rel_raise
    | exact rel_bound
    | exact fun hA => absurd rfl hA
    | (intros
       intro s a s' h
       simp only [advance, current_token, current_path, getG, get_defaults, get_textureSavePath,
         get_scene, get_material, get_declared, get_texture, get_inObjectDefinition,
         lookup_object, push_lexer, get_unique_id, modifyCTM, set_uvscale, set_areaLight,
         insert_named_material, bind_material, erase_named_texture, insert_named_texture,
         set_defaultFocus, set_aspect, add_camera, add_group, add_instance, add_texture,
         add_environment, alloc_texture, modify_texture,
         alloc_group, begin_object, end_object, capture_group, store_object, mark_object_added,
         add_declared_to_scene, push_attributes, pop_attributes,
         push_transform, pop_transform, modifyS, modifyG, modifyScene] at h
       first
         | (cases h; exact kept_of_arena Q hrefl _ _ rfl)
         | (split at h <;> first
             | (cases h; exact kept_of_arena Q hrefl _ _ rfl)
             | (cases h; done)
             | (split at h <;> first
                 | (cases h; exact kept_of_arena Q hrefl _ _ rfl)
                 | (cases h; done))))

/-- A write to the record `n` keeps the records, when the new record at `n`
is related to the old. -/
theorem modify_material_kept (Q : Nat → Material F → Material F → Prop)
    (hrefl : ∀ i a, Q i a a) (n : Nat) (f : Material F → Material F)
    (hf : ∀ rec, Q n rec (f rec)) : Rel (Kept Q) (modify_material n f) := by
  intro s a s' h
  unfold modify_material at h
  cases hm : s.materialArena[n]? with
  | none => simp only [hm] at h; cases h
  | some m =>
    simp only [hm] at h
    cases h
    intro i rec hi
    show ∃ rec', (s.materialArena.set n (f m))[i]? = some rec' ∧ Q i rec rec'
    rw [List.getElem?_set]
    by_cases hin : n = i
    · subst hin
      rw [hm] at hi
      cases hi
      have hlt : n < s.materialArena.length := by
        by_contra hge
        rw [List.getElem?_eq_none (Nat.le_of_not_lt hge)] at hm
        cases hm
      simp only [if_true, hlt]
      exact ⟨f m, rfl, hf m⟩
    · simp only [hin, if_false]
      exact ⟨rec, hi, hrefl i rec⟩

theorem oldKept_respects :
    Respects (F := F) (fun e => e ≠ Effect.material_write) (Rel OldKept) :=
  kept_respects (fun _ r r' => r' = r) (fun _ _ => rfl) (fun _ _ _ _ h1 h2 => h2.trans h1)

theorem othersKept_respects (n : Nat) :
    Respects (F := F) (fun e => e ≠ Effect.material_write) (Rel (OthersKept n)) :=
  kept_respects (fun i r r' => i ≠ n → r' = r) (fun _ _ _ => rfl)
    (fun _ _ _ _ h1 h2 hne => (h2 hne).trans (h1 hne))

theorem recordsKept_respects :
    Respects (F := F) (fun e => e ≠ Effect.material_write) (Rel RecordsKept) :=
  kept_respects (fun _ r r' => material_look r' = material_look r) (fun _ _ => rfl)
    (fun _ _ _ _ h1 h2 => h2.trans h1)

theorem oldKept_refl (s : PState F) : OldKept s s :=
  kept_refl (fun _ r r' => r' = r) (fun _ _ => rfl) s

theorem oldKept_trans (a b c : PState F) (h1 : OldKept a b) (h2 : OldKept b c) :
    OldKept a c :=
  kept_trans (fun _ r r' => r' = r) (fun _ _ _ _ h1 h2 => h2.trans h1) a b c h1 h2

theorem oldKept_of_arena (s s' : PState F) (h : s'.materialArena = s.materialArena) :
    OldKept s s' :=
  kept_of_arena (fun _ r r' => r' = r) (fun _ _ => rfl) s s' h

theorem oldKept_of_append (s s' : PState F) (m : Material F)
    (h : s'.materialArena = s.materialArena ++ [m]) : OldKept s s' :=
  kept_of_append (fun _ r r' => r' = r) (fun _ _ => rfl) s s' m h

theorem othersKept_write (n : Nat) (f : Material F → Material F) :
    Rel (OthersKept n) (modify_material n f : M F Unit) :=
  modify_material_kept (fun i r r' => i ≠ n → r' = r) (fun _ _ _ => rfl) n f
    (fun _ hne => absurd rfl hne)

theorem recordsKept_of_old (s s' : PState F) (h : OldKept s s') : RecordsKept s s' := by
  intro i rec hi
  obtain ⟨rec', e, q⟩ := h i rec hi
  exact ⟨rec', e, by rw [q]⟩

/-- The records that are there when the index `n` is not yet in use are all
kept when the others than `n` are. -/
theorem oldKept_of_others (s0 s s' : PState F) (h0 : OldKept s0 s)
    (h : OthersKept s0.materialArena.length s s') : OldKept s0 s' := by
  intro i rec hi
  have hlt : i < s0.materialArena.length := by
    by_contra hge
    rw [List.getElem?_eq_none (Nat.le_of_not_lt hge)] at hi
    cases hi
  obtain ⟨r1, e1, q1⟩ := h0 i rec hi
  obtain ⟨r2, e2, q2⟩ := h i r1 e1
  exact ⟨r2, e2, (q2 (Nat.ne_of_lt hlt)).trans q1⟩

/-- The directives `Material` and `MakeNamedMaterial` write the record they
allocate, and no other. -/
theorem execute_Material_old (Y : Ext F) (nm : Bool) :
    Rel OldKept (execute_Material Y nm) := by
  intro s a s' h
  simp only [execute_Material, bind_ok] at h
  obtain ⟨_, s1, h1, name, s2, h2, ⟨mat, dmat⟩, s3, h3, h4⟩ := h
  obtain ⟨ls, rfl⟩ := advance_ok _ _ _ h1
  cases h2
  cases h3
  have hd := define_material_at (othersKept_respects s.materialArena.length)
    (fun e he => by revert e he; decide) Y nm s.materialArena.length _
    (fun f => othersKept_write _ f) _ _ _ h4
  refine oldKept_of_others s _ s' ?_ hd
  exact oldKept_of_append _ _ _ rfl

theorem shape_of_class_inactive (Y : Ext F) (cls : String) (shp : Shape F) (mat mat' : Nat)
    (s : PState F) (hact : s.gState.areaLight.active = false) :
    shape_of_class Y cls shp mat s = shape_of_class Y cls shp mat' s := by
  rw [shape_of_class, shape_of_class, bind_eq, bind_eq]
  simp only [getG, hact, Bool.false_eq_true, if_false]

/-- The states of a successful `execute_Shape`: the state `s6` in which the
material of the shape has been taken, and the material. -/
theorem execute_Shape_steps (Y : Ext F) (s s' : PState F) (h : execute_Shape Y s = .ok () s') :
    ∃ (s5 s6 : PState F) (cls : String) (shp : Shape F) (mat : Nat),
      OldKept s s5 ∧ s5.gState = s.gState ∧ s5.declaredArena = s.declaredArena ∧
      shape_material Y s5 = .ok mat s6 ∧ shape_of_class Y cls shp mat s6 = .ok () s' := by
  simp only [execute_Shape, bind_ok, throw_if_ok] at h
  obtain ⟨_, s1, h1, t, s2, h2, _, s3, ⟨-, rfl⟩, _, s4, h4, name, s5, h5, mat, s6, h6, h7⟩ := h
  obtain ⟨ls1, rfl⟩ := advance_ok _ _ _ h1
  cases current_token_ok _ _ _ h2
  obtain ⟨ls4, rfl⟩ := advance_ok _ _ _ h4
  cases h5
  refine ⟨_, s6, _, _, mat, ?_, ?_, ?_, h6, h7⟩
  · exact oldKept_of_arena _ _ rfl
  · rfl
  · rfl

theorem shape_material_old (Y : Ext F) : Rel OldKept (shape_material Y) :=
  shape_material_resp oldKept_respects (fun e he => by revert e he; decide) Y

theorem shape_material_gState (Y : Ext F) (s s' : PState F) (m : Nat)
    (h : shape_material Y s = .ok m s') : s'.gState = s.gState :=
  (shape_material_resp shapesKept_respects (fun e he => by revert e he; decide) Y _ _ _
    h).2.2.2.2.1

/-- A `Shape` directive with no area light active writes no record. -/
theorem execute_Shape_inactive (Y : Ext F) (s s' : PState F)
    (h : execute_Shape Y s = .ok () s') (hact : s.gState.areaLight.active = false) :
    OldKept s s' := by
  obtain ⟨s5, s6, cls, shp, mat, k5, g5, -, h6, h7⟩ := execute_Shape_steps Y s s' h
  have k6 : OldKept s5 s6 := shape_material_old Y _ _ _ h6
  have g6 := shape_material_gState Y _ _ _ h6
  rw [shape_of_class_inactive Y cls shp mat s6.materialArena.length s6
    (by rw [g6, g5]; exact hact)] at h7
  have k7 := shape_of_class_at (othersKept_respects s6.materialArena.length)
    (fun e he => by revert e he; decide) Y cls shp s6.materialArena.length
    (fun L t => othersKept_write _ _) _ _ _ h7
  have k67 : OldKept s6 s' := oldKept_of_others s6 s6 s' (oldKept_refl _) k7
  exact oldKept_trans _ _ _ k5 (oldKept_trans _ _ _ k6 k67)

theorem add_shape_old (Y : Ext F) (shp : Shape F) : Rel OldKept (add_shape Y shp) :=
  add_shape_resp oldKept_respects (fun e he => by revert e he; decide) Y shp

/-- A `Shape` directive with an area light active and a material bound
writes the emission and the flag of the two sides of the record of this
material, and nothing else of the records. -/
theorem execute_Shape_active (Y : Ext F) (s s' : PState F) (d : Nat) (dm : DeclaredMaterial)
    (rec : Material F) (h : execute_Shape Y s = .ok () s')
    (hact : s.gState.areaLight.active = true) (hb : s.gState.mat = some d)
    (hd : s.declaredArena[d]? = some dm) (hrec : s.materialArena[dm.mat]? = some rec) :
    s'.materialArena[dm.mat]? =
        some { rec with
          ke := s.gState.areaLight.L
          double_sided := s.gState.areaLight.twosided } ∧
      OthersKept dm.mat s s' := by
  obtain ⟨s5, s6, cls, shp, mat, k5, g5, d5, h6, h7⟩ := execute_Shape_steps Y s s' h
  have k6 : OldKept s5 s6 := shape_material_old Y _ _ _ h6
  have g6 := shape_material_gState Y _ _ _ h6
  have hmat : mat = dm.mat := by
    simp only [shape_material, bind_ok, getG] at h6
    obtain ⟨g, sg, hg, h6⟩ := h6
    cases hg
    rw [g5] at h6
    simp only [hb] at h6
    unfold add_declared_to_scene at h6
    rw [d5] at h6
    simp only [hd] at h6
    split at h6
    · cases h6; rfl
    · cases h6; rfl
  subst hmat
  have hact6 : s6.gState.areaLight.active = true := by rw [g6, g5]; exact hact
  rw [shape_of_class, bind_eq] at h7
  simp only [getG] at h7
  rw [if_pos hact6, bind_ok] at h7
  obtain ⟨u, s7, h8, h9⟩ := h7
  have k9 : OldKept s7 s' := add_shape_old Y _ _ _ _ h9
  have k56 : OldKept s s6 := oldKept_trans _ _ _ k5 k6
  obtain ⟨r6, e6, q6⟩ := k56 _ rec hrec
  subst q6
  have e7 : s7.materialArena[dm.mat]? =
      some { r6 with
        ke := s6.gState.areaLight.L
        double_sided := s6.gState.areaLight.twosided } := by
    unfold modify_material at h8
    simp only [e6] at h8
    cases h8
    have hlt : dm.mat < s6.materialArena.length := by
      by_contra hge
      rw [List.getElem?_eq_none (Nat.le_of_not_lt hge)] at e6
      cases e6
    show (s6.materialArena.set dm.mat _)[dm.mat]? = _
    rw [List.getElem?_set]
    simp only [if_true, hlt]
  constructor
  · obtain ⟨r9, e9, q9⟩ := k9 _ _ e7
    rw [e9, q9, g6, g5]
  · intro i r hi
    obtain ⟨r1, e1, q1⟩ := k56 i r hi
    obtain ⟨r2, e2, q2⟩ := othersKept_write dm.mat _ _ _ _ h8 i r1 e1
    obtain ⟨r3, e3, q3⟩ := k9 i r2 e2
    exact ⟨r3, e3, fun hne => by rw [q3, q2 hne, q1]⟩

/-- Every `Shape` directive keeps the fields of every record other than the
emission and the flag of the two sides. -/
theorem execute_Shape_records (Y : Ext F) : Rel RecordsKept (execute_Shape Y) :=
  execute_Shape_at recordsKept_respects (fun e he => by revert e he; decide) Y
    (fun mat L t => modify_material_kept (fun _ r r' => material_look r' = material_look r)
      (fun _ _ => rfl) mat _ (fun _ => rfl))

theorem execute_Material_records (Y : Ext F) (nm : Bool) :
    Rel RecordsKept (execute_Material Y nm) :=
  fun s a s' h => recordsKept_of_old s s' (execute_Material_old Y nm s a s' h)

/-! ## C32: the material of a shape -/

theorem published_of_eq (s s' : PState F) (h1 : s'.scn.materials = s.scn.materials)
    (h2 : s'.declaredArena = s.declaredArena) : KeepsPublished s s' := by
  intro hp
  unfold Published at hp ⊢
  rw [h1, h2]
  exact hp

theorem published_respects :
    Respects (F := F) (fun _ => True) (Rel KeepsPublished) := by
  have hrefl : ∀ s : PState F, KeepsPublished s s := fun s h => h
  have htrans : ∀ a b c : PState F,
      KeepsPublished a b → KeepsPublished b c → KeepsPublished a c :=
    fun a b c h1 h2 h => h2 (h1 h)
  constructor
  case new_declared_material =>
    intro _ m s a s' h hp
    cases h
    intro d dm hd hf
    by_cases hlt : d < s.declaredArena.length
    · have hd' : s.declaredArena[d]? = some dm := by
        rw [← hd]
        exact (List.getElem?_append_left hlt).symm
      exact hp d dm hd' hf
    · have hge : s.declaredArena.length ≤ d := Nat.le_of_not_lt hlt
      have hd' : (s.declaredArena ++ [⟨s.materialArena.length, false⟩])[d]? = some dm := hd
      rw [List.getElem?_append_right hge] at hd'
      cases hk : d - s.declaredArena.length with
      | zero =>
        rw [hk] at hd'
        simp at hd'
        rw [← hd'] at hf
        cases hf
      | succ k =>
        rw [hk] at hd'
        simp at hd'
  case new_scene_material =>
    intro _ m s a s' h hp
    cases h
    intro d dm hd hf
    exact List.mem_append_left _ (hp d dm hd hf)
  case add_declared_to_scene =>
    intro _ d s a s' h hp
    unfold add_declared_to_scene at h
    cases hd : s.declaredArena[d]? with
    | none => rw [hd] at h; cases h
    | some dm =>
      rw [hd] at h
      by_cases hf : dm.addedInScene = false
      · simp only [hf, if_true] at h
        cases h
        intro e em he hfe
        have he' : (s.declaredArena.set d { dm with addedInScene := true })[e]? = some em := he
        rw [List.getElem?_set] at he'
        by_cases hde : d = e
        · subst hde
          simp only [if_true] at he'
          split at he'
          · simp at he'
            rw [← he']
            exact List.mem_append_right _ (List.mem_singleton_self _)
          · cases he'
        · simp only [hde, if_false] at he'
          exact List.mem_append_left _ (hp e em he' hfe)
      · simp only [hf, if_false] at h
        cases h
        exact hp
  all_goals first
    | exact rel_pure hrefl
    | exact rel_bind htrans
    | exact rel_raise
    | exact rel_bound
    | (intros
       intro s a s' h
       simp only [advance, current_token, current_path, getG, get_defaults, get_textureSavePath,
         get_scene, get_material, get_declared, get_texture, get_inObjectDefinition,
         lookup_object, push_lexer, get_unique_id, modifyCTM, set_uvscale, set_areaLight,
         insert_named_material, bind_material, erase_named_texture, insert_named_texture,
         set_defaultFocus, set_aspect, add_camera, add_group, add_instance, add_texture,
         add_environment, modify_material, alloc_texture, modify_texture,
         alloc_group, begin_object, end_object, capture_group, store_object, mark_object_added,
         push_attributes, pop_attributes, push_transform, pop_transform,
         modifyS, modifyG, modifyScene] at h
       first
         | (cases h; exact published_of_eq _ _ rfl rfl)
         | (split at h <;> first
             | (cases h; exact published_of_eq _ _ rfl rfl)
             | (cases h; done)
             | (split at h <;> first
                 | (cases h; exact published_of_eq _ _ rfl rfl)
                 | (cases h; done))))

/-- The material that `shape_material` returns when no material is bound: a
new record with a name of `get_unique_id`, added to the scene. -/
theorem shape_material_unbound (Y : Ext F) (s s' : PState F) (m : Nat)
    (hb : s.gState.mat = none) (h : shape_material Y s = .ok m s') :
    m = s.materialArena.length ∧ s'.scn.materials = s.scn.materials ++ [m] ∧
      s'.materialArena = s.materialArena ++
        [{ Y.new_material with name := "m_" ++ toString s.materialCounter }] := by
  simp only [shape_material, bind_ok, getG] at h
  obtain ⟨g, sg, hg, h⟩ := h
  cases hg
  simp only [hb, bind_ok] at h
  obtain ⟨name, s2, hn, h⟩ := h
  cases hn
  cases h
  exact ⟨rfl, rfl, rfl⟩

/-- The material that `shape_material` returns when a material is bound: the
material of the declared material, which is in the scene afterwards. -/
theorem shape_material_bound (Y : Ext F) (s s' : PState F) (m d : Nat)
    (hb : s.gState.mat = some d) (h : shape_material Y s = .ok m s') (hp : Published s) :
    ∃ dm, s.declaredArena[d]? = some dm ∧ m = dm.mat ∧ dm.mat ∈ s'.scn.materials := by
  simp only [shape_material, bind_ok, getG] at h
  obtain ⟨g, sg, hg, h⟩ := h
  cases hg
  simp only [hb] at h
  unfold add_declared_to_scene at h
  cases hd : s.declaredArena[d]? with
  | none => simp only [hd] at h; cases h
  | some dm =>
    simp only [hd] at h
    refine ⟨dm, rfl, ?_⟩
    by_cases hf : dm.addedInScene = false
    · simp only [hf, if_true] at h
      cases h
      exact ⟨rfl, List.mem_append_right _ (List.mem_singleton_self _)⟩
    · simp only [hf, if_false] at h
      cases h
      exact ⟨rfl, hp d dm hd (by simpa using hf)⟩

theorem trianglemesh_of_params_mat (Y : Ext F) (params : List (PBRTParameter F))
    (shp shp' : Shape F) (s s' : PState F)
    (h : trianglemesh_of_params Y params shp s = .ok shp' s') : shp'.mat = shp.mat := by
  simp only [trianglemesh_of_params, bind_ok] at h
  obtain ⟨⟨shp1, pc⟩, s1, hP, h⟩ := h
  simp only [bind_ok] at h
  obtain ⟨shp2, s2, hN, ⟨shp3, ic⟩, s3, hI, h⟩ := h
  simp only [bind_ok] at h
  obtain ⟨shp4, s4, hU, shp5, s5, hC, h⟩ := h
  have t1 : shp1.mat = shp.mat := by
    cases hf : find_param "P" params with
    | none =>
      simp only [hf, pure_ok, Prod.mk.injEq] at hP
      obtain ⟨⟨rfl, -⟩, -⟩ := hP
      rfl
    | some j =>
      simp only [hf, bind_ok] at hP
      obtain ⟨q, sq, -, hP⟩ := hP
      cases hq : q.value <;> simp only [hq] at hP <;> cases hP
      rfl
  have t2 : shp2.mat = shp1.mat := by
    cases hf : find_param "N" params with
    | none =>
      simp only [hf, pure_ok] at hN
      obtain ⟨rfl, -⟩ := hN
      rfl
    | some j =>
      simp only [hf, bind_ok] at hN
      obtain ⟨q, sq, -, hN⟩ := hN
      cases hq : q.value <;> simp only [hq] at hN <;> cases hN
      rfl
  have t3 : shp3.mat = shp2.mat := by
    cases hf : find_param "indices" params with
    | none =>
      simp only [hf, pure_ok, Prod.mk.injEq] at hI
      obtain ⟨⟨rfl, -⟩, -⟩ := hI
      rfl
    | some j =>
      simp only [hf, bind_ok] at hI
      obtain ⟨q, sq, -, hI⟩ := hI
      cases hq : q.value <;> simp only [hq] at hI
      case ints data =>
        split at hI
        · cases hI
        · cases hI
          rfl
      all_goals cases hI
  have t4 : shp4.mat = shp3.mat := by
    have key : ∀ iuv : Option Nat,
        (match iuv with
          | some i => do
            let p ← param_at params i
            match p.value with
            | .floats data =>
              match pair_up data with
              | some uvs => pure { shp3 with texcoord := shp3.texcoord ++ uvs }
              | none => raise .outOfRange
            | _ => raise (.undefinedBehaviour "cast of the value of uv")
          | none => pure shp3 : M F (Shape F)) s3 = .ok shp4 s4 →
        shp4.mat = shp3.mat := by
      intro iuv hU
      cases iuv with
      | none =>
        cases hU
        rfl
      | some j =>
        simp only [bind_ok] at hU
        obtain ⟨q, sq, -, hU⟩ := hU
        cases hq : q.value <;> simp only [hq] at hU
        case floats v =>
          cases hv : pair_up v <;> simp only [hv] at hU <;> cases hU
          rfl
        all_goals cases hU
    exact key _ hU
  have t5 : shp5.mat = shp4.mat := by
    cases hc : my_compute_normals Y shp4.triangles shp4.pos true <;>
      simp only [hc] at hC <;> cases hC
    rfl
  have t6 : shp' = shp5 := by
    split at h
    · cases h
    · cases h
      rfl
  rw [t6, t5, t4, t3, t2, t1]

theorem parse_trianglemesh_mat (Y : Ext F) (shp shp' : Shape F) (s s' : PState F)
    (h : parse_trianglemesh Y shp s = .ok shp' s') : shp'.mat = shp.mat := by
  rw [parse_trianglemesh, bind_ok] at h
  obtain ⟨params, s1, -, h⟩ := h
  exact trianglemesh_of_params_mat Y params shp shp' s1 s' h

theorem parse_cube_mat (Y : Ext F) (shp shp' : Shape F) (s s' : PState F)
    (h : parse_cube Y shp s = .ok shp' s') : shp'.mat = shp.mat := by
  rw [parse_cube, bind_ok] at h
  obtain ⟨u, s1, -, h⟩ := h
  cases h
  rfl

/-- The shape group that `add_shape` allocates holds the shape, with its
material. -/
theorem add_shape_mat (Y : Ext F) (shp : Shape F) (s s' : PState F)
    (h : add_shape Y shp s = .ok () s') :
    ∃ gname shp', s'.groupArena = s.groupArena ++ [⟨gname, [shp']⟩] ∧ shp'.mat = shp.mat := by
  cases hf : s.inObjectDefinition with
  | true =>
    rw [add_shape_inside Y shp s hf] at h
    cases h
    exact ⟨_, _, rfl, rfl⟩
  | false =>
    rw [add_shape_outside Y shp s hf] at h
    cases h
    exact ⟨_, _, rfl, rfl⟩

theorem group_step (Y : Ext F) {α : Type} (m : M F α) (hm : Rel ShapesKept m) (a : α)
    (s s1 s' : PState F) (mat : Option Nat) (h1 : m s = .ok a s1)
    (h2 : ∃ gname shp', s'.groupArena = s1.groupArena ++ [⟨gname, [shp']⟩] ∧ shp'.mat = mat) :
    ∃ gname shp', s'.groupArena = s.groupArena ++ [⟨gname, [shp']⟩] ∧ shp'.mat = mat := by
  obtain ⟨gname, shp', hg, hm'⟩ := h2
  exact ⟨gname, shp', by rw [hg, (hm s a s1 h1).2.2.2.2.2], hm'⟩

/-- The shape that `shape_of_class` adds, if it adds one, has the material of
the shape it is given. -/
theorem shape_of_class_mat (Y : Ext F)
    (hply : ∀ f shp shp', Y.parse_ply f shp = some shp' → shp'.mat = shp.mat)
    (cls : String) (shp : Shape F) (mat : Nat) (s s' : PState F)
    (h : shape_of_class Y cls shp mat s = .ok () s') :
    s'.groupArena = s.groupArena ∨
      ∃ gname shp', s'.groupArena = s.groupArena ++ [⟨gname, [shp']⟩] ∧
        shp'.mat = shp.mat := by
  have hk := shapesKept_respects (F := F)
  rw [shape_of_class, bind_eq] at h
  simp only [getG] at h
  by_cases hact : s.gState.areaLight.active = true
  · rw [if_pos hact, bind_ok] at h
    obtain ⟨u, s1, h1, h2⟩ := h
    exact Or.inr (group_step Y _ (hk.modify_material (by decide) _ _) _ _ _ _ _ h1
      (add_shape_mat Y _ _ _ h2))
  · rw [if_neg hact] at h
    by_cases c1 : cls = "trianglemesh"
    · simp only [c1, if_true, bind_ok] at h
      obtain ⟨shp1, s1, h1, h2⟩ := h
      obtain ⟨gname, shp', hg, hm⟩ := add_shape_mat Y _ _ _ h2
      exact Or.inr (group_step Y _ (parse_trianglemesh_resp hk Y shp) _ _ _ _ _ h1
        ⟨gname, shp', hg, by rw [hm, parse_trianglemesh_mat Y _ _ _ _ h1]⟩)
    by_cases c2 : cls = "cube"
    · simp only [c1, c2, String.reduceEq, if_false, if_true, bind_ok] at h
      obtain ⟨shp1, s1, h1, h2⟩ := h
      obtain ⟨gname, shp', hg, hm⟩ := add_shape_mat Y _ _ _ h2
      exact Or.inr (group_step Y _ (parse_cube_resp hk Y shp) _ _ _ _ _ h1
        ⟨gname, shp', hg, by rw [hm, parse_cube_mat Y _ _ _ _ h1]⟩)
    by_cases c3 : cls = "sphere"
    · simp only [c3, String.reduceEq, if_false, if_true] at h
      rw [bind_ok] at h
      obtain ⟨params, s1, h1, h2⟩ := h
      rw [bind_ok] at h2
      obtain ⟨radius, s2, h3, h4⟩ := h2
      have hr : Rel ShapesKept (match find_param "radius" params with
          | some i => do
            let p ← param_at params i
            get_first_float p
          | none => pure (Y.lit 1) : M F F) := by
        cases hfp : find_param "radius" params with
        | none => exact hk.pure _
        | some i =>
          exact hk.bind _ _ (Respects.param_at hk params i)
            (fun p => Respects.get_first_float hk p)
      exact Or.inr (group_step Y _ (parse_parameters_resp hk Y []) _ _ _ _ _ h1
        (group_step Y _ hr _ _ _ _ _ h3 (by
          obtain ⟨gname, shp', hg, hm⟩ := add_shape_mat Y _ _ _ h4
          exact ⟨gname, shp', hg, hm⟩)))
    by_cases c4 : cls = "disk"
    · simp only [c4, String.reduceEq, if_false, if_true, bind_ok] at h
      obtain ⟨u, s1, h1, h2⟩ := h
      exact Or.inr (group_step Y _ (ignore_current_directive_resp hk) _ _ _ _ _ h1 (by
        obtain ⟨gname, shp', hg, hm⟩ := add_shape_mat Y _ _ _ h2
        exact ⟨gname, shp', hg, hm⟩))
    by_cases c5 : cls = "plymesh"
    · simp only [c5, String.reduceEq, if_false, if_true] at h
      rw [bind_ok] at h
      obtain ⟨par, s1, h1, h2⟩ := h
      rw [bind_ok] at h2
      obtain ⟨u, s2, h3, h4⟩ := h2
      rw [bind_ok] at h4
      obtain ⟨path, s3, h5, h6⟩ := h4
      rw [bind_ok] at h6
      obtain ⟨file, s4, h7, h8⟩ := h6
      refine Or.inr (group_step Y _ (parse_parameter_resp hk Y) _ _ _ _ _ h1
        (group_step Y _ (Respects.throw_if hk _ _) _ _ _ _ _ h3
          (group_step Y _ hk.current_path _ _ _ _ _ h5
            (group_step Y _ (Respects.get_first_string hk par) _ _ _ _ _ h7 ?_))))
      cases hp : Y.parse_ply (path ++ "/" ++ file) shp with
      | none =>
        simp only [hp] at h8
        cases h8
      | some shp1 =>
        simp only [hp, bind_ok] at h8
        obtain ⟨u2, s5, h9, h10⟩ := h8
        obtain ⟨gname, shp', hg, hm⟩ := add_shape_mat Y _ _ _ h10
        exact group_step Y _ (hk.bound _ (fun n => skip_to_identifier_resp hk n)) _ _ _ _ _ h9
          ⟨gname, shp', hg, by rw [hm, hply _ _ _ hp]⟩
    · simp only [c1, c2, c3, c4, c5, if_false] at h
      exact Or.inl (ignore_current_directive_resp hk _ _ _ h).2.2.2.2.2

/-- The states of a successful `execute_Shape`: the state `s5` in which the
material of the shape is taken, the state `s6` in which the shape is built,
and the shape that is handed to the branch of its class. -/
theorem execute_Shape_run (Y : Ext F) (s s' : PState F) (h : execute_Shape Y s = .ok () s') :
    ∃ (s5 s6 : PState F) (name cls : String) (mat : Nat),
      s5.scn = s.scn ∧ s5.gState = s.gState ∧ s5.declaredArena = s.declaredArena ∧
      s5.materialArena = s.materialArena ∧ s5.materialCounter = s.materialCounter ∧
      s5.groupArena = s.groupArena ∧ shape_material Y s5 = .ok mat s6 ∧
      shape_of_class Y cls { Shape.new F with name := name, mat := some mat } mat s6 =
        .ok () s' := by
  simp only [execute_Shape, bind_ok, throw_if_ok] at h
  obtain ⟨_, s1, h1, t, s2, h2, _, s3, ⟨-, rfl⟩, _, s4, h4, name, s5, h5, mat, s6, h6, h7⟩ := h
  obtain ⟨ls1, rfl⟩ := advance_ok _ _ _ h1
  cases current_token_ok _ _ _ h2
  obtain ⟨ls4, rfl⟩ := advance_ok _ _ _ h4
  cases h5
  refine ⟨_, s6, _, _, mat, ?_, ?_, ?_, ?_, ?_, ?_, h6, h7⟩ <;> rfl

theorem initial_state_published (Y : Ext F) (lexemes : List Lexeme) (dir : String)
    (defaultAspect defaultFocus : F) (textureSavePath : String) :
    Published (initial_state Y lexemes dir defaultAspect defaultFocus textureSavePath) := by
  intro d dm hd
  simp [initial_state] at hd

/-- C32: let `execute_Shape` succeed from a state in which every declared
material whose flag `addedInScene` is set has its material in the list of the
scene (as at the start of a parse, and after every world directive), and let
the loader of ply files return a shape with the material of the shape it is
given.  If the directive adds a shape, it adds one shape group of one shape,
and this shape has one material, which is in the list of materials of the
scene afterwards.  When a material is bound in the graphics state, it is the
material of this declared material.  When none is bound, it is a new record,
which `execute_Shape` appends to the list of materials of the scene, and whose
name is the name `m_` followed by the counter of the materials, the one that
`get_unique_id` returns. -/
theorem C32_shape_material (Y : Ext F)
    (hply : ∀ f shp shp', Y.parse_ply f shp = some shp' → shp'.mat = shp.mat)
    (s s' : PState F) (h : execute_Shape Y s = .ok () s') (hpub : Published s) :
    Published s' ∧
    (s'.groupArena = s.groupArena ∨
      ∃ (gname : String) (shp : Shape F) (m : Nat),
        s'.groupArena = s.groupArena ++ [⟨gname, [shp]⟩] ∧ shp.mat = some m ∧
        m ∈ s'.scn.materials ∧
        (∀ d, s.gState.mat = some d → ∃ dm, s.declaredArena[d]? = some dm ∧ m = dm.mat) ∧
        (s.gState.mat = none →
          m = s.materialArena.length ∧ s'.scn.materials = s.scn.materials ++ [m] ∧
          ∃ r, s'.materialArena[m]? = some r ∧
            r.name = "m_" ++ toString s.materialCounter)) ∧
    (∀ (fuel : Nat) (t t' : PState F), execute_world_directive Y fuel t = .ok () t' →
      Published t → Published t') ∧
    (∀ (lexemes : List Lexeme) (dir : String) (defaultAspect defaultFocus : F)
      (textureSavePath : String),
      Published (initial_state Y lexemes dir defaultAspect defaultFocus textureSavePath)) := by
  refine ⟨execute_Shape_resp published_respects (fun _ _ => trivial) Y s () s' h hpub, ?_,
    fun fuel t t' ht =>
      execute_world_directive_resp published_respects (fun _ _ => trivial) Y fuel t () t' ht,
    fun lexemes dir a f p => initial_state_published Y lexemes dir a f p⟩
  obtain ⟨s5, s6, name, cls, mat, e1, e2, e3, e4, e5, e6, h6, h7⟩ := execute_Shape_run Y s s' h
  have k6 : ShapesKept s5 s6 :=
    shape_material_resp shapesKept_respects (fun e he => by revert e he; decide) Y _ _ _ h6
  have hq := shape_of_class_resp quiet_respects
    (fun e he => by revert e he; decide) Y _ _ _ _ _ _ h7
  have hrec : RecordsKept s6 s' :=
    shape_of_class_at recordsKept_respects (fun e he => by revert e he; decide) Y _ _ _
      (fun L t => modify_material_kept (fun _ r r' => material_look r' = material_look r)
        (fun _ _ => rfl) mat _ (fun _ => rfl)) _ _ _ h7
  have hpub5 : Published s5 := by
    unfold Published
    rw [e1, e3]
    exact hpub
  rcases shape_of_class_mat Y hply _ _ _ _ _ h7 with hg | ⟨gname, shp, hg, hm⟩
  · exact Or.inl (by rw [hg, k6.2.2.2.2.2, e6])
  · refine Or.inr ⟨gname, shp, mat, by rw [hg, k6.2.2.2.2.2, e6], hm, ?_, ?_, ?_⟩
    · rw [hq.1]
      cases hb : s5.gState.mat with
      | none =>
        obtain ⟨u1, u2, -⟩ := shape_material_unbound Y s5 s6 mat hb h6
        rw [u2]
        exact List.mem_append_right _ (List.mem_singleton_self _)
      | some d =>
        obtain ⟨dm, -, u2, u3⟩ := shape_material_bound Y s5 s6 mat d hb h6 hpub5
        rw [u2]
        exact u3
    · intro d hb
      obtain ⟨dm, u1, u2, -⟩ := shape_material_bound Y s5 s6 mat d (by rw [e2]; exact hb) h6 hpub5
      exact ⟨dm, by rw [← e3]; exact u1, u2⟩
    · intro hb
      obtain ⟨u1, u2, u3⟩ := shape_material_unbound Y s5 s6 mat (by rw [e2]; exact hb) h6
      refine ⟨by rw [u1, e4], by rw [hq.1, u2, e1], ?_⟩
      have h6rec : s6.materialArena[mat]? =
          some { Y.new_material with name := "m_" ++ toString s5.materialCounter } := by
        rw [u3, u1]
        simp
      obtain ⟨r, hr, hlook⟩ := hrec mat _ h6rec
      refine ⟨r, hr, ?_⟩
      have hname := congrArg Prod.fst hlook
      simp only [material_look] at hname
      rw [hname, e5]

/-- C32, witness: `Shape "cube"` with no material bound adds a shape whose
material is a new record, the only one of the scene; with the material of a
directive `Material` bound, it adds a shape with this material. -/
theorem C32_shape_material_witness :
    (∃ (gname : String) (shp : Shape Rat) (m : Nat),
      (execute_Shape testExt at_cube).state.groupArena =
        at_cube.groupArena ++ [⟨gname, [shp]⟩] ∧ shp.mat = some m ∧
      m ∈ (execute_Shape testExt at_cube).state.scn.materials ∧
      m = at_cube.materialArena.length ∧
      (execute_Shape testExt at_cube).state.scn.materials = at_cube.scn.materials ++ [m] ∧
      ∃ r, (execute_Shape testExt at_cube).state.materialArena[m]? = some r ∧
        r.name = "m_" ++ toString at_cube.materialCounter) ∧
    (∃ (gname : String) (shp : Shape Rat) (m : Nat),
      (execute_Shape testExt at_cube_with_material).state.groupArena =
        at_cube_with_material.groupArena ++ [⟨gname, [shp]⟩] ∧ shp.mat = some m ∧
      m ∈ (execute_Shape testExt at_cube_with_material).state.scn.materials ∧
      ∃ dm, at_cube_with_material.declaredArena[0]? = some dm ∧ m = dm.mat) := by
  have hply : ∀ f (shp shp' : Shape Rat), testExt.parse_ply f shp = some shp' →
      shp'.mat = shp.mat := by
    intro f shp shp' hp
    cases hp
  have hp1 : Published at_cube := by
    intro d dm hd
    have e : at_cube.declaredArena = [] := by decide!
    rw [e] at hd
    simp at hd
  have hp2 : Published at_cube_with_material := by
    intro d dm hd hf
    have e : at_cube_with_material.declaredArena = [⟨0, false⟩] := by decide!
    rw [e] at hd
    cases d with
    | zero =>
      simp at hd
      rw [← hd] at hf
      cases hf
    | succ k => simp at hd
  have h1 := (C32_shape_material testExt hply at_cube (execute_Shape testExt at_cube).state
    (by decide!) hp1).2.1
  have h2 := (C32_shape_material testExt hply at_cube_with_material
    (execute_Shape testExt at_cube_with_material).state (by decide!) hp2).2.1
  constructor
  · rcases h1 with h1 | ⟨gname, shp, m, hg, hm, hin, -, hnone⟩
    · have : (execute_Shape testExt at_cube).state.groupArena ≠ at_cube.groupArena := by
        decide!
      exact absurd h1 this
    · obtain ⟨u1, u2, u3⟩ := hnone (by decide!)
      exact ⟨gname, shp, m, hg, hm, hin, u1, u2, u3⟩
  · rcases h2 with h2 | ⟨gname, shp, m, hg, hm, hin, hsome, -⟩
    · have : (execute_Shape testExt at_cube_with_material).state.groupArena ≠
          at_cube_with_material.groupArena := by
        decide!
      exact absurd h2 this
    · exact ⟨gname, shp, m, hg, hm, hin, hsome 0 (by decide!)⟩

/-! ## C35: the directive Shape writes the record of the bound material -/

/-- A `Shape` directive with an area light active and a material bound adds
one shape group of one shape, whose material is the record of the bound
material, and keeps the shape groups there are. -/
theorem execute_Shape_shares (Y : Ext F) (s s' : PState F) (d : Nat) (dm : DeclaredMaterial)
    (h : execute_Shape Y s = .ok () s') (hact : s.gState.areaLight.active = true)
    (hb : s.gState.mat = some d) (hd : s.declaredArena[d]? = some dm) :
    ∃ gname shp, s'.groupArena = s.groupArena ++ [⟨gname, [shp]⟩] ∧ shp.mat = some dm.mat := by
  obtain ⟨s5, s6, name, cls, mat, -, g5, d5, -, -, ga5, h6, h7⟩ := execute_Shape_run Y s s' h
  have k6 : ShapesKept s5 s6 :=
    shape_material_resp shapesKept_respects (fun e he => by revert e he; decide) Y _ _ _ h6
  have hmat : mat = dm.mat := by
    simp only [shape_material, bind_ok, getG] at h6
    obtain ⟨g, sg, hg, h6⟩ := h6
    cases hg
    rw [g5] at h6
    simp only [hb] at h6
    unfold add_declared_to_scene at h6
    rw [d5] at h6
    simp only [hd] at h6
    split at h6
    · cases h6; rfl
    · cases h6; rfl
  subst hmat
  have hact6 : s6.gState.areaLight.active = true := by rw [k6.2.2.2.2.1, g5]; exact hact
  rw [shape_of_class, bind_eq] at h7
  simp only [getG] at h7
  rw [if_pos hact6, bind_ok] at h7
  obtain ⟨u, s7, h8, h9⟩ := h7
  obtain ⟨-, g7⟩ := modify_material_lexers _ _ _ _ h8
  obtain ⟨gname, shp, hg, hm⟩ := add_shape_mat Y _ _ _ h9
  exact ⟨gname, shp, by rw [hg, g7, k6.2.2.2.2.2, ga5], hm⟩

/-- C35, the failing input: when an area light is active and a material is
bound, the directive `Shape` does write the record of the material it binds to
the shape: it assigns the radiance and the flag of the area light to the
emission and to the flag of the two sides of the record of the bound material.
The shape it adds has this record as its material, and so has every shape
declared earlier with the same material bound: the shape groups there are stay
as they are, and the record they point to is the one written.  The other
records are kept as they are.  Everywhere else the records are kept as the
claim says: the directives `Material` and `MakeNamedMaterial` write the record
they allocate and keep every record there is, the directive `Shape` with no
area light active keeps every record, and every world directive keeps the
name, the colours, the roughness, the opacity and the textures of every
record. -/
theorem C35_shape_writes_shared_record (Y : Ext F) :
    (∀ (s s' : PState F) (d : Nat) (dm : DeclaredMaterial) (rec : Material F),
      execute_Shape Y s = .ok () s' → s.gState.areaLight.active = true →
      s.gState.mat = some d → s.declaredArena[d]? = some dm →
      s.materialArena[dm.mat]? = some rec →
      s'.materialArena[dm.mat]? =
          some { rec with
            ke := s.gState.areaLight.L
            double_sided := s.gState.areaLight.twosided } ∧
        OthersKept dm.mat s s' ∧
        ∃ gname shp, s'.groupArena = s.groupArena ++ [⟨gname, [shp]⟩] ∧
          shp.mat = some dm.mat) ∧
    (∀ (nm : Bool) (s s' : PState F), execute_Material Y nm s = .ok () s' → OldKept s s') ∧
    (∀ (s s' : PState F), execute_Shape Y s = .ok () s' →
      s.gState.areaLight.active = false → OldKept s s') ∧
    (∀ (fuel : Nat) (s s' : PState F), execute_world_directive Y fuel s = .ok () s' →
      RecordsKept s s') :=
  ⟨fun s s' d dm rec h hact hb hd hrec =>
      ⟨(execute_Shape_active Y s s' d dm rec h hact hb hd hrec).1,
        (execute_Shape_active Y s s' d dm rec h hact hb hd hrec).2,
        execute_Shape_shares Y s s' d dm h hact hb hd⟩,
    fun nm s s' h => execute_Material_old Y nm s () s' h,
    fun s s' h hact => execute_Shape_inactive Y s s' h hact,
    fun fuel s s' h =>
      execute_world_directive_at recordsKept_respects (fun e he => by revert e he; decide) Y
        (execute_Material_records Y) (execute_Shape_records Y) fuel s () s' h⟩

/-- C35, witness: `WorldBegin Material "matte" Shape "cube" AttributeBegin
AreaLightSource "diffuse" "rgb L" [2 2 2] Shape "cube" AttributeEnd WorldEnd`.
At the second `Shape` the first cube is in the arena of the shape groups with
the record 0 as its material, and the emission of this record is `(0, 0, 0)`.
The second `Shape` writes the emission `(2, 2, 2)` to the record 0.  At the end
of the parse no area light is active, both cubes have the record 0 as their
material and its emission is `(2, 2, 2)`: the cube declared before the area
light, outside its scope, emits light.  Without the directive
`AreaLightSource` the emission of the record stays `(0, 0, 0)`. -/
theorem C35_shape_writes_shared_record_witness :
    (at_second_shape.gState.areaLight.active = true ∧
      at_second_shape.groupArena.map (fun g => g.shapes.map (fun shp => shp.mat)) =
        [[some 0]] ∧
      at_second_shape.materialArena.map (fun m => m.ke) = [⟨0, 0, 0⟩]) ∧
    ((parse testExt 8 (test_state (ident "WorldBegin" :: shared_material_lexemes))).isOk =
        true ∧
      after_second_shape.gState.areaLight.active = false ∧
      after_second_shape.groupArena.map (fun g => g.shapes.map (fun shp => shp.mat)) =
        [[some 0], [some 0]] ∧
      after_second_shape.materialArena.map (fun m => m.ke) = [⟨2, 2, 2⟩] ∧
      after_unlit_shapes.groupArena.map (fun g => g.shapes.map (fun shp => shp.mat)) =
        [[some 0], [some 0]] ∧
      after_unlit_shapes.materialArena.map (fun m => m.ke) = [⟨0, 0, 0⟩]) ∧
    ((execute_Shape testExt at_second_shape).state.materialArena[0]? =
        some { at_second_shape.materialArena.getD 0 testExt.new_material with
          ke := at_second_shape.gState.areaLight.L
          double_sided := at_second_shape.gState.areaLight.twosided } ∧
      OthersKept 0 at_second_shape (execute_Shape testExt at_second_shape).state ∧
      ∃ gname shp, (execute_Shape testExt at_second_shape).state.groupArena =
          at_second_shape.groupArena ++ [⟨gname, [shp]⟩] ∧ shp.mat = some 0) ∧
    (execute_Shape testExt at_second_shape).state.materialArena.map (fun m => m.ke) =
      [⟨2, 2, 2⟩] :=
  ⟨by decide!, by decide!,
    (C35_shape_writes_shared_record testExt).1 at_second_shape
      (execute_Shape testExt at_second_shape).state 0 ⟨0, true⟩
      (at_second_shape.materialArena.getD 0 testExt.new_material)
      (by decide!) (by decide!) (by decide!) (by decide!) (by decide!),
    by decide!⟩

end PBRT
